import Mathlib

/-!
# pritunl-cloud: instance reconciliation core

A shallow embedding of the parts of `utils/multitimeoutlock.go`,
`deploy/instances.go`, `qemu/routes.go`, `qemu/utils.go`,
`uhandlers/instance.go`, `firewall/firewall.go`, `policy/policy.go`,
`data/sync.go` and `ahandlers/image.go` that the verified properties are
about, followed by the theorems.

Conventions of the embedding:

* a Go `map[K]V` is an association list with at most one binding per key
  (`mapGet`, `mapSet`, `mapDelete`);
* a `*sync.Mutex` is an address into a heap of mutex cells (`true` = locked);
* `bson.NewObjectId()` is a fresh identifier handed to the operation that
  draws it;
* a function that blocks forever or panics in a sequential run returns `none`.
-/

namespace PritunlCloud

/-! ## Go maps -/

/-- Lookup `m[k]` with the comma-ok result as an `Option`. -/
def mapGet {κ ν : Type} [DecidableEq κ] (m : List (κ × ν)) (k : κ) : Option ν :=
  match m with
  | [] => none
  | (k', v) :: rest => if k' = k then some v else mapGet rest k

/-- The statement `delete(m, k)`. -/
def mapDelete {κ ν : Type} [DecidableEq κ] (m : List (κ × ν)) (k : κ) : List (κ × ν) :=
  m.filter (fun p => decide (p.1 ≠ k))

/-- The assignment `m[k] = v`. -/
def mapSet {κ ν : Type} [DecidableEq κ] (m : List (κ × ν)) (k : κ) (v : ν) : List (κ × ν) :=
  (k, v) :: mapDelete m k

/-- The key test `_, ok := m[k]`. -/
def mapHas {κ ν : Type} [DecidableEq κ] (m : List (κ × ν)) (k : κ) : Bool :=
  (mapGet m k).isSome

/-! ## utils.MultiTimeoutLock -/

/-- The struct `MultiTimeoutLock`. The fields `lock` and `stateLock` are the
mutexes that make each critical section below one atomic step; `mutexes` is
the heap holding the `sync.Mutex` cells that `locks` points to. -/
structure MultiTimeoutLock where
  counts : List (String × Int)
  locks : List (String × Nat)
  state : List (Nat × Bool)
  timeout : Nat
  mutexes : List Bool
  deriving DecidableEq, Repr

/-- The constructor `NewMultiTimeoutLock`. -/
def NewMultiTimeoutLock (timeout : Nat) : MultiTimeoutLock :=
  { counts := [], locks := [], state := [], timeout := timeout, mutexes := [] }

/-- First critical section of `Lock` and `LockTimeout` (lines 24-32 and
73-81): read the count, find or allocate the per-id mutex, store the count
plus one. Returns the address of the mutex the caller will wait on. -/
def lockEnter (m : MultiTimeoutLock) (id : String) : MultiTimeoutLock × Nat :=
  let val : Int := (mapGet m.counts id).getD 0
  match mapGet m.locks id with
  | some lock =>
    ({ m with counts := mapSet m.counts id (val + 1) }, lock)
  | none =>
    let lock := m.mutexes.length
    ({ m with
        mutexes := m.mutexes ++ [false]
        locks := mapSet m.locks id lock
        counts := mapSet m.counts id (val + 1) }, lock)

/-- The call `lock.Lock()` on the mutex at address `lock`: `none` while the
mutex is held by somebody else (the caller stays blocked). -/
def mutexLock (m : MultiTimeoutLock) (lock : Nat) : Option MultiTimeoutLock :=
  match m.mutexes.get? lock with
  | some false => some { m with mutexes := m.mutexes.set lock true }
  | _ => none

/-- The call `lock.Unlock()`: `none` is the runtime panic on a nil pointer
or on a mutex that is not locked. -/
def mutexUnlock (m : MultiTimeoutLock) (lock : Option Nat) : Option MultiTimeoutLock :=
  match lock with
  | none => none
  | some a =>
    match m.mutexes.get? a with
    | some true => some { m with mutexes := m.mutexes.set a false }
    | _ => none

/-- Second critical section of `Lock` and `LockTimeout` (lines 41-43 and
90-92): `m.state[lockId] = true`. -/
def lockMark (m : MultiTimeoutLock) (lockId : Nat) : MultiTimeoutLock :=
  { m with state := mapSet m.state lockId true }

/-- The method `Lock` run without interference; `lockId` is the value drawn
by `bson.NewObjectId()`. The supervisor goroutine only reads `state` and
writes a log line, so it leaves the lock untouched. -/
def Lock (m : MultiTimeoutLock) (id : String) (lockId : Nat) : Option MultiTimeoutLock :=
  let (m1, lock) := lockEnter m id
  (mutexLock m1 lock).map (fun m2 => lockMark m2 lockId)

/-- The method `LockTimeout`: the same steps as `Lock`; the argument
`timeout` is used by the supervisor goroutine only. -/
def LockTimeout (m : MultiTimeoutLock) (id : String) (_timeout : Nat) (lockId : Nat) :
    Option MultiTimeoutLock :=
  let (m1, lock) := lockEnter m id
  (mutexLock m1 lock).map (fun m2 => lockMark m2 lockId)

/-- First critical section of `Unlock` (lines 118-128). -/
def unlockEnter (m : MultiTimeoutLock) (id : String) : Option MultiTimeoutLock :=
  let val : Int := (mapGet m.counts id).getD 0
  let lock := mapGet m.locks id
  if val ≤ 1 then
    some { m with counts := mapDelete m.counts id, locks := mapDelete m.locks id }
  else
    mutexUnlock { m with counts := mapSet m.counts id (val - 1) } lock

/-- Second critical section of `Unlock` (lines 130-132). -/
def unlockMark (m : MultiTimeoutLock) (lockId : Nat) : MultiTimeoutLock :=
  { m with state := mapDelete m.state lockId }

/-- The method `Unlock`. -/
def Unlock (m : MultiTimeoutLock) (id : String) (lockId : Nat) : Option MultiTimeoutLock :=
  (unlockEnter m id).map (fun m1 => unlockMark m1 lockId)

/-- The method `Locked`. -/
def Locked (m : MultiTimeoutLock) (id : String) : Bool :=
  mapHas m.locks id

/-! ## godropbox `set.Set` -/

/-- The method `Add` of a `set.Set`: the set is kept as a duplicate-free list.
Go does not fix the order in which `Iter` enumerates a set; the list order
stands for the order chosen by the run. -/
def setAdd {α : Type} [DecidableEq α] (s : List α) (x : α) : List α :=
  if x ∈ s then s else s ++ [x]

/-- The method `Subtract`: remove from `s` every member of `t`. -/
def setSubtract {α : Type} [DecidableEq α] (s t : List α) : List α :=
  s.filter (fun x => decide (x ∉ t))

/-- The method `Contains`. -/
def setContains {α : Type} [DecidableEq α] (s : List α) (x : α) : Bool :=
  decide (x ∈ s)

/-! ## Go `strings` -/

/-- The function `strings.Contains`. -/
def stringsContains (s substr : String) : Bool :=
  s.toList.tails.any (fun t => substr.toList.isPrefixOf t)

/-- Split a character list at every occurrence of `sep`. -/
def splitChars (sep : Char) : List Char → List (List Char)
  | [] => [[]]
  | c :: cs =>
    if c = sep then [] :: splitChars sep cs
    else
      match splitChars sep cs with
      | [] => [[c]]
      | h :: t => (c :: h) :: t

/-- The call `strings.Split(s, "\n")`. -/
def splitLines (s : String) : List String :=
  (splitChars '\n' s.toList).map String.mk

/-- The white space of `unicode.IsSpace`. -/
def isSpace (c : Char) : Bool :=
  c = '\t' || c = '\n' || c.toNat = 11 || c.toNat = 12 || c = '\r' || c = ' ' ||
  c.toNat = 0x85 || c.toNat = 0xA0 || c.toNat = 0x1680 ||
  (0x2000 ≤ c.toNat && c.toNat ≤ 0x200a) || c.toNat = 0x2028 || c.toNat = 0x2029 ||
  c.toNat = 0x202f || c.toNat = 0x205f || c.toNat = 0x3000

/-- Worker of `strings.Fields`: `cur` is the field being read, reversed. -/
def fieldsAux : List Char → List Char → List (List Char)
  | [], cur => if cur.isEmpty then [] else [cur.reverse]
  | c :: cs, cur =>
    if isSpace c then
      (if cur.isEmpty then fieldsAux cs [] else cur.reverse :: fieldsAux cs [])
    else fieldsAux cs (c :: cur)

/-- The function `strings.Fields`. -/
def stringsFields (s : String) : List String :=
  (fieldsAux s.toList []).map String.mk

/-! ## vpc.Route and qemu.GetRoutes -/

/-- The struct `vpc.Route`. -/
structure Route where
  Destination : String
  Target : String
  deriving DecidableEq, Repr

/-- The functions `GetRoutes` calls that live outside the repository sources
at hand. `maskSize` is `utils.ParseIpMask` followed by `mask.Size()` (`none`
when `ParseIpMask` returns nil); `parseCIDR` is `net.ParseCIDR` followed by
`String()` of the network (`none` on error); `parseIP` is `net.ParseIP`
followed by `String()` (`none` when nil). -/
structure NetLib where
  maskSize : String → Option Nat
  parseCIDR : String → Option String
  parseIP : String → Option String

/-- Body of the loop over the rows of `route -n` (lines 39-67): the route the
row contributes, if any. -/
def parseRow4 (lib : NetLib) (line : String) : Option Route :=
  if line = "" then none
  else
    let fields := stringsFields line
    if fields.length < 8 then none
    else if fields.getD 4 "" ≠ "97" then none
    else if fields.getD 0 "" = "0.0.0.0" ∨ fields.getD 1 "" = "0.0.0.0" then none
    else
      match lib.maskSize (fields.getD 2 "") with
      | none => none
      | some cidr =>
        some { Destination := fields.getD 0 "" ++ "/" ++ toString cidr
               Target := fields.getD 1 "" }

/-- Body of the loop over the rows of `route -6 -n` (lines 85-113). -/
def parseRow6 (lib : NetLib) (line : String) : Option Route :=
  if line = "" then none
  else
    let fields := stringsFields line
    if fields.length < 7 then none
    else if fields.getD 3 "" ≠ "97" then none
    else
      match lib.parseCIDR (fields.getD 0 "") with
      | none => none
      | some destination =>
        match lib.parseIP (fields.getD 1 "") with
        | none => none
        | some target => some { Destination := destination, Target := target }

/-- The data rows of a `route` listing: `lines[2:]` when `len(lines) > 2`. -/
def dataRows (output : String) : List String :=
  let lines := splitLines output
  if lines.length > 2 then lines.drop 2 else []

/-- The function `qemu.GetRoutes`, as a function of the output of
`route -n` and of `route -6 -n` in the namespace. A nil slice is `none`. The
error result is never assigned and stays nil. -/
def GetRoutes (lib : NetLib) (output output6 : String) :
    Option (List Route) × Option (List Route) :=
  if output = "" then (none, none)
  else
    (some ((dataRows output).filterMap (parseRow4 lib)),
     some ((dataRows output6).filterMap (parseRow6 lib)))

/-! ## deploy.Instances.routes: the worker -/

/-- The routes of a `vpc.Vpc`; a nil slice is the empty list. -/
structure Vpc where
  Routes : List Route
  deriving DecidableEq, Repr

/-- One call of `utils.ExecCombinedOutputLogged`. -/
structure Exec where
  ignores : List String
  name : String
  args : List String
  deriving DecidableEq, Repr

/-- The sets built in lines 297-352 of `routes`. -/
structure RouteSets where
  curRoutes : List Route
  curRoutes6 : List Route
  newRoutes : List Route
  newRoutes6 : List Route
  addRoutes : List Route
  addRoutes6 : List Route
  remRoutes : List Route
  remRoutes6 : List Route
  deriving DecidableEq, Repr

/-- Lines 325-352: observed sets from the two slices, desired sets from the
VPC routes split on `":"` in the destination, then the four subtractions. -/
def routeSets (routes routes6 : List Route) (vcRoutes : List Route) : RouteSets :=
  let curRoutes := routes.foldl setAdd []
  let curRoutes6 := routes6.foldl setAdd []
  let newRoutes := vcRoutes.foldl
    (fun s route => if !stringsContains route.Destination ":" then setAdd s route else s) []
  let newRoutes6 := vcRoutes.foldl
    (fun s route => if !stringsContains route.Destination ":" then s else setAdd s route) []
  { curRoutes := curRoutes
    curRoutes6 := curRoutes6
    newRoutes := newRoutes
    newRoutes6 := newRoutes6
    addRoutes := setSubtract newRoutes curRoutes
    addRoutes6 := setSubtract newRoutes6 curRoutes6
    remRoutes := setSubtract curRoutes newRoutes
    remRoutes6 := setSubtract curRoutes6 newRoutes6 }

/-- Lines 358-365: delete an IPv4 route. -/
def execDel (ns : String) (route : Route) : Exec :=
  { ignores := [], name := "ip"
    args := ["netns", "exec", ns, "ip", "route", "del", route.Destination,
      "via", route.Target, "metric", "97"] }

/-- Lines 372-379: delete an IPv6 route. -/
def execDel6 (ns : String) (route : Route) : Exec :=
  { ignores := [], name := "ip"
    args := ["netns", "exec", ns, "ip", "-6", "route", "del", route.Destination,
      "via", route.Target, "metric", "97"] }

/-- Lines 386-395: add an IPv4 route. -/
def execAdd (ns : String) (route : Route) : Exec :=
  { ignores := ["File exists"], name := "ip"
    args := ["netns", "exec", ns, "ip", "route", "add", route.Destination,
      "via", route.Target, "metric", "97"] }

/-- Lines 402-411: add an IPv6 route. -/
def execAdd6 (ns : String) (route : Route) : Exec :=
  { ignores := ["File exists"], name := "ip"
    args := ["netns", "exec", ns, "ip", "-6", "route", "add", route.Destination,
      "via", route.Target, "metric", "97"] }

/-- A call into the route catalog (package `store`). -/
inductive StoreOp where
  | setRoutes (id : String) (routes routes6 : List Route)
  | remRoutes (id : String)
  deriving DecidableEq, Repr

/-- What the worker of `routes` sees of its surroundings: the namespace name
`vm.GetNamespace(inst.Id, 0)`, the VPC in the snapshot, the catalog entry
`store.GetRoutes(inst.Id)`, and the result `qemu.GetRoutes` gives if it is
called (two slices and whether the error is non-nil). -/
structure RoutesEnv where
  ns : String
  vc : Option Vpc
  routesStore : Option (List Route × List Route)
  probe : Option (List Route) × Option (List Route)
  probeErr : Bool

/-- What the worker of `routes` did. -/
structure RoutesRun where
  cmds : List Exec
  store : List StoreOp
  logged : List String
  deriving DecidableEq, Repr

/-- The goroutine of `routes` (lines 284-416), without its deferred unlock. -/
def routesWorker (env : RoutesEnv) (id : String) : RoutesRun :=
  match env.vc with
  | none =>
    { cmds := [], store := [], logged := ["deploy: Failed to deploy instance routes"] }
  | some vc =>
    let observed : Option (List Route × List Route × List StoreOp) :=
      match env.routesStore with
      | some (routes, routes6) => some (routes, routes6, [])
      | none =>
        if env.probeErr then none
        else
          match env.probe with
          | (some routes, some routes6) =>
            some (routes, routes6, [StoreOp.setRoutes id routes routes6])
          | _ => none
    match observed with
    | none =>
      { cmds := [], store := []
        logged := if env.routesStore.isNone && env.probeErr
          then ["deploy: Failed to deploy instance routes"] else [] }
    | some (routes, routes6, ops) =>
      let d := routeSets routes routes6 vc.Routes
      let cmds := d.remRoutes.map (execDel env.ns) ++ d.remRoutes6.map (execDel6 env.ns)
        ++ d.addRoutes.map (execAdd env.ns) ++ d.addRoutes6.map (execAdd6 env.ns)
      let changed := !d.remRoutes.isEmpty || !d.remRoutes6.isEmpty
        || !d.addRoutes.isEmpty || !d.addRoutes6.isEmpty
      { cmds := cmds
        store := ops ++ (if changed then [StoreOp.remRoutes id] else [])
        logged := [] }

/-! ## deploy.Instances: the reconciler -/

/-- Modelled from the spec: the desired-state constants of package `instance`
(`Start`, `Stop`, `Restart`, `Destroy`), whose declaration is not among the
sources; `Instance.State` is a Go string. -/
def instance.Start : String := "start"

/-- Modelled from the spec: see `instance.Start`. -/
def instance.Stop : String := "stop"

/-- Modelled from the spec: see `instance.Start`. -/
def instance.Restart : String := "restart"

/-- Modelled from the spec: see `instance.Start`. -/
def instance.Destroy : String := "destroy"

/-- Modelled from the spec: the observed-state constants of package `vm`
(`Running`, `Stopped`, `Failed`), whose declaration is not among the sources. -/
def vm.Running : String := "running"

/-- Modelled from the spec: see `vm.Running`. -/
def vm.Stopped : String := "stopped"

/-- Modelled from the spec: see `vm.Running`. -/
def vm.Failed : String := "failed"

/-- The fields of `instance.Instance` the reconciler and the PUT handler
touch. `Id` is `inst.Id.Hex()`. -/
structure Instance where
  Id : String
  Name : String
  State : String
  Vpc : String
  Domain : String
  Memory : Int
  Processors : Int
  NetworkRoles : List String
  Restart : Bool
  deriving DecidableEq, Repr

/-- The struct `vm.Disk`. -/
structure Disk where
  Index : Int
  Path : String
  deriving DecidableEq, Repr

/-- The part of `vm.VirtualMachine` that `Deploy` reads itself. -/
structure VirtualMachine where
  State : String
  Processors : Int
  Memory : Int
  Disks : List Disk
  deriving DecidableEq, Repr

/-- The snapshot `state.State` behind `s.stat`. -/
structure State where
  instances : List Instance
  namespaces : List String
  virts : List (String × VirtualMachine)
  vpcs : List (String × Vpc)

/-- The accessor `s.stat.GetVirt`. -/
def State.GetVirt (stat : State) (id : String) : Option VirtualMachine :=
  mapGet stat.virts id

/-- The accessor `s.stat.Vpc`. -/
def State.Vpc (stat : State) (id : String) : Option Vpc :=
  mapGet stat.vpcs id

/-- The methods of `Instances`. -/
inductive Action where
  | create | start | stop | restart | destroy | diskRemove | diff | check | routes
  deriving DecidableEq, Repr

/-- What a run leaves behind, in order: a method of `Instances` entered, a
goroutine started while holding `lockId`, a hypervisor primitive of package
`qemu` or `qms`, a database write, a published event, a log line, a sleep,
an unlock of `instancesLock`. -/
inductive Event where
  | call (a : Action) (id : String)
  | spawn (a : Action) (id : String) (lockId : Nat)
  | qemuCreate (id : String)
  | powerOn (id : String)
  | powerOff (id : String)
  | qemuDestroy (id : String)
  | removeDisk (id : String) (disk : Disk)
  | remove (id : String)
  | commit (id : String) (fields : List String)
  | publish (topic : String)
  | log (msg : String)
  | sleep (seconds : Nat)
  | unlock (id : String) (lockId : Nat)
  deriving DecidableEq, Repr

/-- Code of the repository and of its libraries that is not among the
sources: `inst.Changed`, `inst.DiskChanged`, `vm.GetNamespace`, and for each
call into `qemu`, `qms`, `instance` and the database whether its error is nil
(`true`) or not. -/
structure Extern where
  Changed : Instance → Option VirtualMachine → Bool
  DiskChanged : Instance → Option VirtualMachine → List Disk × List Disk
  GetNamespace : String → Nat → String
  Create : Instance → Bool
  PowerOn : Instance → Bool
  PowerOff : Instance → Bool
  Destroy : Instance → Bool
  RemoveDisk : String → Disk → Bool
  Remove : String → Bool
  CommitFields : Instance → List String → Bool

/-- The struct `node.Self`, as far as `Deploy` writes it. `CpuUnitsRes` is
the value of a Go `int` of 64 bits, `MemoryUnitsRes` the value of a float64
as a rational. -/
structure Node where
  CpuUnitsRes : Int
  MemoryUnitsRes : ℚ
  deriving DecidableEq, Repr

/-- The process state around a tick: the package variable `instancesLock`,
the supply of `bson.NewObjectId`, `node.Self`, and the events so far. -/
structure World where
  lock : MultiTimeoutLock
  nextId : Nat
  node : Node
  trace : List Event
  deriving DecidableEq, Repr

/-- Append one event to the trace. -/
def World.emit (w : World) (e : Event) : World :=
  { w with trace := w.trace ++ [e] }

/-- The head shared by `create`, `start`, `stop`, `restart`, `destroy`,
`diskRemove` and `routes`: return if the id is locked, else take the lock
(with `LockTimeout` when a timeout is given) and start the goroutine. `none`
when the call to `Lock` never returns. -/
def enqueue (w : World) (a : Action) (id : String) (timeout : Option Nat) : Option World :=
  if Locked w.lock id then some w
  else
    let lockId := w.nextId
    let locked := match timeout with
      | none => Lock w.lock id lockId
      | some t => LockTimeout w.lock id t lockId
    locked.map (fun l =>
      { w with lock := l, nextId := lockId + 1 }.emit (Event.spawn a id lockId))

/-- The method `create` (lines 31-56), up to the start of its goroutine;
the timeout is ten minutes, in seconds. -/
def create (w : World) (inst : Instance) : Option World :=
  enqueue (w.emit (Event.call Action.create inst.Id)) Action.create inst.Id (some 600)

/-- The method `start` (lines 58-83), up to the start of its goroutine. -/
def start (w : World) (inst : Instance) : Option World :=
  enqueue (w.emit (Event.call Action.start inst.Id)) Action.start inst.Id none

/-- The method `stop` (lines 85-110), up to the start of its goroutine. -/
def stop (w : World) (inst : Instance) : Option World :=
  enqueue (w.emit (Event.call Action.stop inst.Id)) Action.stop inst.Id none

/-- The method `restart` (lines 112-153), up to the start of its goroutine. -/
def restart (w : World) (inst : Instance) : Option World :=
  enqueue (w.emit (Event.call Action.restart inst.Id)) Action.restart inst.Id none

/-- The method `destroy` (lines 155-189), up to the start of its goroutine. -/
def destroy (w : World) (inst : Instance) : Option World :=
  enqueue (w.emit (Event.call Action.destroy inst.Id)) Action.destroy inst.Id none

/-- The method `diskRemove` (lines 191-219), up to the start of its
goroutine. -/
def diskRemove (w : World) (inst : Instance) (_remDisks : List Disk) : Option World :=
  enqueue (w.emit (Event.call Action.diskRemove inst.Id)) Action.diskRemove inst.Id none

/-- The method `routes` (lines 273-420), up to the start of its goroutine;
the error result stays nil. -/
def routes (w : World) (inst : Instance) : Option World :=
  enqueue (w.emit (Event.call Action.routes inst.Id)) Action.routes inst.Id none

/-- The commands the goroutine of `routes` runs itself (its own calls of
`utils.ExecCombinedOutputLogged`, lines 358-411) for a call of `routes` made
in world `w`: none when the id is locked, since no goroutine is started. -/
def routesCmds (w : World) (env : RoutesEnv) (inst : Instance) : List Exec :=
  if Locked w.lock inst.Id then [] else (routesWorker env inst.Id).cmds

/-- The deferred function of the workers: sleep three seconds, then unlock. -/
def workerDefer (id : String) (lockId : Nat) : List Event :=
  [Event.sleep 3, Event.unlock id lockId]

/-- The goroutine of `create` (lines 37-55). -/
def createWorker (x : Extern) (inst : Instance) (lockId : Nat) : List Event :=
  (if x.Create inst then [Event.qemuCreate inst.Id, Event.publish "instance.change"]
   else [Event.qemuCreate inst.Id, Event.log "deploy: Failed to create instance"])
  ++ workerDefer inst.Id lockId

/-- The goroutine of `start` (lines 64-82). -/
def startWorker (x : Extern) (inst : Instance) (lockId : Nat) : List Event :=
  (if x.PowerOn inst then [Event.powerOn inst.Id, Event.publish "instance.change"]
   else [Event.powerOn inst.Id, Event.log "deploy: Failed to start instance"])
  ++ workerDefer inst.Id lockId

/-- The goroutine of `stop` (lines 91-109). -/
def stopWorker (x : Extern) (inst : Instance) (lockId : Nat) : List Event :=
  (if x.PowerOff inst then [Event.powerOff inst.Id, Event.publish "instance.change"]
   else [Event.powerOff inst.Id, Event.log "deploy: Failed to stop instance"])
  ++ workerDefer inst.Id lockId

/-- The goroutine of `restart` (lines 118-152): the events and the instance
record it leaves in memory. -/
def restartWorker (x : Extern) (inst : Instance) (lockId : Nat) : List Event × Instance :=
  if !x.PowerOn inst then
    ([Event.powerOn inst.Id, Event.log "deploy: Failed to restart instance"]
      ++ workerDefer inst.Id lockId, inst)
  else if !x.PowerOff inst then
    ([Event.powerOn inst.Id, Event.sleep 1, Event.powerOff inst.Id,
      Event.log "deploy: Failed to restart instance"] ++ workerDefer inst.Id lockId, inst)
  else
    let inst1 := { inst with State := instance.Start }
    if !x.CommitFields inst1 ["state"] then
      ([Event.powerOn inst.Id, Event.sleep 1, Event.powerOff inst.Id,
        Event.commit inst.Id ["state"]] ++ workerDefer inst.Id lockId, inst1)
    else
      ([Event.powerOn inst.Id, Event.sleep 1, Event.powerOff inst.Id,
        Event.commit inst.Id ["state"], Event.publish "instance.change"]
        ++ workerDefer inst.Id lockId, inst1)

/-- The goroutine of `destroy` (lines 161-188). -/
def destroyWorker (x : Extern) (inst : Instance) (lockId : Nat) : List Event :=
  (if !x.Destroy inst then
    [Event.qemuDestroy inst.Id, Event.log "deploy: Failed to power off instance"]
  else if !x.Remove inst.Id then
    [Event.qemuDestroy inst.Id, Event.remove inst.Id,
      Event.log "deploy: Failed to remove instance"]
  else
    [Event.qemuDestroy inst.Id, Event.remove inst.Id,
      Event.publish "instance.change", Event.publish "disk.change"])
  ++ workerDefer inst.Id lockId

/-- The loop of the goroutine of `diskRemove` (lines 206-214): the events,
and whether every removal succeeded. -/
def removeDisks (x : Extern) (id : String) : List Disk → List Event × Bool
  | [] => ([], true)
  | dsk :: rest =>
    if x.RemoveDisk id dsk then
      let (evs, ok) := removeDisks x id rest
      (Event.removeDisk id dsk :: evs, ok)
    else ([Event.removeDisk id dsk, Event.log "sync: Failed to remove disk"], false)

/-- The goroutine of `diskRemove` (lines 197-218). -/
def diskRemoveWorker (x : Extern) (inst : Instance) (remDisks : List Disk) (lockId : Nat) :
    List Event :=
  let (evs, ok) := removeDisks x inst.Id remDisks
  evs ++ (if ok then [Event.publish "instance.change", Event.publish "disk.change"] else [])
  ++ workerDefer inst.Id lockId

/-- The value `changed` of `diff` (lines 224-229). -/
def diffChanged (x : Extern) (stat : State) (inst : Instance) : Bool :=
  let curVirt := stat.GetVirt inst.Id
  let changed := x.Changed inst curVirt
  let addDisks := (x.DiskChanged inst curVirt).1
  if addDisks.length > 0 then true else changed

/-- The method `diff` (lines 221-254): the world, the instance record as the
method leaves it, and whether the error is non-nil. -/
def diff (x : Extern) (stat : State) (w : World) (inst : Instance) :
    Option (World × Instance × Bool) :=
  let w := w.emit (Event.call Action.diff inst.Id)
  let curVirt := stat.GetVirt inst.Id
  let changed := diffChanged x stat inst
  let remDisks := (x.DiskChanged inst curVirt).2
  if Locked w.lock inst.Id then some (w, inst, false)
  else
    let committed : World × Instance × Bool :=
      if changed && !inst.Restart then
        let inst1 := { inst with Restart := true }
        (w.emit (Event.commit inst.Id ["restart"]), inst1, !x.CommitFields inst1 ["restart"])
      else if !changed && inst.Restart then
        let inst1 := { inst with Restart := false }
        (w.emit (Event.commit inst.Id ["restart"]), inst1, !x.CommitFields inst1 ["restart"])
      else (w, inst, false)
    match committed with
    | (w1, inst1, true) => some (w1, inst1, true)
    | (w1, inst1, false) =>
      if remDisks.length > 0 then
        (diskRemove w1 inst1 remDisks).map (fun w2 => (w2, inst1, false))
      else some (w1, inst1, false)

/-- The method `check` (lines 256-271): the world, `valid`, and whether the
error is non-nil (it never is). -/
def check (x : Extern) (w : World) (inst : Instance) (namespaces : List String) :
    World × Bool × Bool :=
  let w := w.emit (Event.call Action.check inst.Id)
  let ns := x.GetNamespace inst.Id 0
  if !setContains namespaces ns then
    (w.emit (Event.log "deploy: Instance missing namespace"), false, false)
  else (w, true, false)

/-- The value of a Go `int` after an operation whose exact result is `n`:
64-bit two's complement wrap-around. -/
def wrapInt64 (n : Int) : Int :=
  (n + 9223372036854775808) % 18446744073709551616 - 9223372036854775808

/-- The float64 nearest to the rational `q`, ties to even: `e` is the
exponent of the last of the 53 bits of the significand (not below -1074, the
exponent of the subnormal numbers), `s` the magnitude in units of `2 ^ e`.
Values of magnitude `2 ^ 1024` and more, which IEEE 754 rounds to an
infinity, are left to their nearest multiple. -/
def float64.round (q : ℚ) : ℚ :=
  if q = 0 then 0
  else
    let e : Int := max (Int.log 2 |q| - 52) (-1074)
    let s : ℚ := |q| / (2 : ℚ) ^ e
    let f : Int := ⌊s⌋
    let m : Int :=
      if s - f < 1 / 2 then f
      else if 1 / 2 < s - f then f + 1
      else if f % 2 = 0 then f else f + 1
    (if q < 0 then -1 else 1) * ((m : ℚ) * (2 : ℚ) ^ e)

/-- The conversion `float64(n)` of an integer. -/
def float64.ofInt (n : Int) : ℚ := float64.round n

/-- The float64 quotient. -/
def float64.div (a b : ℚ) : ℚ := float64.round (a / b)

/-- The float64 sum. -/
def float64.add (a b : ℚ) : ℚ := float64.round (a + b)

/-- The running totals of `Deploy`: `cpuUnits` is the value of a Go `int` of
64 bits, `memoryUnits` the value of a float64 as a rational. -/
structure Units where
  cpuUnits : Int
  memoryUnits : ℚ
  deriving DecidableEq, Repr

/-- Lines 445-446: `cpuUnits += inst.Processors` in 64-bit integers and
`memoryUnits += float64(inst.Memory) / float64(1024)` in float64. -/
def Units.add (u : Units) (inst : Instance) : Units :=
  { cpuUnits := wrapInt64 (u.cpuUnits + inst.Processors)
    memoryUnits :=
      float64.add u.memoryUnits (float64.div (float64.ofInt inst.Memory) (float64.ofInt 1024)) }

/-- One pass of the loop body of `Deploy` (lines 438-492): the world, the
instance record afterwards, the totals, and whether `Deploy` returns at once
with an error. -/
def deployInstance (x : Extern) (stat : State) (namespacesSet : List String)
    (w : World) (u : Units) (inst : Instance) : Option (World × Instance × Units × Bool) :=
  let curVirt := stat.GetVirt inst.Id
  if inst.State = instance.Destroy then
    (destroy w inst).map (fun w1 => (w1, inst, u, false))
  else
    let u1 : Units := Units.add u inst
    match curVirt with
    | none => (create w inst).map (fun w1 => (w1, inst, u1, false))
    | some virt =>
      if inst.State = instance.Start then
        if virt.State = vm.Stopped ∨ virt.State = vm.Failed then
          (start w inst).map (fun w1 => (w1, inst, u1, false))
        else
          match check x w inst namespacesSet with
          | (w1, _, true) => some (w1, inst, u1, true)
          | (w1, false, false) => some (w1, inst, u1, false)
          | (w1, true, false) =>
            match diff x stat w1 inst with
            | none => none
            | some (w2, inst2, true) => some (w2, inst2, u1, true)
            | some (w2, inst2, false) =>
              (routes w2 inst2).map (fun w3 => (w3, inst2, u1, false))
      else if inst.State = instance.Stop then
        if virt.State = vm.Running then
          (stop w inst).map (fun w1 => (w1, inst, u1, false))
        else some (w, inst, u1, false)
      else if inst.State = instance.Restart then
        if virt.State = vm.Running then
          (restart w inst).map (fun w1 => (w1, inst, u1, false))
        else some (w, inst, u1, false)
      else some (w, inst, u1, false)

/-- The loop of `Deploy` (line 437) over the instances not yet visited. -/
def deployLoop (x : Extern) (stat : State) (namespacesSet : List String) :
    World → Units → List Instance → Option (World × List Instance × Units × Bool)
  | w, u, [] => some (w, [], u, false)
  | w, u, inst :: rest =>
    match deployInstance x stat namespacesSet w u inst with
    | none => none
    | some (w1, inst1, u1, true) => some (w1, inst1 :: rest, u1, true)
    | some (w1, inst1, u1, false) =>
      match deployLoop x stat namespacesSet w1 u1 rest with
      | none => none
      | some (w2, rest2, u2, err) => some (w2, inst1 :: rest2, u2, err)

/-- The method `Deploy` (lines 422-499): the world, the instance records
after the tick, and whether the error is non-nil. `node.Self` is written only
when the loop runs to its end. -/
def Deploy (x : Extern) (stat : State) (w : World) : Option (World × List Instance × Bool) :=
  let namespacesSet := stat.namespaces.foldl setAdd []
  match deployLoop x stat namespacesSet w { cpuUnits := 0, memoryUnits := 0 } stat.instances with
  | none => none
  | some (w1, insts, _, true) => some (w1, insts, true)
  | some (w1, insts, u, false) =>
    some ({ w1 with node := { CpuUnitsRes := u.cpuUnits, MemoryUnitsRes := u.memoryUnits } },
      insts, false)

/-! ## uhandlers.instancePut -/

/-- The struct `instanceData` of the request body. -/
structure instanceData where
  Id : String
  Zone : String
  Vpc : String
  Node : String
  Image : String
  Domain : String
  Name : String
  State : String
  InitDiskSize : Int
  Memory : Int
  Processors : Int
  NetworkRoles : List String
  Count : Int
  deriving DecidableEq, Repr

/-- What `instancePut` calls outside the sources at hand. An `Option Bool`
is `none` when the call returns an error; `Validate` gives the instance as it
leaves it, and `none` for an error, `some none` for a nil `errData`,
`some (some e)` for the `errData` with error code `e`. -/
structure PutEnv where
  demoBlocked : Bool
  instanceId : Option String
  bind : Option instanceData
  getOrg : Option Instance
  vpcExistsOrg : String → Option Bool
  domainExistsOrg : String → Option Bool
  PreCommit : Instance → Instance
  Validate : Instance → Instance × Option (Option String)
  PostCommit : Instance → Instance × Bool
  CommitFields : Instance → List String → Bool

/-- The outcome of a handler: the HTTP status (0 when demo mode blocks the
request and writes its own response) and the events. -/
structure HandlerRun where
  status : Nat
  trace : List Event
  deriving DecidableEq, Repr

/-- The set `fields` of `instancePut` (lines 112-121). -/
def instancePutFields : List String :=
  ["name", "vpc", "state", "restart", "memory", "processors", "network_roles", "domain"]

/-- The handler `instancePut` (lines 51-149). -/
def instancePut (env : PutEnv) : HandlerRun :=
  if env.demoBlocked then { status := 0, trace := [] }
  else
    match env.instanceId with
    | none => { status := 400, trace := [] }
    | some _ =>
      match env.bind with
      | none => { status := 500, trace := [] }
      | some data =>
        match env.getOrg with
        | none => { status := 500, trace := [] }
        | some inst =>
          match env.vpcExistsOrg data.Vpc with
          | none => { status := 500, trace := [] }
          | some false => { status := 405, trace := [] }
          | some true =>
            let domainOk : Option Bool :=
              if data.Domain ≠ "" then env.domainExistsOrg data.Domain else some true
            match domainOk with
            | none => { status := 500, trace := [] }
            | some false => { status := 405, trace := [] }
            | some true =>
              let inst := env.PreCommit inst
              let inst := { inst with Name := data.Name, Vpc := data.Vpc }
              let inst := if data.State ≠ "" then { inst with State := data.State } else inst
              let inst := { inst with
                Memory := data.Memory, Processors := data.Processors
                NetworkRoles := data.NetworkRoles, Domain := data.Domain }
              let fields := instancePutFields
              match env.Validate inst with
              | (_, none) => { status := 500, trace := [] }
              | (_, some (some _)) => { status := 400, trace := [] }
              | (inst, some none) =>
                match env.PostCommit inst with
                | (_, false) => { status := 500, trace := [] }
                | (inst, true) =>
                  if !env.CommitFields inst fields then
                    { status := 500, trace := [Event.commit inst.Id fields] }
                  else
                    { status := 200
                      trace := [Event.commit inst.Id fields, Event.publish "instance.change"] }

/-- The fields named by the database writes of a trace. -/
def committedFields : List Event → List String
  | [] => []
  | Event.commit _ fields :: rest => fields ++ committedFields rest
  | _ :: rest => committedFields rest

/-- Whether an event is a hypervisor power primitive of package `qemu`
(`Create`, `PowerOn`, `PowerOff`, `Destroy`). -/
def Event.isPower : Event → Bool
  | Event.qemuCreate _ => true
  | Event.powerOn _ => true
  | Event.powerOff _ => true
  | Event.qemuDestroy _ => true
  | _ => false

/-- Whether an event is a database write. -/
def Event.isCommit : Event → Bool
  | Event.commit _ _ => true
  | _ => false

/-- The methods of `Instances` a trace enters, in order, each with the id of
the instance it is called for. -/
def calls : List Event → List (Action × String)
  | [] => []
  | Event.call a id :: rest => (a, id) :: calls rest
  | _ :: rest => calls rest

/-- The methods `Deploy` calls itself: every call but those of `diskRemove`,
which is only called from inside `diff`. -/
def deployCalls (evs : List Event) : List (Action × String) :=
  (calls evs).filter (fun c => decide (c.1 ≠ Action.diskRemove))

/-! ## Sample values for the worked examples -/

/-- The results of `utils.ParseIpMask`, `net.ParseCIDR` and `net.ParseIP` on
the strings of the worked examples; every other string is taken as
unparseable. -/
def sampleNetLib : NetLib :=
  { maskSize := fun s => if s = "255.255.0.0" then some 16 else none
    parseCIDR := fun s =>
      if s = "::/0" then some "::/0" else if s = "fd00::/64" then some "fd00::/64" else none
    parseIP := fun s =>
      if s = "fe80::1" then some "fe80::1" else if s = "fd00::1" then some "fd00::1" else none }

/-- Surroundings in which the configuration of every instance has drifted,
no disk differs, and every external call succeeds except the database write,
which succeeds iff `commitOk`. -/
def sampleExtern (commitOk : Bool) : Extern :=
  { Changed := fun _ _ => true
    DiskChanged := fun _ _ => ([], [])
    GetNamespace := fun id _ => "ns-" ++ id
    Create := fun _ => true
    PowerOn := fun _ => true
    PowerOff := fun _ => true
    Destroy := fun _ => true
    RemoveDisk := fun _ _ => true
    Remove := fun _ => true
    CommitFields := fun _ _ => commitOk }

/-- An instance `"i1"` with desired state `state`. -/
def sampleInstance (state : String) : Instance :=
  { Id := "i1", Name := "one", State := state, Vpc := "v1", Domain := "",
    Memory := 1024, Processors := 2, NetworkRoles := [], Restart := false }

/-- A snapshot with the single instance `"i1"`, observed in state
`observed`, its namespace present. -/
def sampleState (state observed : String) : State :=
  { instances := [sampleInstance state]
    namespaces := ["ns-i1"]
    virts := [("i1", { State := observed, Processors := 1, Memory := 1024, Disks := [] })]
    vpcs := [("v1", { Routes := [] })] }

/-- The world of a process that has just started. -/
def sampleWorld : World :=
  { lock := NewMultiTimeoutLock 180, nextId := 0
    node := { CpuUnitsRes := 0, MemoryUnitsRes := 0 }, trace := [] }

/-- A PUT request that passes every check, on instance `"i1"`. -/
def samplePutEnv : PutEnv :=
  { demoBlocked := false
    instanceId := some "i1"
    bind := some { Id := "i1", Zone := "z1", Vpc := "v1", Node := "n1", Image := "", Domain := "",
                   Name := "renamed", State := "", InitDiskSize := 10, Memory := 2048,
                   Processors := 4, NetworkRoles := [], Count := 0 }
    getOrg := some (sampleInstance instance.Start)
    vpcExistsOrg := fun _ => some true
    domainExistsOrg := fun _ => some true
    PreCommit := fun i => i
    Validate := fun i => (i, some none)
    PostCommit := fun i => (i, true)
    CommitFields := fun _ _ => true }

/-! ## MultiTimeoutLock under concurrent callers -/

/-- Where a caller of the lock stands: outside any call; inside `Lock` or
`LockTimeout` after the first critical section, waiting in `lock.Lock()` on
the mutex at address `lock`; past `lock.Lock()` but before `Lock` has
returned; holding the lock, `Lock` having returned `lockId`; inside `Unlock`
after its first critical section. -/
inductive Pc where
  | idle
  | waiting (id : String) (lock : Nat) (lockId : Nat)
  | acquired (id : String) (lockId : Nat)
  | holding (id : String) (lockId : Nat)
  | unlocking (lockId : Nat)
  deriving DecidableEq, Repr

/-- A `MultiTimeoutLock` shared by the callers `0, 1, ...`, and the supply of
`bson.NewObjectId`. -/
structure Sys where
  m : MultiTimeoutLock
  pcs : List Pc
  nextId : Nat
  deriving DecidableEq, Repr

/-- The start: the lock of `NewMultiTimeoutLock` and `n` callers outside any
call. -/
def Sys.init (n timeout : Nat) : Sys :=
  { m := NewMultiTimeoutLock timeout, pcs := List.replicate n Pc.idle, nextId := 0 }

/-- One atomic step of one caller `t`. The sections of `Lock`, `LockTimeout`
and `Unlock` guarded by `m.lock` or `m.stateLock` are atomic, as is
`lock.Lock()`.
`lock`, `lockTimeout`: an idle caller calls `Lock(id)` or
`LockTimeout(id, timeout)` and runs lines 22-32 or 71-81.
`acquire`: `lock.Lock()` returns for a waiting caller.
`mark`: the caller runs lines 41-43 or 90-92 and the call returns.
`unlock`: a caller holding `id` with `lockId` calls `Unlock(id, lockId)` and
runs lines 118-128.
`strayUnlock`: a caller that holds nothing calls `Unlock(id, lockId)` and
runs lines 118-128.
`finish`: the caller runs lines 130-132 and `Unlock` returns. -/
inductive Step where
  | lock (t : Nat) (id : String)
  | lockTimeout (t : Nat) (id : String) (timeout : Nat)
  | acquire (t : Nat)
  | mark (t : Nat)
  | unlock (t : Nat)
  | strayUnlock (t : Nat) (id : String) (lockId : Nat)
  | finish (t : Nat)
  deriving DecidableEq, Repr

/-- Whether a step is a call of `Unlock` by a caller that does not hold the
lock. -/
def Step.isStray : Step → Bool
  | Step.strayUnlock _ _ _ => true
  | _ => false

/-- The effect of one step. A step that its caller cannot take now (the
caller is elsewhere in its code, or `lock.Lock()` finds the mutex held)
leaves the system as it is; `none` is a runtime panic inside `Unlock`. -/
def Sys.step (s : Sys) : Step → Option Sys
  | Step.lock t id =>
    match s.pcs.get? t with
    | some Pc.idle =>
      some { m := (lockEnter s.m id).1
             pcs := s.pcs.set t (Pc.waiting id (lockEnter s.m id).2 s.nextId)
             nextId := s.nextId + 1 }
    | _ => some s
  | Step.lockTimeout t id _ =>
    match s.pcs.get? t with
    | some Pc.idle =>
      some { m := (lockEnter s.m id).1
             pcs := s.pcs.set t (Pc.waiting id (lockEnter s.m id).2 s.nextId)
             nextId := s.nextId + 1 }
    | _ => some s
  | Step.acquire t =>
    match s.pcs.get? t with
    | some (Pc.waiting id lock lockId) =>
      match mutexLock s.m lock with
      | some m1 => some { s with m := m1, pcs := s.pcs.set t (Pc.acquired id lockId) }
      | none => some s
    | _ => some s
  | Step.mark t =>
    match s.pcs.get? t with
    | some (Pc.acquired id lockId) =>
      some { s with m := lockMark s.m lockId, pcs := s.pcs.set t (Pc.holding id lockId) }
    | _ => some s
  | Step.unlock t =>
    match s.pcs.get? t with
    | some (Pc.holding id lockId) =>
      (unlockEnter s.m id).map
        (fun m1 => { s with m := m1, pcs := s.pcs.set t (Pc.unlocking lockId) })
    | _ => some s
  | Step.strayUnlock t id lockId =>
    match s.pcs.get? t with
    | some Pc.idle =>
      (unlockEnter s.m id).map
        (fun m1 => { s with m := m1, pcs := s.pcs.set t (Pc.unlocking lockId) })
    | _ => some s
  | Step.finish t =>
    match s.pcs.get? t with
    | some (Pc.unlocking lockId) =>
      some { s with m := unlockMark s.m lockId, pcs := s.pcs.set t Pc.idle }
    | _ => some s

/-- A run: the steps taken in order, under any interleaving of the
callers. -/
def Sys.run (s : Sys) : List Step → Option Sys
  | [] => some s
  | st :: rest =>
    match s.step st with
    | none => none
    | some s1 => s1.run rest

/-- Whether a caller is between the return of `lock.Lock()` for `id` and its
own `Unlock`. -/
def Pc.holds (id : String) : Pc → Bool
  | Pc.acquired id' _ => decide (id' = id)
  | Pc.holding id' _ => decide (id' = id)
  | _ => false

/-- Whether a caller is counted in `counts[id]`: it has run the first
critical section of `Lock(id)` and not yet that of its `Unlock`. -/
def Pc.active (id : String) : Pc → Bool
  | Pc.waiting id' _ _ => decide (id' = id)
  | Pc.acquired id' _ => decide (id' = id)
  | Pc.holding id' _ => decide (id' = id)
  | _ => false

/-- The number of callers that hold the lock of `id`. -/
def Sys.holders (s : Sys) (id : String) : Nat :=
  s.pcs.countP (Pc.holds id)

/-- The invariant of runs in which only holders call `Unlock`: per id, the
entries of `counts` and `locks` are absent when no caller is active, and
otherwise `counts` is the number of active callers and the mutex of `locks`
is locked iff some caller holds it; every waiting caller waits on the mutex
of `locks`; at most one caller holds; distinct ids have distinct mutexes. -/
def Sys.Inv (s : Sys) : Prop :=
  (∀ id, (s.pcs.countP (Pc.active id) = 0 ∧ mapGet s.m.counts id = none ∧
      mapGet s.m.locks id = none) ∨
    (0 < s.pcs.countP (Pc.active id) ∧
      mapGet s.m.counts id = some (s.pcs.countP (Pc.active id) : Int) ∧
      ∃ a, mapGet s.m.locks id = some a ∧
        s.m.mutexes.get? a = some (decide (0 < s.pcs.countP (Pc.holds id))))) ∧
  (∀ t id a l, s.pcs.get? t = some (Pc.waiting id a l) → mapGet s.m.locks id = some a) ∧
  (∀ id, s.pcs.countP (Pc.holds id) ≤ 1) ∧
  (∀ id id' a, mapGet s.m.locks id = some a → mapGet s.m.locks id' = some a → id = id')

/-! ## Go `strconv` and `strings.Split` -/

/-- The call `strings.Split(s, sep)` for a separator of one character. -/
def stringsSplit (sep : Char) (s : String) : List String :=
  (splitChars sep s.toList).map String.mk

/-- The value of a run of decimal digits read from left to right, starting
from `acc`; `none` at a character that is not a decimal digit. -/
def digitsValue : Nat → List Char → Option Nat
  | acc, [] => some acc
  | acc, c :: cs =>
    if 48 ≤ c.toNat ∧ c.toNat ≤ 57 then digitsValue (acc * 10 + (c.toNat - 48)) cs else none

/-- The function `strconv.Atoi` where `int` has 64 bits: an optional sign,
then at least one decimal digit and nothing else, the value within the
range of `int`. `none` is a non-nil error. -/
def strconv.Atoi (s : String) : Option Int :=
  let signed : Bool × List Char :=
    match s.toList with
    | '-' :: rest => (true, rest)
    | '+' :: rest => (false, rest)
    | rest => (false, rest)
  if signed.2.isEmpty then none
  else
    match digitsValue 0 signed.2 with
    | none => none
    | some n =>
      let v : Int := if signed.1 then -(n : Int) else (n : Int)
      if -9223372036854775808 ≤ v ∧ v ≤ 9223372036854775807 then some v else none

/-- The function `strconv.Itoa`. -/
def strconv.Itoa (n : Int) : String :=
  if n < 0 then "-" ++ toString n.natAbs else toString n.natAbs

/-- The digits of `n` in base ten, most significant first, computed with the
given fuel as `toString` on `Nat` computes them; used to reason about
`strconv.Itoa`. -/
def decimalDigits : Nat → Nat → List Char
  | 0, _ => []
  | fuel + 1, n =>
    if n / 10 = 0 then [Nat.digitChar (n % 10)]
    else decimalDigits fuel (n / 10) ++ [Nat.digitChar (n % 10)]

/-! ## firewall.Firewall.Validate -/

/-- The struct `errortypes.ErrorData`. -/
structure errortypes.ErrorData where
  Error : String
  Message : String
  deriving DecidableEq, Repr

/-- Modelled from the spec: the protocol constants of package `firewall`
(`all`, `icmp`, `tcp`, `udp`), whose declaration is not among the sources. -/
def firewall.All : String := "all"

/-- Modelled from the spec: see `firewall.All`. -/
def firewall.Icmp : String := "icmp"

/-- Modelled from the spec: see `firewall.All`. -/
def firewall.Tcp : String := "tcp"

/-- Modelled from the spec: see `firewall.All`. -/
def firewall.Udp : String := "udp"

/-- The struct `firewall.Rule`. -/
structure firewall.Rule where
  SourceIps : List String
  Protocol : String
  Port : String
  deriving DecidableEq, Repr

/-- The struct `firewall.Firewall`; a nil slice is `none`. -/
structure firewall.Firewall where
  Id : String
  Name : String
  Organization : String
  NetworkRoles : Option (List String)
  Ingress : Option (List firewall.Rule)
  deriving DecidableEq, Repr

/-- The `errData` of lines 52-55, 60-63, 71-74 and 79-82. -/
def firewall.portError : errortypes.ErrorData :=
  { Error := "invalid_ingress_rule_port", Message := "Invalid ingress rule port" }

/-- The `errData` of lines 93-96. -/
def firewall.protocolError : errortypes.ErrorData :=
  { Error := "invalid_ingress_rule_protocol", Message := "Invalid ingress rule protocol" }

/-- Lines 48-89, the case `Tcp, Udp`: the canonical port, or `none` where
the code returns the port error. -/
def firewall.parsePort (port : String) : Option String :=
  let ports := stringsSplit '-' port
  match strconv.Atoi (ports.getD 0 "") with
  | none => none
  | some portInt =>
    if portInt < 1 ∨ portInt > 65535 then none
    else
      let parsedPort := strconv.Itoa portInt
      if ports.length > 1 then
        match strconv.Atoi (ports.getD 1 "") with
        | none => none
        | some portInt2 =>
          if portInt < 1 ∨ portInt > 65535 ∨ portInt2 ≤ portInt then none
          else some (parsedPort ++ "-" ++ strconv.Itoa portInt2)
      else some parsedPort

/-- Lines 109-115: the suffix added to a source IP without `"/"`. -/
def firewall.withPrefixLen (sourceIp : String) : String :=
  if !stringsContains sourceIp "/" then
    (if stringsContains sourceIp ":" then sourceIp ++ "/128" else sourceIp ++ "/32")
  else sourceIp

/-- The loop of lines 100-127 over the source IPs not yet visited: the
slice as the loop leaves it (entries before the failing one rewritten) and
the `errData`. `lib.parseCIDR` is `net.ParseCIDR` followed by `String()` of
the network. -/
def firewall.sourceIps (lib : NetLib) : List String → List String × Option errortypes.ErrorData
  | [] => ([], none)
  | sourceIp :: rest =>
    if sourceIp = "" then
      (sourceIp :: rest,
        some { Error := "invalid_ingress_rule_source_ip"
               Message := "Empty ingress rule source IP" })
    else
      match lib.parseCIDR (firewall.withPrefixLen sourceIp) with
      | none =>
        (sourceIp :: rest,
          some { Error := "invalid_ingress_rule_source_ip"
                 Message := "Invalid ingress rule source IP" })
      | some sourceCidr =>
        let r := firewall.sourceIps lib rest
        (sourceCidr :: r.1, r.2)

/-- The body of the loop over `f.Ingress` (lines 40-127): the rule as the
body leaves it and the `errData` it returns with, if any. -/
def firewall.validateRule (lib : NetLib) (rule : firewall.Rule) :
    firewall.Rule × Option errortypes.ErrorData :=
  let ported : firewall.Rule × Option errortypes.ErrorData :=
    if rule.Protocol = firewall.All then ({ rule with Port := "" }, none)
    else if rule.Protocol = firewall.Icmp then ({ rule with Port := "" }, none)
    else if rule.Protocol = firewall.Tcp ∨ rule.Protocol = firewall.Udp then
      match firewall.parsePort rule.Port with
      | none => (rule, some firewall.portError)
      | some parsedPort => ({ rule with Port := parsedPort }, none)
    else (rule, some firewall.protocolError)
  match ported with
  | (rule1, some e) => (rule1, some e)
  | (rule1, none) =>
    let r := firewall.sourceIps lib rule1.SourceIps
    ({ rule1 with SourceIps := r.1 }, r.2)

/-- The loop of line 39 over the rules not yet visited; it stops at the
first rule that returns an `errData`. -/
def firewall.validateRules (lib : NetLib) :
    List firewall.Rule → List firewall.Rule × Option errortypes.ErrorData
  | [] => ([], none)
  | rule :: rest =>
    match firewall.validateRule lib rule with
    | (rule1, some e) => (rule1 :: rest, some e)
    | (rule1, none) =>
      let r := firewall.validateRules lib rest
      (rule1 :: r.1, r.2)

/-- The method `Firewall.Validate` (lines 28-131): the firewall as the
method leaves it and the `errData`; the error result is always nil. -/
def firewall.Validate (lib : NetLib) (f : firewall.Firewall) :
    firewall.Firewall × Option errortypes.ErrorData :=
  let r := firewall.validateRules lib (f.Ingress.getD [])
  ({ f with NetworkRoles := some (f.NetworkRoles.getD []), Ingress := some r.1 }, r.2)

/-! ## policy.Policy -/

/-- Modelled from the spec: the rule-type constants of package `policy`,
whose declaration is not among the sources; the error codes of
`ValidateAdmin` are these names followed by `_policy`. -/
def policy.OperatingSystem : String := "operating_system"

/-- Modelled from the spec: see `policy.OperatingSystem`. -/
def policy.Browser : String := "browser"

/-- Modelled from the spec: see `policy.OperatingSystem`. -/
def policy.Location : String := "location"

/-- Modelled from the spec: see `policy.OperatingSystem`. -/
def policy.WhitelistNetworks : String := "whitelist_networks"

/-- Modelled from the spec: see `policy.OperatingSystem`. -/
def policy.BlacklistNetworks : String := "blacklist_networks"

/-- The struct `policy.Rule`; `Typ` is the field `Type`. -/
structure policy.Rule where
  Typ : String
  Disable : Bool
  Values : List String
  deriving DecidableEq, Repr

/-- The struct `policy.Policy`. `Rules` is a Go map: the list holds its
entries in the order in which `range` visits them in one call. Go fixes no
order, so another call on the same map is a call on a permutation of the
list. -/
structure policy.Policy where
  Id : String
  Name : String
  Roles : List String
  Rules : List (String × policy.Rule)
  AdminSecondary : String
  UserSecondary : String
  AdminDeviceSecondary : Bool
  UserDeviceSecondary : Bool
  deriving DecidableEq, Repr

/-- The fields of `agent.Agent` the policy reads. -/
structure agent.Agent where
  OperatingSystem : String
  Browser : String
  CountryCode : String
  RegionCode : String
  Ip : String
  deriving DecidableEq, Repr

/-- The fields of `user.User` the policy touches. -/
structure user.User where
  Id : String
  Username : String
  Disabled : Bool
  deriving DecidableEq, Repr

/-- Modelled from the spec: the struct `node.Node`, whose declaration is not
among the sources. `AdminDomain` is the field that `Policy.Validate` reads;
`UserDomain` is the user domain that the spec and the message of
`user_node_unavailable` speak of. -/
structure node.Node where
  Id : String
  AdminDomain : String
  UserDomain : String
  deriving DecidableEq, Repr

/-- What the policy methods call outside the sources at hand.
`contains value ip` is `net.ParseCIDR(value)` followed by
`network.Contains(net.ParseIP(ip))`: `none` when `value` does not parse,
else whether the network contains the address. `CommitFields` tells whether
`usr.CommitFields` returns a nil error. `GetSecondaryProvider` tells whether
`settings.Auth.GetSecondaryProvider` returns a provider. -/
structure policy.Env where
  contains : String → String → Option Bool
  CommitFields : user.User → List String → Bool
  GetSecondaryProvider : String → Bool

/-- The results of a policy check: `errData`, whether `err` is non-nil, the
user record as the method leaves it, and the field sets committed, in
order. -/
structure policy.Result where
  errData : Option errortypes.ErrorData
  err : Bool
  usr : user.User
  commits : List (List String)
  deriving DecidableEq, Repr

/-- The block run when a rule fails (lines 95-112 and its copies): with
`rule.Disable` the user is disabled and the field `disabled` committed,
else the `errData` carries the code of the policy. -/
def policy.reject (env : policy.Env) (rule : policy.Rule) (usr : user.User)
    (code message : String) : policy.Result :=
  if rule.Disable then
    let usr1 := { usr with Disabled := true }
    { errData := some { Error := "unauthorized", Message := "Not authorized" }
      err := !env.CommitFields usr1 ["disabled"]
      usr := usr1
      commits := [["disabled"]] }
  else
    { errData := some { Error := code, Message := message }
      err := false, usr := usr, commits := [] }

/-- The loops of lines 86-92 and 116-122: whether some value equals the
agent's field. -/
def policy.matchValue (values : List String) (field : String) : Bool :=
  values.any (fun value => decide (value = field))

/-- The loop of lines 146-155. -/
def policy.matchLocation (values : List String) (agnt : agent.Agent) : Bool :=
  values.any (fun value =>
    decide (value = agnt.CountryCode) || decide (value = agnt.CountryCode ++ "_" ++ agnt.RegionCode))

/-- The loops of lines 179-201 and 225-247: values that do not parse are
logged and skipped. -/
def policy.matchNetwork (env : policy.Env) (values : List String) (agnt : agent.Agent) : Bool :=
  values.any (fun value => env.contains value agnt.Ip == some true)

/-- One pass of the loop body of `ValidateAdmin` (lines 84-270): `none` when
the rule lets the loop go on, else the results the method returns with. -/
def policy.adminRule (env : policy.Env) (agnt : agent.Agent) (usr : user.User)
    (rule : policy.Rule) : Option policy.Result :=
  if rule.Typ = policy.OperatingSystem then
    if !policy.matchValue rule.Values agnt.OperatingSystem then
      some (policy.reject env rule usr "operating_system_policy" "Operating system not permitted")
    else none
  else if rule.Typ = policy.Browser then
    if !policy.matchValue rule.Values agnt.Browser then
      some (policy.reject env rule usr "browser_policy" "Browser not permitted")
    else none
  else if rule.Typ = policy.Location then
    if !policy.matchLocation rule.Values agnt then
      some (policy.reject env rule usr "location_policy" "Location not permitted")
    else none
  else if rule.Typ = policy.WhitelistNetworks then
    if !policy.matchNetwork env rule.Values agnt then
      some (policy.reject env rule usr "whitelist_networks_policy" "Network not permitted")
    else none
  else if rule.Typ = policy.BlacklistNetworks then
    if policy.matchNetwork env rule.Values agnt then
      some (policy.reject env rule usr "blacklist_networks_policy" "Network not permitted")
    else none
  else none

/-- One pass of the loop body of `ValidateUser` (lines 285-379). -/
def policy.userRule (env : policy.Env) (agnt : agent.Agent) (usr : user.User)
    (rule : policy.Rule) : Option policy.Result :=
  if rule.Typ = policy.OperatingSystem then
    if !policy.matchValue rule.Values agnt.OperatingSystem then
      some (policy.reject env rule usr "operating_system_policy" "Operating system not permitted")
    else none
  else if rule.Typ = policy.Browser then
    if !policy.matchValue rule.Values agnt.Browser then
      some (policy.reject env rule usr "browser_policy" "Browser not permitted")
    else none
  else if rule.Typ = policy.Location then
    if !policy.matchLocation rule.Values agnt then
      some (policy.reject env rule usr "location_policy" "Location not permitted")
    else none
  else none

/-- A loop over the rules in the order visited, returning at the first rule
whose pass returns. -/
def policy.loop (body : policy.Rule → Option policy.Result) (usr : user.User) :
    List policy.Rule → policy.Result
  | [] => { errData := none, err := false, usr := usr, commits := [] }
  | rule :: rest =>
    match body rule with
    | some r => r
    | none => policy.loop body usr rest

/-- The method `ValidateAdmin` (lines 75-274); `agnt` is the result of
`agent.Parse`, `none` when it returns an error. -/
def policy.ValidateAdmin (env : policy.Env) (p : policy.Policy) (usr : user.User)
    (agnt : Option agent.Agent) : policy.Result :=
  match agnt with
  | none => { errData := none, err := true, usr := usr, commits := [] }
  | some agnt => policy.loop (policy.adminRule env agnt usr) usr (p.Rules.map Prod.snd)

/-- The method `ValidateUser` (lines 276-383). -/
def policy.ValidateUser (env : policy.Env) (p : policy.Policy) (usr : user.User)
    (agnt : Option agent.Agent) : policy.Result :=
  match agnt with
  | none => { errData := none, err := true, usr := usr, commits := [] }
  | some agnt => policy.loop (policy.userRule env agnt usr) usr (p.Rules.map Prod.snd)

/-- The method `Policy.Validate` (lines 36-73): the policy as the method
leaves it, the `errData`, and whether `err` is non-nil. `nodes` is the
result of `node.GetAll`, `none` when it returns an error. -/
def policy.Validate (env : policy.Env) (p : policy.Policy) (nodes : Option (List node.Node)) :
    policy.Policy × Option errortypes.ErrorData × Bool :=
  let p := if p.AdminSecondary ≠ "" ∧ !env.GetSecondaryProvider p.AdminSecondary
    then { p with AdminSecondary := "" } else p
  let p := if p.UserSecondary ≠ "" ∧ !env.GetSecondaryProvider p.UserSecondary
    then { p with UserSecondary := "" } else p
  match nodes with
  | none => (p, none, true)
  | some nodes =>
    let hasUserNode := nodes.any (fun nde => decide (nde.AdminDomain ≠ ""))
    if (p.AdminDeviceSecondary || p.UserDeviceSecondary) && !hasUserNode then
      (p, some { Error := "user_node_unavailable"
                 Message := "At least one node must have a user domain configured " ++
                   "to use secondary device authentication" }, false)
    else (p, none, false)

/-! ## data.Sync -/

/-- The fields of `storage.Storage` that `Sync` reads; `Typ` is the field
`Type`. -/
structure storage.Storage where
  Id : String
  Endpoint : String
  AccessKey : String
  SecretKey : String
  Insecure : Bool
  Bucket : String
  Typ : String
  deriving DecidableEq, Repr

/-- The fields of `minio.ObjectInfo` that `Sync` reads: `LastModified` is
the time rendered with `time.RFC3339`, `Err` whether the field `Err` is
non-nil. -/
structure minio.ObjectInfo where
  Key : String
  ETag : String
  LastModified : String
  Err : Bool
  deriving DecidableEq, Repr

/-- The struct `image.Image`; `Typ` is the field `Type`. -/
structure image.Image where
  Storage : String
  Key : String
  Etag : String
  Typ : String
  Name : String
  Organization : String
  deriving DecidableEq, Repr

/-- Modelled from the spec: the method `Image.Upsert` of package `image`,
not among the sources. It upserts the image keyed by `(storage, key)`:
an existing row takes the new etag and type and keeps its name and
organization, a new row is added as given. -/
def image.Upsert (db : List image.Image) (img : image.Image) : List image.Image :=
  if db.any (fun r => decide (r.Storage = img.Storage ∧ r.Key = img.Key)) then
    db.map (fun r =>
      if r.Storage = img.Storage ∧ r.Key = img.Key
      then { r with Etag := img.Etag, Typ := img.Typ } else r)
  else db ++ [img]

/-- Modelled from the spec: the function `image.Distinct` of package
`image`, not among the sources: the distinct keys of the images of one
storage. -/
def image.Distinct (db : List image.Image) (storeId : String) : List String :=
  ((db.filter (fun r => decide (r.Storage = storeId))).map (fun r => r.Key)).foldl setAdd []

/-- Modelled from the spec: the function `image.RemoveKeys` of package
`image`, not among the sources: the bulk delete of the images of one storage
whose key is listed. -/
def image.RemoveKeys (db : List image.Image) (storeId : String) (keys : List String) :
    List image.Image :=
  db.filter (fun r => decide (¬ (r.Storage = storeId ∧ r.Key ∈ keys)))

/-- What `Sync` meets outside the sources at hand: whether `minio.New`
returns a client, the objects `client.ListObjects` yields in order, the
hexadecimal MD5 digest, and for each database call whether its error is
nil. -/
structure data.Env where
  clientOk : Bool
  listing : List minio.ObjectInfo
  md5Hex : String → String
  upsertOk : image.Image → Bool
  distinctOk : Bool
  removeOk : Bool

/-- A database call made by `Sync`. -/
inductive data.Call where
  | upsert (img : image.Image)
  | distinct (storeId : String)
  | removeKeys (storeId : String) (keys : List String)
  deriving DecidableEq, Repr

/-- The outcome of `Sync`: the image collection, the kind of the error
returned (`""` for nil), and the database calls made, in order. -/
structure data.Run where
  db : List image.Image
  err : String
  calls : List data.Call
  deriving DecidableEq, Repr

/-- The replacement `etagReg.ReplaceAllString(etag, "")` with the pattern
`[^a-zA-Z0-9]+`: every character that is not an ASCII letter or digit is
dropped. -/
def data.stripEtag (etag : String) : String :=
  String.mk (etag.toList.filter (fun c =>
    (97 ≤ c.toNat && c.toNat ≤ 122) || (65 ≤ c.toNat && c.toNat ≤ 90) ||
    (48 ≤ c.toNat && c.toNat ≤ 57)))

/-- Lines 41-58: the image built for a listed object. -/
def data.imageOf (env : data.Env) (store : storage.Storage) (object : minio.ObjectInfo) :
    image.Image :=
  let etag := if object.ETag = "" then env.md5Hex object.LastModified else object.ETag
  { Storage := store.Id, Key := object.Key, Etag := data.stripEtag etag, Typ := store.Typ
    Name := "", Organization := "" }

/-- The loop of lines 33-63 over the objects not yet received: the image
collection, the set `remoteKeys`, the calls made, and the kind of the error
the loop returns with (`""` when it runs to its end). A failed database
call leaves the collection as it is. -/
def data.syncLoop (env : data.Env) (store : storage.Storage) :
    List minio.ObjectInfo → List image.Image → List String → List data.Call →
    List image.Image × List String × List data.Call × String
  | [], db, remoteKeys, calls => (db, remoteKeys, calls, "")
  | object :: rest, db, remoteKeys, calls =>
    if object.Err then (db, remoteKeys, calls, "RequestError")
    else
      let remoteKeys1 := setAdd remoteKeys object.Key
      let img := data.imageOf env store object
      let calls1 := calls ++ [data.Call.upsert img]
      if !env.upsertOk img then (db, remoteKeys1, calls1, "DatabaseError")
      else data.syncLoop env store rest (image.Upsert db img) remoteKeys1 calls1

/-- The function `Sync` (lines 19-87) on the image collection `db`. -/
def data.Sync (env : data.Env) (store : storage.Storage) (db : List image.Image) : data.Run :=
  if !env.clientOk then { db := db, err := "ConnectionError", calls := [] }
  else
    match data.syncLoop env store env.listing db [] [] with
    | (db1, remoteKeys, calls, "") =>
      let calls1 := calls ++ [data.Call.distinct store.Id]
      if !env.distinctOk then { db := db1, err := "DatabaseError", calls := calls1 }
      else
        let localKeys := image.Distinct db1 store.Id
        let removeKeysSet := setSubtract (localKeys.foldl setAdd []) remoteKeys
        let removeKeys := removeKeysSet
        let calls2 := calls1 ++ [data.Call.removeKeys store.Id removeKeys]
        if !env.removeOk then { db := db1, err := "DatabaseError", calls := calls2 }
        else { db := image.RemoveKeys db1 store.Id removeKeys, err := "", calls := calls2 }
    | (db1, _, calls, e) => { db := db1, err := e, calls := calls }

/-- A firewall with the given ingress rules, for the worked examples. -/
def sampleFirewall (rules : List firewall.Rule) : firewall.Firewall :=
  { Id := "f1", Name := "web", Organization := "o1", NetworkRoles := none, Ingress := some rules }

/-- The results of `net.ParseCIDR` followed by `String()` of the network on
the strings of the firewall examples; every other string is taken as
unparseable. -/
def sampleCidrLib : NetLib :=
  { maskSize := fun _ => none
    parseCIDR := fun s =>
      if s = "10.0.0.1/32" then some "10.0.0.1/32"
      else if s = "2001:db8::1/128" then some "2001:db8::1/128"
      else if s = "10.1.2.3/8" then some "10.0.0.0/8"
      else if s = "10.0.0.0/8" then some "10.0.0.0/8"
      else none
    parseIP := fun _ => none }

/-- A policy environment for the worked examples: the network `10.0.0.0/8`
contains the address `10.1.2.3` only, and the value `bogus` does not parse;
every commit succeeds and no secondary provider is configured. -/
def samplePolicyEnv : policy.Env :=
  { contains := fun value ip =>
      if value = "bogus" then none
      else some (decide (value = "10.0.0.0/8" ∧ ip = "10.1.2.3"))
    CommitFields := fun _ _ => true
    GetSecondaryProvider := fun _ => false }

/-- An agent for the worked examples. -/
def sampleAgent : agent.Agent :=
  { OperatingSystem := "linux", Browser := "firefox", CountryCode := "US", RegionCode := "CA"
    Ip := "10.1.2.3" }

/-- A user for the worked examples. -/
def sampleUser : user.User :=
  { Id := "u1", Username := "alice", Disabled := false }

/-- A policy with the given rules, visited in the order given, and the given
device-secondary flags. -/
def samplePolicy (rules : List policy.Rule) (adminDevice userDevice : Bool) : policy.Policy :=
  { Id := "p1", Name := "office", Roles := ["admin"]
    Rules := rules.map (fun rule => (rule.Typ, rule))
    AdminSecondary := "", UserSecondary := ""
    AdminDeviceSecondary := adminDevice, UserDeviceSecondary := userDevice }

/-- A storage for the worked examples. -/
def sampleStorage : storage.Storage :=
  { Id := "s1", Endpoint := "minio.example.com", AccessKey := "ak", SecretKey := "sk"
    Insecure := false, Bucket := "images", Typ := "public" }

/-- A listed object with the given key. -/
def sampleObject (key : String) : minio.ObjectInfo :=
  { Key := key, ETag := "\"" ++ key ++ "-1\"", LastModified := "2019-01-01T00:00:00Z"
    Err := false }

/-- A bucket that lists the keys `a`, `c`, `d`, with every database call
succeeding. -/
def sampleSyncEnv : data.Env :=
  { clientOk := true
    listing := [sampleObject "a", sampleObject "c", sampleObject "d"]
    md5Hex := fun _ => "d41d8cd98f00b204e9800998ecf8427e"
    upsertOk := fun _ => true
    distinctOk := true
    removeOk := true }

/-- An image collection that holds the keys `a`, `b`, `c` for the storage
`s1` and the key `b` for another storage. -/
def sampleImages : List image.Image :=
  [{ Storage := "s1", Key := "a", Etag := "a0", Typ := "public", Name := "A", Organization := "" },
   { Storage := "s1", Key := "b", Etag := "b0", Typ := "public", Name := "B", Organization := "" },
   { Storage := "s2", Key := "b", Etag := "x0", Typ := "private", Name := "X", Organization := "o1" },
   { Storage := "s1", Key := "c", Etag := "c0", Typ := "public", Name := "C", Organization := "" }]

/-! ## Invariant of the maps of MultiTimeoutLock -/

/-- The maps `counts` and `locks` have the same keys and every stored count
is at least 1. -/
def MultiTimeoutLock.Balanced (m : MultiTimeoutLock) : Prop :=
  (∀ id, (mapGet m.counts id).isSome = (mapGet m.locks id).isSome) ∧
  (∀ id c, mapGet m.counts id = some c → 1 ≤ c)

/-- A world in which a worker holds the lock of instance `"i1"`. -/
def sampleLockedWorld : World :=
  { lock := { counts := [("i1", 1)], locks := [("i1", 0)], state := [(0, true)], timeout := 180
              mutexes := [true] }
    nextId := 1
    node := { CpuUnitsRes := 0, MemoryUnitsRes := 0 }, trace := [] }

/-! ## qemu.NewQemu -/

/-- The field of a network adapter of `vm.VirtualMachine` that `NewQemu`
reads. -/
structure vm.NetworkAdapter where
  MacAddress : String
  deriving DecidableEq, Repr

/-- The fields of `vm.VirtualMachine` that `NewQemu` reads. -/
structure vm.VirtualMachine where
  Id : String
  Processors : Int
  Memory : Int
  Disks : List Disk
  NetworkAdapters : List vm.NetworkAdapter
  deriving DecidableEq, Repr

/-- The fields of `qemu.Disk` that `NewQemu` sets. -/
structure qemu.Disk where
  Media : String
  Index : Int
  File : String
  Format : String
  Discard : Bool
  deriving DecidableEq, Repr

/-- The fields of `qemu.Network` that `NewQemu` sets; `Typ` is the field
`Type`, and a field left out of the literal is the empty string. -/
structure qemu.Network where
  Typ : String
  MacAddress : String
  Iface : String
  deriving DecidableEq, Repr

/-- The struct `qemu.Qemu`, with the fields of the literal in lines 20-33. -/
structure qemu.Qemu where
  Id : String
  Data : String
  Kvm : Bool
  Machine : String
  Cpu : String
  Cpus : Int
  Cores : Int
  Threads : Int
  Boot : String
  Memory : Int
  Disks : List qemu.Disk
  Networks : List qemu.Network
  deriving DecidableEq, Repr

/-- What `NewQemu` meets outside the sources at hand: the result of
`json.Marshal(virt)` as a string (`none` on error), whether
`node.Self.Hypervisor == node.Kvm`, and `vm.GetIface`. -/
structure qemu.Env where
  marshal : vm.VirtualMachine → Option String
  kvm : Bool
  GetIface : String → Nat → String

/-- The loop of lines 35-43 over the disks. -/
def qemu.disks : List PritunlCloud.Disk → List qemu.Disk
  | [] => []
  | disk :: rest =>
    { Media := "disk", Index := disk.Index, File := disk.Path, Format := "qcow2"
      Discard := true } :: qemu.disks rest

/-- The loop of lines 45-54 over the adapters not yet visited, `i` being the
index of the first of them. -/
def qemu.networks (env : qemu.Env) (id : String) : Nat → List vm.NetworkAdapter → List qemu.Network
  | _, [] => []
  | i, net :: rest =>
    { Typ := "nic", MacAddress := net.MacAddress, Iface := "" } ::
    { Typ := "bridge", MacAddress := "", Iface := env.GetIface id i } ::
    qemu.networks env id (i + 1) rest

/-- The function `NewQemu` (lines 11-57); `none` is the `ParseError`
returned when the virt cannot be marshalled. -/
def qemu.NewQemu (env : qemu.Env) (virt : vm.VirtualMachine) : Option qemu.Qemu :=
  match env.marshal virt with
  | none => none
  | some data =>
    some { Id := virt.Id, Data := data, Kvm := env.kvm, Machine := "pc", Cpu := "host"
           Cpus := virt.Processors, Cores := 1, Threads := 1, Boot := "c"
           Memory := virt.Memory
           Disks := qemu.disks virt.Disks
           Networks := qemu.networks env virt.Id 0 virt.NetworkAdapters }

/-- A virt with two disks and two adapters, for the worked example. -/
def sampleVirt : vm.VirtualMachine :=
  { Id := "i1", Processors := 2, Memory := 2048
    Disks := [{ Index := 0, Path := "/var/lib/disks/d0.qcow2" },
              { Index := 1, Path := "/var/lib/disks/d1.qcow2" }]
    NetworkAdapters := [{ MacAddress := "00:00:00:00:00:01" }, { MacAddress := "00:00:00:00:00:02" }] }

/-- Surroundings of `NewQemu` for the worked example. -/
def sampleQemuEnv : qemu.Env :=
  { marshal := fun virt => some ("virt:" ++ virt.Id)
    kvm := true
    GetIface := fun id i => "p" ++ id ++ toString i }

/-! ## ahandlers.imagesGet -/

/-- The fields of `datacenter.Datacenter` that `imagesGet` reads; a nil
slice is `none`, an unset `PrivateStorage` the empty string. -/
structure datacenter.Datacenter where
  Id : String
  PublicStorages : Option (List String)
  PrivateStorage : String
  deriving DecidableEq, Repr

/-- The two query documents `imagesGet` builds for a datacenter:
`{"storage": {"$in": storages}}` and `{"storage": storage}`. -/
inductive ImageQuery where
  | storageIn (storages : List String)
  | storageIs (storage : String)
  deriving DecidableEq, Repr

/-- Modelled from the spec: the function `image.GetAllNames` of package
`image`, not among the sources: the images of the collection that match the
query, in the order of the collection. -/
def image.GetAllNames (db : List image.Image) : ImageQuery → List image.Image
  | ImageQuery.storageIn storages => db.filter (fun img => decide (img.Storage ∈ storages))
  | ImageQuery.storageIs storage => db.filter (fun img => decide (img.Storage = storage))

/-- What `imagesGet` meets outside the sources at hand: the id that
`utils.ParseObjectId(c.Query("datacenter"))` returns (`""` when there is
none), `datacenter.Get` (`none` on error), whether `image.GetAllNames`
returns a nil error for a query, the method `img.Json`, and the result of
`image.GetAll` for the query of the request without datacenter (`none` on
error). -/
structure ImagesEnv where
  dcId : String
  getDatacenter : String → Option datacenter.Datacenter
  namesOk : ImageQuery → Bool
  Json : image.Image → image.Image
  getAll : Option (List image.Image × Int)

/-- What `imagesGet` writes: nothing (the return of line 162), an abort
with a status, the JSON of a list of images with a status (the empty list of
line 171 too), or the JSON of an `imagesData`. -/
inductive ImagesResponse where
  | nothing
  | abort (status : Nat)
  | images (status : Nat) (images : List image.Image)
  | page (status : Nat) (images : List image.Image) (count : Int)
  deriving DecidableEq, Repr

/-- The handler `imagesGet` (lines 155-265) on the image collection `db`. -/
def imagesGet (db : List image.Image) (env : ImagesEnv) : ImagesResponse :=
  if env.dcId ≠ "" then
    match env.getDatacenter env.dcId with
    | none => ImagesResponse.nothing
    | some dc =>
      let storages := dc.PublicStorages.getD []
      if storages.length = 0 then ImagesResponse.images 200 []
      else
        let query := ImageQuery.storageIn storages
        if !env.namesOk query then ImagesResponse.abort 500
        else
          let images := (image.GetAllNames db query).map env.Json
          if dc.PrivateStorage ≠ "" then
            let query := ImageQuery.storageIs dc.PrivateStorage
            if !env.namesOk query then ImagesResponse.abort 500
            else
              let images2 := (image.GetAllNames db query).map env.Json
              ImagesResponse.images 200 (images ++ images2)
          else ImagesResponse.images 200 images
  else
    match env.getAll with
    | none => ImagesResponse.abort 500
    | some (images, count) => ImagesResponse.page 200 (images.map env.Json) count

/-- A request for the images of datacenter `dc`, every database call
succeeding and `Json` leaving the image as it is. -/
def sampleImagesEnv (dc : datacenter.Datacenter) : ImagesEnv :=
  { dcId := dc.Id
    getDatacenter := fun id => if id = dc.Id then some dc else none
    namesOk := fun _ => true
    Json := fun img => img
    getAll := some ([], 0) }

/-- A snapshot with three instances: `"i0"` to be stopped, with no observed
virt; `"i1"` started and running; `"i2"` to be destroyed. -/
def sampleUnitsState : State :=
  { instances :=
      [{ Id := "i0", Name := "zero", State := instance.Stop, Vpc := "v1", Domain := ""
         Memory := 512, Processors := 1, NetworkRoles := [], Restart := false },
       sampleInstance instance.Start,
       { Id := "i2", Name := "two", State := instance.Destroy, Vpc := "v1", Domain := ""
         Memory := 4096, Processors := 8, NetworkRoles := [], Restart := false }]
    namespaces := ["ns-i1"]
    virts := [("i1", { State := vm.Running, Processors := 2, Memory := 1024, Disks := [] })]
    vpcs := [("v1", { Routes := [] })] }

/-- A snapshot with two instances of `2 ^ 62` processors each, neither with
an observed virt. -/
def sampleWrapState : State :=
  { instances :=
      [{ Id := "i0", Name := "zero", State := instance.Stop, Vpc := "v1", Domain := ""
         Memory := 1024, Processors := 4611686018427387904, NetworkRoles := []
         Restart := false },
       { Id := "i2", Name := "two", State := instance.Stop, Vpc := "v1", Domain := ""
         Memory := 1024, Processors := 4611686018427387904, NetworkRoles := []
         Restart := false }]
    namespaces := []
    virts := []
    vpcs := [] }

/-- A snapshot with the instance `"i1"`, started and observed running with
its namespace present, followed by the instance `"i2"` to be destroyed. -/
def sampleStopState : State :=
  { instances :=
      [sampleInstance instance.Start,
       { Id := "i2", Name := "two", State := instance.Destroy, Vpc := "v1", Domain := ""
         Memory := 1024, Processors := 1, NetworkRoles := [], Restart := false }]
    namespaces := ["ns-i1"]
    virts := [("i1", { State := vm.Running, Processors := 2, Memory := 1024, Disks := [] })]
    vpcs := [("v1", { Routes := [] })] }

/-! # Theorems -/

/-! ## Go maps -/

theorem mapGet_mapDelete {κ ν : Type} [DecidableEq κ] (m : List (κ × ν)) (k k' : κ) :
    mapGet (mapDelete m k) k' = if k' = k then none else mapGet m k' := by
  induction m with
  | nil => simp [mapDelete, mapGet]
  | cons p rest ih =>
    obtain ⟨a, b⟩ := p
    unfold mapDelete at ih ⊢
    by_cases h : a = k
    · subst h
      simp only [List.filter, ne_eq, not_true_eq_false, decide_False]
      rw [ih]
      by_cases h' : k' = a
      · simp [h']
      · have : ¬ a = k' := fun e => h' e.symm
        simp [h', mapGet, this]
    · simp only [List.filter, ne_eq, h, not_false_eq_true, decide_True, mapGet]
      rw [ih]
      by_cases h' : k' = k
      · subst h'
        simp [h]
      · simp [h']

theorem mapGet_mapSet {κ ν : Type} [DecidableEq κ] (m : List (κ × ν)) (k k' : κ) (v : ν) :
    mapGet (mapSet m k v) k' = if k' = k then some v else mapGet m k' := by
  unfold mapSet
  simp only [mapGet]
  by_cases h : k' = k
  · subst h
    simp
  · have : ¬ k = k' := fun e => h e.symm
    simp [h, this, mapGet_mapDelete]

theorem mapDelete_absent {κ ν : Type} [DecidableEq κ] (m : List (κ × ν)) (k : κ)
    (h : mapGet m k = none) : mapDelete m k = m := by
  induction m with
  | nil => rfl
  | cons p rest ih =>
    obtain ⟨a, b⟩ := p
    simp only [mapGet] at h
    by_cases hk : a = k
    · simp [hk] at h
    · simp only [hk, if_false] at h
      unfold mapDelete at ih ⊢
      simp only [List.filter, ne_eq, hk, not_false_eq_true, decide_True]
      rw [ih h]

theorem mapDelete_mapSet_absent {κ ν : Type} [DecidableEq κ] (m : List (κ × ν)) (k : κ) (v : ν)
    (h : mapGet m k = none) : mapDelete (mapSet m k v) k = m := by
  unfold mapSet
  have h1 : mapDelete ((k, v) :: mapDelete m k) k = mapDelete (mapDelete m k) k := by
    simp [mapDelete, List.filter]
  rw [h1, mapDelete_absent m k h, mapDelete_absent m k h]

/-! ## MultiTimeoutLock, sequential runs -/

/-- On an id without a `locks` entry, `Lock` allocates a fresh unlocked mutex
and returns. -/
theorem Lock_of_absent (m : MultiTimeoutLock) (id : String) (lockId : Nat)
    (hl : mapGet m.locks id = none) :
    Lock m id lockId = some
      { counts := mapSet m.counts id ((mapGet m.counts id).getD 0 + 1)
        locks := mapSet m.locks id m.mutexes.length
        state := mapSet m.state lockId true
        timeout := m.timeout
        mutexes := m.mutexes ++ [true] } := by
  simp [Lock, lockEnter, hl, mutexLock, lockMark]

theorem LockTimeout_eq_Lock (m : MultiTimeoutLock) (id : String) (t lockId : Nat) :
    LockTimeout m id t lockId = Lock m id lockId := rfl

/-- A single holder's entry is deleted by `Unlock`, whatever lockId is
passed. -/
theorem Unlock_sole_holder (m : MultiTimeoutLock) (id : String) (L L' : Nat)
    (hc : mapGet m.counts id = none) (hl : mapGet m.locks id = none) :
    Unlock
      { counts := mapSet m.counts id ((mapGet m.counts id).getD 0 + 1)
        locks := mapSet m.locks id m.mutexes.length
        state := mapSet m.state L true
        timeout := m.timeout
        mutexes := m.mutexes ++ [true] } id L' = some
      { counts := m.counts
        locks := m.locks
        state := mapDelete (mapSet m.state L true) L'
        timeout := m.timeout
        mutexes := m.mutexes ++ [true] } := by
  simp only [Unlock, unlockEnter, mapGet_mapSet, if_true, hc, Option.getD_none,
    Option.getD_some, zero_add, le_refl, Option.map_some', unlockMark,
    mapDelete_mapSet_absent _ _ _ hc, mapDelete_mapSet_absent _ _ _ hl]

/-- C9: on a lock with no entry for `id`, `Lock` (and `LockTimeout`) returns,
and the matching `Unlock` then leaves no entry for `id` in `counts` or
`locks` and none for `lockId` in `state`; `Locked` is false and the maps
`counts` and `locks` are the ones from before the pair, as is `state` when
`lockId` is fresh. -/
theorem lock_unlock_leaves_no_entry (m : MultiTimeoutLock) (id : String) (t lockId : Nat)
    (hc : mapGet m.counts id = none) (hl : mapGet m.locks id = none) :
    ∀ held ∈ [Lock m id lockId, LockTimeout m id t lockId],
      ∃ m1 m2, held = some m1 ∧ Locked m1 id = true ∧ Unlock m1 id lockId = some m2 ∧
        mapGet m2.counts id = none ∧ mapGet m2.locks id = none ∧
        mapGet m2.state lockId = none ∧ Locked m2 id = false ∧
        m2.counts = m.counts ∧ m2.locks = m.locks ∧
        m2.counts.length = m.counts.length ∧ m2.locks.length = m.locks.length ∧
        (mapGet m.state lockId = none →
          m2.state = m.state ∧ m2.state.length = m.state.length) := by
  intro held hheld
  have hheld' : held = Lock m id lockId := by
    simp only [List.mem_cons, List.mem_singleton, List.not_mem_nil, or_false] at hheld
    rcases hheld with h | h
    · exact h
    · rw [h, LockTimeout_eq_Lock]
  rw [hheld', Lock_of_absent m id lockId hl]
  refine ⟨_, _, rfl, ?_, Unlock_sole_holder m id lockId lockId hc hl, ?_⟩
  · simp [Locked, mapHas, mapGet_mapSet]
  · simp only [hc, hl, mapGet_mapDelete, if_true, Locked, mapHas, Option.isSome_none, true_and]
    intro hs
    simp [mapDelete_mapSet_absent _ _ _ hs]

/-- Witness of C9 on the lock made by `NewMultiTimeoutLock`, for `Lock` and
for `LockTimeout`. -/
theorem lock_unlock_leaves_no_entry_witness :
    (∃ m1 m2, Lock (NewMultiTimeoutLock 180) "i1" 7 = some m1 ∧ Locked m1 "i1" = true ∧
      Unlock m1 "i1" 7 = some m2 ∧ Locked m2 "i1" = false ∧
      m2.counts = [] ∧ m2.locks = [] ∧ m2.state = []) ∧
    (∃ m1 m2, LockTimeout (NewMultiTimeoutLock 180) "i1" 600 7 = some m1 ∧
      Locked m1 "i1" = true ∧
      Unlock m1 "i1" 7 = some m2 ∧ Locked m2 "i1" = false ∧
      m2.counts = [] ∧ m2.locks = [] ∧ m2.state = []) :=
  ⟨(lock_unlock_leaves_no_entry (NewMultiTimeoutLock 180) "i1" 600 7 rfl rfl
      (Lock (NewMultiTimeoutLock 180) "i1" 7) (List.mem_cons_self _ _)).elim
      fun m1 h => h.elim fun m2 h =>
        ⟨m1, m2, h.1, h.2.1, h.2.2.1, h.2.2.2.2.2.2.1, h.2.2.2.2.2.2.2.1,
          h.2.2.2.2.2.2.2.2.1, (h.2.2.2.2.2.2.2.2.2.2.2 rfl).1⟩,
   (lock_unlock_leaves_no_entry (NewMultiTimeoutLock 180) "i1" 600 7 rfl rfl
      (LockTimeout (NewMultiTimeoutLock 180) "i1" 600 7)
      (List.mem_cons_of_mem _ (List.mem_cons_self _ _))).elim
      fun m1 h => h.elim fun m2 h =>
        ⟨m1, m2, h.1, h.2.1, h.2.2.1, h.2.2.2.2.2.2.1, h.2.2.2.2.2.2.2.1,
          h.2.2.2.2.2.2.2.2.1, (h.2.2.2.2.2.2.2.2.2.2.2 rfl).1⟩⟩

/-- Counterexample to C8: after `Lock("i1")` returned lockId 1, the call
`Unlock("i1", 2)` with a foreign lockId deletes the `counts` and `locks`
entries of `"i1"`, and `Locked("i1")` turns false. -/
theorem unlock_stale_not_noop :
    ∃ m1 m2, Lock (NewMultiTimeoutLock 180) "i1" 1 = some m1 ∧ Locked m1 "i1" = true ∧
      Unlock m1 "i1" 2 = some m2 ∧
      mapGet m1.counts "i1" = some 1 ∧ mapGet m2.counts "i1" = none ∧
      mapGet m1.locks "i1" = some 0 ∧ mapGet m2.locks "i1" = none ∧
      Locked m2 "i1" = false :=
  ⟨_, _, rfl, rfl, rfl, rfl, rfl, rfl, rfl, rfl⟩

/-- C8, amended: `Unlock` never looks at the lockId when it updates the
per-id lock, so `Unlock(id, L')` acts on `counts`, `locks` and the mutexes
exactly as `Unlock(id, L)` does. For an id held by a single holder that got
`L` from `Lock(id)`, `Unlock(id, L')` with `L' ≠ L` therefore returns, removes
the `counts` and `locks` entries of `id` (`Locked(id)` turns false), leaves
the holder's mutex locked, and keeps the holder's `state` entry `L` alive. -/
theorem unlock_ignores_lockId (m : MultiTimeoutLock) (id : String) (L L' : Nat) :
    (Unlock m id L').map (fun r => (r.counts, r.locks, r.mutexes)) =
      (Unlock m id L).map (fun r => (r.counts, r.locks, r.mutexes)) ∧
    (mapGet m.counts id = none → mapGet m.locks id = none → L' ≠ L →
      ∃ m1 m2, Lock m id L = some m1 ∧ Locked m1 id = true ∧
        Unlock m1 id L' = some m2 ∧
        mapGet m2.counts id = none ∧ mapGet m2.locks id = none ∧ Locked m2 id = false ∧
        m2.mutexes = m1.mutexes ∧ m1.mutexes.get? m.mutexes.length = some true ∧
        mapGet m2.state L = some true) := by
  constructor
  · simp only [Unlock, Option.map_map]
    rfl
  · intro hc hl hne
    rw [Lock_of_absent m id L hl]
    refine ⟨_, _, rfl, ?_, Unlock_sole_holder m id L L' hc hl, ?_⟩
    · simp [Locked, mapHas, mapGet_mapSet]
    · have hne' : ¬ L = L' := fun e => hne e.symm
      simp [hc, hl, mapGet_mapDelete, mapGet_mapSet, Locked, mapHas, hne']

/-- Witness of the amended C8 on the lock made by `NewMultiTimeoutLock`. -/
theorem unlock_ignores_lockId_witness :
    ∃ m1 m2, Lock (NewMultiTimeoutLock 180) "i1" 1 = some m1 ∧ Locked m1 "i1" = true ∧
        Unlock m1 "i1" 2 = some m2 ∧
        mapGet m2.counts "i1" = none ∧ mapGet m2.locks "i1" = none ∧ Locked m2 "i1" = false ∧
        m2.mutexes = m1.mutexes ∧
        m1.mutexes.get? (NewMultiTimeoutLock 180).mutexes.length = some true ∧
        mapGet m2.state 1 = some true :=
  (unlock_ignores_lockId (NewMultiTimeoutLock 180) "i1" 1 2).2 rfl rfl (by decide)

/-! ## Sets and route diff -/

theorem mem_setAdd {α : Type} [DecidableEq α] (s : List α) (x y : α) :
    y ∈ setAdd s x ↔ y ∈ s ∨ y = x := by
  unfold setAdd
  by_cases h : x ∈ s
  · simp only [h, if_true]
    constructor
    · exact Or.inl
    · rintro (h' | h')
      · exact h'
      · rw [h']; exact h
  · simp [h]

theorem nodup_setAdd {α : Type} [DecidableEq α] (s : List α) (x : α) (h : s.Nodup) :
    (setAdd s x).Nodup := by
  unfold setAdd
  by_cases hx : x ∈ s
  · simpa [hx] using h
  · simp only [hx, if_false]
    rw [List.nodup_append]
    refine ⟨h, List.nodup_singleton x, ?_⟩
    intro a ha hb
    rw [List.mem_singleton] at hb
    exact hx (hb ▸ ha)

/-- Membership in a set filled from a slice, with a filter on what is added. -/
theorem mem_foldl_setAdd_if {α : Type} [DecidableEq α] (p : α → Bool) (l : List α) :
    ∀ (s : List α) (y : α),
      y ∈ l.foldl (fun s x => if p x then setAdd s x else s) s ↔ y ∈ s ∨ (y ∈ l ∧ p y = true) := by
  induction l with
  | nil => intro s y; simp
  | cons a rest ih =>
    intro s y
    simp only [List.foldl_cons, List.mem_cons]
    rw [ih]
    by_cases hp : p a = true
    · simp only [hp, if_true, mem_setAdd]
      constructor
      · rintro ((h | h) | h)
        · exact Or.inl h
        · exact Or.inr ⟨Or.inl h, h ▸ hp⟩
        · exact Or.inr ⟨Or.inr h.1, h.2⟩
      · rintro (h | ⟨h | h, hy⟩)
        · exact Or.inl (Or.inl h)
        · exact Or.inl (Or.inr h)
        · exact Or.inr ⟨h, hy⟩
    · simp only [hp]
      constructor
      · rintro (h | h)
        · exact Or.inl h
        · exact Or.inr ⟨Or.inr h.1, h.2⟩
      · rintro (h | ⟨h | h, hy⟩)
        · exact Or.inl h
        · exact absurd (h ▸ hy) hp
        · exact Or.inr ⟨h, hy⟩

theorem nodup_foldl_setAdd_if {α : Type} [DecidableEq α] (p : α → Bool) (l : List α) :
    ∀ (s : List α), s.Nodup → (l.foldl (fun s x => if p x then setAdd s x else s) s).Nodup := by
  induction l with
  | nil => intro s h; simpa using h
  | cons a rest ih =>
    intro s h
    simp only [List.foldl_cons]
    apply ih
    by_cases hp : p a = true
    · simp only [hp, if_true]; exact nodup_setAdd s a h
    · simp only [hp]; exact h

theorem mem_foldl_setAdd {α : Type} [DecidableEq α] (l : List α) (y : α) :
    y ∈ l.foldl setAdd [] ↔ y ∈ l := by
  have h := mem_foldl_setAdd_if (fun _ => true) l [] y
  simpa using h

theorem nodup_foldl_setAdd {α : Type} [DecidableEq α] (l : List α) :
    (l.foldl setAdd ([] : List α)).Nodup := by
  have h := nodup_foldl_setAdd_if (fun _ => true) l [] List.nodup_nil
  simpa using h

theorem mem_setSubtract {α : Type} [DecidableEq α] (s t : List α) (y : α) :
    y ∈ setSubtract s t ↔ y ∈ s ∧ y ∉ t := by
  simp [setSubtract]

theorem nodup_setSubtract {α : Type} [DecidableEq α] (s t : List α) (h : s.Nodup) :
    (setSubtract s t).Nodup :=
  h.filter _

theorem mem_curRoutes (routes routes6 vcRoutes : List Route) (r : Route) :
    r ∈ (routeSets routes routes6 vcRoutes).curRoutes ↔ r ∈ routes := by
  simp [routeSets, mem_foldl_setAdd]

theorem mem_curRoutes6 (routes routes6 vcRoutes : List Route) (r : Route) :
    r ∈ (routeSets routes routes6 vcRoutes).curRoutes6 ↔ r ∈ routes6 := by
  simp [routeSets, mem_foldl_setAdd]

theorem mem_newRoutes (routes routes6 vcRoutes : List Route) (r : Route) :
    r ∈ (routeSets routes routes6 vcRoutes).newRoutes ↔
      r ∈ vcRoutes ∧ stringsContains r.Destination ":" = false := by
  have h := mem_foldl_setAdd_if (fun x : Route => !stringsContains x.Destination ":")
    vcRoutes [] r
  simpa [routeSets] using h

theorem mem_newRoutes6 (routes routes6 vcRoutes : List Route) (r : Route) :
    r ∈ (routeSets routes routes6 vcRoutes).newRoutes6 ↔
      r ∈ vcRoutes ∧ stringsContains r.Destination ":" = true := by
  have h := mem_foldl_setAdd_if (fun x : Route => stringsContains x.Destination ":")
    vcRoutes [] r
  have e : (fun (s : List Route) (route : Route) =>
      if (!stringsContains route.Destination ":") = true then s else setAdd s route) =
      (fun s x => if stringsContains x.Destination ":" = true then setAdd s x else s) := by
    funext s x
    cases stringsContains x.Destination ":" <;> simp
  simp only [routeSets, e]
  simpa using h

/-- C5: the sets `routes` computes satisfy, for IPv4 and for IPv6: `add` is
desired minus observed, `rem` is observed minus desired, `rem ⊆ observed`,
`add ∩ observed = ∅`, and `(observed ∪ add) \ rem = desired`. -/
theorem route_diff_symmetry (routes routes6 vcRoutes : List Route) :
    let d := routeSets routes routes6 vcRoutes
    ((∀ r, r ∈ d.addRoutes ↔ r ∈ d.newRoutes ∧ r ∉ d.curRoutes) ∧
      (∀ r, r ∈ d.remRoutes ↔ r ∈ d.curRoutes ∧ r ∉ d.newRoutes) ∧
      (∀ r, r ∈ d.remRoutes → r ∈ d.curRoutes) ∧
      (∀ r, r ∈ d.addRoutes → r ∉ d.curRoutes) ∧
      (∀ r, ((r ∈ d.curRoutes ∨ r ∈ d.addRoutes) ∧ r ∉ d.remRoutes) ↔ r ∈ d.newRoutes)) ∧
    ((∀ r, r ∈ d.addRoutes6 ↔ r ∈ d.newRoutes6 ∧ r ∉ d.curRoutes6) ∧
      (∀ r, r ∈ d.remRoutes6 ↔ r ∈ d.curRoutes6 ∧ r ∉ d.newRoutes6) ∧
      (∀ r, r ∈ d.remRoutes6 → r ∈ d.curRoutes6) ∧
      (∀ r, r ∈ d.addRoutes6 → r ∉ d.curRoutes6) ∧
      (∀ r, ((r ∈ d.curRoutes6 ∨ r ∈ d.addRoutes6) ∧ r ∉ d.remRoutes6) ↔ r ∈ d.newRoutes6)) ∧
    ((∀ r, r ∈ d.curRoutes ↔ r ∈ routes) ∧ (∀ r, r ∈ d.curRoutes6 ↔ r ∈ routes6) ∧
      (∀ r, r ∈ d.newRoutes ↔ r ∈ vcRoutes ∧ stringsContains r.Destination ":" = false) ∧
      (∀ r, r ∈ d.newRoutes6 ↔ r ∈ vcRoutes ∧ stringsContains r.Destination ":" = true)) := by
  intro d
  have hadd : ∀ r, r ∈ d.addRoutes ↔ r ∈ d.newRoutes ∧ r ∉ d.curRoutes :=
    fun r => mem_setSubtract _ _ r
  have hrem : ∀ r, r ∈ d.remRoutes ↔ r ∈ d.curRoutes ∧ r ∉ d.newRoutes :=
    fun r => mem_setSubtract _ _ r
  have hadd6 : ∀ r, r ∈ d.addRoutes6 ↔ r ∈ d.newRoutes6 ∧ r ∉ d.curRoutes6 :=
    fun r => mem_setSubtract _ _ r
  have hrem6 : ∀ r, r ∈ d.remRoutes6 ↔ r ∈ d.curRoutes6 ∧ r ∉ d.newRoutes6 :=
    fun r => mem_setSubtract _ _ r
  refine ⟨⟨hadd, hrem, fun r h => ((hrem r).1 h).1, fun r h => ((hadd r).1 h).2, ?_⟩,
    ⟨hadd6, hrem6, fun r h => ((hrem6 r).1 h).1, fun r h => ((hadd6 r).1 h).2, ?_⟩,
    ⟨mem_curRoutes _ _ _, mem_curRoutes6 _ _ _, mem_newRoutes _ _ _, mem_newRoutes6 _ _ _⟩⟩
  · intro r
    rw [hadd, hrem]
    tauto
  · intro r
    rw [hadd6, hrem6]
    tauto

/-! ## The commands of `routes` -/

/-- The commands of the worker once the VPC and the observed routes are at
hand. -/
theorem routesWorker_cmds (env : RoutesEnv) (id : String) (vc : Vpc) (routes routes6 : List Route)
    (hvc : env.vc = some vc)
    (hobs : env.routesStore = some (routes, routes6) ∨
      (env.routesStore = none ∧ env.probeErr = false ∧ env.probe = (some routes, some routes6))) :
    (routesWorker env id).cmds =
      (routeSets routes routes6 vc.Routes).remRoutes.map (execDel env.ns) ++
      (routeSets routes routes6 vc.Routes).remRoutes6.map (execDel6 env.ns) ++
      (routeSets routes routes6 vc.Routes).addRoutes.map (execAdd env.ns) ++
      (routeSets routes routes6 vc.Routes).addRoutes6.map (execAdd6 env.ns) := by
  unfold routesWorker
  rcases hobs with h | ⟨h1, h2, h3⟩
  · simp [hvc, h]
  · simp [hvc, h1, h2, h3]

theorem routeSets_nodup (routes routes6 vcRoutes : List Route) :
    (routeSets routes routes6 vcRoutes).remRoutes.Nodup ∧
    (routeSets routes routes6 vcRoutes).remRoutes6.Nodup ∧
    (routeSets routes routes6 vcRoutes).addRoutes.Nodup ∧
    (routeSets routes routes6 vcRoutes).addRoutes6.Nodup := by
  refine ⟨nodup_setSubtract _ _ (nodup_foldl_setAdd _), nodup_setSubtract _ _ (nodup_foldl_setAdd _),
    nodup_setSubtract _ _ ?_, nodup_setSubtract _ _ ?_⟩
  · exact nodup_foldl_setAdd_if (fun x : Route => !stringsContains x.Destination ":") _ []
      List.nodup_nil
  · have e : (fun (s : List Route) (route : Route) =>
        if (!stringsContains route.Destination ":") = true then s else setAdd s route) =
        (fun s x => if stringsContains x.Destination ":" = true then setAdd s x else s) := by
      funext s x
      cases stringsContains x.Destination ":" <;> simp
    simp only [e]
    exact nodup_foldl_setAdd_if (fun x : Route => stringsContains x.Destination ":") _ []
      List.nodup_nil

theorem mem_remRoutes (routes routes6 vcRoutes : List Route) (r : Route) :
    r ∈ (routeSets routes routes6 vcRoutes).remRoutes ↔
      r ∈ routes ∧ ¬ (r ∈ vcRoutes ∧ stringsContains r.Destination ":" = false) := by
  rw [← mem_newRoutes routes routes6 vcRoutes, ← mem_curRoutes routes routes6 vcRoutes]
  exact mem_setSubtract _ _ r

theorem mem_remRoutes6 (routes routes6 vcRoutes : List Route) (r : Route) :
    r ∈ (routeSets routes routes6 vcRoutes).remRoutes6 ↔
      r ∈ routes6 ∧ ¬ (r ∈ vcRoutes ∧ stringsContains r.Destination ":" = true) := by
  rw [← mem_newRoutes6 routes routes6 vcRoutes, ← mem_curRoutes6 routes routes6 vcRoutes]
  exact mem_setSubtract _ _ r

theorem mem_addRoutes (routes routes6 vcRoutes : List Route) (r : Route) :
    r ∈ (routeSets routes routes6 vcRoutes).addRoutes ↔
      r ∈ vcRoutes ∧ stringsContains r.Destination ":" = false ∧ r ∉ routes := by
  rw [← mem_curRoutes routes routes6 vcRoutes, ← and_assoc,
    ← mem_newRoutes routes routes6 vcRoutes]
  exact mem_setSubtract _ _ r

theorem mem_addRoutes6 (routes routes6 vcRoutes : List Route) (r : Route) :
    r ∈ (routeSets routes routes6 vcRoutes).addRoutes6 ↔
      r ∈ vcRoutes ∧ stringsContains r.Destination ":" = true ∧ r ∉ routes6 := by
  rw [← mem_curRoutes6 routes routes6 vcRoutes, ← and_assoc,
    ← mem_newRoutes6 routes routes6 vcRoutes]
  exact mem_setSubtract _ _ r

theorem execDel_injective (ns : String) : Function.Injective (execDel ns) := by
  intro a b h
  cases a; cases b
  simp only [execDel, Exec.mk.injEq, List.cons.injEq, true_and, and_true] at h
  simp [h.1, h.2]

theorem execDel6_injective (ns : String) : Function.Injective (execDel6 ns) := by
  intro a b h
  cases a; cases b
  simp only [execDel6, Exec.mk.injEq, List.cons.injEq, true_and, and_true] at h
  simp [h.1, h.2]

theorem execAdd_injective (ns : String) : Function.Injective (execAdd ns) := by
  intro a b h
  cases a; cases b
  simp only [execAdd, Exec.mk.injEq, List.cons.injEq, true_and, and_true] at h
  simp [h.1, h.2]

theorem execAdd6_injective (ns : String) : Function.Injective (execAdd6 ns) := by
  intro a b h
  cases a; cases b
  simp only [execAdd6, Exec.mk.injEq, List.cons.injEq, true_and, and_true] at h
  simp [h.1, h.2]

/-- Counterexample to C6: the VPC of instance `"i1"` is in the snapshot with
the routes `10.1.0.0/16 via 10.0.0.1` and `fd00::/64 via fd00::1`, the
catalog holds the observed IPv4 route only, but `"i1"` is locked when
`routes` is called (the lock state is the one `Lock("i1")` leaves): `routes`
returns at line 275 and no command is issued, though `fd00::/64` is desired
and not observed. -/
theorem routes_locked_issues_nothing :
    Lock (NewMultiTimeoutLock 180) "i1" 1 = some
      { counts := [("i1", 1)], locks := [("i1", 0)], state := [(1, true)], timeout := 180,
        mutexes := [true] } ∧
    routesCmds
      { lock := { counts := [("i1", 1)], locks := [("i1", 0)], state := [(1, true)],
                  timeout := 180, mutexes := [true] }
        nextId := 2, node := { CpuUnitsRes := 0, MemoryUnitsRes := 0 }, trace := [] }
      { ns := "n1"
        vc := some { Routes := [{ Destination := "10.1.0.0/16", Target := "10.0.0.1" },
                                { Destination := "fd00::/64", Target := "fd00::1" }] }
        routesStore := some ([{ Destination := "10.1.0.0/16", Target := "10.0.0.1" }], [])
        probe := (none, none), probeErr := false }
      { Id := "i1", Name := "", State := instance.Start, Vpc := "v1", Domain := "",
        Memory := 1024, Processors := 1, NetworkRoles := [], Restart := false } = [] :=
  ⟨rfl, rfl⟩

/-- C6, amended: for an instance whose id is not locked when `routes` is
called, whose VPC is found and whose observed routes are available (from the
catalog, or from a probe without error that gave two non-nil slices), the
commands issued are, each exactly once: `ip route del DEST via TGT metric 97`
for every observed IPv4 route that is not a desired IPv4 route, the same
with `-6` for every observed IPv6 route that is not a desired IPv6 route,
`ip route add DEST via TGT metric 97` for every desired route without `":"`
in its destination that is not an observed IPv4 route, and the same with
`-6` for every desired route with `":"` that is not an observed IPv6 route;
nothing else is issued. -/
theorem routes_commands (w : World) (env : RoutesEnv) (inst : Instance) (vc : Vpc)
    (routes routes6 : List Route)
    (hlock : Locked w.lock inst.Id = false) (hvc : env.vc = some vc)
    (hobs : env.routesStore = some (routes, routes6) ∨
      (env.routesStore = none ∧ env.probeErr = false ∧ env.probe = (some routes, some routes6))) :
    (routesCmds w env inst).Nodup ∧
    ∀ c, c ∈ routesCmds w env inst ↔
      (∃ r, (r ∈ routes ∧ ¬ (r ∈ vc.Routes ∧ stringsContains r.Destination ":" = false)) ∧
        c = { ignores := [], name := "ip"
              args := ["netns", "exec", env.ns, "ip", "route", "del", r.Destination,
                "via", r.Target, "metric", "97"] }) ∨
      (∃ r, (r ∈ routes6 ∧ ¬ (r ∈ vc.Routes ∧ stringsContains r.Destination ":" = true)) ∧
        c = { ignores := [], name := "ip"
              args := ["netns", "exec", env.ns, "ip", "-6", "route", "del", r.Destination,
                "via", r.Target, "metric", "97"] }) ∨
      (∃ r, (r ∈ vc.Routes ∧ stringsContains r.Destination ":" = false ∧ r ∉ routes) ∧
        c = { ignores := ["File exists"], name := "ip"
              args := ["netns", "exec", env.ns, "ip", "route", "add", r.Destination,
                "via", r.Target, "metric", "97"] }) ∨
      (∃ r, (r ∈ vc.Routes ∧ stringsContains r.Destination ":" = true ∧ r ∉ routes6) ∧
        c = { ignores := ["File exists"], name := "ip"
              args := ["netns", "exec", env.ns, "ip", "-6", "route", "add", r.Destination,
                "via", r.Target, "metric", "97"] }) := by
  have hcmds : routesCmds w env inst =
      (routeSets routes routes6 vc.Routes).remRoutes.map (execDel env.ns) ++
      (routeSets routes routes6 vc.Routes).remRoutes6.map (execDel6 env.ns) ++
      (routeSets routes routes6 vc.Routes).addRoutes.map (execAdd env.ns) ++
      (routeSets routes routes6 vc.Routes).addRoutes6.map (execAdd6 env.ns) := by
    unfold routesCmds
    rw [hlock]
    exact routesWorker_cmds env inst.Id vc routes routes6 hvc hobs
  obtain ⟨n1, n2, n3, n4⟩ := routeSets_nodup routes routes6 vc.Routes
  constructor
  · rw [hcmds]
    have m1 := n1.map (execDel_injective env.ns)
    have m2 := n2.map (execDel6_injective env.ns)
    have m3 := n3.map (execAdd_injective env.ns)
    have m4 := n4.map (execAdd6_injective env.ns)
    rw [List.nodup_append, List.nodup_append, List.nodup_append]
    refine ⟨⟨⟨m1, m2, ?_⟩, m3, ?_⟩, m4, ?_⟩
    · intro c h1 h2
      simp only [List.mem_map] at h1 h2
      obtain ⟨a, _, rfl⟩ := h1
      obtain ⟨b, _, hb⟩ := h2
      simp [execDel, execDel6] at hb
    · intro c h1 h2
      simp only [List.mem_map, List.mem_append] at h1 h2
      obtain ⟨b, _, hb⟩ := h2
      rcases h1 with ⟨a, _, rfl⟩ | ⟨a, _, rfl⟩
      · simp [execDel, execAdd] at hb
      · simp [execDel6, execAdd] at hb
    · intro c h1 h2
      simp only [List.mem_map, List.mem_append] at h1 h2
      obtain ⟨b, _, hb⟩ := h2
      rcases h1 with (⟨a, _, rfl⟩ | ⟨a, _, rfl⟩) | ⟨a, _, rfl⟩
      · simp [execDel, execAdd6] at hb
      · simp [execDel6, execAdd6] at hb
      · simp [execAdd, execAdd6] at hb
  · intro c
    rw [hcmds]
    simp only [List.mem_append, List.mem_map, mem_remRoutes, mem_remRoutes6, mem_addRoutes,
      mem_addRoutes6, or_assoc]
    constructor
    · rintro (⟨r, h, rfl⟩ | ⟨r, h, rfl⟩ | ⟨r, h, rfl⟩ | ⟨r, h, rfl⟩)
      · exact Or.inl ⟨r, h, rfl⟩
      · exact Or.inr (Or.inl ⟨r, h, rfl⟩)
      · exact Or.inr (Or.inr (Or.inl ⟨r, h, rfl⟩))
      · exact Or.inr (Or.inr (Or.inr ⟨r, h, rfl⟩))
    · rintro (⟨r, h, rfl⟩ | ⟨r, h, rfl⟩ | ⟨r, h, rfl⟩ | ⟨r, h, rfl⟩)
      · exact Or.inl ⟨r, h, rfl⟩
      · exact Or.inr (Or.inl ⟨r, h, rfl⟩)
      · exact Or.inr (Or.inr (Or.inl ⟨r, h, rfl⟩))
      · exact Or.inr (Or.inr (Or.inr ⟨r, h, rfl⟩))

/-- Witness of the amended C6, on scenario 4 of the spec: desired
`10.1.0.0/16 via 10.0.0.1` and `fd00::/64 via fd00::1`, observed the IPv4
route only, the id not locked: the commands issued are the single
`ip -6 route add fd00::/64 via fd00::1 metric 97`. -/
theorem routes_commands_witness :
    (routesCmds
      { lock := NewMultiTimeoutLock 180, nextId := 0
        node := { CpuUnitsRes := 0, MemoryUnitsRes := 0 }, trace := [] }
      { ns := "n1"
        vc := some { Routes := [{ Destination := "10.1.0.0/16", Target := "10.0.0.1" },
                                { Destination := "fd00::/64", Target := "fd00::1" }] }
        routesStore := some ([{ Destination := "10.1.0.0/16", Target := "10.0.0.1" }], [])
        probe := (none, none), probeErr := false }
      { Id := "i1", Name := "", State := instance.Start, Vpc := "v1", Domain := "",
        Memory := 1024, Processors := 1, NetworkRoles := [], Restart := false }).Nodup ∧
    routesCmds
      { lock := NewMultiTimeoutLock 180, nextId := 0
        node := { CpuUnitsRes := 0, MemoryUnitsRes := 0 }, trace := [] }
      { ns := "n1"
        vc := some { Routes := [{ Destination := "10.1.0.0/16", Target := "10.0.0.1" },
                                { Destination := "fd00::/64", Target := "fd00::1" }] }
        routesStore := some ([{ Destination := "10.1.0.0/16", Target := "10.0.0.1" }], [])
        probe := (none, none), probeErr := false }
      { Id := "i1", Name := "", State := instance.Start, Vpc := "v1", Domain := "",
        Memory := 1024, Processors := 1, NetworkRoles := [], Restart := false } =
      [{ ignores := ["File exists"], name := "ip"
         args := ["netns", "exec", "n1", "ip", "-6", "route", "add", "fd00::/64",
           "via", "fd00::1", "metric", "97"] }] :=
  ⟨(routes_commands
      { lock := NewMultiTimeoutLock 180, nextId := 0
        node := { CpuUnitsRes := 0, MemoryUnitsRes := 0 }, trace := [] }
      { ns := "n1"
        vc := some { Routes := [{ Destination := "10.1.0.0/16", Target := "10.0.0.1" },
                                { Destination := "fd00::/64", Target := "fd00::1" }] }
        routesStore := some ([{ Destination := "10.1.0.0/16", Target := "10.0.0.1" }], [])
        probe := (none, none), probeErr := false }
      { Id := "i1", Name := "", State := instance.Start, Vpc := "v1", Domain := "",
        Memory := 1024, Processors := 1, NetworkRoles := [], Restart := false }
      { Routes := [{ Destination := "10.1.0.0/16", Target := "10.0.0.1" },
                   { Destination := "fd00::/64", Target := "fd00::1" }] }
      [{ Destination := "10.1.0.0/16", Target := "10.0.0.1" }] []
      rfl rfl (Or.inl rfl)).1, by decide⟩

/-! ## qemu.GetRoutes -/

/-- A row of `route -n` that yields a route has metric column `"97"`,
destination and gateway columns other than `"0.0.0.0"`, and the route is
built from its columns. -/
theorem parseRow4_some (lib : NetLib) (line : String) (r : Route)
    (h : parseRow4 lib line = some r) :
    (stringsFields line).getD 4 "" = "97" ∧
    (stringsFields line).getD 0 "" ≠ "0.0.0.0" ∧
    (stringsFields line).getD 1 "" ≠ "0.0.0.0" ∧
    r.Target = (stringsFields line).getD 1 "" ∧
    ∃ cidr, lib.maskSize ((stringsFields line).getD 2 "") = some cidr ∧
      r.Destination = (stringsFields line).getD 0 "" ++ "/" ++ toString cidr := by
  unfold parseRow4 at h
  dsimp only at h
  split_ifs at h with h0 h1 h2 h3
  push_neg at h3
  have h2' : (stringsFields line).getD 4 "" = "97" := not_not.mp h2
  cases hm : lib.maskSize ((stringsFields line).getD 2 "") with
  | none => rw [hm] at h; exact absurd h (by simp)
  | some cidr =>
    rw [hm] at h
    have h' := Option.some.inj h
    subst h'
    exact ⟨h2', h3.1, h3.2, rfl, cidr, rfl, rfl⟩

/-- A row of `route -6 -n` that yields a route has metric column `"97"`. -/
theorem parseRow6_some (lib : NetLib) (line : String) (r : Route)
    (h : parseRow6 lib line = some r) :
    (stringsFields line).getD 3 "" = "97" ∧
    lib.parseCIDR ((stringsFields line).getD 0 "") = some r.Destination ∧
    lib.parseIP ((stringsFields line).getD 1 "") = some r.Target := by
  unfold parseRow6 at h
  dsimp only at h
  split_ifs at h with h0 h1 h2
  have h2' : (stringsFields line).getD 3 "" = "97" := not_not.mp h2
  cases hc : lib.parseCIDR ((stringsFields line).getD 0 "") with
  | none => rw [hc] at h; exact absurd h (by simp)
  | some d =>
    cases hp : lib.parseIP ((stringsFields line).getD 1 "") with
    | none => rw [hc, hp] at h; exact absurd h (by simp)
    | some t =>
      rw [hc, hp] at h
      have h' := Option.some.inj h
      subst h'
      exact ⟨h2', rfl, rfl⟩

/-- The part of C7 the code keeps: every route `GetRoutes` returns comes from
a data row (after the two header lines) whose metric column is `"97"`, and a
returned IPv4 route comes from a row whose destination and gateway columns
are not `"0.0.0.0"`. -/
theorem GetRoutes_rows (lib : NetLib) (output output6 : String) (rs rs6 : List Route)
    (h : GetRoutes lib output output6 = (some rs, some rs6)) :
    (∀ r ∈ rs, ∃ line ∈ (splitLines output).drop 2,
      (stringsFields line).getD 4 "" = "97" ∧
      (stringsFields line).getD 0 "" ≠ "0.0.0.0" ∧
      (stringsFields line).getD 1 "" ≠ "0.0.0.0" ∧
      r.Target = (stringsFields line).getD 1 "") ∧
    (∀ r ∈ rs6, ∃ line ∈ (splitLines output6).drop 2,
      (stringsFields line).getD 3 "" = "97") := by
  unfold GetRoutes at h
  by_cases h0 : output = ""
  · simp [h0] at h
  · simp only [h0, if_false, Prod.mk.injEq, Option.some.injEq] at h
    obtain ⟨h4, h6⟩ := h
    have hrows : ∀ out line, line ∈ dataRows out → line ∈ (splitLines out).drop 2 := by
      intro out line hl
      unfold dataRows at hl
      by_cases hlen : (splitLines out).length > 2
      · simpa [hlen] using hl
      · simp [hlen] at hl
    constructor
    · intro r hr
      rw [← h4, List.mem_filterMap] at hr
      obtain ⟨line, hline, hp⟩ := hr
      obtain ⟨a, b, c, d, _⟩ := parseRow4_some lib line r hp
      exact ⟨line, hrows _ _ hline, a, b, c, d⟩
    · intro r hr
      rw [← h6, List.mem_filterMap] at hr
      obtain ⟨line, hline, hp⟩ := hr
      exact ⟨line, hrows _ _ hline, (parseRow6_some lib line r hp).1⟩

/-- C7, the failing input: with a `route -6 -n` listing whose only data row
is the default route `::/0 via fe80::1` at metric 97, `GetRoutes` returns
that row as an IPv6 route with destination `"::/0"`. The IPv4 loop skips
its default and zero rows (lines 52-54); the IPv6 loop has no such test. -/
theorem GetRoutes_returns_ipv6_default :
    GetRoutes sampleNetLib
      ("Kernel IP routing table\n" ++
       "Destination     Gateway         Genmask         Flags Metric Ref    Use Iface\n" ++
       "0.0.0.0         10.0.0.1        0.0.0.0         UG    97     0        0 eth0\n" ++
       "10.1.0.0        10.0.0.1        255.255.0.0     UG    97     0        0 eth0\n")
      ("Kernel IPv6 routing table\n" ++
       "Destination                    Next Hop                   Flag Met Ref Use If\n" ++
       "::/0                           fe80::1                    UG   97  1     0 eth0\n") =
    (some [{ Destination := "10.1.0.0/16", Target := "10.0.0.1" }],
     some [{ Destination := "::/0", Target := "fe80::1" }]) := by
  decide

/-! ## The reconciler -/

theorem Locked_false_iff (m : MultiTimeoutLock) (id : String) :
    Locked m id = false ↔ mapGet m.locks id = none := by
  simp [Locked, mapHas]

/-- On a locked id the head of a reconciler action returns at once. -/
theorem enqueue_locked (w : World) (a : Action) (id : String) (t : Option Nat)
    (h : Locked w.lock id = true) : enqueue w a id t = some w := by
  simp [enqueue, h]

/-- On an id that is not locked the head of a reconciler action takes the
lock and starts the goroutine; the call to `Lock` returns. -/
theorem enqueue_unlocked (w : World) (a : Action) (id : String) (t : Option Nat)
    (h : Locked w.lock id = false) :
    enqueue w a id t = some
      { lock :=
          { counts := mapSet w.lock.counts id ((mapGet w.lock.counts id).getD 0 + 1)
            locks := mapSet w.lock.locks id w.lock.mutexes.length
            state := mapSet w.lock.state w.nextId true
            timeout := w.lock.timeout
            mutexes := w.lock.mutexes ++ [true] }
        nextId := w.nextId + 1
        node := w.node
        trace := w.trace ++ [Event.spawn a id w.nextId] } := by
  have hl := (Locked_false_iff _ _).1 h
  cases t with
  | none => simp [enqueue, h, Lock_of_absent _ _ _ hl, World.emit]
  | some t =>
    simp [enqueue, h, LockTimeout_eq_Lock, Lock_of_absent _ _ _ hl, World.emit]

/-- The head of a reconciler action always returns; it appends nothing or
one `spawn` event, and leaves `node.Self` alone. -/
theorem enqueue_spec (w : World) (a : Action) (id : String) (t : Option Nat) :
    ∃ w', enqueue w a id t = some w' ∧ w'.node = w.node ∧
      ((Locked w.lock id = true ∧ w' = w) ∨
       (Locked w.lock id = false ∧ w'.trace = w.trace ++ [Event.spawn a id w.nextId] ∧
          Locked w'.lock id = true)) := by
  cases h : Locked w.lock id with
  | true => exact ⟨w, enqueue_locked w a id t h, rfl, Or.inl ⟨rfl, rfl⟩⟩
  | false =>
    refine ⟨_, enqueue_unlocked w a id t h, rfl, Or.inr ⟨rfl, rfl, ?_⟩⟩
    simp [Locked, mapHas, mapGet_mapSet]

theorem diff_spec (x : Extern) (stat : State) (w : World) (inst : Instance) :
    ∃ w1 inst1 err evs, diff x stat w inst = some (w1, inst1, err) ∧
      w1.trace = w.trace ++ evs ∧ w1.node = w.node ∧
      deployCalls evs = [(Action.diff, inst.Id)] ∧
      (∀ e ∈ evs, e.isPower = false) ∧
      (∀ f ∈ committedFields evs, f = "restart") ∧
      inst1.Id = inst.Id ∧
      (Locked w.lock inst.Id = true → evs = [Event.call Action.diff inst.Id] ∧ inst1 = inst ∧
        err = false) ∧
      (Locked w.lock inst.Id = false →
        inst1.Restart = diffChanged x stat inst ∧
        evs.filter Event.isCommit =
          (if (diffChanged x stat inst = true ∧ inst.Restart = false) ∨
              (diffChanged x stat inst = false ∧ inst.Restart = true)
            then [Event.commit inst.Id ["restart"]] else [])) := by
  cases hres : diff x stat w inst with
  | none =>
    exfalso
    unfold diff at hres
    cases hl : Locked w.lock inst.Id <;> cases hc : diffChanged x stat inst <;>
      cases hr : inst.Restart <;>
      cases hk : x.CommitFields { inst with Restart := true } ["restart"] <;>
      cases hk' : x.CommitFields { inst with Restart := false } ["restart"] <;>
      cases hd : (x.DiskChanged inst (stat.GetVirt inst.Id)).2 <;>
      simp [World.emit, hl, hc, hr, hk, hk', hd, diskRemove, enqueue_unlocked, enqueue_locked]
        at hres
  | some r =>
    obtain ⟨w1, inst1, err⟩ := r
    refine ⟨w1, inst1, err, w1.trace.drop w.trace.length, rfl, ?_⟩
    unfold diff at hres
    cases hl : Locked w.lock inst.Id <;> cases hc : diffChanged x stat inst <;>
      cases hr : inst.Restart <;>
      cases hk : x.CommitFields { inst with Restart := true } ["restart"] <;>
      cases hk' : x.CommitFields { inst with Restart := false } ["restart"] <;>
      cases hd : (x.DiskChanged inst (stat.GetVirt inst.Id)).2 <;>
      simp [World.emit, hl, hc, hr, hk, hk', hd, diskRemove, enqueue_unlocked, enqueue_locked]
        at hres <;>
      obtain ⟨rfl, rfl, rfl⟩ := hres <;>
      simp [deployCalls, calls, Event.isPower, Event.isCommit, committedFields, hr, hc]

theorem calls_append (a b : List Event) : calls (a ++ b) = calls a ++ calls b := by
  induction a with
  | nil => rfl
  | cons e rest ih => cases e <;> simp [calls, ih]

theorem deployCalls_append (a b : List Event) :
    deployCalls (a ++ b) = deployCalls a ++ deployCalls b := by
  simp [deployCalls, calls_append]

theorem committedFields_append (a b : List Event) :
    committedFields (a ++ b) = committedFields a ++ committedFields b := by
  induction a with
  | nil => rfl
  | cons e rest ih => cases e <;> simp [committedFields, ih]

/-- A reconciler action other than `diff` and `check`: it returns, records
its call, starts at most its goroutine, and neither runs a hypervisor
primitive nor writes to the database itself. -/
theorem enqueue_call_spec (w : World) (a : Action) (id : String) (t : Option Nat) :
    ∃ w' evs, enqueue (w.emit (Event.call a id)) a id t = some w' ∧
      w'.trace = w.trace ++ evs ∧ w'.node = w.node ∧ calls evs = [(a, id)] ∧
      (∀ e ∈ evs, e.isPower = false) ∧ committedFields evs = [] := by
  obtain ⟨w', h, hn, hc⟩ := enqueue_spec (w.emit (Event.call a id)) a id t
  rcases hc with ⟨_, rfl⟩ | ⟨_, ht, _⟩
  · exact ⟨_, [Event.call a id], h, rfl, rfl, rfl, by simp [Event.isPower], rfl⟩
  · refine ⟨w', [Event.call a id, Event.spawn a id w.nextId], h, ?_, hn, rfl,
      by simp [Event.isPower], rfl⟩
    rw [ht]
    simp [World.emit]

theorem states_distinct :
    instance.Start ≠ instance.Destroy ∧ instance.Stop ≠ instance.Destroy ∧
    instance.Restart ≠ instance.Destroy ∧ instance.Start ≠ instance.Stop ∧
    instance.Start ≠ instance.Restart ∧ instance.Stop ≠ instance.Restart := by
  decide

/-- One pass of the loop body of `Deploy` always returns, and the events it
appends follow the dispatch of lines 440-492. -/
theorem deployInstance_spec (x : Extern) (stat : State) (ns : List String) (w : World)
    (u : Units) (inst : Instance) :
    ∃ w1 inst1 u1 err seg, deployInstance x stat ns w u inst = some (w1, inst1, u1, err) ∧
      w1.trace = w.trace ++ seg ∧ w1.node = w.node ∧
      (∀ e ∈ seg, e.isPower = false) ∧ (∀ f ∈ committedFields seg, f = "restart") ∧
      (inst.State = instance.Destroy →
        calls seg = [(Action.destroy, inst.Id)] ∧ err = false ∧ u1 = u) ∧
      (inst.State ≠ instance.Destroy →
        u1 = Units.add u inst) ∧
      (inst.State ≠ instance.Destroy → stat.GetVirt inst.Id = none →
        calls seg = [(Action.create, inst.Id)] ∧ err = false) ∧
      (∀ virt, inst.State ≠ instance.Destroy → stat.GetVirt inst.Id = some virt →
        (inst.State = instance.Start → (virt.State = vm.Stopped ∨ virt.State = vm.Failed) →
          calls seg = [(Action.start, inst.Id)] ∧ err = false) ∧
        (inst.State = instance.Start → ¬ (virt.State = vm.Stopped ∨ virt.State = vm.Failed) →
          setContains ns (x.GetNamespace inst.Id 0) = false →
          calls seg = [(Action.check, inst.Id)] ∧ err = false) ∧
        (inst.State = instance.Start → ¬ (virt.State = vm.Stopped ∨ virt.State = vm.Failed) →
          setContains ns (x.GetNamespace inst.Id 0) = true →
          (err = false ∧ deployCalls seg =
            [(Action.check, inst.Id), (Action.diff, inst.Id), (Action.routes, inst.Id)]) ∨
          (err = true ∧ deployCalls seg =
            [(Action.check, inst.Id), (Action.diff, inst.Id)])) ∧
        (inst.State = instance.Stop → virt.State = vm.Running →
          calls seg = [(Action.stop, inst.Id)] ∧ err = false) ∧
        (inst.State = instance.Restart → virt.State = vm.Running →
          calls seg = [(Action.restart, inst.Id)] ∧ err = false) ∧
        ((inst.State = instance.Stop ∧ virt.State ≠ vm.Running) ∨
          (inst.State = instance.Restart ∧ virt.State ≠ vm.Running) ∨
          (inst.State ≠ instance.Start ∧ inst.State ≠ instance.Stop ∧
            inst.State ≠ instance.Restart) → seg = [] ∧ err = false)) := by
  obtain ⟨d1, d2, d3, d4, d5, d6⟩ := states_distinct
  by_cases hD : inst.State = instance.Destroy
  · -- destroy
    obtain ⟨w', evs, h, ht, hn, hc, hp, hf⟩ :=
      enqueue_call_spec w Action.destroy inst.Id none
    refine ⟨w', inst, u, false, evs, ?_, ht, hn, hp, by simp [hf], ?_, ?_, ?_, ?_⟩
    · simp [deployInstance, hD, destroy, h]
    · intro _; exact ⟨hc, rfl, rfl⟩
    · intro h'; exact absurd hD h'
    · intro h'; exact absurd hD h'
    · intro _ h'; exact absurd hD h'
  · cases hv : stat.GetVirt inst.Id with
    | none =>
      obtain ⟨w', evs, h, ht, hn, hc, hp, hf⟩ :=
        enqueue_call_spec w Action.create inst.Id (some 600)
      refine ⟨w', inst,
              (Units.add u inst), false, evs, ?_, ht, hn, hp, by simp [hf], ?_, ?_, ?_, ?_⟩
      · simp [deployInstance, hD, hv, create, h]
      · intro h'; exact absurd h' hD
      · intro _; rfl
      · intro _ _; exact ⟨hc, rfl⟩
      · intro virt _ h'; exact absurd h' (by simp)
    | some virt =>
      by_cases hS : inst.State = instance.Start
      · by_cases hO : virt.State = vm.Stopped ∨ virt.State = vm.Failed
        · obtain ⟨w', evs, h, ht, hn, hc, hp, hf⟩ :=
            enqueue_call_spec w Action.start inst.Id none
          refine ⟨w', inst,
              (Units.add u inst), false, evs, ?_, ht, hn, hp, by simp [hf], ?_, ?_, ?_, ?_⟩
          · simp [deployInstance, hD, hv, hS, d1, hO, start, h]
          · intro h'; exact absurd h' hD
          · intro _; rfl
          · intro _ h'; exact absurd h' (by simp)
          · intro virt' _ hv'
            have e : virt' = virt := (Option.some.inj hv').symm
            subst e
            refine ⟨fun _ _ => ⟨hc, rfl⟩, fun _ h' => absurd hO h', fun _ h' => absurd hO h',
              fun h' => absurd (hS.symm.trans h') d4, fun h' => absurd (hS.symm.trans h') d5, ?_⟩
            rintro (⟨h', _⟩ | ⟨h', _⟩ | ⟨h', _⟩)
            · exact absurd (hS.symm.trans h') d4
            · exact absurd (hS.symm.trans h') d5
            · exact absurd hS h'
        · cases hN : setContains ns (x.GetNamespace inst.Id 0) with
          | false =>
            refine ⟨(w.emit (Event.call Action.check inst.Id)).emit
                (Event.log "deploy: Instance missing namespace"), inst,
              (Units.add u inst), false, [Event.call Action.check inst.Id,
              Event.log "deploy: Instance missing namespace"], ?_, ?_, ?_, ?_, ?_, ?_, ?_, ?_, ?_⟩
            · simp [deployInstance, hD, hv, hS, d1, hO, check, hN]
            · simp [World.emit]
            · rfl
            · simp [Event.isPower]
            · simp [committedFields]
            · intro h'; exact absurd h' hD
            · intro _; rfl
            · intro _ h'; exact absurd h' (by simp)
            · intro virt' _ hv'
              have e : virt' = virt := (Option.some.inj hv').symm
              subst e
              refine ⟨fun _ h' => absurd h' hO, fun _ _ _ => ⟨rfl, rfl⟩,
                fun _ _ h' => absurd h' (by simp),
                fun h' => absurd (hS.symm.trans h') d4, fun h' => absurd (hS.symm.trans h') d5,
                ?_⟩
              rintro (⟨h', _⟩ | ⟨h', _⟩ | ⟨h', _⟩)
              · exact absurd (hS.symm.trans h') d4
              · exact absurd (hS.symm.trans h') d5
              · exact absurd hS h'
          | true =>
            obtain ⟨w2, inst2, derr, evs, hdiff, ht2, hn2, hc2, hp2, hf2, hid, _, _⟩ :=
              diff_spec x stat (w.emit (Event.call Action.check inst.Id)) inst
            cases derr with
            | true =>
              refine ⟨w2, inst2,
              (Units.add u inst), true, Event.call Action.check inst.Id :: evs,
                ?_, ?_, ?_, ?_, ?_, ?_, ?_, ?_, ?_⟩
              · simp [deployInstance, hD, hv, hS, d1, hO, check, hN, hdiff]
              · rw [ht2]; simp [World.emit]
              · rw [hn2]; rfl
              · intro e he
                rcases List.mem_cons.1 he with rfl | he
                · rfl
                · exact hp2 e he
              · intro f hf
                exact hf2 f (by simpa [committedFields] using hf)
              · intro h'; exact absurd h' hD
              · intro _; rfl
              · intro _ h'; exact absurd h' (by simp)
              · intro virt' _ hv'
                have e : virt' = virt := (Option.some.inj hv').symm
                subst e
                refine ⟨fun _ h' => absurd h' hO, fun _ _ h' => absurd h' (by simp),
                  fun _ _ _ => Or.inr ⟨rfl, ?_⟩,
                  fun h' => absurd (hS.symm.trans h') d4,
                  fun h' => absurd (hS.symm.trans h') d5, ?_⟩
                · have := deployCalls_append [Event.call Action.check inst.Id] evs
                  simp only [List.singleton_append] at this
                  rw [this, hc2]
                  rfl
                · rintro (⟨h', _⟩ | ⟨h', _⟩ | ⟨h', _⟩)
                  · exact absurd (hS.symm.trans h') d4
                  · exact absurd (hS.symm.trans h') d5
                  · exact absurd hS h'
            | false =>
              obtain ⟨w3, evs3, h3, ht3, hn3, hc3, hp3, hf3⟩ :=
                enqueue_call_spec w2 Action.routes inst2.Id none
              refine ⟨w3, inst2,
              (Units.add u inst), false, Event.call Action.check inst.Id :: (evs ++ evs3),
                ?_, ?_, ?_, ?_, ?_, ?_, ?_, ?_, ?_⟩
              · simp [deployInstance, hD, hv, hS, d1, hO, check, hN, hdiff, routes, h3]
              · rw [ht3, ht2]; simp [World.emit]
              · rw [hn3, hn2]; rfl
              · intro e he
                rcases List.mem_cons.1 he with rfl | he
                · rfl
                · rcases List.mem_append.1 he with he | he
                  · exact hp2 e he
                  · exact hp3 e he
              · intro f hf
                have : f ∈ committedFields evs := by
                  have e : committedFields (Event.call Action.check inst.Id :: (evs ++ evs3)) =
                      committedFields evs := by
                    simp [committedFields, committedFields_append, hf3]
                  rw [e] at hf
                  exact hf
                exact hf2 f this
              · intro h'; exact absurd h' hD
              · intro _; rfl
              · intro _ h'; exact absurd h' (by simp)
              · intro virt' _ hv'
                have e : virt' = virt := (Option.some.inj hv').symm
                subst e
                refine ⟨fun _ h' => absurd h' hO, fun _ _ h' => absurd h' (by simp),
                  fun _ _ _ => Or.inl ⟨rfl, ?_⟩,
                  fun h' => absurd (hS.symm.trans h') d4,
                  fun h' => absurd (hS.symm.trans h') d5, ?_⟩
                · have e1 := deployCalls_append [Event.call Action.check inst.Id] (evs ++ evs3)
                  simp only [List.singleton_append] at e1
                  rw [e1, deployCalls_append, hc2]
                  simp [deployCalls, hc3, calls, hid]
                · rintro (⟨h', _⟩ | ⟨h', _⟩ | ⟨h', _⟩)
                  · exact absurd (hS.symm.trans h') d4
                  · exact absurd (hS.symm.trans h') d5
                  · exact absurd hS h'
      · by_cases hT : inst.State = instance.Stop
        · by_cases hR : virt.State = vm.Running
          · obtain ⟨w', evs, h, ht, hn, hc, hp, hf⟩ :=
              enqueue_call_spec w Action.stop inst.Id none
            refine ⟨w', inst,
              (Units.add u inst), false, evs, ?_, ht, hn, hp, by simp [hf], ?_, ?_, ?_, ?_⟩
            · simp [deployInstance, hD, hv, hS, hT, d2, Ne.symm d4, hR, stop, h]
            · intro h'; exact absurd h' hD
            · intro _; rfl
            · intro _ h'; exact absurd h' (by simp)
            · intro virt' _ hv'
              have e : virt' = virt := (Option.some.inj hv').symm
              subst e
              refine ⟨fun h' => absurd h' hS, fun h' => absurd h' hS, fun h' => absurd h' hS,
                fun _ _ => ⟨hc, rfl⟩, fun h' => absurd (hT.symm.trans h') d6, ?_⟩
              rintro (⟨_, h'⟩ | ⟨h', _⟩ | ⟨_, h', _⟩)
              · exact absurd hR h'
              · exact absurd (hT.symm.trans h') d6
              · exact absurd hT h'
          · refine ⟨w, inst,
              (Units.add u inst), false, [], ?_, by simp, rfl, by simp, by simp [committedFields],
              ?_, ?_, ?_, ?_⟩
            · simp [deployInstance, hD, hv, hS, hT, d2, Ne.symm d4, hR]
            · intro h'; exact absurd h' hD
            · intro _; rfl
            · intro _ h'; exact absurd h' (by simp)
            · intro virt' _ hv'
              have e : virt' = virt := (Option.some.inj hv').symm
              subst e
              exact ⟨fun h' => absurd h' hS, fun h' => absurd h' hS, fun h' => absurd h' hS,
                fun _ h' => absurd h' hR, fun h' => absurd (hT.symm.trans h') d6,
                fun _ => ⟨rfl, rfl⟩⟩
        · by_cases hRs : inst.State = instance.Restart
          · by_cases hR : virt.State = vm.Running
            · obtain ⟨w', evs, h, ht, hn, hc, hp, hf⟩ :=
                enqueue_call_spec w Action.restart inst.Id none
              refine ⟨w', inst,
              (Units.add u inst), false, evs, ?_, ht, hn, hp, by simp [hf], ?_, ?_, ?_, ?_⟩
              · simp [deployInstance, hD, hv, hS, hT, d2, Ne.symm d4, hRs, d3, Ne.symm d5, Ne.symm d6, hR, restart, h]
              · intro h'; exact absurd h' hD
              · intro _; rfl
              · intro _ h'; exact absurd h' (by simp)
              · intro virt' _ hv'
                have e : virt' = virt := (Option.some.inj hv').symm
                subst e
                refine ⟨fun h' => absurd h' hS, fun h' => absurd h' hS, fun h' => absurd h' hS,
                  fun h' => absurd h' hT, fun _ _ => ⟨hc, rfl⟩, ?_⟩
                rintro (⟨h', _⟩ | ⟨_, h'⟩ | ⟨_, _, h'⟩)
                · exact absurd h' hT
                · exact absurd hR h'
                · exact absurd hRs h'
            · refine ⟨w, inst,
              (Units.add u inst), false, [], ?_, by simp, rfl, by simp,
                by simp [committedFields], ?_, ?_, ?_, ?_⟩
              · simp [deployInstance, hD, hv, hS, hT, d2, Ne.symm d4, hRs, d3, Ne.symm d5, Ne.symm d6, hR]
              · intro h'; exact absurd h' hD
              · intro _; rfl
              · intro _ h'; exact absurd h' (by simp)
              · intro virt' _ hv'
                have e : virt' = virt := (Option.some.inj hv').symm
                subst e
                exact ⟨fun h' => absurd h' hS, fun h' => absurd h' hS, fun h' => absurd h' hS,
                  fun h' => absurd h' hT, fun _ h' => absurd h' hR, fun _ => ⟨rfl, rfl⟩⟩
          · refine ⟨w, inst,
              (Units.add u inst), false, [], ?_, by simp, rfl, by simp,
              by simp [committedFields], ?_, ?_, ?_, ?_⟩
            · simp [deployInstance, hD, hv, hS, hT, d2, Ne.symm d4, hRs]
            · intro h'; exact absurd h' hD
            · intro _; rfl
            · intro _ h'; exact absurd h' (by simp)
            · intro virt' _ hv'
              have e : virt' = virt := (Option.some.inj hv').symm
              subst e
              exact ⟨fun h' => absurd h' hS, fun h' => absurd h' hS, fun h' => absurd h' hS,
                fun h' => absurd h' hT, fun h' => absurd h' hRs, fun _ => ⟨rfl, rfl⟩⟩

/-- The loop of `Deploy` always returns. Its trace is the concatenation of
one segment per instance visited, each satisfying what holds of every pass
of the loop body; the loop stops early exactly when a pass ends with an
error, and that pass is the last segment. -/
theorem deployLoop_segments (x : Extern) (stat : State) (ns : List String)
    (P : Instance → List Event → Bool → Prop)
    (hP : ∀ w u inst, ∃ w1 inst1 u1 err seg,
      deployInstance x stat ns w u inst = some (w1, inst1, u1, err) ∧
      w1.trace = w.trace ++ seg ∧ P inst seg err) :
    ∀ insts w u, ∃ w1 insts1 u1 err segs,
      deployLoop x stat ns w u insts = some (w1, insts1, u1, err) ∧
      w1.trace = w.trace ++ segs.flatten ∧
      (err = false → List.Forall₂ (fun i s => P i s false) insts segs) ∧
      (err = true → ∃ init last inst, segs = init ++ [last] ∧
        List.Forall₂ (fun i s => P i s false) (insts.take init.length) init ∧
        insts.get? init.length = some inst ∧ P inst last true) := by
  intro insts
  induction insts with
  | nil =>
    intro w u
    exact ⟨w, [], u, false, [], rfl, by simp, fun _ => List.Forall₂.nil,
      fun h => absurd h (by simp)⟩
  | cons inst rest ih =>
    intro w u
    obtain ⟨w1, inst1, u1, err, seg, h, ht, hp⟩ := hP w u inst
    cases err with
    | true =>
      refine ⟨w1, inst1 :: rest, u1, true, [seg], ?_, ?_, fun h' => absurd h' (by simp), ?_⟩
      · simp [deployLoop, h]
      · simp [ht]
      · intro _
        exact ⟨[], seg, inst, rfl, by simp, rfl, hp⟩
    | false =>
      obtain ⟨w2, rest2, u2, err2, segs, h2, ht2, hf2, he2⟩ := ih w1 u1
      refine ⟨w2, inst1 :: rest2, u2, err2, seg :: segs, ?_, ?_, ?_, ?_⟩
      · simp [deployLoop, h, h2]
      · rw [ht2, ht]; simp
      · intro he
        exact List.Forall₂.cons hp (hf2 he)
      · intro he
        obtain ⟨init, last, i, hs, hfa, hg, hl⟩ := he2 he
        refine ⟨seg :: init, last, i, by simp [hs], ?_, ?_, hl⟩
        · have hc : List.Forall₂ (fun i s => P i s false) (inst :: rest.take init.length)
              (seg :: init) := List.Forall₂.cons hp hfa
          simpa using hc
        · simpa using hg

/-- The trace of `Deploy` is the trace of its loop. -/
theorem Deploy_of_loop (x : Extern) (stat : State) (w w1 : World) (insts : List Instance)
    (u : Units) (err : Bool)
    (h : deployLoop x stat (stat.namespaces.foldl setAdd []) w
      { cpuUnits := 0, memoryUnits := 0 } stat.instances = some (w1, insts, u, err)) :
    ∃ w2, Deploy x stat w = some (w2, insts, err) ∧ w2.trace = w1.trace := by
  cases err with
  | true => exact ⟨w1, by simp [Deploy, h], rfl⟩
  | false =>
    exact ⟨{ w1 with node := { CpuUnitsRes := u.cpuUnits, MemoryUnitsRes := u.memoryUnits } },
      by simp [Deploy, h], rfl⟩

theorem setContains_namespaces (namespaces : List String) (a : String) :
    (setContains (namespaces.foldl setAdd []) a = true ↔ a ∈ namespaces) ∧
    (setContains (namespaces.foldl setAdd []) a = false ↔ a ∉ namespaces) := by
  simp [setContains, mem_foldl_setAdd]

/-- A pass of the loop body of `Deploy` ends with an error only at an
instance with desired state `Start`, an observed virt that is neither
stopped nor failed and its namespace present, after `check` and `diff`. -/
theorem deployInstance_visit (x : Extern) (stat : State) (w : World) (u : Units)
    (inst : Instance) :
    ∃ w1 inst1 u1 err seg,
      deployInstance x stat (stat.namespaces.foldl setAdd []) w u inst =
        some (w1, inst1, u1, err) ∧
      w1.trace = w.trace ++ seg ∧
      (inst.State = instance.Destroy → calls seg = [(Action.destroy, inst.Id)]) ∧
      (inst.State ≠ instance.Destroy → stat.GetVirt inst.Id = none →
        calls seg = [(Action.create, inst.Id)]) ∧
      (err = true → inst.State = instance.Start ∧ ∃ virt, stat.GetVirt inst.Id = some virt ∧
        ¬ (virt.State = vm.Stopped ∨ virt.State = vm.Failed) ∧
        x.GetNamespace inst.Id 0 ∈ stat.namespaces ∧
        deployCalls seg = [(Action.check, inst.Id), (Action.diff, inst.Id)]) := by
  obtain ⟨w1, inst1, u1, err, seg, h, ht, _, _, _, hd, _, hc, hv⟩ :=
    deployInstance_spec x stat (stat.namespaces.foldl setAdd []) w u inst
  refine ⟨w1, inst1, u1, err, seg, h, ht, fun h' => (hd h').1, fun h1 h2 => (hc h1 h2).1, ?_⟩
  intro herr
  by_cases hD : inst.State = instance.Destroy
  · rw [(hd hD).2.1] at herr
    exact absurd herr (by simp)
  cases hg : stat.GetVirt inst.Id with
  | none =>
    rw [(hc hD hg).2] at herr
    exact absurd herr (by simp)
  | some virt =>
    obtain ⟨a, b, c, d, e, f⟩ := hv virt hD hg
    by_cases hS : inst.State = instance.Start
    · by_cases hst : virt.State = vm.Stopped ∨ virt.State = vm.Failed
      · rw [(a hS hst).2] at herr
        exact absurd herr (by simp)
      · by_cases hn : x.GetNamespace inst.Id 0 ∈ stat.namespaces
        · rcases c hS hst ((setContains_namespaces _ _).1.2 hn) with ⟨he, _⟩ | ⟨_, hcalls⟩
          · rw [he] at herr
            exact absurd herr (by simp)
          · exact ⟨hS, virt, rfl, hst, hn, hcalls⟩
        · rw [(b hS hst ((setContains_namespaces _ _).2.2 hn)).2] at herr
          exact absurd herr (by simp)
    · exfalso
      by_cases hr : virt.State = vm.Running
      · by_cases hSt : inst.State = instance.Stop
        · rw [(d hSt hr).2] at herr
          exact absurd herr (by simp)
        · by_cases hRe : inst.State = instance.Restart
          · rw [(e hRe hr).2] at herr
            exact absurd herr (by simp)
          · rw [(f (Or.inr (Or.inr ⟨hS, hSt, hRe⟩))).2] at herr
            exact absurd herr (by simp)
      · by_cases hSt : inst.State = instance.Stop
        · rw [(f (Or.inl ⟨hSt, hr⟩)).2] at herr
          exact absurd herr (by simp)
        · by_cases hRe : inst.State = instance.Restart
          · rw [(f (Or.inr (Or.inl ⟨hRe, hr⟩))).2] at herr
            exact absurd herr (by simp)
          · rw [(f (Or.inr (Or.inr ⟨hS, hSt, hRe⟩))).2] at herr
            exact absurd herr (by simp)

/-- Counterexample to C1: instance `"i1"` with desired state `Start`,
observed running, its namespace present, its configuration drifted and the
database write of `restart` failing, followed in the snapshot by instance
`"i2"` with desired state `Destroy`. `Deploy` calls `check` and `diff` for
`"i1"` and returns the error of `diff`: `destroy` is not called for
`"i2"`. -/
theorem deploy_stops_before_destroy :
    (Deploy (sampleExtern false) sampleStopState sampleWorld).map
        (fun r => (calls r.1.trace, r.2.2)) =
      some ([(Action.check, "i1"), (Action.diff, "i1")], true) ∧
    sampleStopState.instances.map (fun i => (i.Id, i.State)) =
      [("i1", instance.Start), ("i2", instance.Destroy)] := by
  decide

/-- C1, amended: `Deploy` returns, and its trace splits into one segment per
instance visited, in snapshot order. It visits every instance of the
snapshot unless a pass ends with the error of `diff`; that pass is then the
last one, at an instance with desired state `Start`, an observed virt that is
neither stopped nor failed and its namespace present, and the instances
after it are not visited. For every instance visited before the end: with
desired state `Destroy` the segment has the single call `destroy`, whether or
not a virt is observed; with another desired state and no observed virt it
has the single call `create`. -/
theorem deploy_destroy_or_create (x : Extern) (stat : State) (w : World) :
    ∃ w1 insts err init rest, Deploy x stat w = some (w1, insts, err) ∧
      w1.trace = w.trace ++ (init ++ rest).flatten ∧
      List.Forall₂
        (fun inst seg =>
          (inst.State = instance.Destroy → calls seg = [(Action.destroy, inst.Id)]) ∧
          (inst.State ≠ instance.Destroy → stat.GetVirt inst.Id = none →
            calls seg = [(Action.create, inst.Id)]))
        (stat.instances.take init.length) init ∧
      (err = false → rest = [] ∧ init.length = stat.instances.length) ∧
      (err = true → ∃ last inst virt, rest = [last] ∧
        stat.instances.get? init.length = some inst ∧
        inst.State = instance.Start ∧ stat.GetVirt inst.Id = some virt ∧
        ¬ (virt.State = vm.Stopped ∨ virt.State = vm.Failed) ∧
        x.GetNamespace inst.Id 0 ∈ stat.namespaces ∧
        deployCalls last = [(Action.check, inst.Id), (Action.diff, inst.Id)]) := by
  have hP : ∀ w u inst, ∃ w1 inst1 u1 err seg,
      deployInstance x stat (stat.namespaces.foldl setAdd []) w u inst =
        some (w1, inst1, u1, err) ∧
      w1.trace = w.trace ++ seg ∧
      (fun inst seg (err : Bool) =>
        ((inst.State = instance.Destroy → calls seg = [(Action.destroy, inst.Id)]) ∧
          (inst.State ≠ instance.Destroy → stat.GetVirt inst.Id = none →
            calls seg = [(Action.create, inst.Id)])) ∧
        (err = true → inst.State = instance.Start ∧
          ∃ virt, stat.GetVirt inst.Id = some virt ∧
            ¬ (virt.State = vm.Stopped ∨ virt.State = vm.Failed) ∧
            x.GetNamespace inst.Id 0 ∈ stat.namespaces ∧
            deployCalls seg = [(Action.check, inst.Id), (Action.diff, inst.Id)])) inst seg err := by
    intro w u inst
    obtain ⟨w1, inst1, u1, err, seg, h, ht, h1, h2, h3⟩ := deployInstance_visit x stat w u inst
    exact ⟨w1, inst1, u1, err, seg, h, ht, ⟨h1, h2⟩, h3⟩
  obtain ⟨w1, insts1, u1, err, segs, h, ht, hf, he⟩ :=
    deployLoop_segments x stat _ _ hP stat.instances w { cpuUnits := 0, memoryUnits := 0 }
  obtain ⟨w2, hD, ht2⟩ := Deploy_of_loop x stat w w1 insts1 u1 err h
  cases err with
  | false =>
    have hfa := hf rfl
    have hlen := hfa.length_eq
    refine ⟨w2, insts1, false, segs, [], hD, by rw [ht2, ht, List.append_nil], ?_,
      fun _ => ⟨rfl, hlen.symm⟩, fun h' => absurd h' (by simp)⟩
    rw [← hlen, List.take_length]
    exact hfa.imp (fun _ _ hab => hab.1)
  | true =>
    obtain ⟨init, last, inst, hs, hfa, hg, hl⟩ := he rfl
    obtain ⟨hS, virt, hv, hst, hn, hcalls⟩ := hl.2 rfl
    refine ⟨w2, insts1, true, init, [last], hD, by rw [ht2, ht, hs], ?_,
      fun h' => absurd h' (by simp), fun _ => ⟨last, inst, virt, rfl, hg, hS, hv, hst, hn, hcalls⟩⟩
    exact hfa.imp (fun _ _ hab => hab.1)

/-- Counterexample to C2: one instance with desired state `Start`, observed
`Running`, its namespace present, its configuration drifted, and the
database write of `restart` failing. `Deploy` calls `check` and `diff` and
returns the error of `diff`; `routes` is not called. -/
theorem deploy_start_without_routes :
    (Deploy (sampleExtern false) (sampleState instance.Start vm.Running) sampleWorld).map
      (fun r => (deployCalls r.1.trace, r.2.2)) =
    some ([(Action.check, "i1"), (Action.diff, "i1")], true) := by
  decide

/-- C2, amended: `Deploy` returns, and its trace splits into one segment per
instance visited. For an instance whose desired state is not `Destroy` and
that has an observed virt, a pass that ends without error calls: `start`
only, for desired `Start` and observed `Stopped` or `Failed`; `check` only,
for desired `Start`, another observed state and the namespace missing;
`check`, `diff`, `routes` in this order for desired `Start`, another observed
state and the namespace present; `stop` only for desired `Stop` and observed
`Running`; `restart` only for desired `Restart` and observed `Running`;
nothing in every remaining case. A pass ends with an error only for desired
`Start`, an observed state other than `Stopped` and `Failed`, and the
namespace present: it calls `check` and `diff`, not `routes`, and `Deploy`
returns at once. -/
theorem deploy_dispatch_table (x : Extern) (stat : State) (w : World) :
    ∃ w1 insts err init rest, Deploy x stat w = some (w1, insts, err) ∧
      w1.trace = w.trace ++ (init ++ rest).flatten ∧
      List.Forall₂
        (fun inst seg => ∀ virt, inst.State ≠ instance.Destroy →
          stat.GetVirt inst.Id = some virt →
          (inst.State = instance.Start → (virt.State = vm.Stopped ∨ virt.State = vm.Failed) →
            calls seg = [(Action.start, inst.Id)]) ∧
          (inst.State = instance.Start → ¬ (virt.State = vm.Stopped ∨ virt.State = vm.Failed) →
            x.GetNamespace inst.Id 0 ∉ stat.namespaces →
            calls seg = [(Action.check, inst.Id)]) ∧
          (inst.State = instance.Start → ¬ (virt.State = vm.Stopped ∨ virt.State = vm.Failed) →
            x.GetNamespace inst.Id 0 ∈ stat.namespaces →
            deployCalls seg =
              [(Action.check, inst.Id), (Action.diff, inst.Id), (Action.routes, inst.Id)]) ∧
          (inst.State = instance.Stop → virt.State = vm.Running →
            calls seg = [(Action.stop, inst.Id)]) ∧
          (inst.State = instance.Restart → virt.State = vm.Running →
            calls seg = [(Action.restart, inst.Id)]) ∧
          ((inst.State = instance.Stop ∧ virt.State ≠ vm.Running) ∨
            (inst.State = instance.Restart ∧ virt.State ≠ vm.Running) ∨
            (inst.State ≠ instance.Start ∧ inst.State ≠ instance.Stop ∧
              inst.State ≠ instance.Restart) → seg = []))
        (stat.instances.take init.length) init ∧
      (err = false → rest = [] ∧ init.length = stat.instances.length) ∧
      (err = true → ∃ last inst virt, rest = [last] ∧
        stat.instances.get? init.length = some inst ∧
        inst.State = instance.Start ∧ stat.GetVirt inst.Id = some virt ∧
        ¬ (virt.State = vm.Stopped ∨ virt.State = vm.Failed) ∧
        x.GetNamespace inst.Id 0 ∈ stat.namespaces ∧
        deployCalls last = [(Action.check, inst.Id), (Action.diff, inst.Id)]) := by
  have hP : ∀ w u inst, ∃ w1 inst1 u1 err seg,
      deployInstance x stat (stat.namespaces.foldl setAdd []) w u inst =
        some (w1, inst1, u1, err) ∧
      w1.trace = w.trace ++ seg ∧
      (fun inst seg (err : Bool) =>
        (inst.State = instance.Destroy → err = false) ∧
        (inst.State ≠ instance.Destroy → stat.GetVirt inst.Id = none → err = false) ∧
        (∀ virt, inst.State ≠ instance.Destroy → stat.GetVirt inst.Id = some virt →
        (inst.State = instance.Start → (virt.State = vm.Stopped ∨ virt.State = vm.Failed) →
          calls seg = [(Action.start, inst.Id)] ∧ err = false) ∧
        (inst.State = instance.Start → ¬ (virt.State = vm.Stopped ∨ virt.State = vm.Failed) →
          x.GetNamespace inst.Id 0 ∉ stat.namespaces →
          calls seg = [(Action.check, inst.Id)] ∧ err = false) ∧
        (inst.State = instance.Start → ¬ (virt.State = vm.Stopped ∨ virt.State = vm.Failed) →
          x.GetNamespace inst.Id 0 ∈ stat.namespaces →
          (err = false ∧ deployCalls seg =
            [(Action.check, inst.Id), (Action.diff, inst.Id), (Action.routes, inst.Id)]) ∨
          (err = true ∧ deployCalls seg =
            [(Action.check, inst.Id), (Action.diff, inst.Id)])) ∧
        (inst.State = instance.Stop → virt.State = vm.Running →
          calls seg = [(Action.stop, inst.Id)] ∧ err = false) ∧
        (inst.State = instance.Restart → virt.State = vm.Running →
          calls seg = [(Action.restart, inst.Id)] ∧ err = false) ∧
        ((inst.State = instance.Stop ∧ virt.State ≠ vm.Running) ∨
          (inst.State = instance.Restart ∧ virt.State ≠ vm.Running) ∨
          (inst.State ≠ instance.Start ∧ inst.State ≠ instance.Stop ∧
            inst.State ≠ instance.Restart) → seg = [] ∧ err = false))) inst seg err := by
    intro w u inst
    obtain ⟨w1, inst1, u1, err, seg, h, ht, _, _, _, hd, _, hc, hv⟩ :=
      deployInstance_spec x stat (stat.namespaces.foldl setAdd []) w u inst
    refine ⟨w1, inst1, u1, err, seg, h, ht, fun h' => (hd h').2.1, fun h1 h2 => (hc h1 h2).2, ?_⟩
    intro virt h1 h2
    obtain ⟨a, b, c, d, e, f⟩ := hv virt h1 h2
    exact ⟨a, fun s o n => b s o ((setContains_namespaces _ _).2.2 n),
      fun s o n => c s o ((setContains_namespaces _ _).1.2 n), d, e, f⟩
  obtain ⟨w1, insts1, u1, err, segs, h, ht, hf, he⟩ :=
    deployLoop_segments x stat _ _ hP stat.instances w { cpuUnits := 0, memoryUnits := 0 }
  obtain ⟨w2, hD, ht2⟩ := Deploy_of_loop x stat w w1 insts1 u1 err h
  have himp : ∀ (l : List Instance) (ss : List (List Event)),
      List.Forall₂ (fun i s =>
        (fun inst seg (err : Bool) =>
        (inst.State = instance.Destroy → err = false) ∧
        (inst.State ≠ instance.Destroy → stat.GetVirt inst.Id = none → err = false) ∧
        (∀ virt, inst.State ≠ instance.Destroy → stat.GetVirt inst.Id = some virt →
        (inst.State = instance.Start → (virt.State = vm.Stopped ∨ virt.State = vm.Failed) →
          calls seg = [(Action.start, inst.Id)] ∧ err = false) ∧
        (inst.State = instance.Start → ¬ (virt.State = vm.Stopped ∨ virt.State = vm.Failed) →
          x.GetNamespace inst.Id 0 ∉ stat.namespaces →
          calls seg = [(Action.check, inst.Id)] ∧ err = false) ∧
        (inst.State = instance.Start → ¬ (virt.State = vm.Stopped ∨ virt.State = vm.Failed) →
          x.GetNamespace inst.Id 0 ∈ stat.namespaces →
          (err = false ∧ deployCalls seg =
            [(Action.check, inst.Id), (Action.diff, inst.Id), (Action.routes, inst.Id)]) ∨
          (err = true ∧ deployCalls seg =
            [(Action.check, inst.Id), (Action.diff, inst.Id)])) ∧
        (inst.State = instance.Stop → virt.State = vm.Running →
          calls seg = [(Action.stop, inst.Id)] ∧ err = false) ∧
        (inst.State = instance.Restart → virt.State = vm.Running →
          calls seg = [(Action.restart, inst.Id)] ∧ err = false) ∧
        ((inst.State = instance.Stop ∧ virt.State ≠ vm.Running) ∨
          (inst.State = instance.Restart ∧ virt.State ≠ vm.Running) ∨
          (inst.State ≠ instance.Start ∧ inst.State ≠ instance.Stop ∧
            inst.State ≠ instance.Restart) → seg = [] ∧ err = false))) i s false) l ss →
      List.Forall₂
        (fun inst seg => ∀ virt, inst.State ≠ instance.Destroy →
          stat.GetVirt inst.Id = some virt →
          (inst.State = instance.Start → (virt.State = vm.Stopped ∨ virt.State = vm.Failed) →
            calls seg = [(Action.start, inst.Id)]) ∧
          (inst.State = instance.Start → ¬ (virt.State = vm.Stopped ∨ virt.State = vm.Failed) →
            x.GetNamespace inst.Id 0 ∉ stat.namespaces →
            calls seg = [(Action.check, inst.Id)]) ∧
          (inst.State = instance.Start → ¬ (virt.State = vm.Stopped ∨ virt.State = vm.Failed) →
            x.GetNamespace inst.Id 0 ∈ stat.namespaces →
            deployCalls seg =
              [(Action.check, inst.Id), (Action.diff, inst.Id), (Action.routes, inst.Id)]) ∧
          (inst.State = instance.Stop → virt.State = vm.Running →
            calls seg = [(Action.stop, inst.Id)]) ∧
          (inst.State = instance.Restart → virt.State = vm.Running →
            calls seg = [(Action.restart, inst.Id)]) ∧
          ((inst.State = instance.Stop ∧ virt.State ≠ vm.Running) ∨
            (inst.State = instance.Restart ∧ virt.State ≠ vm.Running) ∨
            (inst.State ≠ instance.Start ∧ inst.State ≠ instance.Stop ∧
              inst.State ≠ instance.Restart) → seg = [])) l ss := by
    intro l ss hfa
    refine hfa.imp ?_
    intro inst seg hp virt h1 h2
    obtain ⟨a, b, c, d, e, f⟩ := hp.2.2 virt h1 h2
    refine ⟨fun s o => (a s o).1, fun s o n => (b s o n).1, ?_, fun s r => (d s r).1,
      fun s r => (e s r).1, fun o => (f o).1⟩
    intro s o n
    rcases c s o n with ⟨_, hc⟩ | ⟨hc, _⟩
    · exact hc
    · exact absurd hc (by simp)
  cases err with
  | false =>
    have hfa := hf rfl
    have hlen := hfa.length_eq
    refine ⟨w2, insts1, false, segs, [], hD, by rw [ht2, ht]; simp, ?_,
      fun _ => ⟨rfl, hlen.symm⟩, fun h' => absurd h' (by simp)⟩
    rw [← hlen, List.take_length]
    exact himp _ _ hfa
  | true =>
    obtain ⟨init, last, inst, hs, hfa, hg, hl⟩ := he rfl
    refine ⟨w2, insts1, true, init, [last], hD, by rw [ht2, ht, hs], himp _ _ hfa,
      fun h' => absurd h' (by simp), fun _ => ?_⟩
    obtain ⟨p1, p2, p3⟩ := hl
    have hD' : inst.State ≠ instance.Destroy := fun h' => absurd (p1 h') (by simp)
    cases hv : stat.GetVirt inst.Id with
    | none => exact absurd (p2 hD' hv) (by simp)
    | some virt =>
      obtain ⟨a, b, c, d, e, f⟩ := p3 virt hD' hv
      by_cases hS : inst.State = instance.Start
      · by_cases hO : virt.State = vm.Stopped ∨ virt.State = vm.Failed
        · exact absurd (a hS hO).2 (by simp)
        · by_cases hN : x.GetNamespace inst.Id 0 ∈ stat.namespaces
          · rcases c hS hO hN with ⟨hc, _⟩ | ⟨_, hc⟩
            · exact absurd hc (by simp)
            · exact ⟨last, inst, virt, rfl, hg, hS, hv, hO, hN, hc⟩
          · exact absurd (b hS hO hN).2 (by simp)
      · by_cases hT : inst.State = instance.Stop
        · by_cases hR : virt.State = vm.Running
          · exact absurd (d hT hR).2 (by simp)
          · exact absurd (f (Or.inl ⟨hT, hR⟩)).2 (by simp)
        · by_cases hRs : inst.State = instance.Restart
          · by_cases hR : virt.State = vm.Running
            · exact absurd (e hRs hR).2 (by simp)
            · exact absurd (f (Or.inr (Or.inl ⟨hRs, hR⟩))).2 (by simp)
          · exact absurd (f (Or.inr (Or.inr ⟨hS, hT, hRs⟩))).2 (by simp)

theorem removeDisks_quiet (x : Extern) (id : String) (disks : List Disk) :
    (∀ e ∈ (removeDisks x id disks).1, e.isPower = false) ∧
    committedFields (removeDisks x id disks).1 = [] := by
  induction disks with
  | nil => simp [removeDisks, committedFields]
  | cons d rest ih =>
    unfold removeDisks
    cases hr : x.RemoveDisk id d with
    | false => simp [Event.isPower, committedFields]
    | true =>
      simp only [if_true]
      constructor
      · intro e he
        rcases List.mem_cons.1 he with rfl | he
        · rfl
        · exact ih.1 e he
      · simpa [committedFields] using ih.2

/-- The goroutine of `diskRemove` runs no power primitive and writes nothing
to the database. -/
theorem diskRemoveWorker_quiet (x : Extern) (inst : Instance) (remDisks : List Disk)
    (lockId : Nat) :
    (∀ e ∈ diskRemoveWorker x inst remDisks lockId, e.isPower = false) ∧
    committedFields (diskRemoveWorker x inst remDisks lockId) = [] := by
  obtain ⟨h1, h2⟩ := removeDisks_quiet x inst.Id remDisks
  unfold diskRemoveWorker
  cases hok : (removeDisks x inst.Id remDisks).2 with
  | false =>
    constructor
    · intro e he
      simp only [hok, workerDefer, List.append_nil, List.mem_append, List.mem_cons,
        List.mem_singleton, List.not_mem_nil, or_false, Bool.false_eq_true, if_false] at he
      rcases he with he | rfl | rfl
      · exact h1 e he
      · rfl
      · rfl
    · simp [hok, committedFields_append, h2, workerDefer, committedFields]
  | true =>
    constructor
    · intro e he
      simp only [hok, workerDefer, List.mem_append, List.mem_cons,
        List.mem_singleton, List.not_mem_nil, or_false, if_true] at he
      rcases he with (he | rfl | rfl) | rfl | rfl
      · exact h1 e he
      · rfl
      · rfl
      · rfl
      · rfl
    · simp [hok, committedFields_append, h2, workerDefer, committedFields]

/-- C3: for an instance whose id is not locked, `diff` returns, and whether
or not its database write succeeds: `inst.Restart` afterwards equals
`changed`, where `changed` holds iff `inst.Changed(virt)` holds or the list
of disks to add is non-empty; the database writes of `diff` are the single
partial commit of the field `"restart"` when the flag flipped (`changed` and
not `Restart`, or not `changed` and `Restart`) and none otherwise; and
neither `diff` nor the `diskRemove` goroutine it may start runs a hypervisor
power primitive. -/
theorem diff_sets_restart_flag (x : Extern) (stat : State) (w : World) (inst : Instance)
    (hlock : Locked w.lock inst.Id = false) :
    ∃ w1 inst1 err evs, diff x stat w inst = some (w1, inst1, err) ∧
      w1.trace = w.trace ++ evs ∧
      (diffChanged x stat inst = true ↔
        (x.Changed inst (stat.GetVirt inst.Id) = true ∨
          (x.DiskChanged inst (stat.GetVirt inst.Id)).1 ≠ [])) ∧
      inst1.Restart = diffChanged x stat inst ∧
      evs.filter Event.isCommit =
        (if (diffChanged x stat inst = true ∧ inst.Restart = false) ∨
            (diffChanged x stat inst = false ∧ inst.Restart = true)
          then [Event.commit inst.Id ["restart"]] else []) ∧
      (∀ e ∈ evs, e.isPower = false) ∧
      (∀ lockId e,
        e ∈ diskRemoveWorker x inst1 (x.DiskChanged inst (stat.GetVirt inst.Id)).2 lockId →
        e.isPower = false) := by
  obtain ⟨w1, inst1, err, evs, h, ht, _, _, hp, _, _, _, hu⟩ := diff_spec x stat w inst
  refine ⟨w1, inst1, err, evs, h, ht, ?_, (hu hlock).1, (hu hlock).2, hp,
    fun l e he => (diskRemoveWorker_quiet x inst1 _ l).1 e he⟩
  unfold diffChanged
  cases hc : x.Changed inst (stat.GetVirt inst.Id) <;>
    cases hd : (x.DiskChanged inst (stat.GetVirt inst.Id)).1 <;> simp [hc, hd]

/-- Witness of C3: instance `"i1"`, not locked, its configuration drifted and
its flag not yet set. -/
theorem diff_sets_restart_flag_witness :
    Locked sampleWorld.lock (sampleInstance instance.Start).Id = false ∧
    ∃ w1 inst1 err evs,
      diff (sampleExtern true) (sampleState instance.Start vm.Running) sampleWorld
        (sampleInstance instance.Start) = some (w1, inst1, err) ∧
      w1.trace = sampleWorld.trace ++ evs ∧ inst1.Restart = true ∧
      evs.filter Event.isCommit = [Event.commit "i1" ["restart"]] :=
  ⟨rfl, by
    obtain ⟨w1, inst1, err, evs, h, ht, _, hr, hc, _⟩ :=
      diff_sets_restart_flag (sampleExtern true) (sampleState instance.Start vm.Running)
        sampleWorld (sampleInstance instance.Start) rfl
    exact ⟨w1, inst1, err, evs, h, ht, hr, hc⟩⟩

theorem forall₂_right {α β : Type} (Q : β → Prop) (l : List α) (ss : List β)
    (h : List.Forall₂ (fun _ s => Q s) l ss) : ∀ s ∈ ss, Q s := by
  induction h with
  | nil => intro s hs; exact absurd hs (List.not_mem_nil s)
  | cons hq _ ih =>
    intro s hs
    rcases List.mem_cons.1 hs with rfl | hs
    · exact hq
    · exact ih s hs

theorem committedFields_flatten (segs : List (List Event)) (f : String)
    (h : f ∈ committedFields segs.flatten) : ∃ seg ∈ segs, f ∈ committedFields seg := by
  induction segs with
  | nil => simp [committedFields] at h
  | cons s rest ih =>
    rw [List.flatten_cons, committedFields_append, List.mem_append] at h
    rcases h with h | h
    · exact ⟨s, List.mem_cons_self _ _, h⟩
    · obtain ⟨seg, hs, hf⟩ := ih h
      exact ⟨seg, List.mem_cons_of_mem _ hs, hf⟩

/-- A tick of `Deploy` itself writes no field but `"restart"`. -/
theorem Deploy_commits (x : Extern) (stat : State) (w : World) :
    ∃ w1 insts err evs, Deploy x stat w = some (w1, insts, err) ∧
      w1.trace = w.trace ++ evs ∧ ∀ f ∈ committedFields evs, f = "restart" := by
  have hP : ∀ w u inst, ∃ w1 inst1 u1 err seg,
      deployInstance x stat (stat.namespaces.foldl setAdd []) w u inst =
        some (w1, inst1, u1, err) ∧
      w1.trace = w.trace ++ seg ∧
      (fun (_ : Instance) seg (_ : Bool) => ∀ f ∈ committedFields seg, f = "restart")
        inst seg err := by
    intro w u inst
    obtain ⟨w1, inst1, u1, err, seg, h, ht, _, _, hc, _⟩ :=
      deployInstance_spec x stat (stat.namespaces.foldl setAdd []) w u inst
    exact ⟨w1, inst1, u1, err, seg, h, ht, hc⟩
  obtain ⟨w1, insts1, u1, err, segs, h, ht, hf, he⟩ :=
    deployLoop_segments x stat _ _ hP stat.instances w { cpuUnits := 0, memoryUnits := 0 }
  obtain ⟨w2, hD, ht2⟩ := Deploy_of_loop x stat w w1 insts1 u1 err h
  refine ⟨w2, insts1, err, segs.flatten, hD, by rw [ht2, ht], ?_⟩
  intro f hfm
  obtain ⟨seg, hs, hfs⟩ := committedFields_flatten segs f hfm
  cases err with
  | false => exact forall₂_right _ _ _ (hf rfl) seg hs f hfs
  | true =>
    obtain ⟨init, last, inst, hseg, hfa, _, hl⟩ := he rfl
    rw [hseg, List.mem_append, List.mem_singleton] at hs
    rcases hs with hs | rfl
    · exact forall₂_right _ _ _ hfa seg hs f hfs
    · exact hl f hfs

/-- The handler `instancePut` writes to the database at most once, the set
of lines 112-121, and always does so before it answers 200. -/
theorem instancePut_commits (env : PutEnv) :
    (committedFields (instancePut env).trace = [] ∧ (instancePut env).status ≠ 200) ∨
    committedFields (instancePut env).trace =
      ["name", "vpc", "state", "restart", "memory", "processors", "network_roles", "domain"] := by
  unfold instancePut
  cases h1 : env.demoBlocked with
  | true => simp [committedFields]
  | false =>
    cases h2 : env.instanceId with
    | none => simp [committedFields]
    | some id =>
      cases h3 : env.bind with
      | none => simp [committedFields]
      | some data =>
        cases h4 : env.getOrg with
        | none => simp [committedFields]
        | some inst =>
          cases h5 : env.vpcExistsOrg data.Vpc with
          | none => simp [committedFields, h5]
          | some b5 =>
            cases b5 with
            | false => simp [committedFields, h5]
            | true =>
              simp only [h5]
              have key : ∀ i : Instance,
                  (committedFields
                    (match env.Validate i with
                      | (_, none) => ({ status := 500, trace := [] } : HandlerRun)
                      | (_, some (some _)) => { status := 400, trace := [] }
                      | (inst, some none) =>
                        match env.PostCommit inst with
                        | (_, false) => { status := 500, trace := [] }
                        | (inst, true) =>
                          if !env.CommitFields inst instancePutFields then
                            { status := 500, trace := [Event.commit inst.Id instancePutFields] }
                          else
                            { status := 200
                              trace := [Event.commit inst.Id instancePutFields,
                                Event.publish "instance.change"] }).trace = [] ∧
                  (match env.Validate i with
                      | (_, none) => ({ status := 500, trace := [] } : HandlerRun)
                      | (_, some (some _)) => { status := 400, trace := [] }
                      | (inst, some none) =>
                        match env.PostCommit inst with
                        | (_, false) => { status := 500, trace := [] }
                        | (inst, true) =>
                          if !env.CommitFields inst instancePutFields then
                            { status := 500, trace := [Event.commit inst.Id instancePutFields] }
                          else
                            { status := 200
                              trace := [Event.commit inst.Id instancePutFields,
                                Event.publish "instance.change"] }).status ≠ 200) ∨
                  committedFields
                    (match env.Validate i with
                      | (_, none) => ({ status := 500, trace := [] } : HandlerRun)
                      | (_, some (some _)) => { status := 400, trace := [] }
                      | (inst, some none) =>
                        match env.PostCommit inst with
                        | (_, false) => { status := 500, trace := [] }
                        | (inst, true) =>
                          if !env.CommitFields inst instancePutFields then
                            { status := 500, trace := [Event.commit inst.Id instancePutFields] }
                          else
                            { status := 200
                              trace := [Event.commit inst.Id instancePutFields,
                                Event.publish "instance.change"] }).trace =
                    ["name", "vpc", "state", "restart", "memory", "processors",
                      "network_roles", "domain"] := by
                intro i
                rcases hV : env.Validate i with ⟨i1, _ | _ | _⟩
                · simp [committedFields]
                · simp only
                  rcases hP : env.PostCommit i1 with ⟨i2, _ | _⟩
                  · simp [committedFields]
                  · cases hC : env.CommitFields i2 instancePutFields <;>
                      simp only [instancePutFields] at hC <;>
                      simp [committedFields, instancePutFields, hC]
                · simp [committedFields]
              by_cases hdom : data.Domain = ""
              · simp only [hdom, ne_eq, not_true_eq_false, if_false]
                exact key _
              · simp only [hdom, ne_eq, not_false_eq_true, if_true]
                cases h6 : env.domainExistsOrg data.Domain with
                | none => simp [committedFields, h6]
                | some b6 =>
                  cases b6 with
                  | false => simp [committedFields, h6]
                  | true =>
                    simp only [h6]
                    exact key _

/-- Counterexample to C4: a restart worker whose primitives succeed commits
the field `"state"`, which is not `"restart"` and is one of the fields the
PUT handler commits; and a PUT request that passes every check commits
`"restart"` along with `"state"`. -/
theorem reconciler_and_handler_fields_overlap :
    "state" ∈ committedFields
      (restartWorker (sampleExtern true) (sampleInstance instance.Restart) 0).1 ∧
    "state" ≠ "restart" ∧
    (instancePut samplePutEnv).status = 200 ∧
    "restart" ∈ committedFields (instancePut samplePutEnv).trace ∧
    "state" ∈ committedFields (instancePut samplePutEnv).trace := by
  decide

/-- C4, amended: the partial-field commits of the reconciler write only
`restart` and `state`: `diff`, and a whole tick of `Deploy`, write no field but
`restart`; the restart worker writes no field but `state`, and writes it
when `PowerOn` and `PowerOff` succeed; the other workers write none. The PUT
handler writes nothing or the set `name`, `vpc`, `state`, `restart`,
`memory`, `processors`, `network_roles`, `domain`, the latter whenever it
answers 200. The two sets share `restart` and `state`. -/
theorem commit_field_sets (x : Extern) (stat : State) (w : World) (inst : Instance)
    (lockId : Nat) (remDisks : List Disk) (env : PutEnv) :
    (∃ w1 inst1 err evs, diff x stat w inst = some (w1, inst1, err) ∧
      w1.trace = w.trace ++ evs ∧ ∀ f ∈ committedFields evs, f = "restart") ∧
    (∃ w1 insts err evs, Deploy x stat w = some (w1, insts, err) ∧
      w1.trace = w.trace ++ evs ∧ ∀ f ∈ committedFields evs, f = "restart") ∧
    (∀ f ∈ committedFields (restartWorker x inst lockId).1, f = "state") ∧
    (x.PowerOn inst = true → x.PowerOff inst = true →
      committedFields (restartWorker x inst lockId).1 = ["state"]) ∧
    committedFields (createWorker x inst lockId) = [] ∧
    committedFields (startWorker x inst lockId) = [] ∧
    committedFields (stopWorker x inst lockId) = [] ∧
    committedFields (destroyWorker x inst lockId) = [] ∧
    committedFields (diskRemoveWorker x inst remDisks lockId) = [] ∧
    (committedFields (instancePut env).trace = [] ∨
      committedFields (instancePut env).trace =
        ["name", "vpc", "state", "restart", "memory", "processors", "network_roles",
          "domain"]) ∧
    ((instancePut env).status = 200 →
      committedFields (instancePut env).trace =
        ["name", "vpc", "state", "restart", "memory", "processors", "network_roles",
          "domain"]) := by
  refine ⟨?_, Deploy_commits x stat w, ?_, ?_, ?_, ?_, ?_, ?_,
    (diskRemoveWorker_quiet x inst remDisks lockId).2, ?_, ?_⟩
  · obtain ⟨w1, inst1, err, evs, h, ht, _, _, _, hc, _⟩ := diff_spec x stat w inst
    exact ⟨w1, inst1, err, evs, h, ht, hc⟩
  · unfold restartWorker
    split_ifs
    · simp [committedFields, workerDefer]
    · simp [committedFields, workerDefer]
    · simp only [workerDefer]
      split <;> simp [committedFields]
  · intro h1 h2
    unfold restartWorker
    simp only [h1, h2, Bool.not_true, Bool.false_eq_true, if_false, workerDefer]
    split <;> simp [committedFields]
  · unfold createWorker
    cases x.Create inst <;> simp [committedFields, workerDefer]
  · unfold startWorker
    cases x.PowerOn inst <;> simp [committedFields, workerDefer]
  · unfold stopWorker
    cases x.PowerOff inst <;> simp [committedFields, workerDefer]
  · unfold destroyWorker
    cases x.Destroy inst <;> cases x.Remove inst.Id <;> simp [committedFields, workerDefer]
  · rcases instancePut_commits env with h | h
    · exact Or.inl h.1
    · exact Or.inr h
  · intro hs
    rcases instancePut_commits env with h | h
    · exact absurd hs h.2
    · exact h

/-! ## MultiTimeoutLock under concurrent callers -/

theorem countP_set_of_get? {α : Type} (p : α → Bool) (l : List α) (t : Nat) (y x : α)
    (h : l.get? t = some y) :
    (l.set t x).countP p + (if p y = true then 1 else 0) =
      l.countP p + (if p x = true then 1 else 0) := by
  induction l generalizing t with
  | nil => simp at h
  | cons a rest ih =>
    cases t with
    | zero =>
      simp only [List.get?_cons_zero, Option.some.injEq] at h
      subst h
      simp only [List.set_cons_zero, List.countP_cons]
      omega
    | succ t =>
      simp only [List.get?_cons_succ] at h
      have := ih t h
      simp only [List.set_cons_succ, List.countP_cons]
      omega

theorem get?_set_self {α : Type} (l : List α) (t : Nat) (y x : α) (h : l.get? t = some y) :
    (l.set t x).get? t = some x := by
  induction l generalizing t with
  | nil => simp at h
  | cons a rest ih =>
    cases t with
    | zero => simp
    | succ t =>
      simp only [List.get?_cons_succ] at h
      simpa using ih t h

theorem get?_set_other {α : Type} (l : List α) (t t' : Nat) (x : α) (h : t ≠ t') :
    (l.set t x).get? t' = l.get? t' := by
  induction l generalizing t t' with
  | nil => simp
  | cons a rest ih =>
    cases t with
    | zero =>
      cases t' with
      | zero => exact absurd rfl h
      | succ t' => simp
    | succ t =>
      cases t' with
      | zero => simp
      | succ t' =>
        have : t ≠ t' := fun e => h (by rw [e])
        simpa using ih t t' this

theorem get?_append_some {α : Type} (l r : List α) (a : Nat) (b : α) (h : l.get? a = some b) :
    (l ++ r).get? a = some b := by
  induction l generalizing a with
  | nil => simp at h
  | cons x rest ih =>
    cases a with
    | zero => simpa using h
    | succ a =>
      simp only [List.get?_cons_succ] at h
      simpa using ih a h

theorem get?_lt_of_some {α : Type} (l : List α) (a : Nat) (b : α) (h : l.get? a = some b) :
    a < l.length := by
  by_contra hge
  rw [List.get?_eq_none.2 (by omega)] at h
  exact absurd h (by simp)

theorem get?_append_length {α : Type} (l : List α) (x : α) :
    (l ++ [x]).get? l.length = some x := by
  induction l with
  | nil => rfl
  | cons a rest ih => simp [ih]

theorem countP_pos_of_get? {α : Type} (p : α → Bool) (l : List α) (t : Nat) (y : α)
    (h : l.get? t = some y) (hp : p y = true) : 0 < l.countP p := by
  rw [List.countP_pos_iff]
  exact ⟨y, List.get?_mem h, hp⟩

theorem holds_le_active (pcs : List Pc) (id : String) :
    pcs.countP (Pc.holds id) ≤ pcs.countP (Pc.active id) := by
  induction pcs with
  | nil => simp
  | cons a rest ih =>
    simp only [List.countP_cons]
    cases a <;> simp [Pc.holds, Pc.active] <;> omega


theorem mutexLock_some (m : MultiTimeoutLock) (a : Nat) (m1 : MultiTimeoutLock)
    (h : mutexLock m a = some m1) :
    m.mutexes.get? a = some false ∧ m1 = { m with mutexes := m.mutexes.set a true } := by
  unfold mutexLock at h
  split at h
  · rename_i heq
    exact ⟨heq, (Option.some.inj h).symm⟩
  · exact absurd h (by simp)

theorem mutexLock_of_locked (m : MultiTimeoutLock) (a : Nat)
    (h : m.mutexes.get? a = some true) : mutexLock m a = none := by
  unfold mutexLock
  rw [h]

theorem mutexUnlock_of_locked (m : MultiTimeoutLock) (a : Nat)
    (h : m.mutexes.get? a = some true) :
    mutexUnlock m (some a) = some { m with mutexes := m.mutexes.set a false } := by
  unfold mutexUnlock
  simp only [h]

theorem lockEnter_counts (m : MultiTimeoutLock) (id : String) :
    (lockEnter m id).1.counts = mapSet m.counts id ((mapGet m.counts id).getD 0 + 1) ∧
    (lockEnter m id).1.state = m.state := by
  unfold lockEnter
  cases mapGet m.locks id <;> simp

theorem lockEnter_absent (m : MultiTimeoutLock) (id : String) (h : mapGet m.locks id = none) :
    (lockEnter m id).1.locks = mapSet m.locks id m.mutexes.length ∧
    (lockEnter m id).1.mutexes = m.mutexes ++ [false] ∧
    (lockEnter m id).2 = m.mutexes.length := by
  unfold lockEnter
  simp [h]

theorem lockEnter_present (m : MultiTimeoutLock) (id : String) (a : Nat)
    (h : mapGet m.locks id = some a) :
    (lockEnter m id).1.locks = m.locks ∧ (lockEnter m id).1.mutexes = m.mutexes ∧
    (lockEnter m id).2 = a := by
  unfold lockEnter
  simp [h]

/-- In a state of the invariant, an id with a `locks` entry has its mutex
allocated. -/
theorem Inv_lock_allocated (s : Sys) (h : s.Inv) (id : String) (a : Nat)
    (hl : mapGet s.m.locks id = some a) : a < s.m.mutexes.length := by
  rcases h.1 id with ⟨_, _, h0⟩ | ⟨_, _, a', ha', hm⟩
  · rw [h0] at hl
    exact absurd hl (by simp)
  · rw [ha'] at hl
    have e : a' = a := Option.some.inj hl
    subst e
    exact get?_lt_of_some _ _ _ hm

/-- The first critical section of `Lock` keeps the invariant. -/
theorem Inv_lock (s : Sys) (t : Nat) (id0 : String) (hidle : s.pcs.get? t = some Pc.idle)
    (h : s.Inv) :
    Sys.Inv { m := (lockEnter s.m id0).1
              pcs := s.pcs.set t (Pc.waiting id0 (lockEnter s.m id0).2 s.nextId)
              nextId := s.nextId + 1 } := by
  have hall := Inv_lock_allocated s h
  obtain ⟨h1, h2, h3, h4⟩ := h
  have cA : ∀ id, (s.pcs.set t (Pc.waiting id0 (lockEnter s.m id0).2 s.nextId)).countP
      (Pc.active id) = s.pcs.countP (Pc.active id) + (if id0 = id then 1 else 0) := by
    intro id
    have := countP_set_of_get? (Pc.active id) s.pcs t Pc.idle
      (Pc.waiting id0 (lockEnter s.m id0).2 s.nextId) hidle
    simpa [Pc.active] using this
  have cH : ∀ id, (s.pcs.set t (Pc.waiting id0 (lockEnter s.m id0).2 s.nextId)).countP
      (Pc.holds id) = s.pcs.countP (Pc.holds id) := by
    intro id
    have := countP_set_of_get? (Pc.holds id) s.pcs t Pc.idle
      (Pc.waiting id0 (lockEnter s.m id0).2 s.nextId) hidle
    simpa [Pc.holds] using this
  obtain ⟨hcnt, _⟩ := lockEnter_counts s.m id0
  rcases h1 id0 with ⟨hA0, hc0, hl0⟩ | ⟨hApos, hc0, a0, hl0, hm0⟩
  · -- no entry for id0: a fresh mutex is allocated
    obtain ⟨hlk, hmx, hadr⟩ := lockEnter_absent s.m id0 hl0
    have hH0 : s.pcs.countP (Pc.holds id0) = 0 := by
      have := holds_le_active s.pcs id0
      omega
    refine ⟨?_, ?_, ?_, ?_⟩
    · intro id
      simp only [cA, cH, hcnt, hlk, hmx, mapGet_mapSet]
      by_cases e : id = id0
      · subst e
        right
        refine ⟨by simp, by simp [hc0, hA0], s.m.mutexes.length, by simp, ?_⟩
        rw [get?_append_length, hH0]
        simp
      · have e' : ¬ id0 = id := fun x => e x.symm
        simp only [e, e', if_false, Nat.add_zero]
        rcases h1 id with ⟨x1, x2, x3⟩ | ⟨x1, x2, a, x3, x4⟩
        · exact Or.inl ⟨x1, x2, x3⟩
        · exact Or.inr ⟨x1, x2, a, x3, get?_append_some _ _ _ _ x4⟩
    · intro t' id a l hw
      simp only [hlk, mapGet_mapSet]
      by_cases e : t = t'
      · subst e
        rw [get?_set_self _ _ _ _ hidle] at hw
        simp only [Option.some.injEq, Pc.waiting.injEq] at hw
        obtain ⟨rfl, rfl, _⟩ := hw
        simp [hadr]
      · rw [get?_set_other _ _ _ _ e] at hw
        have := h2 t' id a l hw
        by_cases e2 : id = id0
        · subst e2
          rw [hl0] at this
          exact absurd this (by simp)
        · simp [e2, this]
    · intro id
      rw [cH]
      exact h3 id
    · intro id id' a
      simp only [hlk, mapGet_mapSet]
      by_cases e : id = id0 <;> by_cases e' : id' = id0
      · intro _ _; rw [e, e']
      · simp only [e, e', if_true, if_false, Option.some.injEq]
        intro x1 x2
        have := hall id' a x2
        omega
      · simp only [e, e', if_true, if_false, Option.some.injEq]
        intro x1 x2
        have := hall id a x1
        omega
      · simp only [e, e', if_false]
        exact h4 id id' a
  · -- id0 has an entry: the count goes up by one
    obtain ⟨hlk, hmx, hadr⟩ := lockEnter_present s.m id0 a0 hl0
    refine ⟨?_, ?_, ?_, ?_⟩
    · intro id
      simp only [cA, cH, hcnt, hlk, hmx, mapGet_mapSet]
      by_cases e : id = id0
      · subst e
        right
        refine ⟨by simp, ?_, a0, hl0, hm0⟩
        simp [hc0]
      · have e' : ¬ id0 = id := fun x => e x.symm
        simp only [e, e', if_false, Nat.add_zero]
        exact h1 id
    · intro t' id a l hw
      simp only [hlk]
      by_cases e : t = t'
      · subst e
        rw [get?_set_self _ _ _ _ hidle] at hw
        simp only [Option.some.injEq, Pc.waiting.injEq] at hw
        obtain ⟨rfl, rfl, _⟩ := hw
        rw [hadr]
        exact hl0
      · rw [get?_set_other _ _ _ _ e] at hw
        exact h2 t' id a l hw
    · intro id
      rw [cH]
      exact h3 id
    · intro id id' a
      simp only [hlk]
      exact h4 id id' a
/-- The return of `lock.Lock()` keeps the invariant: the mutex was free, so
nobody held the lock. -/
theorem Inv_acquire (s : Sys) (t : Nat) (id0 : String) (a0 l0 : Nat) (m1 : MultiTimeoutLock)
    (hw : s.pcs.get? t = some (Pc.waiting id0 a0 l0)) (hm : mutexLock s.m a0 = some m1)
    (h : s.Inv) :
    Sys.Inv { s with m := m1, pcs := s.pcs.set t (Pc.acquired id0 l0) } := by
  obtain ⟨h1, h2, h3, h4⟩ := h
  have cA : ∀ id, (s.pcs.set t (Pc.acquired id0 l0)).countP (Pc.active id) =
      s.pcs.countP (Pc.active id) := by
    intro id
    have := countP_set_of_get? (Pc.active id) s.pcs t _ (Pc.acquired id0 l0) hw
    simpa [Pc.active] using this
  have cH : ∀ id, (s.pcs.set t (Pc.acquired id0 l0)).countP (Pc.holds id) =
      s.pcs.countP (Pc.holds id) + (if id0 = id then 1 else 0) := by
    intro id
    have := countP_set_of_get? (Pc.holds id) s.pcs t _ (Pc.acquired id0 l0) hw
    simpa [Pc.holds] using this
  have hfree := mutexLock_some s.m a0 m1 hm
  obtain ⟨hf, rfl⟩ := hfree
  have hl0 := h2 t id0 a0 l0 hw
  have hApos : 0 < s.pcs.countP (Pc.active id0) :=
    countP_pos_of_get? _ _ _ _ hw (by simp [Pc.active])
  have hH0 : s.pcs.countP (Pc.holds id0) = 0 := by
    rcases h1 id0 with ⟨x, _, _⟩ | ⟨_, _, a, x2, x3⟩
    · omega
    · rw [hl0] at x2
      have e : a0 = a := Option.some.inj x2
      subst e
      rw [hf] at x3
      simpa using x3
  refine ⟨?_, ?_, ?_, ?_⟩
  · intro id
    simp only [cA, cH]
    rcases h1 id with ⟨x1, x2, x3⟩ | ⟨x1, x2, a, x3, x4⟩
    · exact Or.inl ⟨x1, x2, x3⟩
    · refine Or.inr ⟨x1, x2, a, x3, ?_⟩
      by_cases e : id0 = id
      · subst e
        rw [hl0] at x3
        have e2 : a0 = a := Option.some.inj x3
        subst e2
        rw [get?_set_self _ _ _ _ hf]
        simp
      · have hne : a0 ≠ a := fun e2 => e (h4 id0 id a (e2 ▸ hl0) x3)
        rw [get?_set_other _ _ _ _ hne]
        simpa [e] using x4
  · intro t' id a l hw'
    by_cases e : t = t'
    · subst e
      rw [get?_set_self _ _ _ _ hw] at hw'
      simp at hw'
    · rw [get?_set_other _ _ _ _ e] at hw'
      exact h2 t' id a l hw'
  · intro id
    rw [cH]
    by_cases e : id0 = id
    · subst e
      simp [hH0]
    · simpa [e] using h3 id
  · exact h4

/-- The second critical section of `Lock` keeps the invariant. -/
theorem Inv_mark (s : Sys) (t : Nat) (id0 : String) (l0 : Nat)
    (hw : s.pcs.get? t = some (Pc.acquired id0 l0)) (h : s.Inv) :
    Sys.Inv { s with m := lockMark s.m l0, pcs := s.pcs.set t (Pc.holding id0 l0) } := by
  obtain ⟨h1, h2, h3, h4⟩ := h
  have cA : ∀ id, (s.pcs.set t (Pc.holding id0 l0)).countP (Pc.active id) =
      s.pcs.countP (Pc.active id) := by
    intro id
    have := countP_set_of_get? (Pc.active id) s.pcs t _ (Pc.holding id0 l0) hw
    simpa [Pc.active] using this
  have cH : ∀ id, (s.pcs.set t (Pc.holding id0 l0)).countP (Pc.holds id) =
      s.pcs.countP (Pc.holds id) := by
    intro id
    have := countP_set_of_get? (Pc.holds id) s.pcs t _ (Pc.holding id0 l0) hw
    simpa [Pc.holds] using this
  refine ⟨?_, ?_, ?_, ?_⟩
  · intro id
    simp only [cA, cH, lockMark]
    exact h1 id
  · intro t' id a l hw'
    by_cases e : t = t'
    · subst e
      rw [get?_set_self _ _ _ _ hw] at hw'
      simp at hw'
    · rw [get?_set_other _ _ _ _ e] at hw'
      exact h2 t' id a l hw'
  · intro id
    rw [cH]
    exact h3 id
  · exact h4

/-- The second critical section of `Unlock` keeps the invariant. -/
theorem Inv_finish (s : Sys) (t : Nat) (l0 : Nat)
    (hw : s.pcs.get? t = some (Pc.unlocking l0)) (h : s.Inv) :
    Sys.Inv { s with m := unlockMark s.m l0, pcs := s.pcs.set t Pc.idle } := by
  obtain ⟨h1, h2, h3, h4⟩ := h
  have cA : ∀ id, (s.pcs.set t Pc.idle).countP (Pc.active id) =
      s.pcs.countP (Pc.active id) := by
    intro id
    have := countP_set_of_get? (Pc.active id) s.pcs t _ Pc.idle hw
    simpa [Pc.active] using this
  have cH : ∀ id, (s.pcs.set t Pc.idle).countP (Pc.holds id) =
      s.pcs.countP (Pc.holds id) := by
    intro id
    have := countP_set_of_get? (Pc.holds id) s.pcs t _ Pc.idle hw
    simpa [Pc.holds] using this
  refine ⟨?_, ?_, ?_, ?_⟩
  · intro id
    simp only [cA, cH, unlockMark]
    exact h1 id
  · intro t' id a l hw'
    by_cases e : t = t'
    · subst e
      rw [get?_set_self _ _ _ _ hw] at hw'
      simp at hw'
    · rw [get?_set_other _ _ _ _ e] at hw'
      exact h2 t' id a l hw'
  · intro id
    rw [cH]
    exact h3 id
  · exact h4
theorem countP_zero_get? {α : Type} (p : α → Bool) (l : List α) (t : Nat) (y : α)
    (h0 : l.countP p = 0) (h : l.get? t = some y) : p y = false := by
  cases hp : p y with
  | false => rfl
  | true =>
    have := countP_pos_of_get? p l t y h hp
    omega

/-- The first critical section of `Unlock`, run by the holder, does not
panic and keeps the invariant. -/
theorem Inv_unlock (s : Sys) (t : Nat) (id0 : String) (l0 : Nat)
    (hw : s.pcs.get? t = some (Pc.holding id0 l0)) (h : s.Inv) :
    ∃ m1, unlockEnter s.m id0 = some m1 ∧
      Sys.Inv { s with m := m1, pcs := s.pcs.set t (Pc.unlocking l0) } := by
  obtain ⟨h1, h2, h3, h4⟩ := h
  have cA : ∀ id, (s.pcs.set t (Pc.unlocking l0)).countP (Pc.active id) +
      (if id0 = id then 1 else 0) = s.pcs.countP (Pc.active id) := by
    intro id
    have := countP_set_of_get? (Pc.active id) s.pcs t _ (Pc.unlocking l0) hw
    simpa [Pc.active] using this
  have cH : ∀ id, (s.pcs.set t (Pc.unlocking l0)).countP (Pc.holds id) +
      (if id0 = id then 1 else 0) = s.pcs.countP (Pc.holds id) := by
    intro id
    have := countP_set_of_get? (Pc.holds id) s.pcs t _ (Pc.unlocking l0) hw
    simpa [Pc.holds] using this
  have hHpos : 0 < s.pcs.countP (Pc.holds id0) :=
    countP_pos_of_get? _ _ _ _ hw (by simp [Pc.holds])
  have hApos : 0 < s.pcs.countP (Pc.active id0) :=
    countP_pos_of_get? _ _ _ _ hw (by simp [Pc.active])
  have hH1 := h3 id0
  have cA0 := cA id0
  have cH0 := cH id0
  simp only [if_true] at cA0 cH0
  have waiting_frame : ∀ t' id a l,
      (s.pcs.set t (Pc.unlocking l0)).get? t' = some (Pc.waiting id a l) →
      s.pcs.get? t' = some (Pc.waiting id a l) := by
    intro t' id a l hw'
    by_cases e : t = t'
    · subst e
      rw [get?_set_self _ _ _ _ hw] at hw'
      simp at hw'
    · rw [get?_set_other _ _ _ _ e] at hw'
      exact hw'
  rcases h1 id0 with ⟨x, _, _⟩ | ⟨_, hc0, a0, hl0, hm0⟩
  · omega
  · have hm0' : s.m.mutexes.get? a0 = some true := by
      rw [hm0]; simp [hHpos]
    by_cases hone : s.pcs.countP (Pc.active id0) = 1
    · -- the holder is alone: the entry is removed
      have hun : unlockEnter s.m id0 = some
          { s.m with counts := mapDelete s.m.counts id0, locks := mapDelete s.m.locks id0 } := by
        unfold unlockEnter
        simp [hc0, hone]
      refine ⟨_, hun, ?_, ?_, ?_, ?_⟩
      · intro id
        simp only [mapGet_mapDelete]
        by_cases e : id = id0
        · subst e
          left
          exact ⟨by omega, by simp, by simp⟩
        · have e' : ¬ id0 = id := fun x => e x.symm
          have a1 := cA id
          have a2 := cH id
          simp only [e', if_false, Nat.add_zero] at a1 a2
          simp only [e, if_false, a1, a2]
          exact h1 id
      · intro t' id a l hw'
        have hw'' := waiting_frame t' id a l hw'
        simp only [mapGet_mapDelete]
        by_cases e : id = id0
        · subst e
          have hz : (s.pcs.set t (Pc.unlocking l0)).countP (Pc.active id) = 0 := by omega
          have := countP_zero_get? _ _ _ _ hz hw'
          simp [Pc.active] at this
        · simp only [e, if_false]
          exact h2 t' id a l hw''
      · intro id
        show (s.pcs.set t (Pc.unlocking l0)).countP (Pc.holds id) ≤ 1
        have := cH id
        have := h3 id
        omega
      · intro id id' a
        simp only [mapGet_mapDelete]
        by_cases e : id = id0 <;> by_cases e' : id' = id0 <;> simp [e, e']
        exact h4 id id' a
    · -- others are waiting: the count goes down and the mutex is released
      have hun : unlockEnter s.m id0 = some
          { s.m with
            counts := mapSet s.m.counts id0 ((s.pcs.countP (Pc.active id0) : Int) - 1)
            mutexes := s.m.mutexes.set a0 false } := by
        unfold unlockEnter
        have hgt : ¬ ((s.pcs.countP (Pc.active id0) : Int) ≤ 1) := by omega
        simp only [hc0, Option.getD_some, hgt, if_false, hl0]
        exact mutexUnlock_of_locked _ a0 hm0'
      refine ⟨_, hun, ?_, ?_, ?_, ?_⟩
      · intro id
        simp only [mapGet_mapSet]
        by_cases e : id = id0
        · subst e
          right
          have hz : (s.pcs.set t (Pc.unlocking l0)).countP (Pc.holds id) = 0 := by omega
          refine ⟨by omega, ?_, a0, hl0, ?_⟩
          · simp only [if_true, Option.some.injEq]
            omega
          · rw [get?_set_self _ _ _ _ hm0', hz]
            simp
        · have e' : ¬ id0 = id := fun x => e x.symm
          have a1 := cA id
          have a2 := cH id
          simp only [e', if_false, Nat.add_zero] at a1 a2
          simp only [e, if_false, a1, a2]
          rcases h1 id with ⟨x1, x2, x3⟩ | ⟨x1, x2, a, x3, x4⟩
          · exact Or.inl ⟨x1, x2, x3⟩
          · refine Or.inr ⟨x1, x2, a, x3, ?_⟩
            have hne : a0 ≠ a := fun e2 => e' (h4 id0 id a (e2 ▸ hl0) x3)
            rw [get?_set_other _ _ _ _ hne]
            exact x4
      · intro t' id a l hw'
        exact h2 t' id a l (waiting_frame t' id a l hw')
      · intro id
        show (s.pcs.set t (Pc.unlocking l0)).countP (Pc.holds id) ≤ 1
        have := cH id
        have := h3 id
        omega
      · exact h4
theorem Inv_init (n timeout : Nat) : (Sys.init n timeout).Inv := by
  have hA : ∀ id, (List.replicate n Pc.idle).countP (Pc.active id) = 0 := by
    intro id
    rw [List.countP_eq_zero]
    intro a ha
    rw [List.eq_of_mem_replicate ha]
    simp [Pc.active]
  have hH : ∀ id, (List.replicate n Pc.idle).countP (Pc.holds id) = 0 := by
    intro id
    rw [List.countP_eq_zero]
    intro a ha
    rw [List.eq_of_mem_replicate ha]
    simp [Pc.holds]
  refine ⟨?_, ?_, ?_, ?_⟩
  · intro id
    exact Or.inl ⟨hA id, rfl, rfl⟩
  · intro t id a l hw
    have hm := List.get?_mem hw
    have := List.eq_of_mem_replicate hm
    exact absurd this (by simp)
  · intro id
    show (List.replicate n Pc.idle).countP (Pc.holds id) ≤ 1
    rw [hH id]
    omega
  · intro id id' a h
    exact absurd h (by simp [Sys.init, NewMultiTimeoutLock, mapGet])

/-- Every step other than an `Unlock` by a caller that holds nothing can be
taken without panic and keeps the invariant. -/
theorem Inv_step (s : Sys) (st : Step) (hst : st.isStray = false) (h : s.Inv) :
    ∃ s', s.step st = some s' ∧ s'.Inv := by
  cases st with
  | lock t id =>
    cases hp : s.pcs.get? t with
    | none => exact ⟨s, by simp only [Sys.step, hp], h⟩
    | some pc =>
      cases pc with
      | idle =>
        exact ⟨{ m := (lockEnter s.m id).1
                 pcs := s.pcs.set t (Pc.waiting id (lockEnter s.m id).2 s.nextId)
                 nextId := s.nextId + 1 }, by simp only [Sys.step, hp], Inv_lock s t id hp h⟩
      | waiting _ _ _ => exact ⟨s, by simp only [Sys.step, hp], h⟩
      | acquired _ _ => exact ⟨s, by simp only [Sys.step, hp], h⟩
      | holding _ _ => exact ⟨s, by simp only [Sys.step, hp], h⟩
      | unlocking _ => exact ⟨s, by simp only [Sys.step, hp], h⟩
  | lockTimeout t id d =>
    cases hp : s.pcs.get? t with
    | none => exact ⟨s, by simp only [Sys.step, hp], h⟩
    | some pc =>
      cases pc with
      | idle =>
        exact ⟨{ m := (lockEnter s.m id).1
                 pcs := s.pcs.set t (Pc.waiting id (lockEnter s.m id).2 s.nextId)
                 nextId := s.nextId + 1 }, by simp only [Sys.step, hp], Inv_lock s t id hp h⟩
      | waiting _ _ _ => exact ⟨s, by simp only [Sys.step, hp], h⟩
      | acquired _ _ => exact ⟨s, by simp only [Sys.step, hp], h⟩
      | holding _ _ => exact ⟨s, by simp only [Sys.step, hp], h⟩
      | unlocking _ => exact ⟨s, by simp only [Sys.step, hp], h⟩
  | acquire t =>
    cases hp : s.pcs.get? t with
    | none => exact ⟨s, by simp only [Sys.step, hp], h⟩
    | some pc =>
      cases pc with
      | idle => exact ⟨s, by simp only [Sys.step, hp], h⟩
      | waiting id a l =>
        cases hm : mutexLock s.m a with
        | none => exact ⟨s, by simp only [Sys.step, hp, hm, Option.map_some'], h⟩
        | some m1 =>
          exact ⟨{ s with m := m1, pcs := s.pcs.set t (Pc.acquired id l) },
            by simp only [Sys.step, hp, hm, Option.map_some'], Inv_acquire s t id a l m1 hp hm h⟩
      | acquired _ _ => exact ⟨s, by simp only [Sys.step, hp], h⟩
      | holding _ _ => exact ⟨s, by simp only [Sys.step, hp], h⟩
      | unlocking _ => exact ⟨s, by simp only [Sys.step, hp], h⟩
  | mark t =>
    cases hp : s.pcs.get? t with
    | none => exact ⟨s, by simp only [Sys.step, hp], h⟩
    | some pc =>
      cases pc with
      | idle => exact ⟨s, by simp only [Sys.step, hp], h⟩
      | waiting _ _ _ => exact ⟨s, by simp only [Sys.step, hp], h⟩
      | acquired id l =>
        exact ⟨{ s with m := lockMark s.m l, pcs := s.pcs.set t (Pc.holding id l) },
          by simp only [Sys.step, hp], Inv_mark s t id l hp h⟩
      | holding _ _ => exact ⟨s, by simp only [Sys.step, hp], h⟩
      | unlocking _ => exact ⟨s, by simp only [Sys.step, hp], h⟩
  | unlock t =>
    cases hp : s.pcs.get? t with
    | none => exact ⟨s, by simp only [Sys.step, hp], h⟩
    | some pc =>
      cases pc with
      | idle => exact ⟨s, by simp only [Sys.step, hp], h⟩
      | waiting _ _ _ => exact ⟨s, by simp only [Sys.step, hp], h⟩
      | acquired _ _ => exact ⟨s, by simp only [Sys.step, hp], h⟩
      | holding id l =>
        obtain ⟨m1, hm, hinv⟩ := Inv_unlock s t id l hp h
        exact ⟨{ s with m := m1, pcs := s.pcs.set t (Pc.unlocking l) },
          by simp only [Sys.step, hp, hm, Option.map_some'], hinv⟩
      | unlocking _ => exact ⟨s, by simp only [Sys.step, hp], h⟩
  | strayUnlock t id l => exact absurd hst (by simp [Step.isStray])
  | finish t =>
    cases hp : s.pcs.get? t with
    | none => exact ⟨s, by simp only [Sys.step, hp], h⟩
    | some pc =>
      cases pc with
      | idle => exact ⟨s, by simp only [Sys.step, hp], h⟩
      | waiting _ _ _ => exact ⟨s, by simp only [Sys.step, hp], h⟩
      | acquired _ _ => exact ⟨s, by simp only [Sys.step, hp], h⟩
      | holding _ _ => exact ⟨s, by simp only [Sys.step, hp], h⟩
      | unlocking l =>
        exact ⟨{ s with m := unlockMark s.m l, pcs := s.pcs.set t Pc.idle },
          by simp only [Sys.step, hp], Inv_finish s t l hp h⟩

/-- A run in which only holders call `Unlock` never panics and ends in a
state of the invariant. -/
theorem Inv_run (steps : List Step) :
    ∀ s : Sys, (∀ st ∈ steps, st.isStray = false) → s.Inv →
      ∃ s', s.run steps = some s' ∧ s'.Inv := by
  induction steps with
  | nil => intro s _ h; exact ⟨s, rfl, h⟩
  | cons st rest ih =>
    intro s hno h
    obtain ⟨s1, hs1, h1⟩ := Inv_step s st (hno st (List.mem_cons_self _ _)) h
    obtain ⟨s2, hs2, h2⟩ := ih s1 (fun x hx => hno x (List.mem_cons_of_mem _ hx)) h1
    exact ⟨s2, by simp [Sys.run, hs1, hs2], h2⟩

/-- Counterexample to C10: caller 0 takes the lock of `"i1"` and keeps it;
caller 2, which holds nothing, calls `Unlock("i1", 99)`; caller 1 then calls
`Lock("i1")`, which returns. Callers 0 and 1 both hold `"i1"`, and caller 0
has not called `Unlock`. -/
theorem lock_not_exclusive_after_stray_unlock :
    ((Sys.init 3 180).run
      [Step.lock 0 "i1", Step.acquire 0, Step.mark 0, Step.strayUnlock 2 "i1" 99,
       Step.lock 1 "i1", Step.acquire 1, Step.mark 1]).map
      (fun s => (s.holders "i1", s.pcs.get? 0, s.pcs.get? 1)) =
    some (2, some (Pc.holding "i1" 0), some (Pc.holding "i1" 1)) := by
  decide

/-- C10, amended: for any number of concurrent callers and any interleaving
of their steps through `Lock`, `LockTimeout` and `Unlock` in which `Unlock`
is only called by the current holder of the id, with its own lockId, no step
panics and in the state reached at most one caller holds the lock of any
id; and while a caller holds an id, `lock.Lock()` does not return for a
caller waiting on that id, so its `Lock` does not return before the holder
has called `Unlock`. -/
theorem lock_exclusive (n timeout : Nat) (steps : List Step)
    (hno : ∀ st ∈ steps, st.isStray = false) :
    ∃ s, (Sys.init n timeout).run steps = some s ∧
      (∀ id, s.holders id ≤ 1) ∧
      (∀ t t' id a l pc, s.pcs.get? t = some pc → pc.holds id = true →
        s.pcs.get? t' = some (Pc.waiting id a l) → s.step (Step.acquire t') = some s) := by
  obtain ⟨s, hrun, hinv⟩ := Inv_run steps (Sys.init n timeout) hno (Inv_init n timeout)
  refine ⟨s, hrun, hinv.2.2.1, ?_⟩
  intro t t' id a l pc hpc hh hw
  have hl := hinv.2.1 t' id a l hw
  have hHpos : 0 < s.pcs.countP (Pc.holds id) := countP_pos_of_get? _ _ _ _ hpc hh
  have hm : s.m.mutexes.get? a = some true := by
    rcases hinv.1 id with ⟨_, _, x⟩ | ⟨_, _, a', x1, x2⟩
    · rw [x] at hl
      exact absurd hl (by simp)
    · rw [hl] at x1
      have e : a = a' := Option.some.inj x1
      subst e
      rw [x2]
      simp [hHpos]
  simp only [Sys.step, hw, mutexLock_of_locked _ _ hm]

/-- Witness of the amended C10: callers 0 and 1 both call `Lock("i1")`;
caller 1 gets the lock first, caller 0 only after caller 1 has called
`Unlock`. -/
theorem lock_exclusive_witness :
    ∃ s, (Sys.init 2 180).run
        [Step.lock 0 "i1", Step.lock 1 "i1", Step.acquire 1, Step.acquire 0, Step.mark 1,
         Step.acquire 0, Step.unlock 1, Step.acquire 0, Step.finish 1, Step.mark 0] = some s ∧
      (∀ id, s.holders id ≤ 1) ∧
      (∀ t t' id a l pc, s.pcs.get? t = some pc → pc.holds id = true →
        s.pcs.get? t' = some (Pc.waiting id a l) → s.step (Step.acquire t') = some s) :=
  lock_exclusive 2 180
    [Step.lock 0 "i1", Step.lock 1 "i1", Step.acquire 1, Step.acquire 0, Step.mark 1,
     Step.acquire 0, Step.unlock 1, Step.acquire 0, Step.finish 1, Step.mark 0]
    (by decide)

/-! ## Go `strconv` -/

theorem digitsValue_append (l r : List Char) :
    ∀ acc, digitsValue acc (l ++ r) = (digitsValue acc l).bind (fun v => digitsValue v r) := by
  induction l with
  | nil => intro acc; rfl
  | cons c cs ih =>
    intro acc
    simp only [List.cons_append, digitsValue]
    split_ifs
    · exact ih _
    · rfl

theorem digitChar_toNat (m : Nat) (hm : m < 10) :
    (Nat.digitChar m).toNat = 48 + m := by
  interval_cases m <;> rfl

/-- What `Nat.toDigitsCore` puts in front of the accumulator in base ten. -/
theorem toDigitsCore_decimalDigits (fuel : Nat) :
    ∀ (n : Nat) (acc : List Char),
      Nat.toDigitsCore 10 fuel n acc = decimalDigits fuel n ++ acc := by
  induction fuel with
  | zero => intro n acc; rfl
  | succ k ih =>
    intro n acc
    unfold Nat.toDigitsCore decimalDigits
    by_cases hq : n / 10 = 0
    · simp [hq]
    · simp only [hq, if_false]
      rw [ih, List.append_assoc]
      rfl

/-- Reading one more digit at the end of a run. -/
theorem digitsValue_snoc (l : List Char) (d v : Nat) (hd : d < 10)
    (h : digitsValue 0 l = some v) :
    digitsValue 0 (l ++ [Nat.digitChar d]) = some (v * 10 + d) := by
  have hrange : 48 ≤ 48 + d ∧ 48 + d ≤ 57 := ⟨by omega, by omega⟩
  rw [digitsValue_append, h]
  simp only [Option.some_bind, digitsValue, digitChar_toNat d hd, hrange, and_self, if_true,
    Nat.add_sub_cancel_left]

/-- With enough fuel the digits are a non-empty run of decimal digits whose
value is the number. -/
theorem decimalDigits_spec (fuel : Nat) :
    ∀ n : Nat, n < fuel →
      decimalDigits fuel n ≠ [] ∧
      (∀ c ∈ decimalDigits fuel n, 48 ≤ c.toNat ∧ c.toNat ≤ 57) ∧
      digitsValue 0 (decimalDigits fuel n) = some n := by
  induction fuel with
  | zero => intro n hn; omega
  | succ k ih =>
    intro n hn
    have hlt : n % 10 < 10 := Nat.mod_lt _ (by decide)
    have hlast : ∀ c ∈ [Nat.digitChar (n % 10)], 48 ≤ c.toNat ∧ c.toNat ≤ 57 := by
      intro c hc
      rw [List.mem_singleton.1 hc, digitChar_toNat _ hlt]
      omega
    unfold decimalDigits
    by_cases hq : n / 10 = 0
    · rw [if_pos hq]
      refine ⟨List.cons_ne_nil _ _, hlast, ?_⟩
      have h := digitsValue_snoc [] (n % 10) 0 hlt rfl
      rw [List.nil_append] at h
      rw [h]
      congr 1
      omega
    · rw [if_neg hq]
      obtain ⟨_, hall, hv⟩ := ih (n / 10) (by omega)
      refine ⟨by simp, ?_, ?_⟩
      · intro c hc
        rcases List.mem_append.1 hc with h | h
        · exact hall c h
        · exact hlast c h
      · rw [digitsValue_snoc _ (n % 10) (n / 10) hlt hv]
        congr 1
        omega

/-- The decimal rendering of a natural number: a non-empty run of digits
whose value is the number. -/
theorem toString_nat_spec (n : Nat) :
    (toString n).toList ≠ [] ∧ (∀ c ∈ (toString n).toList, 48 ≤ c.toNat ∧ c.toNat ≤ 57) ∧
    digitsValue 0 (toString n).toList = some n := by
  have e : (toString n).toList = decimalDigits (n + 1) n := by
    show (Nat.toDigits 10 n).asString.toList = _
    unfold Nat.toDigits
    rw [toDigitsCore_decimalDigits]
    simp [List.asString]
  rw [e]
  exact decimalDigits_spec (n + 1) n (Nat.lt_succ_self n)

/-- Reading back the rendering of a number within the range of `int`. -/
theorem Atoi_Itoa (n : Int) (h0 : 0 ≤ n) (h1 : n ≤ 9223372036854775807) :
    strconv.Atoi (strconv.Itoa n) = some n := by
  obtain ⟨hne, hdig, hval⟩ := toString_nat_spec n.natAbs
  have hI : strconv.Itoa n = toString n.natAbs := by
    unfold strconv.Itoa
    simp [not_lt.2 h0]
  rw [hI]
  unfold strconv.Atoi
  cases hl : (toString n.natAbs).toList with
  | nil => exact absurd hl hne
  | cons c rest =>
    rw [hl] at hdig hval
    have hc := hdig c (List.mem_cons_self _ _)
    have hm : c ≠ '-' := by
      intro e; rw [e] at hc; revert hc; decide
    have hp : c ≠ '+' := by
      intro e; rw [e] at hc; revert hc; decide
    have hmatch : (match c :: rest with
        | '-' :: rest => (true, rest)
        | '+' :: rest => (false, rest)
        | rest => (false, rest)) = (false, c :: rest) := by
      split
      · rename_i heq
        exact absurd (List.cons.inj heq).1 hm
      · rename_i heq
        exact absurd (List.cons.inj heq).1 hp
      · rfl
    simp only [hmatch, List.isEmpty_cons, Bool.false_eq_true, if_false, hval]
    have : (n.natAbs : Int) = n := Int.natAbs_of_nonneg h0
    simp only [this]
    have h2 : -9223372036854775808 ≤ n ∧ n ≤ 9223372036854775807 := ⟨by omega, h1⟩
    simp [h2]

/-- What `strconv.Atoi` accepts lies within the range of `int`. -/
theorem Atoi_range (s : String) (n : Int) (h : strconv.Atoi s = some n) :
    -9223372036854775808 ≤ n ∧ n ≤ 9223372036854775807 := by
  unfold strconv.Atoi at h
  dsimp only at h
  split_ifs at h <;>
  · split at h
    · exact absurd h (by simp)
    · split_ifs at h with hr
      rw [← Option.some.inj h]
      exact hr

theorem splitChars_of_not_mem (sep : Char) (l : List Char) (h : sep ∉ l) :
    splitChars sep l = [l] := by
  induction l with
  | nil => rfl
  | cons c cs ih =>
    have hc : c ≠ sep := fun e => h (e ▸ List.mem_cons_self _ _)
    have hcs : sep ∉ cs := fun e => h (List.mem_cons_of_mem _ e)
    simp [splitChars, hc, ih hcs]

theorem splitChars_append (sep : Char) (a b : List Char) (h : sep ∉ a) :
    splitChars sep (a ++ sep :: b) = a :: splitChars sep b := by
  induction a with
  | nil => simp [splitChars]
  | cons c cs ih =>
    have hc : c ≠ sep := fun e => h (e ▸ List.mem_cons_self _ _)
    have hcs : sep ∉ cs := fun e => h (List.mem_cons_of_mem _ e)
    simp [splitChars, hc, ih hcs]

theorem String_mk_toList (s : String) : String.mk s.toList = s := rfl

/-- The rendering of a number that is not negative has no sign. -/
theorem Itoa_digits (n : Int) (h0 : 0 ≤ n) :
    ∀ c ∈ (strconv.Itoa n).toList, 48 ≤ c.toNat ∧ c.toNat ≤ 57 := by
  have hI : strconv.Itoa n = toString n.natAbs := by
    unfold strconv.Itoa
    simp [not_lt.2 h0]
  rw [hI]
  exact (toString_nat_spec n.natAbs).2.1

theorem Itoa_no_dash (n : Int) (h0 : 0 ≤ n) : '-' ∉ (strconv.Itoa n).toList := by
  intro hmem
  have := Itoa_digits n h0 _ hmem
  revert this
  decide

theorem stringsSplit_Itoa (n : Int) (h0 : 0 ≤ n) :
    stringsSplit '-' (strconv.Itoa n) = [strconv.Itoa n] := by
  unfold stringsSplit
  rw [splitChars_of_not_mem _ _ (Itoa_no_dash n h0)]
  rfl

theorem stringsSplit_Itoa_range (n m : Int) (hn : 0 ≤ n) (hm : 0 ≤ m) :
    stringsSplit '-' (strconv.Itoa n ++ "-" ++ strconv.Itoa m) =
      [strconv.Itoa n, strconv.Itoa m] := by
  unfold stringsSplit
  have e : (strconv.Itoa n ++ "-" ++ strconv.Itoa m).toList =
      (strconv.Itoa n).toList ++ '-' :: (strconv.Itoa m).toList := by
    simp [String.toList]
  rw [e, splitChars_append _ _ _ (Itoa_no_dash n hn),
    splitChars_of_not_mem _ _ (Itoa_no_dash m hm)]
  rfl

/-- What the port branch accepts: a first part read as `N` with
`1 ≤ N ≤ 65535`, and either no second part and the port `N`, or a second
part read as `M` with `N < M` and the port `N-M`. -/
theorem parsePort_some (port q : String) (h : firewall.parsePort port = some q) :
    ∃ N : Int, strconv.Atoi ((stringsSplit '-' port).getD 0 "") = some N ∧ 1 ≤ N ∧ N ≤ 65535 ∧
      (((stringsSplit '-' port).length ≤ 1 ∧ q = strconv.Itoa N) ∨
       ((stringsSplit '-' port).length > 1 ∧
          ∃ M : Int, strconv.Atoi ((stringsSplit '-' port).getD 1 "") = some M ∧ N < M ∧
            M ≤ 9223372036854775807 ∧ q = strconv.Itoa N ++ "-" ++ strconv.Itoa M)) := by
  unfold firewall.parsePort at h
  dsimp only at h
  cases h0 : strconv.Atoi ((stringsSplit '-' port).getD 0 "") with
  | none => rw [h0] at h; exact absurd h (by simp)
  | some N =>
    rw [h0] at h
    dsimp only at h
    by_cases hr : N < 1 ∨ N > 65535
    · rw [if_pos hr] at h; exact absurd h (by simp)
    · rw [if_neg hr] at h
      have hr' : 1 ≤ N ∧ N ≤ 65535 := by omega
      refine ⟨N, rfl, hr'.1, hr'.2, ?_⟩
      by_cases hlen : (stringsSplit '-' port).length > 1
      · rw [if_pos hlen] at h
        right
        cases h1 : strconv.Atoi ((stringsSplit '-' port).getD 1 "") with
        | none => rw [h1] at h; exact absurd h (by simp)
        | some M =>
          rw [h1] at h
          dsimp only at h
          by_cases hm : N < 1 ∨ N > 65535 ∨ M ≤ N
          · rw [if_pos hm] at h; exact absurd h (by simp)
          · rw [if_neg hm] at h
            exact ⟨hlen, M, rfl, by omega, (Atoi_range _ _ h1).2, (Option.some.inj h).symm⟩
      · rw [if_neg hlen] at h
        left
        exact ⟨by omega, (Option.some.inj h).symm⟩

/-- What the port branch rejects: a first part that is not an integer in
`[1, 65535]`, or a second part that is not an integer or not above the
first. -/
theorem parsePort_none (port : String)
    (h : (¬ ∃ N : Int, strconv.Atoi ((stringsSplit '-' port).getD 0 "") = some N ∧
            1 ≤ N ∧ N ≤ 65535) ∨
         ((stringsSplit '-' port).length > 1 ∧
           ¬ ∃ N M : Int, strconv.Atoi ((stringsSplit '-' port).getD 0 "") = some N ∧
             strconv.Atoi ((stringsSplit '-' port).getD 1 "") = some M ∧ N < M)) :
    firewall.parsePort port = none := by
  cases hp : firewall.parsePort port with
  | none => rfl
  | some q =>
    exfalso
    obtain ⟨N, h0, h1, h2, hq⟩ := parsePort_some port q hp
    rcases h with h | ⟨hlen, h⟩
    · exact h ⟨N, h0, h1, h2⟩
    · rcases hq with ⟨hle, _⟩ | ⟨_, M, hM, hlt, _, _⟩
      · omega
      · exact h ⟨N, M, h0, hM, hlt⟩

/-- The port branch maps its own output to itself. -/
theorem parsePort_idem (port q : String) (h : firewall.parsePort port = some q) :
    firewall.parsePort q = some q := by
  obtain ⟨N, _, h1, h2, hq⟩ := parsePort_some port q h
  have hN0 : (0 : Int) ≤ N := by omega
  have hNr := Atoi_Itoa N hN0 (by omega)
  have hrange : ¬ (N < 1 ∨ N > 65535) := by omega
  rcases hq with ⟨_, rfl⟩ | ⟨_, M, _, hlt, hMr, rfl⟩
  · unfold firewall.parsePort
    simp only [stringsSplit_Itoa N hN0, List.getD_cons_zero, hNr, hrange, if_false,
      List.length_singleton, gt_iff_lt, lt_self_iff_false]
  · have hM0 : (0 : Int) ≤ M := by omega
    have hMa := Atoi_Itoa M hM0 hMr
    have hbad : ¬ (N < 1 ∨ N > 65535 ∨ M ≤ N) := by omega
    unfold firewall.parsePort
    simp only [stringsSplit_Itoa_range N M hN0 hM0, List.getD_cons_zero, List.getD_cons_succ,
      hNr, hrange, if_false, List.length_cons, List.length_nil, hMa, hbad]
    simp
/-! ## firewall.Firewall.Validate -/

theorem protocols_distinct :
    firewall.All ≠ firewall.Icmp ∧ firewall.All ≠ firewall.Tcp ∧ firewall.All ≠ firewall.Udp ∧
    firewall.Icmp ≠ firewall.Tcp ∧ firewall.Icmp ≠ firewall.Udp ∧
    firewall.Tcp ≠ firewall.Udp := by
  decide

/-- The loop over the rules, when it reaches a rule: the rule at that place
afterwards is what the loop body makes of it, and an `errData` of the body
is the `errData` of the loop. -/
theorem validateRules_reach (lib : NetLib) (rule : firewall.Rule) (post : List firewall.Rule) :
    ∀ pre : List firewall.Rule, (∀ r ∈ pre, (firewall.validateRule lib r).2 = none) →
      (firewall.validateRules lib (pre ++ rule :: post)).1.get? pre.length =
        some (firewall.validateRule lib rule).1 ∧
      (∀ e, (firewall.validateRule lib rule).2 = some e →
        (firewall.validateRules lib (pre ++ rule :: post)).2 = some e) := by
  intro pre
  induction pre with
  | nil =>
    intro _
    simp only [List.nil_append, List.length_nil]
    unfold firewall.validateRules
    rcases hv : firewall.validateRule lib rule with ⟨r1, _ | e⟩
    · simp
    · simp
  | cons p rest ih =>
    intro hpre
    have hp := hpre p (List.mem_cons_self _ _)
    obtain ⟨h1, h2⟩ := ih (fun r hr => hpre r (List.mem_cons_of_mem _ hr))
    simp only [List.cons_append, List.length_cons]
    unfold firewall.validateRules
    rcases hv : firewall.validateRule lib p with ⟨p1, _ | e⟩
    · simp only [List.get?_cons_succ]
      exact ⟨h1, h2⟩
    · rw [hv] at hp
      exact absurd hp (by simp)

/-- The loop over the rules, when it accepts: every rule was accepted by
the loop body, and the rules afterwards are what the body made of them. -/
theorem validateRules_accept (lib : NetLib) :
    ∀ (rules out : List firewall.Rule), firewall.validateRules lib rules = (out, none) →
      List.Forall₂ (fun r o => firewall.validateRule lib r = (o, none)) rules out := by
  intro rules
  induction rules with
  | nil =>
    intro out h
    simp only [firewall.validateRules, Prod.mk.injEq, and_true] at h
    rw [← h]
    exact List.Forall₂.nil
  | cons r rest ih =>
    intro out h
    unfold firewall.validateRules at h
    rcases hv : firewall.validateRule lib r with ⟨r1, _ | e⟩
    · rw [hv] at h
      simp only [Prod.mk.injEq] at h
      obtain ⟨h1, h2⟩ := h
      rw [← h1]
      exact List.Forall₂.cons hv (ih _ (Prod.ext rfl h2))
    · rw [hv] at h
      simp at h

theorem validateRules_of_forall₂ (lib : NetLib) (rules out : List firewall.Rule)
    (h : List.Forall₂ (fun r o => firewall.validateRule lib r = (o, none)) rules out) :
    firewall.validateRules lib rules = (out, none) := by
  induction h with
  | nil => rfl
  | cons hr _ ih =>
    unfold firewall.validateRules
    rw [hr]
    simp [ih]

/-- The loop over the source IPs, when it accepts: every entry is non-empty
and is replaced by the network it parses to after the suffix is added. -/
theorem sourceIps_accept (lib : NetLib) :
    ∀ (ips out : List String), firewall.sourceIps lib ips = (out, none) →
      List.Forall₂ (fun s n => s ≠ "" ∧ lib.parseCIDR (firewall.withPrefixLen s) = some n)
        ips out := by
  intro ips
  induction ips with
  | nil =>
    intro out h
    simp only [firewall.sourceIps, Prod.mk.injEq, and_true] at h
    rw [← h]
    exact List.Forall₂.nil
  | cons s rest ih =>
    intro out h
    unfold firewall.sourceIps at h
    by_cases hs : s = ""
    · rw [if_pos hs] at h
      simp at h
    · rw [if_neg hs] at h
      cases hp : lib.parseCIDR (firewall.withPrefixLen s) with
      | none => rw [hp] at h; simp at h
      | some n =>
        rw [hp] at h
        simp only [Prod.mk.injEq] at h
        obtain ⟨h1, h2⟩ := h
        rw [← h1]
        exact List.Forall₂.cons ⟨hs, hp⟩ (ih _ (Prod.ext rfl h2))

theorem sourceIps_of_forall₂ (lib : NetLib) (ips out : List String)
    (h : List.Forall₂ (fun s n => s ≠ "" ∧ lib.parseCIDR (firewall.withPrefixLen s) = some n)
      ips out) :
    firewall.sourceIps lib ips = (out, none) := by
  induction h with
  | nil => rfl
  | cons hr _ ih =>
    unfold firewall.sourceIps
    rw [if_neg hr.1, hr.2]
    simp [ih]

/-- The loop over the source IPs, when it reaches an entry that is empty or
does not parse: it returns the source IP error. -/
theorem sourceIps_reject (lib : NetLib) (s : String) (post : List String)
    (hbad : s = "" ∨ lib.parseCIDR (firewall.withPrefixLen s) = none) :
    ∀ pre : List String,
      (∀ x ∈ pre, x ≠ "" ∧ ∃ n, lib.parseCIDR (firewall.withPrefixLen x) = some n) →
      ∃ e, (firewall.sourceIps lib (pre ++ s :: post)).2 = some e ∧
        e.Error = "invalid_ingress_rule_source_ip" := by
  intro pre
  induction pre with
  | nil =>
    intro _
    simp only [List.nil_append]
    unfold firewall.sourceIps
    by_cases hs : s = ""
    · rw [if_pos hs]
      exact ⟨_, rfl, rfl⟩
    · rw [if_neg hs]
      rcases hbad with h | h
      · exact absurd h hs
      · rw [h]
        exact ⟨_, rfl, rfl⟩
  | cons p rest ih =>
    intro hpre
    obtain ⟨hp, n, hn⟩ := hpre p (List.mem_cons_self _ _)
    obtain ⟨e, he, hcode⟩ := ih (fun x hx => hpre x (List.mem_cons_of_mem _ hx))
    simp only [List.cons_append]
    unfold firewall.sourceIps
    rw [if_neg hp, hn]
    exact ⟨e, he, hcode⟩

theorem withPrefixLen_eq (s : String) :
    firewall.withPrefixLen s =
      if stringsContains s "/" = true then s
      else if stringsContains s ":" = true then s ++ "/128" else s ++ "/32" := by
  unfold firewall.withPrefixLen
  cases stringsContains s "/" <;> simp

/-- The loop over the source IPs returns the source IP error as soon as
one entry is empty or does not parse. -/
theorem sourceIps_reject_mem (lib : NetLib) :
    ∀ ips : List String,
      (∃ s ∈ ips, s = "" ∨ lib.parseCIDR (firewall.withPrefixLen s) = none) →
      ∃ e, (firewall.sourceIps lib ips).2 = some e ∧
        e.Error = "invalid_ingress_rule_source_ip" := by
  intro ips
  induction ips with
  | nil =>
    rintro ⟨s, hs, _⟩
    exact absurd hs (List.not_mem_nil s)
  | cons p rest ih =>
    rintro ⟨s, hs, hbad⟩
    unfold firewall.sourceIps
    by_cases hp : p = ""
    · rw [if_pos hp]
      exact ⟨_, rfl, rfl⟩
    · rw [if_neg hp]
      cases hc : lib.parseCIDR (firewall.withPrefixLen p) with
      | none => exact ⟨_, rfl, rfl⟩
      | some n =>
        rcases List.mem_cons.1 hs with h | h
        · subst h
          rcases hbad with h | h
          · exact absurd h hp
          · rw [hc] at h
            exact absurd h (by simp)
        · exact ih ⟨s, h, hbad⟩

/-- The loop over the source IPs, when every entry is non-empty and parses:
each entry is replaced by the network it parses to. -/
theorem sourceIps_map (lib : NetLib) :
    ∀ ips : List String,
      (∀ s ∈ ips, s ≠ "" ∧ (lib.parseCIDR (firewall.withPrefixLen s)).isSome = true) →
      firewall.sourceIps lib ips =
        (ips.map (fun s => (lib.parseCIDR (firewall.withPrefixLen s)).getD ""), none) := by
  intro ips
  induction ips with
  | nil => intro _; rfl
  | cons p rest ih =>
    intro h
    obtain ⟨hp, hsome⟩ := h p (List.mem_cons_self _ _)
    have hrest := ih (fun s hs => h s (List.mem_cons_of_mem _ hs))
    unfold firewall.sourceIps
    rw [if_neg hp]
    cases hc : lib.parseCIDR (firewall.withPrefixLen p) with
    | none => rw [hc] at hsome; exact absurd hsome (by simp)
    | some n => simp [hrest, hc]

/-- The loop body on a rule of protocol `all` or `icmp`. -/
theorem validateRule_clear (lib : NetLib) (rule : firewall.Rule)
    (h : rule.Protocol = firewall.All ∨ rule.Protocol = firewall.Icmp) :
    firewall.validateRule lib rule =
      ({ SourceIps := (firewall.sourceIps lib rule.SourceIps).1, Protocol := rule.Protocol,
         Port := "" }, (firewall.sourceIps lib rule.SourceIps).2) := by
  unfold firewall.validateRule
  rcases h with h | h
  · simp only [h, if_true]
  · have hne : ¬ (firewall.Icmp = firewall.All) := fun e => protocols_distinct.1 e.symm
    simp only [h, hne, if_false, if_true]

/-- The loop body on a rule of protocol `tcp` or `udp` whose port parses. -/
theorem validateRule_port (lib : NetLib) (rule : firewall.Rule) (q : String)
    (h : rule.Protocol = firewall.Tcp ∨ rule.Protocol = firewall.Udp)
    (hq : firewall.parsePort rule.Port = some q) :
    firewall.validateRule lib rule =
      ({ SourceIps := (firewall.sourceIps lib rule.SourceIps).1, Protocol := rule.Protocol,
         Port := q }, (firewall.sourceIps lib rule.SourceIps).2) := by
  obtain ⟨d1, d2, d3, d4, d5, d6⟩ := protocols_distinct
  have h1 : rule.Protocol ≠ firewall.All := by
    rcases h with h | h <;> rw [h]
    · exact fun e => d2 e.symm
    · exact fun e => d3 e.symm
  have h2 : rule.Protocol ≠ firewall.Icmp := by
    rcases h with h | h <;> rw [h]
    · exact fun e => d4 e.symm
    · exact fun e => d5 e.symm
  unfold firewall.validateRule
  simp only [if_neg h1, if_neg h2, if_pos h, hq]

/-- The loop body on a rule of protocol `tcp` or `udp` whose port does not
parse. -/
theorem validateRule_bad_port (lib : NetLib) (rule : firewall.Rule)
    (h : rule.Protocol = firewall.Tcp ∨ rule.Protocol = firewall.Udp)
    (hq : firewall.parsePort rule.Port = none) :
    firewall.validateRule lib rule = (rule, some firewall.portError) := by
  obtain ⟨d1, d2, d3, d4, d5, d6⟩ := protocols_distinct
  have h1 : rule.Protocol ≠ firewall.All := by
    rcases h with h | h <;> rw [h]
    · exact fun e => d2 e.symm
    · exact fun e => d3 e.symm
  have h2 : rule.Protocol ≠ firewall.Icmp := by
    rcases h with h | h <;> rw [h]
    · exact fun e => d4 e.symm
    · exact fun e => d5 e.symm
  unfold firewall.validateRule
  simp only [if_neg h1, if_neg h2, if_pos h, hq]

/-- The loop body on a rule of another protocol. -/
theorem validateRule_bad_protocol (lib : NetLib) (rule : firewall.Rule)
    (h1 : rule.Protocol ≠ firewall.All) (h2 : rule.Protocol ≠ firewall.Icmp)
    (h3 : rule.Protocol ≠ firewall.Tcp) (h4 : rule.Protocol ≠ firewall.Udp) :
    firewall.validateRule lib rule = (rule, some firewall.protocolError) := by
  have h : ¬ (rule.Protocol = firewall.Tcp ∨ rule.Protocol = firewall.Udp) := by
    rintro (h | h)
    · exact h3 h
    · exact h4 h
  unfold firewall.validateRule
  simp only [if_neg h1, if_neg h2, if_neg h]

/-- What an accepted rule looks like afterwards. -/
theorem validateRule_accept (lib : NetLib) (r o : firewall.Rule)
    (h : firewall.validateRule lib r = (o, none)) :
    o.Protocol = r.Protocol ∧
    firewall.sourceIps lib r.SourceIps = (o.SourceIps, none) ∧
    (((r.Protocol = firewall.All ∨ r.Protocol = firewall.Icmp) ∧ o.Port = "") ∨
     ((r.Protocol = firewall.Tcp ∨ r.Protocol = firewall.Udp) ∧
        firewall.parsePort r.Port = some o.Port)) := by
  by_cases hc : r.Protocol = firewall.All ∨ r.Protocol = firewall.Icmp
  · rw [validateRule_clear lib r hc] at h
    simp only [Prod.mk.injEq] at h
    obtain ⟨h1, h2⟩ := h
    rw [← h1]
    exact ⟨rfl, Prod.ext rfl h2, Or.inl ⟨hc, rfl⟩⟩
  · by_cases ht : r.Protocol = firewall.Tcp ∨ r.Protocol = firewall.Udp
    · cases hq : firewall.parsePort r.Port with
      | none =>
        rw [validateRule_bad_port lib r ht hq] at h
        simp at h
      | some q =>
        rw [validateRule_port lib r q ht hq] at h
        simp only [Prod.mk.injEq] at h
        obtain ⟨h1, h2⟩ := h
        rw [← h1]
        exact ⟨rfl, Prod.ext rfl h2, Or.inr ⟨ht, rfl⟩⟩
    · rw [validateRule_bad_protocol lib r (fun e => hc (Or.inl e)) (fun e => hc (Or.inr e))
        (fun e => ht (Or.inl e)) (fun e => ht (Or.inr e))] at h
      simp at h

/-- The method at a rule the loop reaches. -/
theorem Validate_reach (lib : NetLib) (f : firewall.Firewall) (pre post : List firewall.Rule)
    (rule : firewall.Rule) (hf : f.Ingress = some (pre ++ rule :: post))
    (hpre : ∀ r ∈ pre, (firewall.validateRule lib r).2 = none) :
    ((firewall.Validate lib f).1.Ingress.getD []).get? pre.length =
        some (firewall.validateRule lib rule).1 ∧
      (∀ e, (firewall.validateRule lib rule).2 = some e →
        (firewall.Validate lib f).2 = some e) := by
  have h := validateRules_reach lib rule post pre hpre
  unfold firewall.Validate
  simp only [hf, Option.getD_some]
  exact h

/-- The method when it accepts. -/
theorem Validate_accept (lib : NetLib) (f f1 : firewall.Firewall)
    (h : firewall.Validate lib f = (f1, none)) :
    ∃ out, f1 = { f with NetworkRoles := some (f.NetworkRoles.getD []), Ingress := some out } ∧
      List.Forall₂ (fun r o => firewall.validateRule lib r = (o, none))
        (f.Ingress.getD []) out := by
  unfold firewall.Validate at h
  simp only [Prod.mk.injEq] at h
  obtain ⟨h1, h2⟩ := h
  exact ⟨_, h1.symm, validateRules_accept lib _ _ (Prod.ext rfl h2)⟩

theorem forall₂_exists_right {α β : Type} (R : α → β → Prop) (l1 : List α) (l2 : List β)
    (h : List.Forall₂ R l1 l2) : ∀ a ∈ l1, ∃ b ∈ l2, R a b := by
  induction h with
  | nil => intro a ha; exact absurd ha (List.not_mem_nil a)
  | cons hr _ ih =>
    intro a ha
    rcases List.mem_cons.1 ha with e | e
    · subst e
      exact ⟨_, List.mem_cons_self _ _, hr⟩
    · obtain ⟨b, hb, hab⟩ := ih a e
      exact ⟨b, List.mem_cons_of_mem _ hb, hab⟩

theorem forall₂_exists_left {α β : Type} (R : α → β → Prop) (l1 : List α) (l2 : List β)
    (h : List.Forall₂ R l1 l2) : ∀ b ∈ l2, ∃ a ∈ l1, R a b := by
  induction h with
  | nil => intro b hb; exact absurd hb (List.not_mem_nil b)
  | cons hr _ ih =>
    intro b hb
    rcases List.mem_cons.1 hb with e | e
    · subst e
      exact ⟨_, List.mem_cons_self _ _, hr⟩
    · obtain ⟨a, ha, hab⟩ := ih b e
      exact ⟨a, List.mem_cons_of_mem _ ha, hab⟩

theorem forall₂_diag {α β : Type} (R : α → β → Prop) (S : β → β → Prop)
    (hRS : ∀ a b, R a b → S b b) (l1 : List α) (l2 : List β)
    (h : List.Forall₂ R l1 l2) : List.Forall₂ S l2 l2 := by
  induction h with
  | nil => exact List.Forall₂.nil
  | cons hr _ ih => exact List.Forall₂.cons (hRS _ _ hr) ih

/-- The method accepts only when the loop body accepts every rule. -/
theorem Validate_none_all (lib : NetLib) (f : firewall.Firewall)
    (h : (firewall.Validate lib f).2 = none) :
    ∀ r ∈ f.Ingress.getD [], (firewall.validateRule lib r).2 = none := by
  intro r hr
  have hacc := validateRules_accept lib (f.Ingress.getD [])
    (firewall.validateRules lib (f.Ingress.getD [])).1 (Prod.ext rfl h)
  obtain ⟨o, _, ho⟩ := forall₂_exists_right _ _ _ hacc r hr
  rw [ho]

/-- The loop body on a rule with a valid protocol and port goes on to the
source IPs. -/
theorem validateRule_valid (lib : NetLib) (rule : firewall.Rule)
    (hport : (rule.Protocol = firewall.All ∨ rule.Protocol = firewall.Icmp) ∨
      ((rule.Protocol = firewall.Tcp ∨ rule.Protocol = firewall.Udp) ∧
        (firewall.parsePort rule.Port).isSome = true)) :
    (firewall.validateRule lib rule).1.SourceIps = (firewall.sourceIps lib rule.SourceIps).1 ∧
    (firewall.validateRule lib rule).2 = (firewall.sourceIps lib rule.SourceIps).2 := by
  rcases hport with h | ⟨h, hq⟩
  · rw [validateRule_clear lib rule h]
    exact ⟨rfl, rfl⟩
  · cases hp : firewall.parsePort rule.Port with
    | none => rw [hp] at hq; exact absurd hq (by simp)
    | some q =>
      rw [validateRule_port lib rule q h hp]
      exact ⟨rfl, rfl⟩

/-- Under the canonical form of networks, the source IPs of an accepted
rule are accepted unchanged. -/
theorem sourceIps_idem (lib : NetLib)
    (hcanon : ∀ s n, lib.parseCIDR s = some n →
      stringsContains n "/" = true ∧ lib.parseCIDR n = some n)
    (ips out : List String) (h : firewall.sourceIps lib ips = (out, none)) :
    firewall.sourceIps lib out = (out, none) := by
  refine sourceIps_of_forall₂ lib out out
    (forall₂_diag _ _ ?_ ips out (sourceIps_accept lib ips out h))
  rintro s n ⟨_, hn⟩
  obtain ⟨hslash, hfix⟩ := hcanon _ _ hn
  have hw : firewall.withPrefixLen n = n := by
    rw [withPrefixLen_eq, if_pos hslash]
  refine ⟨?_, by rw [hw]; exact hfix⟩
  intro e
  rw [e] at hslash
  exact absurd hslash (by decide)

/-- Under the canonical form of networks, an accepted rule is accepted
unchanged. -/
theorem validateRule_idem (lib : NetLib)
    (hcanon : ∀ s n, lib.parseCIDR s = some n →
      stringsContains n "/" = true ∧ lib.parseCIDR n = some n)
    (r o : firewall.Rule) (h : firewall.validateRule lib r = (o, none)) :
    firewall.validateRule lib o = (o, none) := by
  obtain ⟨hproto, hips, hport⟩ := validateRule_accept lib r o h
  have hips1 := sourceIps_idem lib hcanon _ _ hips
  rcases hport with ⟨hp, hq⟩ | ⟨hp, hq⟩
  · rw [← hproto] at hp
    rw [validateRule_clear lib o hp, hips1]
    cases o
    simp only at hq
    simp [hq]
  · rw [← hproto] at hp
    rw [validateRule_port lib o o.Port hp (parsePort_idem _ _ hq), hips1]

/-- What holds of the port of an accepted `tcp` or `udp` rule: a first
number within 1..65535 in canonical decimal form, alone or followed by a
larger number that the code bounds only by the range of `int`. -/
theorem Validate_port_shape (lib : NetLib) (f f1 : firewall.Firewall)
    (h : firewall.Validate lib f = (f1, none)) :
    ∀ o ∈ f1.Ingress.getD [], (o.Protocol = firewall.Tcp ∨ o.Protocol = firewall.Udp) →
      ∃ N : Int, 1 ≤ N ∧ N ≤ 65535 ∧
        (o.Port = strconv.Itoa N ∨
          ∃ M : Int, N < M ∧ M ≤ 9223372036854775807 ∧
            o.Port = strconv.Itoa N ++ "-" ++ strconv.Itoa M) := by
  obtain ⟨out, hf1, hall⟩ := Validate_accept lib f f1 h
  intro o ho hproto
  rw [hf1] at ho
  simp only [Option.getD_some] at ho
  obtain ⟨r, _, hr⟩ := forall₂_exists_left _ _ _ hall o ho
  obtain ⟨hp, _, hport⟩ := validateRule_accept lib r o hr
  obtain ⟨d1, d2, d3, d4, d5, d6⟩ := protocols_distinct
  rcases hport with ⟨hc, _⟩ | ⟨_, hq⟩
  · exfalso
    rw [← hp] at hc
    rcases hc with hc | hc <;> rcases hproto with ht | ht <;> rw [hc] at ht
    · exact d2 ht
    · exact d3 ht
    · exact d4 ht
    · exact d5 ht
  · obtain ⟨N, _, h1, h2, hcases⟩ := parsePort_some _ _ hq
    refine ⟨N, h1, h2, ?_⟩
    rcases hcases with ⟨_, e⟩ | ⟨_, M, _, hNM, hM, e⟩
    · exact Or.inl e
    · exact Or.inr ⟨M, hNM, hM, e⟩

/-- C11: the method accepts the `tcp` rule with port `80-70000` and leaves
that port in place, although the second number is above 65535: line 78
tests the first number a second time and never bounds the second one. -/
theorem Validate_accepts_range_end_above_65535 :
    firewall.Validate sampleCidrLib
        (sampleFirewall
          [{ SourceIps := ["10.0.0.1"], Protocol := firewall.Tcp, Port := "80-70000" }]) =
      ({ Id := "f1", Name := "web", Organization := "o1", NetworkRoles := some []
         Ingress := some
          [{ SourceIps := ["10.0.0.1/32"], Protocol := firewall.Tcp, Port := "80-70000" }] },
        none) := by
  decide

/-- C12: port `80` is accepted for `tcp` and `udp` and stays `80`; the ports
`0`, `65536`, `100-50`, `100-100` and `abc` are rejected with
`invalid_ingress_rule_port`; and in general a `tcp` or `udp` rule whose
first part is not an integer within 1..65535, or whose second part is not
an integer above the first, is never accepted, and is rejected with that
code when every rule before it is accepted. The parts are those of
`strings.Split(port, "-")`. -/
theorem Validate_port_rejections :
    (∀ proto ∈ [firewall.Tcp, firewall.Udp],
      firewall.Validate sampleCidrLib
          (sampleFirewall [{ SourceIps := ["10.0.0.1"], Protocol := proto, Port := "80" }]) =
        ({ Id := "f1", Name := "web", Organization := "o1", NetworkRoles := some []
           Ingress := some [{ SourceIps := ["10.0.0.1/32"], Protocol := proto, Port := "80" }] },
          none)) ∧
    (∀ proto ∈ [firewall.Tcp, firewall.Udp],
      ∀ port ∈ ["0", "65536", "100-50", "100-100", "abc"],
        ((firewall.Validate sampleCidrLib
          (sampleFirewall [{ SourceIps := ["10.0.0.1"], Protocol := proto, Port := port }])).2.map
            (fun e => e.Error)) = some "invalid_ingress_rule_port") ∧
    (∀ (lib : NetLib) (f : firewall.Firewall) (pre post : List firewall.Rule)
        (rule : firewall.Rule),
      f.Ingress = some (pre ++ rule :: post) →
      (rule.Protocol = firewall.Tcp ∨ rule.Protocol = firewall.Udp) →
      ((¬ ∃ N : Int, strconv.Atoi ((stringsSplit '-' rule.Port).getD 0 "") = some N ∧
            1 ≤ N ∧ N ≤ 65535) ∨
        ((stringsSplit '-' rule.Port).length > 1 ∧
          ¬ ∃ N M : Int, strconv.Atoi ((stringsSplit '-' rule.Port).getD 0 "") = some N ∧
            strconv.Atoi ((stringsSplit '-' rule.Port).getD 1 "") = some M ∧ N < M)) →
      (firewall.Validate lib f).2 ≠ none ∧
      ((∀ r ∈ pre, (firewall.validateRule lib r).2 = none) →
        (firewall.Validate lib f).2 =
          some { Error := "invalid_ingress_rule_port", Message := "Invalid ingress rule port" })) := by
  refine ⟨by decide, by decide, ?_⟩
  intro lib f pre post rule hf hproto hbad
  have hrule := validateRule_bad_port lib rule hproto (parsePort_none rule.Port hbad)
  constructor
  · intro hnone
    have h := Validate_none_all lib f hnone rule (by rw [hf]; simp)
    rw [hrule] at h
    exact absurd h (by simp)
  · intro hpre
    exact (Validate_reach lib f pre post rule hf hpre).2 _ (by rw [hrule]; rfl)

/-- C13: where `net.ParseCIDR` followed by `String()` yields strings with a
`"/"` that parse to themselves, a firewall the method accepts is accepted
again and comes back unchanged: every rule keeps its protocol, port and
source IPs. -/
theorem Validate_idempotent (lib : NetLib)
    (hcanon : ∀ s n, lib.parseCIDR s = some n →
      stringsContains n "/" = true ∧ lib.parseCIDR n = some n)
    (f f1 : firewall.Firewall) (h : firewall.Validate lib f = (f1, none)) :
    firewall.Validate lib f1 = (f1, none) := by
  obtain ⟨out, hf1, hall⟩ := Validate_accept lib f f1 h
  have hout : firewall.validateRules lib out = (out, none) :=
    validateRules_of_forall₂ lib out out
      (forall₂_diag _ _ (fun r o hr => validateRule_idem lib hcanon r o hr) _ _ hall)
  rw [hf1]
  unfold firewall.Validate
  simp only [Option.getD_some, hout]

theorem sampleCidrLib_canon : ∀ s n, sampleCidrLib.parseCIDR s = some n →
    stringsContains n "/" = true ∧ sampleCidrLib.parseCIDR n = some n := by
  intro s n h
  simp only [sampleCidrLib] at h
  split_ifs at h <;> cases h <;> decide

theorem Validate_idempotent_witness :
    firewall.Validate sampleCidrLib
        (sampleFirewall
          [{ SourceIps := ["10.0.0.1", "10.1.2.3/8"], Protocol := firewall.Tcp, Port := "080-0443" },
           { SourceIps := ["2001:db8::1"], Protocol := firewall.Icmp, Port := "7" }]) =
      ({ Id := "f1", Name := "web", Organization := "o1", NetworkRoles := some []
         Ingress := some
          [{ SourceIps := ["10.0.0.1/32", "10.0.0.0/8"], Protocol := firewall.Tcp, Port := "80-443" },
           { SourceIps := ["2001:db8::1/128"], Protocol := firewall.Icmp, Port := "" }] }, none) ∧
    firewall.Validate sampleCidrLib
        { Id := "f1", Name := "web", Organization := "o1", NetworkRoles := some []
          Ingress := some
           [{ SourceIps := ["10.0.0.1/32", "10.0.0.0/8"], Protocol := firewall.Tcp, Port := "80-443" },
            { SourceIps := ["2001:db8::1/128"], Protocol := firewall.Icmp, Port := "" }] } =
      ({ Id := "f1", Name := "web", Organization := "o1", NetworkRoles := some []
         Ingress := some
          [{ SourceIps := ["10.0.0.1/32", "10.0.0.0/8"], Protocol := firewall.Tcp, Port := "80-443" },
           { SourceIps := ["2001:db8::1/128"], Protocol := firewall.Icmp, Port := "" }] }, none) :=
  ⟨by decide, Validate_idempotent sampleCidrLib sampleCidrLib_canon
    (sampleFirewall
      [{ SourceIps := ["10.0.0.1", "10.1.2.3/8"], Protocol := firewall.Tcp, Port := "080-0443" },
       { SourceIps := ["2001:db8::1"], Protocol := firewall.Icmp, Port := "7" }]) _ (by decide)⟩

/-- C14: for a rule with a valid protocol and port that the loop reaches
(every rule before it accepted): the string parsed is the source IP itself
when it has a `"/"`, else the source IP followed by `/128` when it has a
`":"` and by `/32` when it has none; when every source IP is non-empty and
parses, the rule afterwards holds, in place of each, the string form of the
network it parses to; when some source IP is empty or does not parse, the
method returns `invalid_ingress_rule_source_ip`. `lib.parseCIDR` is
`net.ParseCIDR` followed by `String()` of the network. -/
theorem Validate_source_ips (lib : NetLib) (f : firewall.Firewall)
    (pre post : List firewall.Rule) (rule : firewall.Rule)
    (hf : f.Ingress = some (pre ++ rule :: post))
    (hpre : ∀ r ∈ pre, (firewall.validateRule lib r).2 = none)
    (hport : (rule.Protocol = firewall.All ∨ rule.Protocol = firewall.Icmp) ∨
      ((rule.Protocol = firewall.Tcp ∨ rule.Protocol = firewall.Udp) ∧
        (firewall.parsePort rule.Port).isSome = true)) :
    (∀ s, firewall.withPrefixLen s =
      if stringsContains s "/" = true then s
      else if stringsContains s ":" = true then s ++ "/128" else s ++ "/32") ∧
    ((∀ s ∈ rule.SourceIps,
        s ≠ "" ∧ (lib.parseCIDR (firewall.withPrefixLen s)).isSome = true) →
      ∃ rule1, ((firewall.Validate lib f).1.Ingress.getD []).get? pre.length = some rule1 ∧
        rule1.SourceIps =
          rule.SourceIps.map (fun s => (lib.parseCIDR (firewall.withPrefixLen s)).getD "")) ∧
    ((∃ s ∈ rule.SourceIps, s = "" ∨ lib.parseCIDR (firewall.withPrefixLen s) = none) →
      ∃ e, (firewall.Validate lib f).2 = some e ∧
        e.Error = "invalid_ingress_rule_source_ip") := by
  obtain ⟨hreach, herr⟩ := Validate_reach lib f pre post rule hf hpre
  obtain ⟨hips, hres⟩ := validateRule_valid lib rule hport
  refine ⟨withPrefixLen_eq, ?_, ?_⟩
  · intro hall
    refine ⟨_, hreach, ?_⟩
    rw [hips, sourceIps_map lib rule.SourceIps hall]
  · intro hbad
    obtain ⟨e, he, hcode⟩ := sourceIps_reject_mem lib rule.SourceIps hbad
    exact ⟨e, herr e (by rw [hres, he]), hcode⟩

theorem Validate_source_ips_witness :
    (∃ rule1, ((firewall.Validate sampleCidrLib (sampleFirewall
        [{ SourceIps := ["10.0.0.1", "2001:db8::1", "10.1.2.3/8"], Protocol := firewall.Udp,
           Port := "53" }])).1.Ingress.getD []).get? 0 = some rule1 ∧
      rule1.SourceIps = ["10.0.0.1/32", "2001:db8::1/128", "10.0.0.0/8"]) ∧
    (∃ e, (firewall.Validate sampleCidrLib (sampleFirewall
        [{ SourceIps := ["10.0.0.1", ""], Protocol := firewall.All, Port := "" }])).2 = some e ∧
      e.Error = "invalid_ingress_rule_source_ip") ∧
    (∃ e, (firewall.Validate sampleCidrLib (sampleFirewall
        [{ SourceIps := ["10.0.0.1/33"], Protocol := firewall.All, Port := "" }])).2 = some e ∧
      e.Error = "invalid_ingress_rule_source_ip") := by
  refine ⟨?_, ?_, ?_⟩
  · obtain ⟨rule1, h1, h2⟩ := (Validate_source_ips sampleCidrLib
      (sampleFirewall
        [{ SourceIps := ["10.0.0.1", "2001:db8::1", "10.1.2.3/8"], Protocol := firewall.Udp,
           Port := "53" }]) [] []
      { SourceIps := ["10.0.0.1", "2001:db8::1", "10.1.2.3/8"], Protocol := firewall.Udp,
        Port := "53" } rfl (by simp) (Or.inr ⟨Or.inr rfl, by decide⟩)).2.1 (by decide)
    exact ⟨rule1, h1, h2.trans (by decide)⟩
  · exact (Validate_source_ips sampleCidrLib
      (sampleFirewall [{ SourceIps := ["10.0.0.1", ""], Protocol := firewall.All, Port := "" }])
      [] [] { SourceIps := ["10.0.0.1", ""], Protocol := firewall.All, Port := "" }
      rfl (by simp) (Or.inl (Or.inl rfl))).2.2 ⟨"", by simp, Or.inl rfl⟩
  · exact (Validate_source_ips sampleCidrLib
      (sampleFirewall [{ SourceIps := ["10.0.0.1/33"], Protocol := firewall.All, Port := "" }])
      [] [] { SourceIps := ["10.0.0.1/33"], Protocol := firewall.All, Port := "" }
      rfl (by simp) (Or.inl (Or.inl rfl))).2.2 ⟨"10.0.0.1/33", by simp, Or.inr (by decide)⟩

/-- C15: for a rule the loop reaches (every rule before it accepted): with
protocol `all` or `icmp` the rule afterwards has the same protocol and the
empty port, whatever the port was; with a protocol that is none of `all`,
`icmp`, `tcp`, `udp` the method returns `invalid_ingress_rule_protocol`.
Further, a firewall the method accepts has the empty port on every `all`
and `icmp` rule and holds no rule of another protocol. -/
theorem Validate_protocols (lib : NetLib) (f : firewall.Firewall)
    (pre post : List firewall.Rule) (rule : firewall.Rule)
    (hf : f.Ingress = some (pre ++ rule :: post))
    (hpre : ∀ r ∈ pre, (firewall.validateRule lib r).2 = none) :
    ((rule.Protocol = firewall.All ∨ rule.Protocol = firewall.Icmp) →
      ∃ rule1, ((firewall.Validate lib f).1.Ingress.getD []).get? pre.length = some rule1 ∧
        rule1.Protocol = rule.Protocol ∧ rule1.Port = "") ∧
    ((rule.Protocol ≠ firewall.All ∧ rule.Protocol ≠ firewall.Icmp ∧
        rule.Protocol ≠ firewall.Tcp ∧ rule.Protocol ≠ firewall.Udp) →
      (firewall.Validate lib f).2 =
        some { Error := "invalid_ingress_rule_protocol"
               Message := "Invalid ingress rule protocol" }) ∧
    ((firewall.Validate lib f).2 = none →
      ∀ o ∈ (firewall.Validate lib f).1.Ingress.getD [],
        (o.Protocol = firewall.All ∨ o.Protocol = firewall.Icmp ∨
          o.Protocol = firewall.Tcp ∨ o.Protocol = firewall.Udp) ∧
        ((o.Protocol = firewall.All ∨ o.Protocol = firewall.Icmp) → o.Port = "")) := by
  obtain ⟨hreach, herr⟩ := Validate_reach lib f pre post rule hf hpre
  refine ⟨?_, ?_, ?_⟩
  · intro hc
    refine ⟨_, hreach, ?_⟩
    rw [validateRule_clear lib rule hc]
    exact ⟨rfl, rfl⟩
  · rintro ⟨h1, h2, h3, h4⟩
    exact herr _ (by rw [validateRule_bad_protocol lib rule h1 h2 h3 h4]; rfl)
  · intro hnone o ho
    obtain ⟨out, hf1, hall⟩ := Validate_accept lib f (firewall.Validate lib f).1
      (Prod.ext rfl hnone)
    rw [hf1] at ho
    simp only [Option.getD_some] at ho
    obtain ⟨r, _, hr⟩ := forall₂_exists_left _ _ _ hall o ho
    obtain ⟨hp, _, hport⟩ := validateRule_accept lib r o hr
    obtain ⟨d1, d2, d3, d4, d5, d6⟩ := protocols_distinct
    rcases hport with ⟨hc, hq⟩ | ⟨hc, _⟩
    · rw [← hp] at hc
      refine ⟨?_, fun _ => hq⟩
      rcases hc with hc | hc
      · exact Or.inl hc
      · exact Or.inr (Or.inl hc)
    · rw [← hp] at hc
      constructor
      · rcases hc with hc | hc
        · exact Or.inr (Or.inr (Or.inl hc))
        · exact Or.inr (Or.inr (Or.inr hc))
      · intro hc2
        exfalso
        rcases hc2 with h2 | h2 <;> rcases hc with ht | ht <;> rw [h2] at ht
        · exact d2 ht
        · exact d3 ht
        · exact d4 ht
        · exact d5 ht

theorem Validate_protocols_witness :
    (∃ rule1, ((firewall.Validate sampleCidrLib (sampleFirewall
        [{ SourceIps := ["10.0.0.1"], Protocol := firewall.Tcp, Port := "22" },
         { SourceIps := ["10.0.0.1"], Protocol := firewall.Icmp, Port := "8080" }])).1.Ingress.getD
          []).get? 1 = some rule1 ∧ rule1.Protocol = firewall.Icmp ∧ rule1.Port = "") ∧
    (firewall.Validate sampleCidrLib (sampleFirewall
        [{ SourceIps := ["10.0.0.1"], Protocol := firewall.Tcp, Port := "22" },
         { SourceIps := ["10.0.0.1"], Protocol := "sctp", Port := "8080" }])).2 =
      some { Error := "invalid_ingress_rule_protocol"
             Message := "Invalid ingress rule protocol" } :=
  ⟨(Validate_protocols sampleCidrLib
      (sampleFirewall
        [{ SourceIps := ["10.0.0.1"], Protocol := firewall.Tcp, Port := "22" },
         { SourceIps := ["10.0.0.1"], Protocol := firewall.Icmp, Port := "8080" }])
      [{ SourceIps := ["10.0.0.1"], Protocol := firewall.Tcp, Port := "22" }] []
      { SourceIps := ["10.0.0.1"], Protocol := firewall.Icmp, Port := "8080" }
      rfl (by decide)).1 (Or.inr rfl),
   (Validate_protocols sampleCidrLib
      (sampleFirewall
        [{ SourceIps := ["10.0.0.1"], Protocol := firewall.Tcp, Port := "22" },
         { SourceIps := ["10.0.0.1"], Protocol := "sctp", Port := "8080" }])
      [{ SourceIps := ["10.0.0.1"], Protocol := firewall.Tcp, Port := "22" }] []
      { SourceIps := ["10.0.0.1"], Protocol := "sctp", Port := "8080" }
      rfl (by decide)).2.1 (by decide)⟩

/-! ## policy.Policy -/

theorem types_distinct :
    policy.OperatingSystem ≠ policy.Browser ∧ policy.OperatingSystem ≠ policy.Location ∧
    policy.OperatingSystem ≠ policy.WhitelistNetworks ∧
    policy.OperatingSystem ≠ policy.BlacklistNetworks ∧
    policy.Browser ≠ policy.Location ∧ policy.Browser ≠ policy.WhitelistNetworks ∧
    policy.Browser ≠ policy.BlacklistNetworks ∧
    policy.Location ≠ policy.WhitelistNetworks ∧ policy.Location ≠ policy.BlacklistNetworks ∧
    policy.WhitelistNetworks ≠ policy.BlacklistNetworks := by
  decide

theorem matchValue_iff (values : List String) (field : String) :
    policy.matchValue values field = true ↔ field ∈ values := by
  unfold policy.matchValue
  simp only [List.any_eq_true, decide_eq_true_eq]
  constructor
  · rintro ⟨v, hv, e⟩
    exact e ▸ hv
  · intro h
    exact ⟨field, h, rfl⟩

theorem matchLocation_iff (values : List String) (agnt : agent.Agent) :
    policy.matchLocation values agnt = true ↔
      agnt.CountryCode ∈ values ∨ (agnt.CountryCode ++ "_" ++ agnt.RegionCode) ∈ values := by
  unfold policy.matchLocation
  simp only [List.any_eq_true, Bool.or_eq_true, decide_eq_true_eq]
  constructor
  · rintro ⟨v, hv, e | e⟩
    · exact Or.inl (e ▸ hv)
    · exact Or.inr (e ▸ hv)
  · rintro (h | h)
    · exact ⟨_, h, Or.inl rfl⟩
    · exact ⟨_, h, Or.inr rfl⟩

theorem matchNetwork_iff (env : policy.Env) (values : List String) (agnt : agent.Agent) :
    policy.matchNetwork env values agnt = true ↔
      ∃ value ∈ values, env.contains value agnt.Ip = some true := by
  unfold policy.matchNetwork
  simp only [List.any_eq_true, beq_iff_eq]

theorem reject_errData (env : policy.Env) (rule : policy.Rule) (usr : user.User)
    (code message : String) :
    (policy.reject env rule usr code message).errData ≠ none := by
  unfold policy.reject
  split_ifs <;> simp

/-- What the block run at a failing rule returns. -/
theorem reject_spec (env : policy.Env) (rule : policy.Rule) (usr : user.User)
    (code message : String) :
    (rule.Disable = true →
      (policy.reject env rule usr code message).errData =
          some { Error := "unauthorized", Message := "Not authorized" } ∧
        (policy.reject env rule usr code message).usr = { usr with Disabled := true } ∧
        (policy.reject env rule usr code message).commits = [["disabled"]]) ∧
    (rule.Disable = false →
      (policy.reject env rule usr code message).errData =
          some { Error := code, Message := message } ∧
        (policy.reject env rule usr code message).usr = usr ∧
        (policy.reject env rule usr code message).commits = [] ∧
        (policy.reject env rule usr code message).err = false) := by
  unfold policy.reject
  constructor
  · intro h
    simp [h]
  · intro h
    simp [h]

/-- A pass of the loop of `ValidateAdmin` lets the loop go on exactly when
the rule passes. -/
theorem adminRule_none_iff (env : policy.Env) (agnt : agent.Agent) (usr : user.User)
    (rule : policy.Rule) :
    policy.adminRule env agnt usr rule = none ↔
      (rule.Typ = policy.OperatingSystem → agnt.OperatingSystem ∈ rule.Values) ∧
      (rule.Typ = policy.Browser → agnt.Browser ∈ rule.Values) ∧
      (rule.Typ = policy.Location →
        agnt.CountryCode ∈ rule.Values ∨
          (agnt.CountryCode ++ "_" ++ agnt.RegionCode) ∈ rule.Values) ∧
      (rule.Typ = policy.WhitelistNetworks →
        ∃ value ∈ rule.Values, env.contains value agnt.Ip = some true) ∧
      (rule.Typ = policy.BlacklistNetworks →
        ¬ ∃ value ∈ rule.Values, env.contains value agnt.Ip = some true) := by
  obtain ⟨d1, d2, d3, d4, d5, d6, d7, d8, d9, d10⟩ := types_distinct
  rw [← matchValue_iff, ← matchValue_iff, ← matchLocation_iff, ← matchNetwork_iff]
  unfold policy.adminRule
  by_cases h1 : rule.Typ = policy.OperatingSystem
  · simp only [h1, if_true, d1, d2, d3, d4, false_implies, true_implies, true_and, and_true]
    cases policy.matchValue rule.Values agnt.OperatingSystem <;> simp
  · by_cases h2 : rule.Typ = policy.Browser
    · simp only [h2, if_true, if_false, d1.symm, d5, d6, d7, false_implies, true_implies,
        true_and, and_true]
      cases policy.matchValue rule.Values agnt.Browser <;> simp
    · by_cases h3 : rule.Typ = policy.Location
      · simp only [h3, if_true, if_false, d2.symm, d5.symm, d8, d9, false_implies,
          true_implies, true_and, and_true]
        cases policy.matchLocation rule.Values agnt <;> simp
      · by_cases h4 : rule.Typ = policy.WhitelistNetworks
        · simp only [h4, if_true, if_false, d3.symm, d6.symm, d8.symm, d10, false_implies,
            true_implies, true_and, and_true]
          cases policy.matchNetwork env rule.Values agnt <;> simp
        · by_cases h5 : rule.Typ = policy.BlacklistNetworks
          · simp only [h5, if_true, if_false, d4.symm, d7.symm, d9.symm, d10.symm,
              false_implies, true_implies, true_and, and_true]
            cases policy.matchNetwork env rule.Values agnt <;> simp
          · simp [h1, h2, h3, h4, h5]

theorem adminRule_errData (env : policy.Env) (agnt : agent.Agent) (usr : user.User)
    (rule : policy.Rule) (r : policy.Result) (h : policy.adminRule env agnt usr rule = some r) :
    r.errData ≠ none := by
  unfold policy.adminRule at h
  split_ifs at h <;> cases h <;> exact reject_errData _ _ _ _ _

theorem userRule_errData (env : policy.Env) (agnt : agent.Agent) (usr : user.User)
    (rule : policy.Rule) (r : policy.Result) (h : policy.userRule env agnt usr rule = some r) :
    r.errData ≠ none := by
  unfold policy.userRule at h
  split_ifs at h <;> cases h <;> exact reject_errData _ _ _ _ _

/-- The loop when every pass lets it go on. -/
theorem loop_all_none (body : policy.Rule → Option policy.Result) (usr : user.User) :
    ∀ rules : List policy.Rule, (∀ r ∈ rules, body r = none) →
      policy.loop body usr rules = { errData := none, err := false, usr := usr, commits := [] } := by
  intro rules
  induction rules with
  | nil => intro _; rfl
  | cons r rest ih =>
    intro h
    unfold policy.loop
    rw [h r (List.mem_cons_self _ _)]
    exact ih (fun x hx => h x (List.mem_cons_of_mem _ hx))

/-- The loop at the first rule whose pass returns. -/
theorem loop_first (body : policy.Rule → Option policy.Result) (usr : user.User)
    (rule : policy.Rule) (post : List policy.Rule) (res : policy.Result)
    (hres : body rule = some res) :
    ∀ pre : List policy.Rule, (∀ r ∈ pre, body r = none) →
      policy.loop body usr (pre ++ rule :: post) = res := by
  intro pre
  induction pre with
  | nil =>
    intro _
    simp only [List.nil_append]
    unfold policy.loop
    rw [hres]
  | cons r rest ih =>
    intro h
    simp only [List.cons_append]
    unfold policy.loop
    rw [h r (List.mem_cons_self _ _)]
    exact ih (fun x hx => h x (List.mem_cons_of_mem _ hx))

/-- The loop returns a nil `errData` only when every pass lets it go on,
given that a pass that returns carries an `errData`. -/
theorem loop_errData_none (body : policy.Rule → Option policy.Result) (usr : user.User)
    (hbody : ∀ rule r, body rule = some r → r.errData ≠ none) :
    ∀ rules : List policy.Rule, (policy.loop body usr rules).errData = none →
      ∀ r ∈ rules, body r = none := by
  intro rules
  induction rules with
  | nil => intro _ r hr; exact absurd hr (List.not_mem_nil r)
  | cons a rest ih =>
    intro h r hr
    unfold policy.loop at h
    cases ha : body a with
    | some res =>
      rw [ha] at h
      exact absurd h (hbody a res ha)
    | none =>
      rw [ha] at h
      rcases List.mem_cons.1 hr with e | e
      · rw [e]; exact ha
      · exact ih h r e

theorem adminRule_none_usr (env : policy.Env) (agnt : agent.Agent) (usr usr1 : user.User)
    (rule : policy.Rule) (h : policy.adminRule env agnt usr rule = none) :
    policy.adminRule env agnt usr1 rule = none := by
  rw [adminRule_none_iff] at h ⊢
  exact h

theorem userRule_none_usr (env : policy.Env) (agnt : agent.Agent) (usr usr1 : user.User)
    (rule : policy.Rule) (h : policy.userRule env agnt usr rule = none) :
    policy.userRule env agnt usr1 rule = none := by
  unfold policy.userRule at h ⊢
  split_ifs at h ⊢ <;> rfl

/-- A pass of the loop of `ValidateAdmin` that returns: the rule is of one
of the five types and the results are those of the failing block with the
code of that type, whoever the user is. -/
theorem adminRule_some (env : policy.Env) (agnt : agent.Agent) (usr : user.User)
    (rule : policy.Rule) (h : policy.adminRule env agnt usr rule ≠ none) :
    ∃ code message, code = rule.Typ ++ "_policy" ∧
      code ∈ ["operating_system_policy", "browser_policy", "location_policy",
        "whitelist_networks_policy", "blacklist_networks_policy"] ∧
      ∀ usr1, policy.adminRule env agnt usr1 rule =
        some (policy.reject env rule usr1 code message) := by
  unfold policy.adminRule at h ⊢
  split_ifs at h ⊢ with h1 _ h2 _ h3 _ h4 _ h5
  · exact ⟨_, _, by rw [h1]; decide, by decide, fun _ => rfl⟩
  · exact absurd rfl h
  · exact ⟨_, _, by rw [h2]; decide, by decide, fun _ => rfl⟩
  · exact absurd rfl h
  · exact ⟨_, _, by rw [h3]; decide, by decide, fun _ => rfl⟩
  · exact absurd rfl h
  · exact ⟨_, _, by rw [h4]; decide, by decide, fun _ => rfl⟩
  · exact absurd rfl h
  · exact ⟨_, _, by rw [h5]; decide, by decide, fun _ => rfl⟩
  · exact absurd rfl h
  · exact absurd rfl h

/-- A pass of the loop of `ValidateUser` that returns. -/
theorem userRule_some (env : policy.Env) (agnt : agent.Agent) (usr : user.User)
    (rule : policy.Rule) (h : policy.userRule env agnt usr rule ≠ none) :
    ∃ code message, code = rule.Typ ++ "_policy" ∧
      code ∈ ["operating_system_policy", "browser_policy", "location_policy"] ∧
      ∀ usr1, policy.userRule env agnt usr1 rule =
        some (policy.reject env rule usr1 code message) := by
  unfold policy.userRule at h ⊢
  split_ifs at h ⊢ with h1 _ h2 _ h3
  · exact ⟨_, _, by rw [h1]; decide, by decide, fun _ => rfl⟩
  · exact absurd rfl h
  · exact ⟨_, _, by rw [h2]; decide, by decide, fun _ => rfl⟩
  · exact absurd rfl h
  · exact ⟨_, _, by rw [h3]; decide, by decide, fun _ => rfl⟩
  · exact absurd rfl h
  · exact absurd rfl h

/-- The loop at a first failing rule, for a loop body that does not look at
the user to tell whether a rule fails. -/
theorem loop_failing (body : user.User → policy.Rule → Option policy.Result)
    (env : policy.Env) (rule : policy.Rule) (code message : String)
    (pre post : List policy.Rule)
    (hpre : ∀ u, ∀ r ∈ pre, body u r = none)
    (hrule : ∀ u, body u rule = some (policy.reject env rule u code message))
    (usr : user.User) :
    (rule.Disable = true →
      (policy.loop (body usr) usr (pre ++ rule :: post)).errData =
          some { Error := "unauthorized", Message := "Not authorized" } ∧
        (policy.loop (body usr) usr (pre ++ rule :: post)).usr = { usr with Disabled := true } ∧
        (policy.loop (body usr) usr (pre ++ rule :: post)).commits = [["disabled"]]) ∧
    (rule.Disable = false →
      (policy.loop (body usr) usr (pre ++ rule :: post)).errData =
          some { Error := code, Message := message } ∧
        (policy.loop (body usr) usr (pre ++ rule :: post)).usr = usr ∧
        (policy.loop (body usr) usr (pre ++ rule :: post)).commits = []) := by
  rw [loop_first (body usr) usr rule post _ (hrule usr) pre (hpre usr)]
  obtain ⟨h1, h2⟩ := reject_spec env rule usr code message
  exact ⟨h1, fun h => ⟨(h2 h).1, (h2 h).2.1, (h2 h).2.2.1⟩⟩

/-- The loop returns either with every rule passed or with the results of
the pass of one of its rules. -/
theorem loop_cases (body : policy.Rule → Option policy.Result) (usr : user.User) :
    ∀ rules : List policy.Rule,
      policy.loop body usr rules = { errData := none, err := false, usr := usr, commits := [] } ∨
      ∃ rule ∈ rules, body rule = some (policy.loop body usr rules) := by
  intro rules
  induction rules with
  | nil => exact Or.inl rfl
  | cons a rest ih =>
    unfold policy.loop
    cases ha : body a with
    | some res => exact Or.inr ⟨a, List.mem_cons_self _ _, ha⟩
    | none =>
      rcases ih with h | ⟨rule, hr, h⟩
      · exact Or.inl h
      · exact Or.inr ⟨rule, List.mem_cons_of_mem _ hr, h⟩

/-- C16: with a parsed agent, `ValidateAdmin` returns a nil `errData`
exactly when every rule of the policy passes: an operating system or browser
rule when the agent's field is one of the values, a location rule when the
country code or the country code, `_` and the region code is one of the
values, a whitelist rule when some value parses to a network that contains
the agent's address, a blacklist rule when no value does; rules of other
types pass. It then leaves the user as it was, commits nothing and returns a
nil error. A value that does not parse never makes the error non-nil: the
error is non-nil only when the commit of `disabled` fails. -/
theorem ValidateAdmin_accepts_iff (env : policy.Env) (p : policy.Policy) (usr : user.User)
    (agnt : agent.Agent) :
    ((policy.ValidateAdmin env p usr (some agnt)).errData = none ↔
      ∀ kr ∈ p.Rules,
        (kr.2.Typ = policy.OperatingSystem → agnt.OperatingSystem ∈ kr.2.Values) ∧
        (kr.2.Typ = policy.Browser → agnt.Browser ∈ kr.2.Values) ∧
        (kr.2.Typ = policy.Location →
          agnt.CountryCode ∈ kr.2.Values ∨
            (agnt.CountryCode ++ "_" ++ agnt.RegionCode) ∈ kr.2.Values) ∧
        (kr.2.Typ = policy.WhitelistNetworks →
          ∃ value ∈ kr.2.Values, env.contains value agnt.Ip = some true) ∧
        (kr.2.Typ = policy.BlacklistNetworks →
          ¬ ∃ value ∈ kr.2.Values, env.contains value agnt.Ip = some true)) ∧
    ((policy.ValidateAdmin env p usr (some agnt)).errData = none →
      policy.ValidateAdmin env p usr (some agnt) =
        { errData := none, err := false, usr := usr, commits := [] }) ∧
    ((policy.ValidateAdmin env p usr (some agnt)).err = true →
      (policy.ValidateAdmin env p usr (some agnt)).commits = [["disabled"]] ∧
      env.CommitFields { usr with Disabled := true } ["disabled"] = false) := by
  have hnone : (policy.ValidateAdmin env p usr (some agnt)).errData = none →
      ∀ r ∈ p.Rules.map Prod.snd, policy.adminRule env agnt usr r = none :=
    loop_errData_none _ usr (adminRule_errData env agnt usr) _
  refine ⟨⟨?_, ?_⟩, ?_, ?_⟩
  · intro h kr hkr
    exact (adminRule_none_iff env agnt usr kr.2).1 (hnone h kr.2 (List.mem_map_of_mem _ hkr))
  · intro h
    have hall : ∀ r ∈ p.Rules.map Prod.snd, policy.adminRule env agnt usr r = none := by
      intro r hr
      obtain ⟨kr, hkr, e⟩ := List.mem_map.1 hr
      rw [← e]
      exact (adminRule_none_iff env agnt usr kr.2).2 (h kr hkr)
    show (policy.loop _ usr _).errData = none
    rw [loop_all_none _ usr _ hall]
  · intro h
    exact loop_all_none _ usr _ (hnone h)
  · intro herr
    have hcases := loop_cases (policy.adminRule env agnt usr) usr (p.Rules.map Prod.snd)
    change (policy.loop (policy.adminRule env agnt usr) usr (p.Rules.map Prod.snd)).err = true
      at herr
    show (policy.loop (policy.adminRule env agnt usr) usr (p.Rules.map Prod.snd)).commits = _ ∧ _
    rcases hcases with h | ⟨rule, _, h⟩
    · rw [h] at herr
      exact absurd herr (by simp)
    · obtain ⟨code, message, _, _, hrej⟩ :=
        adminRule_some env agnt usr rule (by rw [h]; exact Option.some_ne_none _)
      have e := Option.some.inj ((hrej usr).symm.trans h)
      rw [← e] at herr ⊢
      unfold policy.reject at herr ⊢
      split_ifs at herr ⊢
      simpa using herr

/-- A call repeated for a user that is already disabled, over any list of
rules one of which fails: the user stays disabled and the call is rejected
again, with `unauthorized` when every failing rule has `Disable` set. -/
theorem loop_repeat (body : user.User → policy.Rule → Option policy.Result) (env : policy.Env)
    (hsome : ∀ u r, body u r ≠ none →
      ∃ code message, ∀ u1, body u1 r = some (policy.reject env r u1 code message))
    (l : List policy.Rule) (usr1 : user.User) (hdis : usr1.Disabled = true)
    (hfail : ∃ r ∈ l, body usr1 r ≠ none) :
    (policy.loop (body usr1) usr1 l).usr.Disabled = true ∧
    (policy.loop (body usr1) usr1 l).errData ≠ none ∧
    ((∀ r ∈ l, body usr1 r ≠ none → r.Disable = true) →
      (policy.loop (body usr1) usr1 l).errData =
        some { Error := "unauthorized", Message := "Not authorized" }) := by
  have hbody : ∀ rule r, body usr1 rule = some r → r.errData ≠ none := by
    intro rule r h
    obtain ⟨code, message, hc⟩ := hsome usr1 rule (by rw [h]; exact Option.some_ne_none _)
    rw [← Option.some.inj ((hc usr1).symm.trans h)]
    exact reject_errData _ _ _ _ _
  rcases loop_cases (body usr1) usr1 l with h | ⟨rule, hrule, h⟩
  · exfalso
    obtain ⟨r, hr, hne⟩ := hfail
    exact hne (loop_errData_none (body usr1) usr1 hbody l (by rw [h]) r hr)
  · obtain ⟨code, message, hc⟩ := hsome usr1 rule (by rw [h]; exact Option.some_ne_none _)
    have e := Option.some.inj ((hc usr1).symm.trans h)
    obtain ⟨hon, hoff⟩ := reject_spec env rule usr1 code message
    rw [← e]
    refine ⟨?_, reject_errData _ _ _ _ _, ?_⟩
    · cases hd : rule.Disable with
      | true => rw [(hon hd).2.1]
      | false => rw [(hoff hd).2.1]; exact hdis
    · intro hall
      exact (hon (hall rule hrule (by rw [h]; exact Option.some_ne_none _))).1

/-- Counterexample to C17: a browser rule with `Disable` and an operating
system rule without it, both failing for the agent. Visited browser first,
`ValidateAdmin` and `ValidateUser` disable the user and return
`unauthorized`; repeated for the user so disabled with the operating system
rule visited first, they return `operating_system_policy`. -/
theorem repeat_depends_on_order :
    policy.ValidateAdmin samplePolicyEnv
        (samplePolicy
          [{ Typ := policy.Browser, Disable := true, Values := ["chrome"] },
           { Typ := policy.OperatingSystem, Disable := false, Values := ["windows"] }] false false)
        sampleUser (some sampleAgent) =
      { errData := some { Error := "unauthorized", Message := "Not authorized" }
        err := false, usr := { sampleUser with Disabled := true }, commits := [["disabled"]] } ∧
    policy.ValidateAdmin samplePolicyEnv
        (samplePolicy
          [{ Typ := policy.OperatingSystem, Disable := false, Values := ["windows"] },
           { Typ := policy.Browser, Disable := true, Values := ["chrome"] }] false false)
        { sampleUser with Disabled := true } (some sampleAgent) =
      { errData := some { Error := "operating_system_policy"
                          Message := "Operating system not permitted" }
        err := false, usr := { sampleUser with Disabled := true }, commits := [] } ∧
    policy.ValidateUser samplePolicyEnv
        (samplePolicy
          [{ Typ := policy.OperatingSystem, Disable := false, Values := ["windows"] },
           { Typ := policy.Browser, Disable := true, Values := ["chrome"] }] false false)
        { sampleUser with Disabled := true } (some sampleAgent) =
      { errData := some { Error := "operating_system_policy"
                          Message := "Operating system not permitted" }
        err := false, usr := { sampleUser with Disabled := true }, commits := [] } := by
  decide

/-- C17, amended: at the first failing rule of `ValidateAdmin` or
`ValidateUser` in the order of the call (every rule visited before it
passes): with `rule.Disable` the user comes back disabled, the one field
`disabled` is committed and `errData.Error` is `unauthorized`; without it
`errData.Error` is the type of the rule followed by `_policy`, one of the
policy codes, and the user comes back as it was with nothing committed. A
call repeated for an already disabled user, in any order of the same rules,
leaves the user disabled and is rejected again; it returns `unauthorized`
when every failing rule has `Disable` set, and also when the order is the
same and the first failing rule has `Disable` set. -/
theorem failing_rule_outcome (env : policy.Env) (p : policy.Policy) (usr : user.User)
    (agnt : agent.Agent) (pre post : List policy.Rule) (rule : policy.Rule)
    (hrules : p.Rules.map Prod.snd = pre ++ rule :: post) :
    ((∀ r ∈ pre, policy.adminRule env agnt usr r = none) →
      policy.adminRule env agnt usr rule ≠ none →
      (rule.Disable = true →
        (policy.ValidateAdmin env p usr (some agnt)).errData =
            some { Error := "unauthorized", Message := "Not authorized" } ∧
          (policy.ValidateAdmin env p usr (some agnt)).usr = { usr with Disabled := true } ∧
          (policy.ValidateAdmin env p usr (some agnt)).commits = [["disabled"]]) ∧
      (rule.Disable = false →
        (∃ e, (policy.ValidateAdmin env p usr (some agnt)).errData = some e ∧
          e.Error = rule.Typ ++ "_policy" ∧
          e.Error ∈ ["operating_system_policy", "browser_policy", "location_policy",
            "whitelist_networks_policy", "blacklist_networks_policy"]) ∧
        (policy.ValidateAdmin env p usr (some agnt)).usr = usr ∧
        (policy.ValidateAdmin env p usr (some agnt)).commits = []) ∧
      (∀ (rules2 : List (String × policy.Rule)) (usr1 : user.User), p.Rules.Perm rules2 →
        usr1.Disabled = true →
        (policy.ValidateAdmin env { p with Rules := rules2 } usr1 (some agnt)).usr.Disabled =
          true ∧
        (policy.ValidateAdmin env { p with Rules := rules2 } usr1 (some agnt)).errData ≠ none ∧
        ((∀ kr ∈ p.Rules, policy.adminRule env agnt usr kr.2 ≠ none → kr.2.Disable = true) →
          (policy.ValidateAdmin env { p with Rules := rules2 } usr1 (some agnt)).errData =
            some { Error := "unauthorized", Message := "Not authorized" }) ∧
        (rules2 = p.Rules → rule.Disable = true →
          (policy.ValidateAdmin env { p with Rules := rules2 } usr1 (some agnt)).errData =
            some { Error := "unauthorized", Message := "Not authorized" }))) ∧
    ((∀ r ∈ pre, policy.userRule env agnt usr r = none) →
      policy.userRule env agnt usr rule ≠ none →
      (rule.Disable = true →
        (policy.ValidateUser env p usr (some agnt)).errData =
            some { Error := "unauthorized", Message := "Not authorized" } ∧
          (policy.ValidateUser env p usr (some agnt)).usr = { usr with Disabled := true } ∧
          (policy.ValidateUser env p usr (some agnt)).commits = [["disabled"]]) ∧
      (rule.Disable = false →
        (∃ e, (policy.ValidateUser env p usr (some agnt)).errData = some e ∧
          e.Error = rule.Typ ++ "_policy" ∧
          e.Error ∈ ["operating_system_policy", "browser_policy", "location_policy"]) ∧
        (policy.ValidateUser env p usr (some agnt)).usr = usr ∧
        (policy.ValidateUser env p usr (some agnt)).commits = []) ∧
      (∀ (rules2 : List (String × policy.Rule)) (usr1 : user.User), p.Rules.Perm rules2 →
        usr1.Disabled = true →
        (policy.ValidateUser env { p with Rules := rules2 } usr1 (some agnt)).usr.Disabled =
          true ∧
        (policy.ValidateUser env { p with Rules := rules2 } usr1 (some agnt)).errData ≠ none ∧
        ((∀ kr ∈ p.Rules, policy.userRule env agnt usr kr.2 ≠ none → kr.2.Disable = true) →
          (policy.ValidateUser env { p with Rules := rules2 } usr1 (some agnt)).errData =
            some { Error := "unauthorized", Message := "Not authorized" }) ∧
        (rules2 = p.Rules → rule.Disable = true →
          (policy.ValidateUser env { p with Rules := rules2 } usr1 (some agnt)).errData =
            some { Error := "unauthorized", Message := "Not authorized" }))) := by
  have hrule_mem : rule ∈ p.Rules.map Prod.snd := by
    rw [hrules]
    exact List.mem_append_right _ (List.mem_cons_self _ _)
  constructor
  · intro hpre hfail
    obtain ⟨code, message, hcode, hmem, hrej⟩ := adminRule_some env agnt usr rule hfail
    have hpre1 : ∀ u, ∀ r ∈ pre, policy.adminRule env agnt u r = none :=
      fun u r hr => adminRule_none_usr env agnt usr u r (hpre r hr)
    have key := fun u => loop_failing (policy.adminRule env agnt) env rule code message pre post
      hpre1 hrej u
    have hsome : ∀ u r, policy.adminRule env agnt u r ≠ none →
        ∃ code message, ∀ u1, policy.adminRule env agnt u1 r =
          some (policy.reject env r u1 code message) := by
      intro u r h
      obtain ⟨c, m, _, _, hr⟩ := adminRule_some env agnt u r h
      exact ⟨c, m, hr⟩
    refine ⟨?_, ?_, ?_⟩
    · intro hd
      unfold policy.ValidateAdmin
      simp only [hrules]
      exact (key usr).1 hd
    · intro hd
      unfold policy.ValidateAdmin
      simp only [hrules]
      obtain ⟨h1, h2, h3⟩ := (key usr).2 hd
      exact ⟨⟨_, h1, hcode, hmem⟩, h2, h3⟩
    · intro rules2 usr1 hperm hdis
      have hmem2 : ∀ r, r ∈ rules2.map Prod.snd ↔ r ∈ p.Rules.map Prod.snd :=
        fun r => (hperm.map Prod.snd).mem_iff.symm
      have hf1 : policy.adminRule env agnt usr1 rule ≠ none :=
        fun h => hfail (adminRule_none_usr env agnt usr1 usr rule h)
      obtain ⟨r1, r2, r3⟩ := loop_repeat (policy.adminRule env agnt) env hsome
        (rules2.map Prod.snd) usr1 hdis ⟨rule, (hmem2 rule).2 hrule_mem, hf1⟩
      refine ⟨r1, r2, ?_, ?_⟩
      · intro hall
        apply r3
        intro r hr hne
        obtain ⟨kr, hkr, e⟩ := List.mem_map.1 ((hmem2 r).1 hr)
        rw [← e]
        exact hall kr hkr (fun h => hne (by
          rw [← e]
          exact adminRule_none_usr env agnt usr usr1 kr.2 h))
      · intro hsame hd
        show (policy.loop _ usr1 (rules2.map Prod.snd)).errData = _
        rw [hsame, hrules]
        exact ((key usr1).1 hd).1
  · intro hpre hfail
    obtain ⟨code, message, hcode, hmem, hrej⟩ := userRule_some env agnt usr rule hfail
    have hpre1 : ∀ u, ∀ r ∈ pre, policy.userRule env agnt u r = none :=
      fun u r hr => userRule_none_usr env agnt usr u r (hpre r hr)
    have key := fun u => loop_failing (policy.userRule env agnt) env rule code message pre post
      hpre1 hrej u
    have hsome : ∀ u r, policy.userRule env agnt u r ≠ none →
        ∃ code message, ∀ u1, policy.userRule env agnt u1 r =
          some (policy.reject env r u1 code message) := by
      intro u r h
      obtain ⟨c, m, _, _, hr⟩ := userRule_some env agnt u r h
      exact ⟨c, m, hr⟩
    refine ⟨?_, ?_, ?_⟩
    · intro hd
      unfold policy.ValidateUser
      simp only [hrules]
      exact (key usr).1 hd
    · intro hd
      unfold policy.ValidateUser
      simp only [hrules]
      obtain ⟨h1, h2, h3⟩ := (key usr).2 hd
      exact ⟨⟨_, h1, hcode, hmem⟩, h2, h3⟩
    · intro rules2 usr1 hperm hdis
      have hmem2 : ∀ r, r ∈ rules2.map Prod.snd ↔ r ∈ p.Rules.map Prod.snd :=
        fun r => (hperm.map Prod.snd).mem_iff.symm
      have hf1 : policy.userRule env agnt usr1 rule ≠ none :=
        fun h => hfail (userRule_none_usr env agnt usr1 usr rule h)
      obtain ⟨r1, r2, r3⟩ := loop_repeat (policy.userRule env agnt) env hsome
        (rules2.map Prod.snd) usr1 hdis ⟨rule, (hmem2 rule).2 hrule_mem, hf1⟩
      refine ⟨r1, r2, ?_, ?_⟩
      · intro hall
        apply r3
        intro r hr hne
        obtain ⟨kr, hkr, e⟩ := List.mem_map.1 ((hmem2 r).1 hr)
        rw [← e]
        exact hall kr hkr (fun h => hne (by
          rw [← e]
          exact userRule_none_usr env agnt usr usr1 kr.2 h))
      · intro hsame hd
        show (policy.loop _ usr1 (rules2.map Prod.snd)).errData = _
        rw [hsame, hrules]
        exact ((key usr1).1 hd).1

/-- Worked example of the amended C17: a blacklist rule with `Disable` that
matches the agent; then the repeat for the disabled user over the same rules
in the other order. -/
theorem failing_rule_outcome_witness :
    ((policy.ValidateAdmin samplePolicyEnv
        (samplePolicy
          [{ Typ := policy.BlacklistNetworks, Disable := true, Values := ["bogus", "10.0.0.0/8"] },
           { Typ := policy.Browser, Disable := true, Values := ["firefox"] }]
          false false) sampleUser (some sampleAgent)).errData =
        some { Error := "unauthorized", Message := "Not authorized" } ∧
      (policy.ValidateAdmin samplePolicyEnv
        (samplePolicy
          [{ Typ := policy.BlacklistNetworks, Disable := true, Values := ["bogus", "10.0.0.0/8"] },
           { Typ := policy.Browser, Disable := true, Values := ["firefox"] }]
          false false) sampleUser (some sampleAgent)).usr = { sampleUser with Disabled := true } ∧
      (policy.ValidateAdmin samplePolicyEnv
        (samplePolicy
          [{ Typ := policy.BlacklistNetworks, Disable := true, Values := ["bogus", "10.0.0.0/8"] },
           { Typ := policy.Browser, Disable := true, Values := ["firefox"] }]
          false false) sampleUser (some sampleAgent)).commits = [["disabled"]]) ∧
    (policy.ValidateAdmin samplePolicyEnv
        { samplePolicy
            [{ Typ := policy.BlacklistNetworks, Disable := true
               Values := ["bogus", "10.0.0.0/8"] },
             { Typ := policy.Browser, Disable := true, Values := ["firefox"] }] false false with
          Rules :=
            [(policy.Browser, { Typ := policy.Browser, Disable := true, Values := ["firefox"] }),
             (policy.BlacklistNetworks,
               { Typ := policy.BlacklistNetworks, Disable := true
                 Values := ["bogus", "10.0.0.0/8"] })] }
        { sampleUser with Disabled := true } (some sampleAgent)).errData =
      some { Error := "unauthorized", Message := "Not authorized" } :=
  have h := (failing_rule_outcome samplePolicyEnv
      (samplePolicy
        [{ Typ := policy.BlacklistNetworks, Disable := true, Values := ["bogus", "10.0.0.0/8"] },
         { Typ := policy.Browser, Disable := true, Values := ["firefox"] }]
        false false) sampleUser sampleAgent []
      [{ Typ := policy.Browser, Disable := true, Values := ["firefox"] }]
      { Typ := policy.BlacklistNetworks, Disable := true, Values := ["bogus", "10.0.0.0/8"] }
      rfl).1 (by simp) (by decide)
  ⟨h.1 rfl,
   ((h.2.2
      [(policy.Browser, { Typ := policy.Browser, Disable := true, Values := ["firefox"] }),
       (policy.BlacklistNetworks,
         { Typ := policy.BlacklistNetworks, Disable := true, Values := ["bogus", "10.0.0.0/8"] })]
      { sampleUser with Disabled := true } (by decide) rfl).2.2.1 (by decide))⟩

theorem userRule_network (env : policy.Env) (agnt : agent.Agent) (usr : user.User)
    (rule : policy.Rule)
    (h : rule.Typ = policy.WhitelistNetworks ∨ rule.Typ = policy.BlacklistNetworks) :
    policy.userRule env agnt usr rule = none := by
  obtain ⟨d1, d2, d3, d4, d5, d6, d7, d8, d9, d10⟩ := types_distinct
  unfold policy.userRule
  rcases h with h | h <;> rw [h]
  · rw [if_neg d3.symm, if_neg d6.symm, if_neg d8.symm]
  · rw [if_neg d4.symm, if_neg d7.symm, if_neg d9.symm]

/-- The loop skips the rules on which the body lets it go on. -/
theorem loop_filter (body : policy.Rule → Option policy.Result) (usr : user.User)
    (q : String × policy.Rule → Bool) (hq : ∀ kr, q kr = false → body kr.2 = none) :
    ∀ rules : List (String × policy.Rule),
      policy.loop body usr ((rules.filter q).map Prod.snd) =
        policy.loop body usr (rules.map Prod.snd) := by
  intro rules
  induction rules with
  | nil => rfl
  | cons kr rest ih =>
    cases hk : q kr with
    | false =>
      rw [List.filter_cons_of_neg (by simp [hk]), List.map_cons]
      conv_rhs => unfold policy.loop
      rw [hq kr hk]
      exact ih
    | true =>
      rw [List.filter_cons_of_pos hk, List.map_cons, List.map_cons]
      unfold policy.loop
      rw [ih]

/-- C18: `ValidateUser` returns on a policy what it returns on the policy
without its whitelist and blacklist rules, for every user and every result
of parsing the agent; with a parsed agent, a policy whose rules are all
network rules is accepted with the user unchanged and nothing committed,
whatever the address of the agent. -/
theorem ValidateUser_skips_network_rules (env : policy.Env) (p : policy.Policy)
    (usr : user.User) (agnt : Option agent.Agent) :
    policy.ValidateUser env p usr agnt =
      policy.ValidateUser env
        { p with Rules := p.Rules.filter (fun kr =>
            decide (kr.2.Typ ≠ policy.WhitelistNetworks ∧
              kr.2.Typ ≠ policy.BlacklistNetworks)) } usr agnt ∧
    ((∀ kr ∈ p.Rules,
        kr.2.Typ = policy.WhitelistNetworks ∨ kr.2.Typ = policy.BlacklistNetworks) →
      ∀ a : agent.Agent, policy.ValidateUser env p usr (some a) =
        { errData := none, err := false, usr := usr, commits := [] }) := by
  constructor
  · cases agnt with
    | none => rfl
    | some a =>
      unfold policy.ValidateUser
      simp only
      symm
      apply loop_filter
      intro kr hkr
      apply userRule_network
      simp only [decide_eq_false_iff_not, not_and_or, not_not, ne_eq] at hkr
      exact hkr
  · intro hall a
    unfold policy.ValidateUser
    simp only
    apply loop_all_none
    intro r hr
    obtain ⟨kr, hkr, e⟩ := List.mem_map.1 hr
    rw [← e]
    exact userRule_network env a usr kr.2 (hall kr hkr)

/-- The method `Policy.Validate` returns `user_node_unavailable` exactly
when a device-secondary flag is set and no node has a non-empty
`AdminDomain`. -/
theorem Validate_user_node_unavailable_iff (env : policy.Env) (p : policy.Policy)
    (nodes : List node.Node) :
    (policy.Validate env p (some nodes)).2.1 ≠ none ↔
      (p.AdminDeviceSecondary = true ∨ p.UserDeviceSecondary = true) ∧
        ∀ nde ∈ nodes, nde.AdminDomain = "" := by
  unfold policy.Validate
  simp only
  have hany : (nodes.any (fun nde => decide (nde.AdminDomain ≠ ""))) = false ↔
      ∀ nde ∈ nodes, nde.AdminDomain = "" := by
    simp [List.any_eq_false]
  split_ifs with h1 h2 h3 h3 h2 h3 h3
  all_goals simp only [Bool.and_eq_true, Bool.or_eq_true, Bool.not_eq_true'] at h3
  all_goals simp only [ne_eq, not_true_eq_false, not_false_eq_true, reduceCtorEq, false_iff,
    true_iff, ← hany]
  all_goals tauto

/-- C19: with `AdminDeviceSecondary` set, the method rejects with
`user_node_unavailable` although the one node has a user domain configured
(its admin domain is empty), and accepts although the one node has no user
domain configured (its admin domain is set): line 57 reads `AdminDomain`. -/
theorem Validate_reads_admin_domain :
    policy.Validate samplePolicyEnv (samplePolicy [] true false)
        (some [{ Id := "n1", AdminDomain := "", UserDomain := "user.example.com" }]) =
      (samplePolicy [] true false,
        some { Error := "user_node_unavailable"
               Message := "At least one node must have a user domain configured " ++
                 "to use secondary device authentication" }, false) ∧
    policy.Validate samplePolicyEnv (samplePolicy [] true false)
        (some [{ Id := "n1", AdminDomain := "admin.example.com", UserDomain := "" }]) =
      (samplePolicy [] true false, none, false) := by
  decide

/-! ## data.Sync -/

/-- The keys stored for a storage after an upsert: those stored before, and
the key of the image when it is of that storage. -/
theorem Upsert_keys (db : List image.Image) (img : image.Image) (s k : String) :
    (∃ r ∈ image.Upsert db img, r.Storage = s ∧ r.Key = k) ↔
      (∃ r ∈ db, r.Storage = s ∧ r.Key = k) ∨ (img.Storage = s ∧ img.Key = k) := by
  unfold image.Upsert
  by_cases hany : (db.any (fun r => decide (r.Storage = img.Storage ∧ r.Key = img.Key))) = true
  · rw [if_pos hany]
    obtain ⟨r0, hr0, h0⟩ := List.any_eq_true.1 hany
    simp only [decide_eq_true_eq] at h0
    constructor
    · rintro ⟨r, hr, hs, hk⟩
      obtain ⟨x, hx, e⟩ := List.mem_map.1 hr
      refine Or.inl ⟨x, hx, ?_⟩
      rw [← e] at hs hk
      split_ifs at hs hk
      · exact ⟨hs, hk⟩
      · exact ⟨hs, hk⟩
    · rintro (⟨r, hr, hs, hk⟩ | ⟨hs, hk⟩)
      · refine ⟨_, List.mem_map_of_mem _ hr, ?_⟩
        split_ifs
        · exact ⟨hs, hk⟩
        · exact ⟨hs, hk⟩
      · refine ⟨_, List.mem_map_of_mem _ hr0, ?_⟩
        rw [if_pos h0]
        exact ⟨h0.1.trans hs, h0.2.trans hk⟩
  · rw [if_neg hany]
    constructor
    · rintro ⟨r, hr, hs, hk⟩
      rcases List.mem_append.1 hr with h | h
      · exact Or.inl ⟨r, h, hs, hk⟩
      · rw [List.mem_singleton] at h
        rw [h] at hs hk
        exact Or.inr ⟨hs, hk⟩
    · rintro (⟨r, hr, hs, hk⟩ | ⟨hs, hk⟩)
      · exact ⟨r, List.mem_append_left _ hr, hs, hk⟩
      · exact ⟨img, List.mem_append_right _ (List.mem_singleton.2 rfl), hs, hk⟩

theorem filter_map_fix {α : Type} (q : α → Bool) (f : α → α)
    (h1 : ∀ x, q (f x) = q x) (h2 : ∀ x, q x = true → f x = x) :
    ∀ l : List α, (l.map f).filter q = l.filter q := by
  intro l
  induction l with
  | nil => rfl
  | cons a rest ih =>
    rw [List.map_cons]
    cases ha : q a with
    | true =>
      rw [List.filter_cons_of_pos (by rw [h1, ha]), List.filter_cons_of_pos ha, ih, h2 a ha]
    | false =>
      rw [List.filter_cons_of_neg (by rw [h1, ha]; simp),
        List.filter_cons_of_neg (by rw [ha]; simp), ih]

/-- An upsert leaves the images of the other storages as they are. -/
theorem Upsert_others (db : List image.Image) (img : image.Image) (s : String)
    (hs : img.Storage = s) :
    (image.Upsert db img).filter (fun r => decide (r.Storage ≠ s)) =
      db.filter (fun r => decide (r.Storage ≠ s)) := by
  unfold image.Upsert
  split_ifs
  · apply filter_map_fix
    · intro x
      split_ifs <;> rfl
    · intro x hx
      simp only [ne_eq, decide_eq_true_eq] at hx
      rw [if_neg]
      rintro ⟨h, _⟩
      exact hx (h.trans hs)
  · rw [List.filter_append]
    simp [hs]

/-- The loop over the listing when no object carries an error and every
upsert succeeds. -/
theorem syncLoop_ok (env : data.Env) (store : storage.Storage)
    (hupsert : ∀ img, env.upsertOk img = true) :
    ∀ (l : List minio.ObjectInfo), (∀ o ∈ l, o.Err = false) →
      ∀ (db : List image.Image) (remoteKeys : List String) (calls : List data.Call),
        data.syncLoop env store l db remoteKeys calls =
          (l.foldl (fun d o => image.Upsert d (data.imageOf env store o)) db,
            l.foldl (fun s o => setAdd s o.Key) remoteKeys,
            calls ++ l.map (fun o => data.Call.upsert (data.imageOf env store o)), "") := by
  intro l
  induction l with
  | nil => intro _ db rk calls; simp [data.syncLoop]
  | cons o rest ih =>
    intro h db rk calls
    unfold data.syncLoop
    rw [h o (List.mem_cons_self _ _)]
    simp only [Bool.false_eq_true, if_false, hupsert, Bool.not_true]
    rw [ih (fun x hx => h x (List.mem_cons_of_mem _ hx))]
    simp

theorem foldl_Upsert_keys (env : data.Env) (store : storage.Storage) (k : String) :
    ∀ (l : List minio.ObjectInfo) (db : List image.Image),
      (∃ r ∈ l.foldl (fun d o => image.Upsert d (data.imageOf env store o)) db,
          r.Storage = store.Id ∧ r.Key = k) ↔
        (∃ r ∈ db, r.Storage = store.Id ∧ r.Key = k) ∨ ∃ o ∈ l, o.Key = k := by
  intro l
  induction l with
  | nil => intro db; simp
  | cons o rest ih =>
    intro db
    rw [List.foldl_cons, ih, Upsert_keys]
    constructor
    · rintro ((h | ⟨_, h⟩) | ⟨x, hx, hk⟩)
      · exact Or.inl h
      · exact Or.inr ⟨o, List.mem_cons_self _ _, h⟩
      · exact Or.inr ⟨x, List.mem_cons_of_mem _ hx, hk⟩
    · rintro (h | ⟨x, hx, hk⟩)
      · exact Or.inl (Or.inl h)
      · rcases List.mem_cons.1 hx with e | e
        · subst e
          exact Or.inl (Or.inr ⟨rfl, hk⟩)
        · exact Or.inr ⟨x, e, hk⟩

theorem foldl_Upsert_others (env : data.Env) (store : storage.Storage) :
    ∀ (l : List minio.ObjectInfo) (db : List image.Image),
      (l.foldl (fun d o => image.Upsert d (data.imageOf env store o)) db).filter
          (fun r => decide (r.Storage ≠ store.Id)) =
        db.filter (fun r => decide (r.Storage ≠ store.Id)) := by
  intro l
  induction l with
  | nil => intro db; rfl
  | cons o rest ih =>
    intro db
    rw [List.foldl_cons, ih]
    exact Upsert_others db (data.imageOf env store o) store.Id rfl

theorem mem_foldl_setAdd_key (k : String) :
    ∀ (l : List minio.ObjectInfo) (s : List String),
      k ∈ l.foldl (fun s o => setAdd s o.Key) s ↔ k ∈ s ∨ ∃ o ∈ l, o.Key = k := by
  intro l
  induction l with
  | nil => intro s; simp
  | cons o rest ih =>
    intro s
    rw [List.foldl_cons, ih, mem_setAdd]
    simp only [List.mem_cons, exists_eq_or_imp]
    constructor
    · rintro ((h | h) | h)
      · exact Or.inl h
      · exact Or.inr (Or.inl h.symm)
      · exact Or.inr (Or.inr h)
    · rintro (h | h | h)
      · exact Or.inl (Or.inl h)
      · exact Or.inl (Or.inr h.symm)
      · exact Or.inr h

theorem mem_Distinct (db : List image.Image) (s k : String) :
    k ∈ image.Distinct db s ↔ ∃ r ∈ db, r.Storage = s ∧ r.Key = k := by
  unfold image.Distinct
  rw [mem_foldl_setAdd]
  simp only [List.mem_map, List.mem_filter, decide_eq_true_eq]
  constructor
  · rintro ⟨r, ⟨hr, hs⟩, hk⟩
    exact ⟨r, hr, hs, hk⟩
  · rintro ⟨r, hr, hs, hk⟩
    exact ⟨r, ⟨hr, hs⟩, hk⟩

theorem mem_RemoveKeys (db : List image.Image) (s : String) (keys : List String)
    (r : image.Image) :
    r ∈ image.RemoveKeys db s keys ↔ r ∈ db ∧ ¬ (r.Storage = s ∧ r.Key ∈ keys) := by
  unfold image.RemoveKeys
  simp only [List.mem_filter, decide_eq_true_eq]

theorem RemoveKeys_others (db : List image.Image) (s : String) (keys : List String) :
    (image.RemoveKeys db s keys).filter (fun r => decide (r.Storage ≠ s)) =
      db.filter (fun r => decide (r.Storage ≠ s)) := by
  unfold image.RemoveKeys
  rw [List.filter_filter]
  apply List.filter_congr
  intro x _
  by_cases h : x.Storage = s <;> simp [h]

/-- The run of `Sync` when the client is made, no object carries an error
and every database call succeeds. -/
theorem Sync_ok (env : data.Env) (store : storage.Storage) (db : List image.Image)
    (hclient : env.clientOk = true)
    (hlist : ∀ o ∈ env.listing, o.Err = false)
    (hupsert : ∀ img, env.upsertOk img = true)
    (hdistinct : env.distinctOk = true)
    (hremove : env.removeOk = true) :
    data.Sync env store db =
      { db := image.RemoveKeys
          (env.listing.foldl (fun d o => image.Upsert d (data.imageOf env store o)) db) store.Id
          (setSubtract
            ((image.Distinct
              (env.listing.foldl (fun d o => image.Upsert d (data.imageOf env store o)) db)
              store.Id).foldl setAdd [])
            (env.listing.foldl (fun s o => setAdd s o.Key) []))
        err := ""
        calls := env.listing.map (fun o => data.Call.upsert (data.imageOf env store o)) ++
          [data.Call.distinct store.Id,
           data.Call.removeKeys store.Id
            (setSubtract
              ((image.Distinct
                (env.listing.foldl (fun d o => image.Upsert d (data.imageOf env store o)) db)
                store.Id).foldl setAdd [])
              (env.listing.foldl (fun s o => setAdd s o.Key) []))] } := by
  unfold data.Sync
  rw [syncLoop_ok env store hupsert env.listing hlist]
  simp [hclient, hdistinct, hremove]

/-- C20: when the client is made, the listing carries no object error and
every `Upsert`, `Distinct` and `RemoveKeys` call succeeds, `Sync` returns a
nil error and the keys stored for the storage afterwards are exactly the
keys listed. Every listed object is upserted, in the order listed, as an
image with the id and the type of the storage; `localKeys` is read after the
upserts; the keys passed to `RemoveKeys` are exactly those of `localKeys`
not in `remoteKeys`, which are the keys stored before and not listed; the
images of other storages are left as they are. -/
theorem Sync_keys (env : data.Env) (store : storage.Storage) (db : List image.Image)
    (hclient : env.clientOk = true)
    (hlist : ∀ o ∈ env.listing, o.Err = false)
    (hupsert : ∀ img, env.upsertOk img = true)
    (hdistinct : env.distinctOk = true)
    (hremove : env.removeOk = true) :
    (data.Sync env store db).err = "" ∧
    (∀ k, (∃ img ∈ (data.Sync env store db).db, img.Storage = store.Id ∧ img.Key = k) ↔
      ∃ o ∈ env.listing, o.Key = k) ∧
    (∀ o, (data.imageOf env store o).Storage = store.Id ∧
      (data.imageOf env store o).Key = o.Key ∧ (data.imageOf env store o).Typ = store.Typ) ∧
    (∃ (db1 : List image.Image) (localKeys remoteKeys removeKeys : List String),
      db1 = env.listing.foldl (fun d o => image.Upsert d (data.imageOf env store o)) db ∧
      localKeys = image.Distinct db1 store.Id ∧
      (∀ k, k ∈ remoteKeys ↔ ∃ o ∈ env.listing, o.Key = k) ∧
      (∀ k, k ∈ removeKeys ↔ k ∈ localKeys ∧ k ∉ remoteKeys) ∧
      (∀ k, k ∈ removeKeys ↔
        (∃ img ∈ db, img.Storage = store.Id ∧ img.Key = k) ∧ ¬ ∃ o ∈ env.listing, o.Key = k) ∧
      (data.Sync env store db).calls =
        env.listing.map (fun o => data.Call.upsert (data.imageOf env store o)) ++
          [data.Call.distinct store.Id, data.Call.removeKeys store.Id removeKeys] ∧
      (data.Sync env store db).db = image.RemoveKeys db1 store.Id removeKeys) ∧
    (data.Sync env store db).db.filter (fun r => decide (r.Storage ≠ store.Id)) =
      db.filter (fun r => decide (r.Storage ≠ store.Id)) := by
  rw [Sync_ok env store db hclient hlist hupsert hdistinct hremove]
  have hremote : ∀ k, k ∈ env.listing.foldl (fun s o => setAdd s o.Key) [] ↔
      ∃ o ∈ env.listing, o.Key = k := by
    intro k
    rw [mem_foldl_setAdd_key]
    simp
  have hlocal : ∀ k, k ∈ image.Distinct
      (env.listing.foldl (fun d o => image.Upsert d (data.imageOf env store o)) db) store.Id ↔
      (∃ r ∈ db, r.Storage = store.Id ∧ r.Key = k) ∨ ∃ o ∈ env.listing, o.Key = k := by
    intro k
    rw [mem_Distinct, foldl_Upsert_keys]
  have hrm : ∀ k, k ∈ setSubtract
      ((image.Distinct
        (env.listing.foldl (fun d o => image.Upsert d (data.imageOf env store o)) db)
        store.Id).foldl setAdd [])
      (env.listing.foldl (fun s o => setAdd s o.Key) []) ↔
      k ∈ image.Distinct
        (env.listing.foldl (fun d o => image.Upsert d (data.imageOf env store o)) db) store.Id ∧
      k ∉ env.listing.foldl (fun s o => setAdd s o.Key) [] := by
    intro k
    rw [mem_setSubtract, mem_foldl_setAdd]
  refine ⟨rfl, ?_, fun o => ⟨rfl, rfl, rfl⟩, ⟨_, _, _, _, rfl, rfl, hremote, hrm, ?_, rfl, rfl⟩, ?_⟩
  · intro k
    constructor
    · rintro ⟨img, himg, hs, hk⟩
      obtain ⟨hin, hnot⟩ := (mem_RemoveKeys _ _ _ _).1 himg
      by_contra hno
      apply hnot
      refine ⟨hs, ?_⟩
      rw [hrm, hremote, hk]
      exact ⟨(mem_Distinct _ _ _).2 ⟨img, hin, hs, hk⟩, hno⟩
    · intro hk
      obtain ⟨r, hr, hs, hrk⟩ := (foldl_Upsert_keys env store k env.listing db).2 (Or.inr hk)
      refine ⟨r, (mem_RemoveKeys _ _ _ _).2 ⟨hr, ?_⟩, hs, hrk⟩
      rintro ⟨_, hmem⟩
      rw [hrm, hremote, hrk] at hmem
      exact hmem.2 hk
  · intro k
    rw [hrm, hlocal, hremote]
    constructor
    · rintro ⟨h | h, hn⟩
      · exact ⟨h, hn⟩
      · exact absurd h hn
    · rintro ⟨h, hn⟩
      exact ⟨Or.inl h, hn⟩
  · show List.filter _ (image.RemoveKeys _ _ _) = _
    rw [RemoveKeys_others, foldl_Upsert_others]

theorem Sync_keys_witness :
    (data.Sync sampleSyncEnv sampleStorage sampleImages).err = "" ∧
    ((data.Sync sampleSyncEnv sampleStorage sampleImages).db.filter
        (fun r => decide (r.Storage = "s1"))).map (fun r => (r.Key, r.Typ)) =
      [("a", "public"), ("c", "public"), ("d", "public")] ∧
    (data.Sync sampleSyncEnv sampleStorage sampleImages).calls.getLast? =
      some (data.Call.removeKeys "s1" ["b"]) ∧
    (data.Sync sampleSyncEnv sampleStorage sampleImages).db.filter
        (fun r => decide (r.Storage ≠ "s1")) =
      [{ Storage := "s2", Key := "b", Etag := "x0", Typ := "private", Name := "X"
         Organization := "o1" }] :=
  ⟨(Sync_keys sampleSyncEnv sampleStorage sampleImages rfl (by decide) (fun _ => rfl) rfl rfl).1,
   by decide, by decide, by decide⟩

/-! ## data.Sync: the error paths -/

/-- The loop over the listing up to an object that carries an error, when
every upsert before it succeeds. -/
theorem syncLoop_object_error (env : data.Env) (store : storage.Storage)
    (o : minio.ObjectInfo) (post : List minio.ObjectInfo) (ho : o.Err = true) :
    ∀ (pre : List minio.ObjectInfo),
      (∀ p ∈ pre, p.Err = false ∧ env.upsertOk (data.imageOf env store p) = true) →
      ∀ (db : List image.Image) (remoteKeys : List String) (calls : List data.Call),
        data.syncLoop env store (pre ++ o :: post) db remoteKeys calls =
          (pre.foldl (fun d p => image.Upsert d (data.imageOf env store p)) db,
            pre.foldl (fun s p => setAdd s p.Key) remoteKeys,
            calls ++ pre.map (fun p => data.Call.upsert (data.imageOf env store p)),
            "RequestError") := by
  intro pre
  induction pre with
  | nil =>
    intro _ db rk calls
    simp [data.syncLoop, ho]
  | cons p rest ih =>
    intro h db rk calls
    obtain ⟨h1, h2⟩ := h p (List.mem_cons_self _ _)
    simp only [List.cons_append]
    unfold data.syncLoop
    rw [h1]
    simp only [Bool.false_eq_true, if_false, h2, Bool.not_true]
    rw [ih (fun x hx => h x (List.mem_cons_of_mem _ hx))]
    simp

/-- The loop over the listing makes upsert calls only, and every image it
starts with keeps a row of its storage and key. -/
theorem syncLoop_frame (env : data.Env) (store : storage.Storage) :
    ∀ (l : List minio.ObjectInfo) (db : List image.Image) (remoteKeys : List String)
      (calls : List data.Call),
      (∀ c ∈ (data.syncLoop env store l db remoteKeys calls).2.2.1,
        c ∈ calls ∨ ∃ img, c = data.Call.upsert img) ∧
      (∀ img ∈ db, ∃ r ∈ (data.syncLoop env store l db remoteKeys calls).1,
        r.Storage = img.Storage ∧ r.Key = img.Key) := by
  intro l
  induction l with
  | nil =>
    intro db rk calls
    exact ⟨fun c hc => Or.inl hc, fun img himg => ⟨img, himg, rfl, rfl⟩⟩
  | cons o rest ih =>
    intro db rk calls
    unfold data.syncLoop
    by_cases ho : o.Err = true
    · rw [if_pos ho]
      exact ⟨fun c hc => Or.inl hc, fun img himg => ⟨img, himg, rfl, rfl⟩⟩
    · rw [if_neg ho]
      by_cases hu : (!env.upsertOk (data.imageOf env store o)) = true
      · simp only [hu, if_true]
        refine ⟨?_, fun img himg => ⟨img, himg, rfl, rfl⟩⟩
        intro c hc
        rcases List.mem_append.1 hc with h | h
        · exact Or.inl h
        · exact Or.inr ⟨_, List.mem_singleton.1 h⟩
      · simp only [hu, if_false]
        obtain ⟨h1, h2⟩ := ih (image.Upsert db (data.imageOf env store o)) (setAdd rk o.Key)
          (calls ++ [data.Call.upsert (data.imageOf env store o)])
        constructor
        · intro c hc
          rcases h1 c hc with h | h
          · rcases List.mem_append.1 h with h | h
            · exact Or.inl h
            · exact Or.inr ⟨_, List.mem_singleton.1 h⟩
          · exact Or.inr h
        · intro img himg
          obtain ⟨r0, hr0, hs0⟩ := (Upsert_keys db (data.imageOf env store o) img.Storage
            img.Key).2 (Or.inl ⟨img, himg, rfl, rfl⟩)
          obtain ⟨r, hr, hs, hk⟩ := h2 r0 hr0
          exact ⟨r, hr, hs.trans hs0.1, hk.trans hs0.2⟩

/-- The loop over a listing in which some object carries an error does not
run to its end. -/
theorem syncLoop_error (env : data.Env) (store : storage.Storage) :
    ∀ (l : List minio.ObjectInfo), (∃ o ∈ l, o.Err = true) →
      ∀ (db : List image.Image) (remoteKeys : List String) (calls : List data.Call),
        (data.syncLoop env store l db remoteKeys calls).2.2.2 ≠ "" := by
  intro l
  induction l with
  | nil =>
    rintro ⟨o, ho, _⟩
    exact absurd ho (List.not_mem_nil o)
  | cons a rest ih =>
    rintro ⟨o, ho, herr⟩ db rk calls
    unfold data.syncLoop
    by_cases ha : a.Err = true
    · rw [if_pos ha]
      exact (by decide : ("RequestError" : String) ≠ "")
    · rw [if_neg ha]
      by_cases hu : (!env.upsertOk (data.imageOf env store a)) = true
      · simp only [hu, if_true]
        exact (by decide : ("DatabaseError" : String) ≠ "")
      · simp only [hu, if_false]
        rcases List.mem_cons.1 ho with e | e
        · rw [e] at herr
          exact absurd herr ha
        · exact ih ⟨o, e, herr⟩ _ _ _

/-- When the loop over the listing does not run to its end, `Sync` returns
with what the loop left. -/
theorem Sync_of_loop_error (env : data.Env) (store : storage.Storage) (db : List image.Image)
    (hclient : env.clientOk = true)
    (h : (data.syncLoop env store env.listing db [] []).2.2.2 ≠ "") :
    data.Sync env store db =
      { db := (data.syncLoop env store env.listing db [] []).1
        err := (data.syncLoop env store env.listing db [] []).2.2.2
        calls := (data.syncLoop env store env.listing db [] []).2.2.1 } := by
  unfold data.Sync
  rw [hclient]
  simp only [Bool.not_true, Bool.false_eq_true, if_false]

/-- C21: when the client cannot be made, `Sync` returns a `ConnectionError`
with no database call and the collection as it was. When the listing yields
an object with an error after objects without error whose upserts succeed,
`Sync` returns a `RequestError`, the collection is the one the upserts before
that object left, and these upserts are its only database calls. Whenever
some listed object carries an error, `Sync` returns an error, never calls
`RemoveKeys`, and every image stored before still has a row of its storage
and key. -/
theorem Sync_error_paths (env : data.Env) (store : storage.Storage) (db : List image.Image) :
    (env.clientOk = false →
      data.Sync env store db = { db := db, err := "ConnectionError", calls := [] }) ∧
    (env.clientOk = true →
      ∀ pre o post, env.listing = pre ++ o :: post →
        (∀ p ∈ pre, p.Err = false ∧ env.upsertOk (data.imageOf env store p) = true) →
        o.Err = true →
        data.Sync env store db =
          { db := pre.foldl (fun d p => image.Upsert d (data.imageOf env store p)) db
            err := "RequestError"
            calls := pre.map (fun p => data.Call.upsert (data.imageOf env store p)) }) ∧
    (env.clientOk = true → (∃ o ∈ env.listing, o.Err = true) →
      (data.Sync env store db).err ≠ "" ∧
      (∀ c ∈ (data.Sync env store db).calls, ∃ img, c = data.Call.upsert img) ∧
      (∀ img ∈ db, ∃ r ∈ (data.Sync env store db).db,
        r.Storage = img.Storage ∧ r.Key = img.Key)) := by
  refine ⟨?_, ?_, ?_⟩
  · intro h
    unfold data.Sync
    simp [h]
  · intro hclient pre o post hl hpre ho
    have hloop := syncLoop_object_error env store o post ho pre hpre db [] []
    rw [← hl] at hloop
    rw [Sync_of_loop_error env store db hclient (by rw [hloop]; exact (by decide : ("RequestError" : String) ≠ "")), hloop]
    simp
  · intro hclient herr
    have hne := syncLoop_error env store env.listing herr db [] []
    obtain ⟨h1, h2⟩ := syncLoop_frame env store env.listing db [] []
    rw [Sync_of_loop_error env store db hclient hne]
    refine ⟨hne, ?_, h2⟩
    intro c hc
    rcases h1 c hc with h | h
    · exact absurd h (List.not_mem_nil c)
    · exact h

/-- Worked example of C21: the listing `a`, an object with an error, `d`
against the stored keys `a`, `b`, `c`; and the same storage with no client. -/
theorem Sync_error_paths_witness :
    data.Sync { sampleSyncEnv with clientOk := false } sampleStorage sampleImages =
      { db := sampleImages, err := "ConnectionError", calls := [] } ∧
    (data.Sync
        { sampleSyncEnv with
          listing := [sampleObject "a", { sampleObject "x" with Err := true }, sampleObject "d"] }
        sampleStorage sampleImages).err = "RequestError" ∧
    ((data.Sync
        { sampleSyncEnv with
          listing := [sampleObject "a", { sampleObject "x" with Err := true }, sampleObject "d"] }
        sampleStorage sampleImages).db.map (fun r => (r.Storage, r.Key, r.Etag))) =
      [("s1", "a", "a1"), ("s1", "b", "b0"), ("s2", "b", "x0"), ("s1", "c", "c0")] ∧
    (data.Sync
        { sampleSyncEnv with
          listing := [sampleObject "a", { sampleObject "x" with Err := true }, sampleObject "d"] }
        sampleStorage sampleImages).calls.length = 1 :=
  ⟨(Sync_error_paths { sampleSyncEnv with clientOk := false } sampleStorage sampleImages).1 rfl,
   by decide, by decide, by decide⟩

/-! ## ahandlers.imagesGet -/

/-- With no public storage the handler answers the empty list at line 171,
before any query, whatever the private storage. -/
theorem imagesGet_no_public (db : List image.Image) (env : ImagesEnv)
    (dc : datacenter.Datacenter) (hid : env.dcId ≠ "")
    (hdc : env.getDatacenter env.dcId = some dc) (hpub : dc.PublicStorages.getD [] = []) :
    imagesGet db env = ImagesResponse.images 200 [] := by
  unfold imagesGet
  simp [hid, hdc, hpub]

/-- With a public storage and both queries succeeding, the handler answers
the images of the public storages followed by those of the private storage:
an image is listed exactly when its storage is public or is the private
one. -/
theorem imagesGet_listing (db : List image.Image) (env : ImagesEnv)
    (dc : datacenter.Datacenter) (hid : env.dcId ≠ "")
    (hdc : env.getDatacenter env.dcId = some dc) (hpub : dc.PublicStorages.getD [] ≠ [])
    (hok : ∀ q, env.namesOk q = true) :
    imagesGet db env = ImagesResponse.images 200
      ((db.filter (fun img => decide (img.Storage ∈ dc.PublicStorages.getD []))).map env.Json ++
        (db.filter (fun img =>
          decide (dc.PrivateStorage ≠ "" ∧ img.Storage = dc.PrivateStorage))).map env.Json) := by
  have hlen : ¬ (dc.PublicStorages.getD []).length = 0 := by
    intro h
    exact hpub (List.eq_nil_of_length_eq_zero h)
  unfold imagesGet
  simp only [hid, hdc, hlen, hok, ne_eq, not_false_eq_true, if_true, if_false, Bool.not_true,
    Bool.false_eq_true, image.GetAllNames]
  by_cases hp : dc.PrivateStorage = ""
  · simp [hp]
  · simp [hp]

/-- Counterexample to C22: for the datacenter with no public storage and
the private storage `s2`, the handler answers the empty list although the
collection holds an image of `s2`: line 170 returns before the query on the
private storage. -/
theorem imagesGet_drops_private_without_public :
    imagesGet sampleImages
        (sampleImagesEnv { Id := "dc1", PublicStorages := some [], PrivateStorage := "s2" }) =
      ImagesResponse.images 200 [] ∧
    imagesGet sampleImages
        (sampleImagesEnv { Id := "dc1", PublicStorages := none, PrivateStorage := "s2" }) =
      ImagesResponse.images 200 [] ∧
    (∃ img ∈ sampleImages, img.Storage = "s2") := by
  decide

/-- C22, amended: for a datacenter with no public storage (an empty or nil
`PublicStorages`) `imagesGet` answers the empty list, whatever the private
storage. For a datacenter with at least one public storage, both queries
succeeding, it answers the images whose storage is in `PublicStorages`
followed by the images whose storage is a set `PrivateStorage`, so that an
image of the collection is listed exactly when its storage is public or is
the private one. -/
theorem imagesGet_datacenter (db : List image.Image) (env : ImagesEnv)
    (dc : datacenter.Datacenter) (hid : env.dcId ≠ "")
    (hdc : env.getDatacenter env.dcId = some dc) :
    (dc.PublicStorages.getD [] = [] → imagesGet db env = ImagesResponse.images 200 []) ∧
    (dc.PublicStorages.getD [] ≠ [] → (∀ q, env.namesOk q = true) →
      ∃ pub priv : List image.Image,
        imagesGet db env = ImagesResponse.images 200 (pub.map env.Json ++ priv.map env.Json) ∧
        pub = db.filter (fun img => decide (img.Storage ∈ dc.PublicStorages.getD [])) ∧
        priv = db.filter (fun img =>
          decide (dc.PrivateStorage ≠ "" ∧ img.Storage = dc.PrivateStorage)) ∧
        ∀ img, img ∈ pub ++ priv ↔
          img ∈ db ∧ (img.Storage ∈ dc.PublicStorages.getD [] ∨
            (dc.PrivateStorage ≠ "" ∧ img.Storage = dc.PrivateStorage))) := by
  refine ⟨imagesGet_no_public db env dc hid hdc, fun hpub hok =>
    ⟨_, _, imagesGet_listing db env dc hid hdc hpub hok, rfl, rfl, ?_⟩⟩
  intro img
  simp only [List.mem_append, List.mem_filter, decide_eq_true_eq]
  constructor
  · rintro (⟨h1, h2⟩ | ⟨h1, h2⟩)
    · exact ⟨h1, Or.inl h2⟩
    · exact ⟨h1, Or.inr h2⟩
  · rintro ⟨h1, h2 | h2⟩
    · exact Or.inl ⟨h1, h2⟩
    · exact Or.inr ⟨h1, h2⟩

/-- Worked example of the amended C22: the public storage `s1` and the
private storage `s2`; the three images of `s1` come first, then the image of
`s2`. -/
theorem imagesGet_datacenter_witness :
    imagesGet sampleImages
        (sampleImagesEnv { Id := "dc1", PublicStorages := some ["s1"], PrivateStorage := "s2" }) =
      ImagesResponse.images 200
        [{ Storage := "s1", Key := "a", Etag := "a0", Typ := "public", Name := "A"
           Organization := "" },
         { Storage := "s1", Key := "b", Etag := "b0", Typ := "public", Name := "B"
           Organization := "" },
         { Storage := "s1", Key := "c", Etag := "c0", Typ := "public", Name := "C"
           Organization := "" },
         { Storage := "s2", Key := "b", Etag := "x0", Typ := "private", Name := "X"
           Organization := "o1" }] := by
  obtain ⟨pub, priv, h, hp, hq, _⟩ := (imagesGet_datacenter sampleImages
    (sampleImagesEnv { Id := "dc1", PublicStorages := some ["s1"], PrivateStorage := "s2" })
    { Id := "dc1", PublicStorages := some ["s1"], PrivateStorage := "s2" }
    (by decide) rfl).2 (by decide) (fun _ => rfl)
  rw [h, hp, hq]
  decide

/-! ## deploy.Instances: actions on a locked instance -/

/-- C23: when `instancesLock.Locked` is true for the id of the instance, each
of `create`, `start`, `stop`, `restart`, `destroy`, `diskRemove` and `routes`
returns at once: the lock, the supply of lock ids and `node.Self` are as
before, and nothing is added to the trace but the entry of the method, so no
goroutine is started and no primitive, commit or event follows; the
goroutine of `routes` runs no command; and `diff` returns a nil error with
the instance as it was, with no commit and no call of `diskRemove`. -/
theorem locked_actions_return (x : Extern) (stat : State) (w : World) (inst : Instance)
    (remDisks : List Disk) (env : RoutesEnv) (h : Locked w.lock inst.Id = true) :
    create w inst = some (w.emit (Event.call Action.create inst.Id)) ∧
    start w inst = some (w.emit (Event.call Action.start inst.Id)) ∧
    stop w inst = some (w.emit (Event.call Action.stop inst.Id)) ∧
    restart w inst = some (w.emit (Event.call Action.restart inst.Id)) ∧
    destroy w inst = some (w.emit (Event.call Action.destroy inst.Id)) ∧
    diskRemove w inst remDisks = some (w.emit (Event.call Action.diskRemove inst.Id)) ∧
    routes w inst = some (w.emit (Event.call Action.routes inst.Id)) ∧
    routesCmds w env inst = [] ∧
    diff x stat w inst = some (w.emit (Event.call Action.diff inst.Id), inst, false) := by
  have hl : ∀ a, Locked (w.emit (Event.call a inst.Id)).lock inst.Id = true := fun _ => h
  refine ⟨enqueue_locked _ _ _ _ (hl _), enqueue_locked _ _ _ _ (hl _),
    enqueue_locked _ _ _ _ (hl _), enqueue_locked _ _ _ _ (hl _),
    enqueue_locked _ _ _ _ (hl _), enqueue_locked _ _ _ _ (hl _),
    enqueue_locked _ _ _ _ (hl _), ?_, ?_⟩
  · unfold routesCmds
    rw [if_pos h]
  · unfold diff
    simp only [hl Action.diff, if_true]

/-- Worked example of C23: instance `"i1"` while a worker holds its lock. -/
theorem locked_actions_return_witness :
    Locked sampleLockedWorld.lock "i1" = true ∧
    create sampleLockedWorld (sampleInstance instance.Start) =
      some (sampleLockedWorld.emit (Event.call Action.create "i1")) ∧
    destroy sampleLockedWorld (sampleInstance instance.Start) =
      some (sampleLockedWorld.emit (Event.call Action.destroy "i1")) ∧
    diff (sampleExtern true) (sampleState instance.Start vm.Running) sampleLockedWorld
        (sampleInstance instance.Start) =
      some (sampleLockedWorld.emit (Event.call Action.diff "i1"),
        sampleInstance instance.Start, false) :=
  have h := locked_actions_return (sampleExtern true) (sampleState instance.Start vm.Running)
    sampleLockedWorld (sampleInstance instance.Start) []
    { ns := "ns-i1", vc := none, routesStore := none, probe := (none, none), probeErr := false }
    (by decide)
  ⟨by decide, h.1, h.2.2.2.2.1, h.2.2.2.2.2.2.2.2⟩

/-! ## deploy.Instances.Deploy: the resource totals -/

/-- The rounding leaves a number as it is when its magnitude is a whole
number of units of the last place. -/
theorem float64_round_of_units (q : ℚ) (hq0 : q ≠ 0) (N : Int)
    (hs : |q| / (2 : ℚ) ^ max (Int.log 2 |q| - 52) (-1074) = (N : ℚ)) :
    float64.round q = q := by
  have hpos : (0 : ℚ) < (2 : ℚ) ^ max (Int.log 2 |q| - 52) (-1074) :=
    zpow_pos (by norm_num) _
  have hback : (N : ℚ) * (2 : ℚ) ^ max (Int.log 2 |q| - 52) (-1074) = |q| := by
    rw [← hs]
    field_simp
  have hhalf : (0 : ℚ) < 1 / 2 := by norm_num
  unfold float64.round
  rw [if_neg hq0]
  simp only [hs, Int.floor_intCast, sub_self]
  rw [if_pos hhalf, hback]
  by_cases hneg : q < 0
  · rw [if_pos hneg, abs_of_neg hneg]
    ring
  · rw [if_neg hneg, abs_of_nonneg (not_lt.1 hneg)]
    ring

/-- The rounding leaves a significand of fewer than 53 bits, at an exponent
not below that of the subnormal numbers, as it is. -/
theorem float64_round_exact (k j : Int) (hk : |k| < 2 ^ 53) (hj : -1074 ≤ j) :
    float64.round ((k : ℚ) * (2 : ℚ) ^ j) = (k : ℚ) * (2 : ℚ) ^ j := by
  by_cases hk0 : k = 0
  · simp [float64.round, hk0]
  have h2pos : ∀ i : Int, (0 : ℚ) < (2 : ℚ) ^ i := fun i => zpow_pos (by norm_num) i
  have hq0 : (k : ℚ) * (2 : ℚ) ^ j ≠ 0 :=
    mul_ne_zero (Int.cast_ne_zero.2 hk0) (ne_of_gt (h2pos j))
  have habs : |(k : ℚ) * (2 : ℚ) ^ j| = ((|k| : Int) : ℚ) * (2 : ℚ) ^ j := by
    rw [abs_mul, abs_of_pos (h2pos j), Int.cast_abs]
  have hapos : (0 : ℚ) < |(k : ℚ) * (2 : ℚ) ^ j| := abs_pos.2 hq0
  have hlt : |(k : ℚ) * (2 : ℚ) ^ j| < ((2 : ℕ) : ℚ) ^ (53 + j) := by
    rw [habs, zpow_add₀ (by norm_num : ((2 : ℕ) : ℚ) ≠ 0)]
    have hkq : ((|k| : Int) : ℚ) < (2 : ℚ) ^ (53 : ℕ) := by exact_mod_cast hk
    have : (((2 : ℕ) : ℚ) ^ (53 : ℤ)) = (2 : ℚ) ^ (53 : ℕ) := by norm_num
    rw [this]
    have h2 : ((2 : ℕ) : ℚ) ^ j = (2 : ℚ) ^ j := by norm_num
    rw [h2]
    exact mul_lt_mul_of_pos_right hkq (h2pos j)
  have hlog : Int.log 2 |(k : ℚ) * (2 : ℚ) ^ j| < 53 + j :=
    (Int.lt_zpow_iff_log_lt (by norm_num) hapos).1 hlt
  refine float64_round_of_units _ hq0
    (|k| * 2 ^ (j - max (Int.log 2 |(k : ℚ) * (2 : ℚ) ^ j| - 52) (-1074)).toNat) ?_
  generalize Int.log 2 |(k : ℚ) * (2 : ℚ) ^ j| = L at hlog ⊢
  have he : max (L - 52) (-1074) ≤ j := max_le (by omega) hj
  have hn : j - max (L - 52) (-1074) = ((j - max (L - 52) (-1074)).toNat : Int) :=
    (Int.toNat_of_nonneg (by omega)).symm
  rw [habs, mul_div_assoc, ← zpow_sub₀ (by norm_num : (2 : ℚ) ≠ 0)]
  push_cast
  rw [← zpow_natCast, ← hn]

theorem float64_ofInt_exact (n : Int) (hn : |n| < 2 ^ 53) : float64.ofInt n = n := by
  have h := float64_round_exact n 0 hn (by norm_num)
  simpa [float64.ofInt] using h

/-- Quotients by 1024 and sums of such quotients are exact while the
numerators stay below `2 ^ 53` in magnitude. -/
theorem float64_add_div_exact (a n : Int) (hn : |n| < 2 ^ 53)
    (hsum : |a + n| < 2 ^ 53) :
    float64.add ((a : ℚ) / 1024) (float64.div (float64.ofInt n) (float64.ofInt 1024)) =
      ((a + n : Int) : ℚ) / 1024 := by
  have h1024 : (1024 : ℚ) = ((1024 : Int) : ℚ) := by norm_num
  have hdiv : ∀ m : Int, (m : ℚ) / 1024 = (m : ℚ) * (2 : ℚ) ^ (-10 : Int) := by
    intro m
    rw [div_eq_mul_inv]
    norm_num
  rw [float64_ofInt_exact n hn]
  have hc : float64.ofInt 1024 = 1024 := by
    rw [h1024]
    exact float64_ofInt_exact 1024 (by norm_num)
  rw [hc]
  unfold float64.div float64.add
  rw [hdiv n, float64_round_exact n (-10) hn (by norm_num), ← hdiv n]
  have e : (a : ℚ) / 1024 + (n : ℚ) / 1024 = ((a + n : Int) : ℚ) / 1024 := by
    push_cast
    ring
  rw [e, hdiv (a + n), float64_round_exact (a + n) (-10) hsum (by norm_num)]


/-- The totals after the loop of `Deploy` has run to its end: the statements
of lines 445-446 applied, in snapshot order, for the instances visited whose
desired state is not `Destroy`. -/
theorem deployLoop_units (x : Extern) (stat : State) (ns : List String) :
    ∀ (insts : List Instance) (w : World) (u : Units) (w1 : World) (insts1 : List Instance)
      (u1 : Units),
      deployLoop x stat ns w u insts = some (w1, insts1, u1, false) →
      u1 = (insts.filter (fun i => decide (i.State ≠ instance.Destroy))).foldl Units.add u := by
  intro insts
  induction insts with
  | nil =>
    intro w u w1 insts1 u1 h
    simp only [deployLoop, Option.some.injEq, Prod.mk.injEq] at h
    obtain ⟨_, _, hu, _⟩ := h
    rw [← hu]
    rfl
  | cons inst rest ih =>
    intro w u w1 insts1 u1 h
    obtain ⟨w2, inst2, u2, err, seg, hd, _, _, _, _, hdes, hlive, _⟩ :=
      deployInstance_spec x stat ns w u inst
    unfold deployLoop at h
    rw [hd] at h
    cases err with
    | true => simp at h
    | false =>
      simp only at h
      cases hl : deployLoop x stat ns w2 u2 rest with
      | none => rw [hl] at h; simp at h
      | some r =>
        obtain ⟨w3, rest3, u3, e3⟩ := r
        rw [hl] at h
        simp only [Option.some.injEq, Prod.mk.injEq] at h
        obtain ⟨_, _, hu, he⟩ := h
        rw [he] at hl
        rw [← hu, ih w2 u2 w3 rest3 u3 hl]
        by_cases hs : inst.State = instance.Destroy
        · rw [(hdes hs).2.2]
          simp [hs]
        · have hf : (inst :: rest).filter (fun i => decide (i.State ≠ instance.Destroy)) =
              inst :: rest.filter (fun i => decide (i.State ≠ instance.Destroy)) :=
            List.filter_cons_of_pos (decide_eq_true hs)
          rw [hlive hs, hf, List.foldl_cons]

/-- What `Deploy` writes to `node.Self` when it returns without error. -/
theorem Deploy_node (x : Extern) (stat : State) (w w1 : World) (insts : List Instance)
    (h : Deploy x stat w = some (w1, insts, false)) :
    w1.node.CpuUnitsRes =
      ((stat.instances.filter (fun i => decide (i.State ≠ instance.Destroy))).foldl Units.add
        { cpuUnits := 0, memoryUnits := 0 }).cpuUnits ∧
    w1.node.MemoryUnitsRes =
      ((stat.instances.filter (fun i => decide (i.State ≠ instance.Destroy))).foldl Units.add
        { cpuUnits := 0, memoryUnits := 0 }).memoryUnits := by
  unfold Deploy at h
  simp only at h
  cases hl : deployLoop x stat (stat.namespaces.foldl setAdd []) w
      { cpuUnits := 0, memoryUnits := 0 } stat.instances with
  | none => rw [hl] at h; simp at h
  | some r =>
    obtain ⟨w2, insts2, u2, e2⟩ := r
    rw [hl] at h
    cases e2 with
    | true => simp at h
    | false =>
      simp only [Option.some.injEq, Prod.mk.injEq] at h
      obtain ⟨hw, _⟩ := h
      rw [← hw, ← deployLoop_units x stat _ _ _ _ _ _ _ hl]
      exact ⟨rfl, rfl⟩

theorem wrapInt64_of_range (n : Int) (h0 : -9223372036854775808 ≤ n)
    (h1 : n < 9223372036854775808) : wrapInt64 n = n := by
  unfold wrapInt64
  omega

theorem sum_div_1024 (l : List Instance) :
    (((l.map (fun i => i.Memory)).sum : Int) : ℚ) / 1024 =
      (l.map (fun i => (i.Memory : ℚ) / 1024)).sum := by
  induction l with
  | nil => simp
  | cons i rest ih =>
    simp only [List.map_cons, List.sum_cons]
    rw [← ih]
    push_cast
    ring

/-- The totals are the exact sums while they stay within the 63 bits of a
non-negative `int` and the 53 bits of a float64 significand. -/
theorem foldl_Units_add_exact :
    ∀ (l : List Instance) (c a : Int), 0 ≤ c → 0 ≤ a →
      (∀ i ∈ l, 0 ≤ i.Processors ∧ 0 ≤ i.Memory) →
      c + (l.map (fun i => i.Processors)).sum < 2 ^ 63 →
      a + (l.map (fun i => i.Memory)).sum < 2 ^ 53 →
      l.foldl Units.add { cpuUnits := c, memoryUnits := (a : ℚ) / 1024 } =
        { cpuUnits := c + (l.map (fun i => i.Processors)).sum
          memoryUnits := ((a + (l.map (fun i => i.Memory)).sum : Int) : ℚ) / 1024 } := by
  intro l
  induction l with
  | nil =>
    intro c a _ _ _ _ _
    simp
  | cons i rest ih =>
    intro c a hc ha hnn hcpu hmem
    obtain ⟨hp, hm⟩ := hnn i (List.mem_cons_self _ _)
    have hrest : ∀ j ∈ rest, 0 ≤ j.Processors ∧ 0 ≤ j.Memory :=
      fun j hj => hnn j (List.mem_cons_of_mem _ hj)
    have hps : 0 ≤ (rest.map (fun i => i.Processors)).sum :=
      List.sum_nonneg (fun v hv => by
        obtain ⟨j, hj, e⟩ := List.mem_map.1 hv
        rw [← e]
        exact (hrest j hj).1)
    have hms : 0 ≤ (rest.map (fun i => i.Memory)).sum :=
      List.sum_nonneg (fun v hv => by
        obtain ⟨j, hj, e⟩ := List.mem_map.1 hv
        rw [← e]
        exact (hrest j hj).2)
    simp only [List.map_cons, List.sum_cons] at hcpu hmem
    have hstep : Units.add { cpuUnits := c, memoryUnits := (a : ℚ) / 1024 } i =
        { cpuUnits := c + i.Processors, memoryUnits := ((a + i.Memory : Int) : ℚ) / 1024 } := by
      unfold Units.add
      simp only
      rw [wrapInt64_of_range (c + i.Processors) (by omega) (by omega),
        float64_add_div_exact a i.Memory (by rw [abs_of_nonneg hm]; omega)
          (by rw [abs_of_nonneg (by omega)]; omega)]
    rw [List.foldl_cons, hstep,
      ih (c + i.Processors) (a + i.Memory) (by omega) (by omega) hrest (by omega) (by omega)]
    simp only [List.map_cons, List.sum_cons]
    rw [add_assoc c, add_assoc a]

theorem wrapInt64_add_wrap (a b : Int) : wrapInt64 (wrapInt64 a + b) = wrapInt64 (a + b) := by
  unfold wrapInt64
  omega

/-- The processor total of the loop is the sum of `Processors` reduced to the
64 bits of an `int`, whatever happens on the way. -/
theorem foldl_Units_add_cpu :
    ∀ (l : List Instance) (u : Units), wrapInt64 u.cpuUnits = u.cpuUnits →
      (l.foldl Units.add u).cpuUnits =
        wrapInt64 (u.cpuUnits + (l.map (fun i => i.Processors)).sum) := by
  intro l
  induction l with
  | nil =>
    intro u hu
    simp [hu]
  | cons i rest ih =>
    intro u _
    rw [List.foldl_cons, ih (Units.add u i) (by
      show wrapInt64 (wrapInt64 (u.cpuUnits + i.Processors)) = wrapInt64 (u.cpuUnits + i.Processors)
      unfold wrapInt64
      omega)]
    show wrapInt64 (wrapInt64 (u.cpuUnits + i.Processors) + _) = _
    rw [wrapInt64_add_wrap]
    simp only [List.map_cons, List.sum_cons]
    rw [add_assoc]

theorem wrapInt64_eq_iff (n : Int) :
    wrapInt64 n = n ↔ -9223372036854775808 ≤ n ∧ n < 9223372036854775808 := by
  unfold wrapInt64
  omega

/-- Counterexample to C24: two instances of `2 ^ 62` processors each, both
counted. `Deploy` returns without error and `CpuUnitsRes` is `-2 ^ 63`, the
sum `2 ^ 63` wrapped to the 64 bits of an `int`. -/
theorem Deploy_units_wrap :
    (Deploy (sampleExtern true) sampleWrapState sampleWorld).map
        (fun r => (r.2.2, r.1.node.CpuUnitsRes)) = some (false, -9223372036854775808) ∧
    ((sampleWrapState.instances.filter (fun i => decide (i.State ≠ instance.Destroy))).map
        (fun i => i.Processors)).sum = 9223372036854775808 := by
  decide

/-- C24, amended: when `Deploy` returns without error, what it writes to
`node.Self` are the totals of lines 445-446 over the instances of the
snapshot whose desired state is not `Destroy`, whatever their observed virt:
`CpuUnitsRes` in 64-bit integers, `MemoryUnitsRes` in float64. `CpuUnitsRes`
is the sum of `Processors` reduced to 64 bits, so it is that sum exactly when
the sum lies between `-2 ^ 63` and `2 ^ 63 - 1`. When the instances counted
have non-negative `Processors` and `Memory`, with the processors summing to
less than `2 ^ 63` and the memory to less than `2 ^ 53`, `CpuUnitsRes` is the
sum of `Processors` and `MemoryUnitsRes` the sum of `Memory` over 1024 as an
exact quotient. -/
theorem Deploy_units (x : Extern) (stat : State) (w w1 : World) (insts : List Instance)
    (h : Deploy x stat w = some (w1, insts, false)) :
    (w1.node.CpuUnitsRes =
        ((stat.instances.filter (fun i => decide (i.State ≠ instance.Destroy))).foldl Units.add
          { cpuUnits := 0, memoryUnits := 0 }).cpuUnits ∧
      w1.node.MemoryUnitsRes =
        ((stat.instances.filter (fun i => decide (i.State ≠ instance.Destroy))).foldl Units.add
          { cpuUnits := 0, memoryUnits := 0 }).memoryUnits) ∧
    w1.node.CpuUnitsRes =
      wrapInt64 ((stat.instances.filter (fun i => decide (i.State ≠ instance.Destroy))).map
        (fun i => i.Processors)).sum ∧
    (w1.node.CpuUnitsRes =
        ((stat.instances.filter (fun i => decide (i.State ≠ instance.Destroy))).map
          (fun i => i.Processors)).sum ↔
      -9223372036854775808 ≤
          ((stat.instances.filter (fun i => decide (i.State ≠ instance.Destroy))).map
            (fun i => i.Processors)).sum ∧
        ((stat.instances.filter (fun i => decide (i.State ≠ instance.Destroy))).map
          (fun i => i.Processors)).sum < 9223372036854775808) ∧
    ((∀ i ∈ stat.instances, i.State ≠ instance.Destroy → 0 ≤ i.Processors ∧ 0 ≤ i.Memory) →
      ((stat.instances.filter (fun i => decide (i.State ≠ instance.Destroy))).map
        (fun i => i.Processors)).sum < 2 ^ 63 →
      ((stat.instances.filter (fun i => decide (i.State ≠ instance.Destroy))).map
        (fun i => i.Memory)).sum < 2 ^ 53 →
      w1.node.CpuUnitsRes =
        ((stat.instances.filter (fun i => decide (i.State ≠ instance.Destroy))).map
          (fun i => i.Processors)).sum ∧
      w1.node.MemoryUnitsRes =
        ((stat.instances.filter (fun i => decide (i.State ≠ instance.Destroy))).map
          (fun i => (i.Memory : ℚ) / 1024)).sum) := by
  have hnode := Deploy_node x stat w w1 insts h
  have hcpuw : w1.node.CpuUnitsRes =
      wrapInt64 ((stat.instances.filter (fun i => decide (i.State ≠ instance.Destroy))).map
        (fun i => i.Processors)).sum := by
    rw [hnode.1, foldl_Units_add_cpu _ _ (by decide)]
    simp only [zero_add]
  refine ⟨hnode, hcpuw, ?_, ?_⟩
  · rw [hcpuw]
    exact wrapInt64_eq_iff _
  intro hnn hcpu hmem
  have hlive : ∀ i ∈ stat.instances.filter (fun i => decide (i.State ≠ instance.Destroy)),
      0 ≤ i.Processors ∧ 0 ≤ i.Memory := by
    intro i hi
    obtain ⟨h1, h2⟩ := List.mem_filter.1 hi
    exact hnn i h1 (of_decide_eq_true h2)
  have hfold := foldl_Units_add_exact _ 0 0 (le_refl 0) (le_refl 0) hlive
    (by rw [zero_add]; exact hcpu) (by rw [zero_add]; exact hmem)
  have h0 : ({ cpuUnits := 0, memoryUnits := ((0 : Int) : ℚ) / 1024 } : Units) =
      { cpuUnits := 0, memoryUnits := 0 } := by
    simp
  rw [h0] at hfold
  rw [hnode.1, hnode.2, hfold]
  simp only [zero_add]
  exact ⟨trivial, sum_div_1024 _⟩

/-- Worked example of the amended C24: of the three instances of `sampleUnitsState` the
first two are counted, 1 + 2 processors and (512 + 1024) / 1024 of memory. -/
theorem Deploy_units_witness :
    ∃ w1 insts, Deploy (sampleExtern true) sampleUnitsState sampleWorld = some (w1, insts, false) ∧
      w1.node.CpuUnitsRes = 3 ∧ w1.node.MemoryUnitsRes = 3 / 2 := by
  have herr : (Deploy (sampleExtern true) sampleUnitsState sampleWorld).map (fun r => r.2.2) =
      some false := by decide
  cases hD : Deploy (sampleExtern true) sampleUnitsState sampleWorld with
  | none => rw [hD] at herr; exact absurd herr (by simp)
  | some r =>
    obtain ⟨w1, insts, err⟩ := r
    rw [hD] at herr
    have he : err = false := Option.some.inj herr
    subst he
    have hf : sampleUnitsState.instances.filter
        (fun i => decide (i.State ≠ instance.Destroy)) =
        [{ Id := "i0", Name := "zero", State := instance.Stop, Vpc := "v1", Domain := ""
           Memory := 512, Processors := 1, NetworkRoles := [], Restart := false },
         sampleInstance instance.Start] := by decide
    obtain ⟨h1, h2⟩ := (Deploy_units (sampleExtern true) sampleUnitsState sampleWorld w1 insts
      hD).2.2.2 (by decide) (by rw [hf]; decide) (by rw [hf]; decide)
    refine ⟨w1, insts, rfl, ?_, ?_⟩
    · rw [h1, hf]
      decide
    · rw [h2, hf]
      norm_num [sampleInstance]

/-! ## deploy.Instances.routes: the route catalog -/

/-- The worker of `routes` once it has its observed routes, from a catalog
hit (`ops` empty) or from a probe after a miss (`ops` the `SetRoutes`
call): the catalog calls are `ops`, followed by `RemRoutes` exactly when a
command was issued. -/
theorem routesWorker_store (env : RoutesEnv) (id : String) (vc : Vpc)
    (routes routes6 : List Route) (hvc : env.vc = some vc) :
    (env.routesStore = some (routes, routes6) →
      (routesWorker env id).store =
        if (routesWorker env id).cmds = [] then [] else [StoreOp.remRoutes id]) ∧
    (env.routesStore = none → env.probeErr = false → env.probe = (some routes, some routes6) →
      (routesWorker env id).store =
        StoreOp.setRoutes id routes routes6 ::
          (if (routesWorker env id).cmds = [] then [] else [StoreOp.remRoutes id])) := by
  constructor
  · intro h
    unfold routesWorker
    simp only [hvc, h]
    by_cases hc : (routeSets routes routes6 vc.Routes).remRoutes = [] ∧
        (routeSets routes routes6 vc.Routes).remRoutes6 = [] ∧
        (routeSets routes routes6 vc.Routes).addRoutes = [] ∧
        (routeSets routes routes6 vc.Routes).addRoutes6 = []
    · obtain ⟨h1, h2, h3, h4⟩ := hc
      simp [h1, h2, h3, h4]
    · have hne : ¬ ((routeSets routes routes6 vc.Routes).remRoutes.map (execDel env.ns) ++
          (routeSets routes routes6 vc.Routes).remRoutes6.map (execDel6 env.ns) ++
          (routeSets routes routes6 vc.Routes).addRoutes.map (execAdd env.ns) ++
          (routeSets routes routes6 vc.Routes).addRoutes6.map (execAdd6 env.ns) = []) := by
        simpa [and_assoc] using hc
      have hch : (!(routeSets routes routes6 vc.Routes).remRoutes.isEmpty ||
          !(routeSets routes routes6 vc.Routes).remRoutes6.isEmpty ||
          !(routeSets routes routes6 vc.Routes).addRoutes.isEmpty ||
          !(routeSets routes routes6 vc.Routes).addRoutes6.isEmpty) = true := by
        by_contra hf
        apply hc
        simpa [List.isEmpty_iff, and_assoc] using hf
      simp only [hch, hne, if_true, if_false, List.nil_append]
  · intro h1 h2 h3
    unfold routesWorker
    simp only [hvc, h1, h2, h3, Bool.false_eq_true, if_false]
    by_cases hc : (routeSets routes routes6 vc.Routes).remRoutes = [] ∧
        (routeSets routes routes6 vc.Routes).remRoutes6 = [] ∧
        (routeSets routes routes6 vc.Routes).addRoutes = [] ∧
        (routeSets routes routes6 vc.Routes).addRoutes6 = []
    · obtain ⟨e1, e2, e3, e4⟩ := hc
      simp [e1, e2, e3, e4]
    · have hne : ¬ ((routeSets routes routes6 vc.Routes).remRoutes.map (execDel env.ns) ++
          (routeSets routes routes6 vc.Routes).remRoutes6.map (execDel6 env.ns) ++
          (routeSets routes routes6 vc.Routes).addRoutes.map (execAdd env.ns) ++
          (routeSets routes routes6 vc.Routes).addRoutes6.map (execAdd6 env.ns) = []) := by
        simpa [and_assoc] using hc
      have hch : (!(routeSets routes routes6 vc.Routes).remRoutes.isEmpty ||
          !(routeSets routes routes6 vc.Routes).remRoutes6.isEmpty ||
          !(routeSets routes routes6 vc.Routes).addRoutes.isEmpty ||
          !(routeSets routes routes6 vc.Routes).addRoutes6.isEmpty) = true := by
        by_contra hf
        apply hc
        simpa [List.isEmpty_iff, and_assoc] using hf
      simp only [hch, hne, if_true, if_false, List.singleton_append, List.cons_append,
        List.nil_append]

/-- The worker of `routes` when it does not get to its observed routes: no
VPC, or a catalog miss with a failed or nil probe. It issues no command and
makes no catalog call. -/
theorem routesWorker_quiet (env : RoutesEnv) (id : String)
    (h : env.vc = none ∨ (env.routesStore = none ∧
      (env.probeErr = true ∨ env.probe.1 = none ∨ env.probe.2 = none))) :
    (routesWorker env id).cmds = [] ∧ (routesWorker env id).store = [] := by
  unfold routesWorker
  rcases h with h | ⟨h1, h2⟩
  · simp [h]
  · cases hvc : env.vc with
    | none => simp
    | some vc =>
      rcases h2 with h2 | h2 | h2
      · simp [h1, h2]
      · rcases hp : env.probe with ⟨p1, p2⟩
        rw [hp] at h2
        simp only at h2
        subst h2
        cases env.probeErr <;> simp [h1]
      · rcases hp : env.probe with ⟨p1, p2⟩
        rw [hp] at h2
        simp only at h2
        subst h2
        cases env.probeErr <;> cases p1 <;> simp [h1]

/-- No command of the worker of `routes` exactly when the observed routes
and the desired ones are the same sets, for IPv4 and for IPv6. -/
theorem routeSets_empty_iff (routes routes6 vcRoutes : List Route) :
    ((routeSets routes routes6 vcRoutes).remRoutes = [] ∧
      (routeSets routes routes6 vcRoutes).remRoutes6 = [] ∧
      (routeSets routes routes6 vcRoutes).addRoutes = [] ∧
      (routeSets routes routes6 vcRoutes).addRoutes6 = []) ↔
    ((∀ r, r ∈ routes ↔ (r ∈ vcRoutes ∧ stringsContains r.Destination ":" = false)) ∧
      (∀ r, r ∈ routes6 ↔ (r ∈ vcRoutes ∧ stringsContains r.Destination ":" = true))) := by
  simp only [List.eq_nil_iff_forall_not_mem, mem_remRoutes, mem_remRoutes6, mem_addRoutes,
    mem_addRoutes6]
  constructor
  · rintro ⟨h1, h2, h3, h4⟩
    refine ⟨fun r => ⟨fun hr => ?_, fun hr => ?_⟩, fun r => ⟨fun hr => ?_, fun hr => ?_⟩⟩
    · by_contra hn
      exact h1 r ⟨hr, hn⟩
    · by_contra hn
      exact h3 r ⟨hr.1, hr.2, hn⟩
    · by_contra hn
      exact h2 r ⟨hr, hn⟩
    · by_contra hn
      exact h4 r ⟨hr.1, hr.2, hn⟩
  · rintro ⟨h4, h6⟩
    refine ⟨fun r hr => hr.2 ((h4 r).1 hr.1), fun r hr => hr.2 ((h6 r).1 hr.1),
      fun r hr => hr.2.2 ((h4 r).2 ⟨hr.1, hr.2.1⟩), fun r hr => hr.2.2 ((h6 r).2 ⟨hr.1, hr.2.1⟩)⟩

/-- C25: in the worker of `routes`, `store.RemRoutes` is called exactly when
at least one route command was issued. When the worker has its observed
routes (from a catalog hit, or from a probe without error and with non-nil
slices after a miss), no command is issued exactly when observed and desired
routes are the same sets for IPv4 and for IPv6; after a miss the catalog is
first set to the probed routes, and after a hit it is not written; so with
observed equal to desired the entry is kept and no command is issued. -/
theorem routes_catalog_invalidation (env : RoutesEnv) (id : String) :
    (StoreOp.remRoutes id ∈ (routesWorker env id).store ↔ (routesWorker env id).cmds ≠ []) ∧
    (∀ vc routes routes6, env.vc = some vc →
      (env.routesStore = some (routes, routes6) ∨
        (env.routesStore = none ∧ env.probeErr = false ∧
          env.probe = (some routes, some routes6))) →
      ((routesWorker env id).cmds = [] ↔
        ((∀ r, r ∈ routes ↔ (r ∈ vc.Routes ∧ stringsContains r.Destination ":" = false)) ∧
          (∀ r, r ∈ routes6 ↔ (r ∈ vc.Routes ∧ stringsContains r.Destination ":" = true)))) ∧
      (env.routesStore = none →
        (routesWorker env id).store =
          StoreOp.setRoutes id routes routes6 ::
            (if (routesWorker env id).cmds = [] then [] else [StoreOp.remRoutes id])) ∧
      (env.routesStore ≠ none →
        (routesWorker env id).store =
          if (routesWorker env id).cmds = [] then [] else [StoreOp.remRoutes id])) := by
  constructor
  · have hquiet : (env.vc = none ∨ (env.routesStore = none ∧
        (env.probeErr = true ∨ env.probe.1 = none ∨ env.probe.2 = none))) →
        (StoreOp.remRoutes id ∈ (routesWorker env id).store ↔
          (routesWorker env id).cmds ≠ []) := by
      intro h
      obtain ⟨h1, h2⟩ := routesWorker_quiet env id h
      rw [h1, h2]
      simp
    cases hvc : env.vc with
    | none => exact hquiet (Or.inl hvc)
    | some vc =>
      cases hs : env.routesStore with
      | some rs =>
        obtain ⟨routes, routes6⟩ := rs
        rw [(routesWorker_store env id vc routes routes6 hvc).1 hs]
        by_cases hc : (routesWorker env id).cmds = []
        · simp [hc]
        · simp [hc]
      | none =>
        by_cases he : env.probeErr = true
        · exact hquiet (Or.inr ⟨hs, Or.inl he⟩)
        · rcases hp : env.probe with ⟨_ | routes, p2⟩
          · exact hquiet (Or.inr ⟨hs, Or.inr (Or.inl (by rw [hp]))⟩)
          · cases p2 with
            | none => exact hquiet (Or.inr ⟨hs, Or.inr (Or.inr (by rw [hp]))⟩)
            | some routes6 =>
              rw [(routesWorker_store env id vc routes routes6 hvc).2 hs
                (by simpa using he) hp]
              by_cases hc : (routesWorker env id).cmds = []
              · simp [hc]
              · simp [hc]
  · intro vc routes routes6 hvc hobs
    refine ⟨?_, ?_, ?_⟩
    · rw [routesWorker_cmds env id vc routes routes6 hvc hobs, ← routeSets_empty_iff]
      simp only [List.append_eq_nil, List.map_eq_nil_iff, and_assoc]
    · intro hnone
      rcases hobs with h | ⟨h1, h2, h3⟩
      · rw [h] at hnone
        exact absurd hnone (by simp)
      · exact (routesWorker_store env id vc routes routes6 hvc).2 h1 h2 h3
    · intro hsome
      rcases hobs with h | ⟨h1, _, _⟩
      · exact (routesWorker_store env id vc routes routes6 hvc).1 h
      · exact absurd h1 hsome

/-- Worked example of C25: a catalog miss with the probed route to
`10.1.0.0/16` and no desired route sets the catalog, deletes the route and
invalidates the entry; a catalog hit whose routes are the desired ones does
nothing. -/
theorem routes_catalog_invalidation_witness :
    (routesWorker
        { ns := "ns-i1", vc := some { Routes := [] }, routesStore := none
          probe := (some [{ Destination := "10.1.0.0/16", Target := "10.0.0.1" }], some [])
          probeErr := false } "i1").store =
      [StoreOp.setRoutes "i1" [{ Destination := "10.1.0.0/16", Target := "10.0.0.1" }] [],
       StoreOp.remRoutes "i1"] ∧
    (StoreOp.remRoutes "i1" ∈ (routesWorker
        { ns := "ns-i1"
          vc := some { Routes := [{ Destination := "10.1.0.0/16", Target := "10.0.0.1" }] }
          routesStore := some ([{ Destination := "10.1.0.0/16", Target := "10.0.0.1" }], [])
          probe := (none, none), probeErr := false } "i1").store ↔
      (routesWorker
        { ns := "ns-i1"
          vc := some { Routes := [{ Destination := "10.1.0.0/16", Target := "10.0.0.1" }] }
          routesStore := some ([{ Destination := "10.1.0.0/16", Target := "10.0.0.1" }], [])
          probe := (none, none), probeErr := false } "i1").cmds ≠ []) ∧
    (routesWorker
        { ns := "ns-i1"
          vc := some { Routes := [{ Destination := "10.1.0.0/16", Target := "10.0.0.1" }] }
          routesStore := some ([{ Destination := "10.1.0.0/16", Target := "10.0.0.1" }], [])
          probe := (none, none), probeErr := false } "i1") =
      { cmds := [], store := [], logged := [] } :=
  ⟨by decide,
   (routes_catalog_invalidation
      { ns := "ns-i1"
        vc := some { Routes := [{ Destination := "10.1.0.0/16", Target := "10.0.0.1" }] }
        routesStore := some ([{ Destination := "10.1.0.0/16", Target := "10.0.0.1" }], [])
        probe := (none, none), probeErr := false } "i1").1,
   by decide⟩

/-! ## deploy.Instances.restart: the worker -/

/-- C26: the worker of `restart` calls `PowerOn`, then `PowerOff`, then
commits the field `state` with the desired state `Start`. When `PowerOn`
fails, `PowerOff` is not called, nothing is committed or published and the
instance is as before. When `PowerOff` fails, nothing is committed or
published and the instance is as before. When both succeed, the instance has
desired state `Start` and `state` is committed; with the commit succeeding
too, the events are, in order, `PowerOn`, the sleep of one second,
`PowerOff`, the commit, `instance.change`, then the deferred sleep and
unlock. `instance.change` is published exactly when all three succeed. -/
theorem restartWorker_order (x : Extern) (inst : Instance) (lockId : Nat) :
    (x.PowerOn inst = false →
      (restartWorker x inst lockId).1 =
        [Event.powerOn inst.Id, Event.log "deploy: Failed to restart instance", Event.sleep 3,
          Event.unlock inst.Id lockId] ∧
      (restartWorker x inst lockId).2 = inst) ∧
    (x.PowerOn inst = true → x.PowerOff inst = false →
      (restartWorker x inst lockId).1 =
        [Event.powerOn inst.Id, Event.sleep 1, Event.powerOff inst.Id,
          Event.log "deploy: Failed to restart instance", Event.sleep 3,
          Event.unlock inst.Id lockId] ∧
      (restartWorker x inst lockId).2 = inst) ∧
    (x.PowerOn inst = true → x.PowerOff inst = true →
      (restartWorker x inst lockId).2 = { inst with State := instance.Start } ∧
      (restartWorker x inst lockId).1 =
        [Event.powerOn inst.Id, Event.sleep 1, Event.powerOff inst.Id,
          Event.commit inst.Id ["state"]] ++
        (if x.CommitFields { inst with State := instance.Start } ["state"] = true
          then [Event.publish "instance.change"] else []) ++
        [Event.sleep 3, Event.unlock inst.Id lockId]) ∧
    (Event.publish "instance.change" ∈ (restartWorker x inst lockId).1 ↔
      (x.PowerOn inst = true ∧ x.PowerOff inst = true ∧
        x.CommitFields { inst with State := instance.Start } ["state"] = true)) := by
  unfold restartWorker workerDefer
  cases h1 : x.PowerOn inst <;> cases h2 : x.PowerOff inst <;>
    cases h3 : x.CommitFields { inst with State := instance.Start } ["state"] <;>
    simp [h3]

/-! ## qemu.NewQemu -/

theorem qemu_disks_eq (disks : List Disk) :
    qemu.disks disks = disks.map (fun disk =>
      ({ Media := "disk", Index := disk.Index, File := disk.Path, Format := "qcow2"
         Discard := true } : qemu.Disk)) := by
  induction disks with
  | nil => rfl
  | cons d rest ih =>
    unfold qemu.disks
    rw [ih]
    rfl

/-- The loop over the adapters adds two entries per adapter: at twice the
position a `nic` with the MAC address of the adapter, right after it a
`bridge` with the interface of the position counted from `i`. -/
theorem qemu_networks_spec (env : qemu.Env) (id : String) :
    ∀ (adapters : List vm.NetworkAdapter) (i : Nat),
      (qemu.networks env id i adapters).length = 2 * adapters.length ∧
      ∀ (k : Nat) (net : vm.NetworkAdapter), adapters.get? k = some net →
        (qemu.networks env id i adapters).get? (2 * k) =
          some { Typ := "nic", MacAddress := net.MacAddress, Iface := "" } ∧
        (qemu.networks env id i adapters).get? (2 * k + 1) =
          some { Typ := "bridge", MacAddress := "", Iface := env.GetIface id (i + k) } := by
  intro adapters
  induction adapters with
  | nil =>
    intro i
    refine ⟨rfl, ?_⟩
    intro k net h
    exact absurd h (by simp)
  | cons a rest ih =>
    intro i
    obtain ⟨hlen, hget⟩ := ih (i + 1)
    unfold qemu.networks
    constructor
    · simp only [List.length_cons, hlen]
      omega
    · intro k net h
      cases k with
      | zero =>
        simp only [List.get?_cons_zero, Option.some.injEq] at h
        subst h
        exact ⟨rfl, rfl⟩
      | succ j =>
        simp only [List.get?_cons_succ] at h
        obtain ⟨h1, h2⟩ := hget j net h
        have e1 : 2 * (j + 1) = (2 * j + 1) + 1 := by omega
        have e3 : i + (j + 1) = i + 1 + j := by omega
        rw [e1, e3]
        simp only [List.get?_cons_succ]
        exact ⟨h1, h2⟩

/-- C27: when the virt can be marshalled, `NewQemu` returns a descriptor
with machine `pc`, cpu `host`, one core, one thread, boot `c`, the
processors and memory of the virt, one disk entry per disk of the virt in
the same order (media `disk`, format `qcow2`, discard set, index and path
copied), and two network entries per adapter in adapter order: at `2 * i`
a `nic` with the MAC address of adapter `i`, at `2 * i + 1` a `bridge` with
the interface `GetIface(virt.Id, i)`. -/
theorem NewQemu_descriptor (env : qemu.Env) (virt : vm.VirtualMachine) (data : String)
    (hdata : env.marshal virt = some data) :
    ∃ qm, qemu.NewQemu env virt = some qm ∧
      qm.Id = virt.Id ∧ qm.Data = data ∧
      qm.Machine = "pc" ∧ qm.Cpu = "host" ∧ qm.Cores = 1 ∧ qm.Threads = 1 ∧ qm.Boot = "c" ∧
      qm.Cpus = virt.Processors ∧ qm.Memory = virt.Memory ∧
      qm.Disks = virt.Disks.map (fun disk =>
        ({ Media := "disk", Index := disk.Index, File := disk.Path, Format := "qcow2"
           Discard := true } : qemu.Disk)) ∧
      qm.Networks.length = 2 * virt.NetworkAdapters.length ∧
      ∀ (i : Nat) (net : vm.NetworkAdapter), virt.NetworkAdapters.get? i = some net →
        qm.Networks.get? (2 * i) =
          some { Typ := "nic", MacAddress := net.MacAddress, Iface := "" } ∧
        qm.Networks.get? (2 * i + 1) =
          some { Typ := "bridge", MacAddress := "", Iface := env.GetIface virt.Id i } := by
  obtain ⟨hlen, hget⟩ := qemu_networks_spec env virt.Id virt.NetworkAdapters 0
  refine ⟨_, by unfold qemu.NewQemu; rw [hdata], rfl, rfl, rfl, rfl, rfl, rfl, rfl, rfl, rfl,
    qemu_disks_eq virt.Disks, hlen, ?_⟩
  intro i net h
  have := hget i net h
  rw [Nat.zero_add] at this
  exact this

/-- Worked example of C27: the descriptor of `sampleVirt`, with two disks
and two adapters. -/
theorem NewQemu_descriptor_witness :
    ∃ qm, qemu.NewQemu sampleQemuEnv sampleVirt = some qm ∧
      qm.Machine = "pc" ∧ qm.Cpus = 2 ∧ qm.Memory = 2048 ∧
      qm.Disks =
        [{ Media := "disk", Index := 0, File := "/var/lib/disks/d0.qcow2", Format := "qcow2"
           Discard := true },
         { Media := "disk", Index := 1, File := "/var/lib/disks/d1.qcow2", Format := "qcow2"
           Discard := true }] ∧
      qm.Networks =
        [{ Typ := "nic", MacAddress := "00:00:00:00:00:01", Iface := "" },
         { Typ := "bridge", MacAddress := "", Iface := "pi10" },
         { Typ := "nic", MacAddress := "00:00:00:00:00:02", Iface := "" },
         { Typ := "bridge", MacAddress := "", Iface := "pi11" }] := by
  obtain ⟨qm, h, _, _, hm, _, _, _, _, hc, hmem, _⟩ :=
    NewQemu_descriptor sampleQemuEnv sampleVirt "virt:i1" rfl
  have hq : qemu.NewQemu sampleQemuEnv sampleVirt = some
      { Id := "i1", Data := "virt:i1", Kvm := true, Machine := "pc", Cpu := "host", Cpus := 2
        Cores := 1, Threads := 1, Boot := "c", Memory := 2048
        Disks :=
          [{ Media := "disk", Index := 0, File := "/var/lib/disks/d0.qcow2", Format := "qcow2"
             Discard := true },
           { Media := "disk", Index := 1, File := "/var/lib/disks/d1.qcow2", Format := "qcow2"
             Discard := true }]
        Networks :=
          [{ Typ := "nic", MacAddress := "00:00:00:00:00:01", Iface := "" },
           { Typ := "bridge", MacAddress := "", Iface := "pi10" },
           { Typ := "nic", MacAddress := "00:00:00:00:00:02", Iface := "" },
           { Typ := "bridge", MacAddress := "", Iface := "pi11" }] } := by decide
  rw [hq] at h
  have e := Option.some.inj h
  exact ⟨qm, by rw [hq, e], hm, by rw [hc]; rfl, by rw [hmem]; rfl, by rw [← e], by rw [← e]⟩

/-! ## MultiTimeoutLock: the keys of `counts` and `locks` -/

theorem Balanced_new (timeout : Nat) : (NewMultiTimeoutLock timeout).Balanced := by
  constructor
  · intro id
    rfl
  · intro id c h
    simp [NewMultiTimeoutLock, mapGet] at h

/-- The first critical section of `Lock` and `LockTimeout` keeps the
invariant. -/
theorem Balanced_lockEnter (m : MultiTimeoutLock) (id : String) (h : m.Balanced) :
    (lockEnter m id).1.Balanced := by
  obtain ⟨hk, hc⟩ := h
  have hcounts := (lockEnter_counts m id).1
  constructor
  · intro id'
    rw [hcounts, mapGet_mapSet]
    cases hl : mapGet m.locks id with
    | none =>
      rw [(lockEnter_absent m id hl).1, mapGet_mapSet]
      by_cases e : id' = id
      · simp [e]
      · simp [e, hk id']
    | some a =>
      rw [(lockEnter_present m id a hl).1]
      by_cases e : id' = id
      · simp [e, hl]
      · simp [e, hk id']
  · intro id' c hget
    rw [hcounts, mapGet_mapSet] at hget
    by_cases e : id' = id
    · rw [if_pos e] at hget
      have hc0 : (0 : Int) ≤ (mapGet m.counts id).getD 0 := by
        cases hv : mapGet m.counts id with
        | none => simp
        | some v =>
          have := hc id v hv
          simp only [Option.getD_some]
          omega
      have := Option.some.inj hget
      omega
    · rw [if_neg e] at hget
      exact hc id' c hget

theorem mutexUnlock_maps (m m1 : MultiTimeoutLock) (lock : Option Nat)
    (h : mutexUnlock m lock = some m1) : m1.counts = m.counts ∧ m1.locks = m.locks := by
  unfold mutexUnlock at h
  cases lock with
  | none => simp at h
  | some a =>
    simp only at h
    split at h
    · rw [← Option.some.inj h]
      exact ⟨rfl, rfl⟩
    · simp at h

/-- The first critical section of `Unlock` keeps the invariant, also on an
id that has no entry. -/
theorem Balanced_unlockEnter (m m1 : MultiTimeoutLock) (id : String) (h : m.Balanced)
    (hu : unlockEnter m id = some m1) : m1.Balanced := by
  obtain ⟨hk, hc⟩ := h
  unfold unlockEnter at hu
  simp only at hu
  by_cases hv : (mapGet m.counts id).getD 0 ≤ 1
  · rw [if_pos hv] at hu
    rw [← Option.some.inj hu]
    constructor
    · intro id'
      simp only [mapGet_mapDelete]
      by_cases e : id' = id
      · simp [e]
      · simp [e, hk id']
    · intro id' c hget
      simp only [mapGet_mapDelete] at hget
      by_cases e : id' = id
      · simp [e] at hget
      · rw [if_neg e] at hget
        exact hc id' c hget
  · rw [if_neg hv] at hu
    obtain ⟨e1, e2⟩ := mutexUnlock_maps _ _ _ hu
    simp only at e1 e2
    have hsome : (mapGet m.counts id).isSome = true := by
      cases hg : mapGet m.counts id with
      | none => rw [hg] at hv; simp at hv
      | some v => rfl
    constructor
    · intro id'
      rw [e1, e2, mapGet_mapSet]
      by_cases e : id' = id
      · rw [if_pos e, e, ← hk id, hsome]
        rfl
      · rw [if_neg e]
        exact hk id'
    · intro id' c hget
      rw [e1, mapGet_mapSet] at hget
      by_cases e : id' = id
      · rw [if_pos e] at hget
        have := Option.some.inj hget
        omega
      · rw [if_neg e] at hget
        exact hc id' c hget

/-- The calls `Lock`, `LockTimeout` and `Unlock`, run to their return without
interference, keep the invariant. -/
theorem Balanced_calls (m m1 : MultiTimeoutLock) (id : String) (timeout lockId : Nat)
    (h : m.Balanced) :
    (Lock m id lockId = some m1 → m1.Balanced) ∧
    (LockTimeout m id timeout lockId = some m1 → m1.Balanced) ∧
    (Unlock m id lockId = some m1 → m1.Balanced) := by
  have henter := Balanced_lockEnter m id h
  have hlock : ∀ r : Option MultiTimeoutLock,
      r = (mutexLock (lockEnter m id).1 (lockEnter m id).2).map (fun m2 => lockMark m2 lockId) →
      r = some m1 → m1.Balanced := by
    intro r hr hm
    rw [hr] at hm
    cases hml : mutexLock (lockEnter m id).1 (lockEnter m id).2 with
    | none => rw [hml] at hm; simp at hm
    | some m2 =>
      rw [hml] at hm
      simp only [Option.map_some', Option.some.injEq] at hm
      obtain ⟨_, e⟩ := mutexLock_some _ _ _ hml
      rw [← hm, e]
      exact henter
  refine ⟨hlock _ rfl, hlock _ rfl, ?_⟩
  intro hu
  unfold Unlock at hu
  cases hue : unlockEnter m id with
  | none => rw [hue] at hu; simp at hu
  | some m2 =>
    rw [hue] at hu
    simp only [Option.map_some', Option.some.injEq] at hu
    rw [← hu]
    exact Balanced_unlockEnter m m2 id h hue

/-- Every step of every caller keeps the invariant. -/
theorem Balanced_step (s s1 : Sys) (st : Step) (h : s.m.Balanced) (hs : s.step st = some s1) :
    s1.m.Balanced := by
  cases st with
  | lock t id =>
    simp only [Sys.step] at hs
    split at hs
    · rw [← Option.some.inj hs]
      exact Balanced_lockEnter s.m id h
    · rw [← Option.some.inj hs]
      exact h
  | lockTimeout t id timeout =>
    simp only [Sys.step] at hs
    split at hs
    · rw [← Option.some.inj hs]
      exact Balanced_lockEnter s.m id h
    · rw [← Option.some.inj hs]
      exact h
  | acquire t =>
    simp only [Sys.step] at hs
    split at hs
    · split at hs
      · rename_i hml
        obtain ⟨_, e⟩ := mutexLock_some _ _ _ hml
        rw [← Option.some.inj hs]
        show MultiTimeoutLock.Balanced _
        simp only [e]
        exact h
      · rw [← Option.some.inj hs]
        exact h
    · rw [← Option.some.inj hs]
      exact h
  | mark t =>
    simp only [Sys.step] at hs
    split at hs
    · rw [← Option.some.inj hs]
      exact h
    · rw [← Option.some.inj hs]
      exact h
  | unlock t =>
    simp only [Sys.step] at hs
    split at hs
    · rename_i id lockId _
      cases hue : unlockEnter s.m id with
      | none => rw [hue] at hs; simp at hs
      | some m2 =>
        rw [hue] at hs
        simp only [Option.map_some', Option.some.injEq] at hs
        rw [← hs]
        exact Balanced_unlockEnter s.m m2 id h hue
    · rw [← Option.some.inj hs]
      exact h
  | strayUnlock t id lockId =>
    simp only [Sys.step] at hs
    split at hs
    · cases hue : unlockEnter s.m id with
      | none => rw [hue] at hs; simp at hs
      | some m2 =>
        rw [hue] at hs
        simp only [Option.map_some', Option.some.injEq] at hs
        rw [← hs]
        exact Balanced_unlockEnter s.m m2 id h hue
    · rw [← Option.some.inj hs]
      exact h
  | finish t =>
    simp only [Sys.step] at hs
    split at hs
    · rw [← Option.some.inj hs]
      exact h
    · rw [← Option.some.inj hs]
      exact h

theorem Balanced_run (steps : List Step) :
    ∀ s s1 : Sys, s.m.Balanced → s.run steps = some s1 → s1.m.Balanced := by
  induction steps with
  | nil =>
    intro s s1 h hr
    simp only [Sys.run, Option.some.injEq] at hr
    rw [← hr]
    exact h
  | cons st rest ih =>
    intro s s1 h hr
    unfold Sys.run at hr
    cases hst : s.step st with
    | none => rw [hst] at hr; simp at hr
    | some s2 =>
      rw [hst] at hr
      exact ih s2 s1 (Balanced_step s s2 st h hst) hr

/-- C28: in every state that callers reach from `NewMultiTimeoutLock` by
steps of `Lock`, `LockTimeout` and `Unlock` in any interleaving, calls of
`Unlock` by callers that hold nothing and on ids without entry included,
`counts` and `locks` have the same keys and every stored count is at least
1. -/
theorem counts_locks_same_keys (n timeout : Nat) (steps : List Step) (s : Sys)
    (h : (Sys.init n timeout).run steps = some s) :
    (∀ id, (mapGet s.m.counts id).isSome = (mapGet s.m.locks id).isSome) ∧
    (∀ id c, mapGet s.m.counts id = some c → 1 ≤ c) :=
  Balanced_run steps (Sys.init n timeout) s (Balanced_new timeout) h

/-- Worked example of C28: a run with an `Unlock` on an id that has no
entry, two callers of the lock of `"i1"` and one of `"i2"`. -/
theorem counts_locks_same_keys_witness :
    ∃ s, (Sys.init 3 180).run
        [Step.strayUnlock 0 "zz" 9, Step.finish 0, Step.lock 0 "i1",
         Step.lockTimeout 1 "i1" 600, Step.lock 2 "i2", Step.acquire 0, Step.mark 0,
         Step.acquire 2, Step.unlock 0, Step.acquire 1] = some s ∧
      (∀ id, (mapGet s.m.counts id).isSome = (mapGet s.m.locks id).isSome) ∧
      (∀ id c, mapGet s.m.counts id = some c → 1 ≤ c) ∧
      s.m.counts = [("i1", 1), ("i2", 1)] := by
  cases hr : (Sys.init 3 180).run
      [Step.strayUnlock 0 "zz" 9, Step.finish 0, Step.lock 0 "i1",
       Step.lockTimeout 1 "i1" 600, Step.lock 2 "i2", Step.acquire 0, Step.mark 0,
       Step.acquire 2, Step.unlock 0, Step.acquire 1] with
  | none => exact absurd hr (by decide)
  | some s =>
    have hk := counts_locks_same_keys 3 180 _ s hr
    have hc : ((Sys.init 3 180).run
      [Step.strayUnlock 0 "zz" 9, Step.finish 0, Step.lock 0 "i1",
       Step.lockTimeout 1 "i1" 600, Step.lock 2 "i2", Step.acquire 0, Step.mark 0,
       Step.acquire 2, Step.unlock 0, Step.acquire 1]).map (fun s => s.m.counts) =
        some [("i1", 1), ("i2", 1)] := by decide
    rw [hr] at hc
    exact ⟨s, rfl, hk.1, hk.2, Option.some.inj hc⟩

/-! ## policy.Policy.ValidateAdmin: the order of the rules -/

theorem string_append_cancel (a b s : String) (h : a ++ s = b ++ s) : a = b := by
  have h1 := congrArg String.data h
  rw [String.data_append, String.data_append] at h1
  exact String.ext (List.append_cancel_right h1)

/-- Two failing rules that both have `Disable` set, or that both have it
unset and are of one type, return the same results. -/
theorem adminRule_same (env : policy.Env) (agnt : agent.Agent) (usr : user.User)
    (r1 r2 : policy.Rule)
    (hag : (r1.Disable = true ∧ r2.Disable = true) ∨
      (r1.Disable = false ∧ r2.Disable = false ∧ r1.Typ = r2.Typ))
    (a b : policy.Result)
    (h1 : policy.adminRule env agnt usr r1 = some a)
    (h2 : policy.adminRule env agnt usr r2 = some b) : a = b := by
  rcases hag with ⟨hd1, hd2⟩ | ⟨hd1, hd2, ht⟩
  · obtain ⟨c1, m1, _, _, e1⟩ := adminRule_some env agnt usr r1 (by rw [h1]; exact Option.some_ne_none _)
    obtain ⟨c2, m2, _, _, e2⟩ := adminRule_some env agnt usr r2 (by rw [h2]; exact Option.some_ne_none _)
    rw [← Option.some.inj ((e1 usr).symm.trans h1), ← Option.some.inj ((e2 usr).symm.trans h2)]
    simp [policy.reject, hd1, hd2]
  · unfold policy.adminRule at h1 h2
    rw [ht] at h1
    split_ifs at h1 h2 <;> cases h1 <;> cases h2 <;> simp [policy.reject, hd1, hd2]

/-- The results of the loop when every failing rule returns the same
results: those of any failing rule. -/
theorem loop_of_agreeing (env : policy.Env) (agnt : agent.Agent) (usr : user.User)
    (res : policy.Result) :
    ∀ rules : List policy.Rule,
      (∃ r ∈ rules, policy.adminRule env agnt usr r = some res) →
      (∀ r ∈ rules, ∀ a, policy.adminRule env agnt usr r = some a → a = res) →
      policy.loop (policy.adminRule env agnt usr) usr rules = res := by
  intro rules
  induction rules with
  | nil =>
    rintro ⟨r, hr, _⟩
    exact absurd hr (List.not_mem_nil r)
  | cons x rest ih =>
    rintro ⟨r, hr, hres⟩ hall
    unfold policy.loop
    cases hx : policy.adminRule env agnt usr x with
    | some a => exact hall x (List.mem_cons_self _ _) a hx
    | none =>
      refine ih ?_ (fun y hy => hall y (List.mem_cons_of_mem _ hy))
      rcases List.mem_cons.1 hr with e | e
      · rw [e, hx] at hres
        exact absurd hres (by simp)
      · exact ⟨r, e, hres⟩

/-- The call that visits a failing entry first returns the results of the
failing block for that entry. -/
theorem ValidateAdmin_failing_first (env : policy.Env) (p : policy.Policy) (usr : user.User)
    (agnt : agent.Agent) (k : String × policy.Rule) (rest : List (String × policy.Rule))
    (hf : policy.adminRule env agnt usr k.2 ≠ none) :
    ∃ code message, code = k.2.Typ ++ "_policy" ∧
      policy.ValidateAdmin env { p with Rules := k :: rest } usr (some agnt) =
        policy.reject env k.2 usr code message := by
  obtain ⟨c, m, hc, _, hr⟩ := adminRule_some env agnt usr k.2 hf
  exact ⟨c, m, hc, loop_first (policy.adminRule env agnt usr) usr k.2 (rest.map Prod.snd) _
    (hr usr) [] (fun _ h => absurd h (List.not_mem_nil _))⟩

/-- Counterexample to C29: the same two rules, both failing for the agent,
visited in the two orders. Operating system first: `operating_system_policy`
and the user untouched. Browser first: `unauthorized`, the user disabled and
`disabled` committed. -/
theorem ValidateAdmin_depends_on_order :
    policy.ValidateAdmin samplePolicyEnv
        (samplePolicy
          [{ Typ := policy.OperatingSystem, Disable := false, Values := ["windows"] },
           { Typ := policy.Browser, Disable := true, Values := ["chrome"] }] false false)
        sampleUser (some sampleAgent) =
      { errData := some { Error := "operating_system_policy"
                          Message := "Operating system not permitted" }
        err := false, usr := sampleUser, commits := [] } ∧
    policy.ValidateAdmin samplePolicyEnv
        (samplePolicy
          [{ Typ := policy.Browser, Disable := true, Values := ["chrome"] },
           { Typ := policy.OperatingSystem, Disable := false, Values := ["windows"] }] false false)
        sampleUser (some sampleAgent) =
      { errData := some { Error := "unauthorized", Message := "Not authorized" }
        err := false, usr := { sampleUser with Disabled := true }, commits := [["disabled"]] } := by
  decide

/-- C29, amended: for two orders of the same rules, `ValidateAdmin` accepts
in one exactly when it accepts in the other. Say that the failing rules
agree when every two of them either both have `Disable` set, or both have it
unset and are of one type. When they agree, the results are the same in the
two orders: `errData`, error, user and commits. And the outcome (the code of
`errData`, whether the user is disabled, what is committed) is the same in
every order if and only if the failing rules agree. -/
theorem ValidateAdmin_order (env : policy.Env) (p : policy.Policy) (usr : user.User)
    (agnt : agent.Agent) (rules : List (String × policy.Rule)) (hperm : p.Rules.Perm rules) :
    ((policy.ValidateAdmin env p usr (some agnt)).errData = none ↔
      (policy.ValidateAdmin env { p with Rules := rules } usr (some agnt)).errData = none) ∧
    ((∀ k1 ∈ p.Rules, ∀ k2 ∈ p.Rules,
        policy.adminRule env agnt usr k1.2 ≠ none → policy.adminRule env agnt usr k2.2 ≠ none →
        (k1.2.Disable = true ∧ k2.2.Disable = true) ∨
          (k1.2.Disable = false ∧ k2.2.Disable = false ∧ k1.2.Typ = k2.2.Typ)) →
      policy.ValidateAdmin env p usr (some agnt) =
        policy.ValidateAdmin env { p with Rules := rules } usr (some agnt)) ∧
    ((∀ rules2 : List (String × policy.Rule), p.Rules.Perm rules2 →
        (policy.ValidateAdmin env p usr (some agnt)).errData.map (fun e => e.Error) =
          (policy.ValidateAdmin env { p with Rules := rules2 } usr (some agnt)).errData.map
            (fun e => e.Error) ∧
        (policy.ValidateAdmin env p usr (some agnt)).usr.Disabled =
          (policy.ValidateAdmin env { p with Rules := rules2 } usr (some agnt)).usr.Disabled ∧
        (policy.ValidateAdmin env p usr (some agnt)).commits =
          (policy.ValidateAdmin env { p with Rules := rules2 } usr (some agnt)).commits) ↔
      (∀ k1 ∈ p.Rules, ∀ k2 ∈ p.Rules,
        policy.adminRule env agnt usr k1.2 ≠ none → policy.adminRule env agnt usr k2.2 ≠ none →
        (k1.2.Disable = true ∧ k2.2.Disable = true) ∨
          (k1.2.Disable = false ∧ k2.2.Disable = false ∧ k1.2.Typ = k2.2.Typ))) := by
  have hnone : ∀ l : List policy.Rule,
      (policy.loop (policy.adminRule env agnt usr) usr l).errData = none ↔
        ∀ r ∈ l, policy.adminRule env agnt usr r = none := by
    intro l
    constructor
    · exact loop_errData_none _ usr (adminRule_errData env agnt usr) l
    · intro h
      rw [loop_all_none _ usr l h]
  have hsuff : ∀ rules2 : List (String × policy.Rule), p.Rules.Perm rules2 →
      (∀ k1 ∈ p.Rules, ∀ k2 ∈ p.Rules,
        policy.adminRule env agnt usr k1.2 ≠ none → policy.adminRule env agnt usr k2.2 ≠ none →
        (k1.2.Disable = true ∧ k2.2.Disable = true) ∨
          (k1.2.Disable = false ∧ k2.2.Disable = false ∧ k1.2.Typ = k2.2.Typ)) →
      policy.ValidateAdmin env p usr (some agnt) =
        policy.ValidateAdmin env { p with Rules := rules2 } usr (some agnt) := by
    intro rules2 hperm2 hagree
    have hmem : ∀ r, r ∈ rules2.map Prod.snd ↔ r ∈ p.Rules.map Prod.snd :=
      fun r => (hperm2.map Prod.snd).mem_iff.symm
    show policy.loop _ usr (p.Rules.map Prod.snd) = policy.loop _ usr (rules2.map Prod.snd)
    rcases loop_cases (policy.adminRule env agnt usr) usr (p.Rules.map Prod.snd) with h | h
    · rw [h]
      have hall := (hnone (p.Rules.map Prod.snd)).1 (by rw [h])
      rw [loop_all_none _ usr (rules2.map Prod.snd) (fun r hr => hall r ((hmem r).1 hr))]
    · obtain ⟨rule, hrule, hres⟩ := h
      have hsame : ∀ r ∈ rules2.map Prod.snd, ∀ a, policy.adminRule env agnt usr r = some a →
          a = policy.loop (policy.adminRule env agnt usr) usr (p.Rules.map Prod.snd) := by
        intro r hr a ha
        obtain ⟨k1, hk1, e1⟩ := List.mem_map.1 ((hmem r).1 hr)
        obtain ⟨k2, hk2, e2⟩ := List.mem_map.1 hrule
        have hag := hagree k1 hk1 k2 hk2 (by rw [e1, ha]; simp) (by rw [e2, hres]; simp)
        rw [e1, e2] at hag
        exact adminRule_same env agnt usr r rule hag a _ ha hres
      exact (loop_of_agreeing env agnt usr _ (rules2.map Prod.snd)
        ⟨rule, (hmem rule).2 hrule, hres⟩ hsame).symm
  refine ⟨?_, hsuff rules hperm, ?_, ?_⟩
  · have hmem : ∀ r, r ∈ rules.map Prod.snd ↔ r ∈ p.Rules.map Prod.snd :=
      fun r => (hperm.map Prod.snd).mem_iff.symm
    show (policy.loop _ usr (p.Rules.map Prod.snd)).errData = none ↔
      (policy.loop _ usr (rules.map Prod.snd)).errData = none
    rw [hnone, hnone]
    constructor
    · intro h r hr
      exact h r ((hmem r).1 hr)
    · intro h r hr
      exact h r ((hmem r).2 hr)
  · intro hall k1 hk1 k2 hk2 hf1 hf2
    obtain ⟨rest1, hp1⟩ : ∃ rest, p.Rules.Perm (k1 :: rest) := ⟨_, List.perm_cons_erase hk1⟩
    obtain ⟨rest2, hp2⟩ : ∃ rest, p.Rules.Perm (k2 :: rest) := ⟨_, List.perm_cons_erase hk2⟩
    obtain ⟨c1, m1, hc1, e1⟩ := ValidateAdmin_failing_first env p usr agnt k1 rest1 hf1
    obtain ⟨c2, m2, hc2, e2⟩ := ValidateAdmin_failing_first env p usr agnt k2 rest2 hf2
    obtain ⟨a1, a2, a3⟩ := hall _ hp1
    obtain ⟨b1, b2, b3⟩ := hall _ hp2
    rw [e1] at a1 a2 a3
    rw [e2] at b1 b2 b3
    have s1 := reject_spec env k1.2 usr c1 m1
    have s2 := reject_spec env k2.2 usr c2 m2
    cases hd1 : k1.2.Disable with
    | true =>
      cases hd2 : k2.2.Disable with
      | true => exact Or.inl ⟨rfl, rfl⟩
      | false =>
        exfalso
        have h := a3.symm.trans b3
        rw [(s1.1 hd1).2.2, (s2.2 hd2).2.2.1] at h
        exact absurd h (by decide)
    | false =>
      cases hd2 : k2.2.Disable with
      | true =>
        exfalso
        have h := a3.symm.trans b3
        rw [(s1.2 hd1).2.2.1, (s2.1 hd2).2.2] at h
        exact absurd h (by decide)
      | false =>
        refine Or.inr ⟨rfl, rfl, ?_⟩
        have h := a1.symm.trans b1
        rw [(s1.2 hd1).1, (s2.2 hd2).1] at h
        simp only [Option.map_some', Option.some.injEq] at h
        rw [hc1, hc2] at h
        exact string_append_cancel _ _ _ h
  · intro hagree rules2 hperm2
    rw [← hsuff rules2 hperm2 hagree]
    exact ⟨rfl, rfl, rfl⟩

/-- Worked example of the amended C29: an operating system rule and a
browser rule that both fail and both have `Disable` set, with a location
rule that passes, in two orders. -/
theorem ValidateAdmin_order_witness :
    policy.ValidateAdmin samplePolicyEnv
        (samplePolicy
          [{ Typ := policy.OperatingSystem, Disable := true, Values := ["windows"] },
           { Typ := policy.Browser, Disable := true, Values := ["chrome"] },
           { Typ := policy.Location, Disable := false, Values := ["US_CA"] }] false false)
        sampleUser (some sampleAgent) =
      policy.ValidateAdmin samplePolicyEnv
        { samplePolicy
            [{ Typ := policy.OperatingSystem, Disable := true, Values := ["windows"] },
             { Typ := policy.Browser, Disable := true, Values := ["chrome"] },
             { Typ := policy.Location, Disable := false, Values := ["US_CA"] }] false false with
          Rules :=
            [(policy.Location, { Typ := policy.Location, Disable := false, Values := ["US_CA"] }),
             (policy.Browser, { Typ := policy.Browser, Disable := true, Values := ["chrome"] }),
             (policy.OperatingSystem,
               { Typ := policy.OperatingSystem, Disable := true, Values := ["windows"] })] }
        sampleUser (some sampleAgent) :=
  (ValidateAdmin_order samplePolicyEnv
    (samplePolicy
      [{ Typ := policy.OperatingSystem, Disable := true, Values := ["windows"] },
       { Typ := policy.Browser, Disable := true, Values := ["chrome"] },
       { Typ := policy.Location, Disable := false, Values := ["US_CA"] }] false false)
    sampleUser sampleAgent
    [(policy.Location, { Typ := policy.Location, Disable := false, Values := ["US_CA"] }),
     (policy.Browser, { Typ := policy.Browser, Disable := true, Values := ["chrome"] }),
     (policy.OperatingSystem,
       { Typ := policy.OperatingSystem, Disable := true, Values := ["windows"] })]
    (by decide)).2.1 (by decide)

/-! ## firewall.Firewall.Validate: ports of more than two parts -/

/-- The port parser reads the first two parts only. -/
theorem parsePort_two_parts (port a b : String) (more : List String) (N M : Int)
    (hsplit : stringsSplit '-' port = a :: b :: more)
    (ha : strconv.Atoi a = some N) (hN : 1 ≤ N ∧ N ≤ 65535)
    (hb : strconv.Atoi b = some M) (hM : N < M) :
    firewall.parsePort port = some (strconv.Itoa N ++ "-" ++ strconv.Itoa M) := by
  have h1 : ¬ (N < 1 ∨ N > 65535) := by omega
  have h2 : ¬ (N < 1 ∨ N > 65535 ∨ M ≤ N) := by omega
  have hlen : (a :: b :: more).length > 1 := by simp
  unfold firewall.parsePort
  simp only [hsplit, List.getD_cons_zero, List.getD_cons_succ, ha, hb, h1, h2, hlen, if_true,
    if_false]

/-- C30: for a `tcp` or `udp` rule the loop reaches whose port splits at
`"-"` into a first part `N` within 1..65535, a second part `M` above `N` and
any further parts, the port check passes whatever the further parts are, and
the port afterwards is `N-M` in canonical decimal form: the parts after the
second are dropped without being read. -/
theorem Validate_port_extra_parts (lib : NetLib) (f : firewall.Firewall)
    (pre post : List firewall.Rule) (rule : firewall.Rule) (a b : String) (more : List String)
    (N M : Int)
    (hf : f.Ingress = some (pre ++ rule :: post))
    (hpre : ∀ r ∈ pre, (firewall.validateRule lib r).2 = none)
    (hproto : rule.Protocol = firewall.Tcp ∨ rule.Protocol = firewall.Udp)
    (hsplit : stringsSplit '-' rule.Port = a :: b :: more)
    (ha : strconv.Atoi a = some N) (hN : 1 ≤ N ∧ N ≤ 65535)
    (hb : strconv.Atoi b = some M) (hM : N < M) :
    (∃ rule1, ((firewall.Validate lib f).1.Ingress.getD []).get? pre.length = some rule1 ∧
      rule1.Protocol = rule.Protocol ∧
      rule1.Port = strconv.Itoa N ++ "-" ++ strconv.Itoa M) ∧
    (firewall.validateRule lib rule).2 = (firewall.sourceIps lib rule.SourceIps).2 := by
  have hq := parsePort_two_parts rule.Port a b more N M hsplit ha hN hb hM
  obtain ⟨hreach, _⟩ := Validate_reach lib f pre post rule hf hpre
  have hv := validateRule_port lib rule _ hproto hq
  refine ⟨⟨_, hreach, ?_, ?_⟩, ?_⟩
  · rw [hv]
  · rw [hv]
  · rw [hv]

/-- Worked example of C30: the ports `1-2-3` and `1-2-abc` are accepted and
stored as `1-2`. -/
theorem Validate_port_extra_parts_witness :
    (∃ rule1, ((firewall.Validate sampleCidrLib (sampleFirewall
        [{ SourceIps := ["10.0.0.1"], Protocol := firewall.Tcp, Port := "1-2-3" }])).1.Ingress.getD
          []).get? 0 = some rule1 ∧ rule1.Protocol = firewall.Tcp ∧ rule1.Port = "1-2") ∧
    firewall.Validate sampleCidrLib (sampleFirewall
        [{ SourceIps := ["10.0.0.1"], Protocol := firewall.Udp, Port := "1-2-abc" }]) =
      ({ Id := "f1", Name := "web", Organization := "o1", NetworkRoles := some []
         Ingress := some [{ SourceIps := ["10.0.0.1/32"], Protocol := firewall.Udp, Port := "1-2" }] },
        none) := by
  refine ⟨?_, by decide⟩
  obtain ⟨rule1, h1, h2, h3⟩ := (Validate_port_extra_parts sampleCidrLib
    (sampleFirewall [{ SourceIps := ["10.0.0.1"], Protocol := firewall.Tcp, Port := "1-2-3" }])
    [] [] { SourceIps := ["10.0.0.1"], Protocol := firewall.Tcp, Port := "1-2-3" }
    "1" "2" ["3"] 1 2 rfl (by simp) (Or.inl rfl) (by decide) (by decide) (by decide)
    (by decide) (by decide)).1
  exact ⟨rule1, h1, h2, h3.trans (by decide)⟩

end PritunlCloud
